import Mathlib

/-!
# RTP depacketizer (H.264 / Opus): a shallow embedding and its properties

The C sources `packet.c`, `h264.c`, `opus.c`, `format.c`, `frame.c`, `media.c` and
`rtp_depacketizer.c` are embedded as pure Lean functions.

Conventions of the embedding

* A byte is a `Nat`; a memory region is a `List Nat`.  A C pointer into a region is the
  region together with an offset, or the suffix of the region that starts at the pointer.
* The output cursor `(*index, *length)` of the composers together with the buffer it points
  into is the record `out_t`; `limit` is an offset into the same buffer.
* A C function with result `bool` and out-parameters returns its result paired with the
  new values of everything it may have written, so the effect of a failed call is visible.
* `g_return_val_if_fail` guards are active (GLib's default build) and are embedded as the
  early returns they are.
* Clocks are inputs: `g_get_monotonic_time` readings are arguments of the operations that
  take them, `g_get_real_time` is a function from the number of earlier readings to a value.
* Reads outside a region are outside the C object; the model reads 0 there.
-/

namespace RtpDepacketizer

/-! ## Memory -/

/-- The byte `mem[i]`. -/
def byteAt (mem : List Nat) (i : Nat) : Nat :=
  mem.getD i 0 % 256

/-- Source side of `memcpy(dst, mem, n)`: the `n` bytes at the start of `mem`. -/
def memRead (mem : List Nat) (n : Nat) : List Nat :=
  mem.take n ++ List.replicate (n - mem.length) 0

/-- Destination side of `memcpy(buf + i, bs, |bs|)`. -/
def memWrite (buf : List Nat) (i : Nat) (bs : List Nat) : List Nat :=
  buf.take i ++ bs ++ buf.drop (i + bs.length)

/-- Big-endian bytes of a 32-bit value (`htonl` followed by a store). -/
def be32 (v : Nat) : List Nat :=
  [v / 2 ^ 24 % 256, v / 2 ^ 16 % 256, v / 2 ^ 8 % 256, v % 256]

/-- Big-endian bytes of a 64-bit value (`GUINT64_TO_BE` followed by a store). -/
def be64 (v : Nat) : List Nat :=
  [v / 2 ^ 56 % 256, v / 2 ^ 48 % 256, v / 2 ^ 40 % 256, v / 2 ^ 32 % 256,
   v / 2 ^ 24 % 256, v / 2 ^ 16 % 256, v / 2 ^ 8 % 256, v % 256]

/-! ## format.h: codecs and prefixes -/

inductive codec_t where
  | CODEC_NONE
  | CODEC_H264
  | CODEC_OPUS
  deriving DecidableEq, Repr

inductive prefix_t where
  | PREFIX_NONE
  | PREFIX_ANNEXB
  | PREFIX_AVCC
  deriving DecidableEq, Repr

/-! ## h264.h: bit fields and the decoded context -/

/-- Field `nal_unit_type` of `h264_nalu_header_t` (low five bits). -/
def nal_unit_type (b : Nat) : Nat := b % 32

/-- Field `nal_ref_idc` of `h264_nalu_header_t` (bits 5 and 6). -/
def nal_ref_idc (b : Nat) : Nat := b / 32 % 4

/-- Field `forbidden` of `h264_nalu_header_t` (top bit). -/
def nal_forbidden (b : Nat) : Nat := b / 128 % 2

/-- Field `type` of `h264_fu_header_t` (low five bits). -/
def fu_type (b : Nat) : Nat := b % 32

/-- Field `end` of `h264_fu_header_t` (bit 6). -/
def fu_end (b : Nat) : Nat := b / 64 % 2

/-- Field `start` of `h264_fu_header_t` (top bit). -/
def fu_start (b : Nat) : Nat := b / 128 % 2

/-- The record `h264_context_t`; `uint8_t` fields hold values below 256, `int8_t` fields
values from -128 to 127. -/
structure h264_context_t where
  forbidden_zero_bit : Nat := 0
  nal_ref_idc : Nat := 0
  nal_unit_type : Nat := 0
  first_mb_in_slice : Nat := 0
  slice_type : Nat := 0
  pic_parameter_set_id : Nat := 0
  colour_plane_id : Nat := 0
  frame_num : Nat := 0
  profile_idc : Nat := 0
  constraint_set0_flag : Bool := false
  constraint_set1_flag : Bool := false
  constraint_set2_flag : Bool := false
  constraint_set3_flag : Bool := false
  reserved_zero_4bits : Bool := false
  level_idc : Nat := 0
  seq_parameter_set_id : Nat := 0
  chroma_format_idc : Nat := 0
  separate_colour_plane_flag : Bool := false
  log2_max_frame_num_minus4 : Nat := 0
  pic_order_cnt_type : Nat := 0
  log2_max_pic_order_cnt_lsb_minus4 : Nat := 0
  delta_pic_order_always_zero_flag : Bool := false
  offset_for_non_ref_pic : Int := 0
  offset_for_top_to_bottom_field : Int := 0
  num_ref_frames_in_pic_order_cnt_cycle : Int := 0
  num_ref_frames : Nat := 0
  gaps_in_frame_num_value_allowed_flag : Bool := false
  pic_width_in_mbs_minus_1 : Nat := 0
  pic_height_in_map_units_minus_1 : Nat := 0
  frame_mbs_only_flag : Bool := false
  direct_8x8_inference_flag : Bool := false
  frame_cropping_flag : Bool := false
  vui_prameters_present_flag : Bool := false
  rbsp_stop_one_bit : Bool := false
  deriving DecidableEq, Repr

/-- Conversion of a 32-bit value to `uint8_t`. -/
def toU8 (v : Nat) : Nat := v % 256

/-- Conversion of a 32-bit value to `int8_t` (two's complement). -/
def toI8 (v : Nat) : Int := if v % 256 < 128 then (v % 256 : Nat) else (v % 256 : Nat) - 256

/-- Conversion of a 32-bit value to `bool`. -/
def toBool (v : Nat) : Bool := decide (v ≠ 0)

/-! ## h264.c: the bit reader -/

/-- `h264_get_bit`: bit `offset` of the bitstream, most significant bit of byte 0 first. -/
def h264_get_bit (bitstream : List Nat) (offset : Nat) : Nat :=
  byteAt bitstream (offset / 8) / 2 ^ (7 - offset % 8) % 2

/-- `h264_set_bit`: OR a 1 into bit `offset` of the bitstream. -/
def h264_set_bit (bitstream : List Nat) (offset : Nat) : List Nat :=
  bitstream.modify (fun b => b ||| 2 ^ (7 - offset % 8)) (offset / 8)

/-- Loop of `h264_get_bits`: shift `count` bits into the 32-bit accumulator `code`. -/
def h264_get_bits_loop (bitstream : List Nat) : Nat → Nat → Nat → Nat × Nat
  | 0, offset, code => (code, offset)
  | count + 1, offset, code =>
    h264_get_bits_loop bitstream count (offset + 1)
      ((code * 2 + h264_get_bit bitstream offset) % 2 ^ 32)

/-- `h264_get_bits`: the value read and the advanced offset (`count = 0` is refused by the
guard and reads nothing). -/
def h264_get_bits (bitstream : List Nat) (offset count : Nat) : Nat × Nat :=
  h264_get_bits_loop bitstream count offset 0

/-- First loop of `h264_decode_uexpgolomb`: read bits until a 1 is read, counting the zero
bits.  The loop of the source has no bound; `fuel` is the number of bits left in the region,
and the model stops at its end (the source would read outside the object). -/
def h264_scan_zeroes (bitstream : List Nat) : Nat → Nat → Nat → Nat × Nat
  | 0, offset, zeroes => (zeroes, offset)
  | fuel + 1, offset, zeroes =>
    if h264_get_bit bitstream offset ≠ 0 then (zeroes, offset + 1)
    else h264_scan_zeroes bitstream fuel (offset + 1) (zeroes + 1)

/-- `h264_decode_uexpgolomb`: the 32-bit value and the advanced offset.  `1 << zeroes` is
taken modulo `2 ^ 32`. -/
def h264_decode_uexpgolomb (bitstream : List Nat) (offset : Nat) : Nat × Nat :=
  let (zeroes, offset) := h264_scan_zeroes bitstream (8 * bitstream.length - offset) offset 0
  if 0 < zeroes then
    let (code, offset) := h264_get_bits bitstream offset zeroes
    ((2 ^ zeroes % 2 ^ 32 + (2 ^ 32 - 1) + code) % 2 ^ 32, offset)
  else (0, offset)

/-- `h264_decode_sexpgolomb`: `(odd ? -1 : 1) * ceil(u / 2.0)` stored in a `uint32_t`
(two's complement for the negative values). -/
def h264_decode_sexpgolomb (bitstream : List Nat) (offset : Nat) : Nat × Nat :=
  let (u, offset) := h264_decode_uexpgolomb bitstream offset
  if u % 2 = 1 then ((2 ^ 32 - (u + 1) / 2) % 2 ^ 32, offset) else (u / 2, offset)

/-- One statement `context->field = h264_get_bits(nalu, &offset, count)`: the reader state is
the context together with the bit offset, `assign` stores the value read in its field. -/
def h264_read_bits (nalu : List Nat) (count : Nat)
    (assign : h264_context_t → Nat → h264_context_t) (s : h264_context_t × Nat) :
    h264_context_t × Nat :=
  (assign s.1 (h264_get_bits nalu s.2 count).1, (h264_get_bits nalu s.2 count).2)

/-- One statement `context->field = h264_decode_uexpgolomb(nalu, &offset)`. -/
def h264_read_ue (nalu : List Nat) (assign : h264_context_t → Nat → h264_context_t)
    (s : h264_context_t × Nat) : h264_context_t × Nat :=
  (assign s.1 (h264_decode_uexpgolomb nalu s.2).1, (h264_decode_uexpgolomb nalu s.2).2)

/-- One statement `context->field = h264_decode_sexpgolomb(nalu, &offset)`. -/
def h264_read_se (nalu : List Nat) (assign : h264_context_t → Nat → h264_context_t)
    (s : h264_context_t × Nat) : h264_context_t × Nat :=
  (assign s.1 (h264_decode_sexpgolomb nalu s.2).1, (h264_decode_sexpgolomb nalu s.2).2)

/-- The statements of `h264_decode_slice_header`, in order; the result is the context and the
bit offset reached. -/
def h264_decode_slice_header_fields (nalu : List Nat) (context : h264_context_t) :
    h264_context_t × Nat :=
  (context, 0)
  |> h264_read_bits nalu 1 (fun c v => { c with forbidden_zero_bit := toU8 v })
  |> h264_read_bits nalu 2 (fun c v => { c with nal_ref_idc := toU8 v })
  |> h264_read_bits nalu 5 (fun c v => { c with nal_unit_type := toU8 v })
  |> h264_read_ue nalu (fun c v => { c with first_mb_in_slice := toU8 v })
  |> h264_read_ue nalu (fun c v => { c with slice_type := toU8 v })
  |> h264_read_ue nalu (fun c v => { c with pic_parameter_set_id := toU8 v })
  |> fun s => h264_read_bits nalu (s.1.log2_max_frame_num_minus4 + 4)
       (fun c v => { c with frame_num := toU8 v }) s

/-- `h264_decode_slice_header`: succeeds whenever `length > 0`; only the context changes. -/
def h264_decode_slice_header (nalu : List Nat) (length : Nat) (context : h264_context_t) :
    Bool × h264_context_t :=
  if ¬ 0 < length then (false, context)
  else (true, (h264_decode_slice_header_fields nalu context).1)

/-- The loop of `h264_decode_sps` that consumes `count` signed Exp-Golomb values. -/
def h264_skip_sexpgolomb (nalu : List Nat) : Nat → Nat → Nat
  | 0, offset => offset
  | count + 1, offset => h264_skip_sexpgolomb nalu count (h264_decode_sexpgolomb nalu offset).2

/-- The `profile_idc` values for which `h264_decode_sps` does not read
`seq_parameter_set_id`. -/
def h264_sps_skips_id (profile_idc : Nat) : Bool :=
  profile_idc = 100 || profile_idc = 110 || profile_idc = 122 || profile_idc = 244 ||
  profile_idc = 44 || profile_idc = 83 || profile_idc = 86 || profile_idc = 118 ||
  profile_idc = 128 || profile_idc = 138 || profile_idc = 144

/-- The statement of `h264_decode_sps` guarded by the `profile_idc` test:
`seq_parameter_set_id` is read unless the profile is one of the listed ones. -/
def h264_decode_sps_id (nalu : List Nat) (s : h264_context_t × Nat) : h264_context_t × Nat :=
  if h264_sps_skips_id s.1.profile_idc then s
  else h264_read_ue nalu (fun c v => { c with seq_parameter_set_id := toU8 v }) s

/-- The `if (context->pic_order_cnt_type == 0) ... else ...` statement of
`h264_decode_sps`. -/
def h264_decode_sps_poc (nalu : List Nat) (s : h264_context_t × Nat) : h264_context_t × Nat :=
  if s.1.pic_order_cnt_type = 0 then
    h264_read_ue nalu (fun c v => { c with log2_max_pic_order_cnt_lsb_minus4 := toU8 v }) s
  else
    s
    |> h264_read_bits nalu 1
         (fun c v => { c with delta_pic_order_always_zero_flag := toBool v })
    |> h264_read_se nalu (fun c v => { c with offset_for_non_ref_pic := toI8 v })
    |> h264_read_se nalu (fun c v => { c with offset_for_top_to_bottom_field := toI8 v })
    |> h264_read_ue nalu
         (fun c v => { c with num_ref_frames_in_pic_order_cnt_cycle := toI8 v })
    |> fun s => (s.1, h264_skip_sexpgolomb nalu
         s.1.num_ref_frames_in_pic_order_cnt_cycle.toNat s.2)

/-- First part of `h264_decode_sps`: the statements up to `num_ref_frames`; the result is
the context and the bit offset reached. -/
def h264_decode_sps_head (nalu : List Nat) (context : h264_context_t) : h264_context_t × Nat :=
  (context, 0)
  |> h264_read_bits nalu 1 (fun c v => { c with forbidden_zero_bit := toU8 v })
  |> h264_read_bits nalu 2 (fun c v => { c with nal_ref_idc := toU8 v })
  |> h264_read_bits nalu 5 (fun c v => { c with nal_unit_type := toU8 v })
  |> h264_read_bits nalu 8 (fun c v => { c with profile_idc := toU8 v })
  |> h264_read_bits nalu 1 (fun c v => { c with constraint_set0_flag := toBool v })
  |> h264_read_bits nalu 1 (fun c v => { c with constraint_set1_flag := toBool v })
  |> h264_read_bits nalu 1 (fun c v => { c with constraint_set2_flag := toBool v })
  |> h264_read_bits nalu 1 (fun c v => { c with constraint_set3_flag := toBool v })
  |> h264_read_bits nalu 4 (fun c v => { c with reserved_zero_4bits := toBool v })
  |> h264_read_bits nalu 8 (fun c v => { c with level_idc := toU8 v })
  |> h264_decode_sps_id nalu
  |> h264_read_ue nalu (fun c v => { c with log2_max_frame_num_minus4 := toU8 v })
  |> h264_read_ue nalu (fun c v => { c with pic_order_cnt_type := toU8 v })
  |> h264_decode_sps_poc nalu
  |> h264_read_ue nalu (fun c v => { c with num_ref_frames := toU8 v })

/-- Last part of `h264_decode_sps`: the statements from
`gaps_in_frame_num_value_allowed_flag` on, reading at the offset of the state. -/
def h264_decode_sps_tail (nalu : List Nat) (s : h264_context_t × Nat) : h264_context_t × Nat :=
  s
  |> h264_read_bits nalu 1
       (fun c v => { c with gaps_in_frame_num_value_allowed_flag := toBool v })
  |> h264_read_ue nalu (fun c v => { c with pic_width_in_mbs_minus_1 := toU8 v })
  |> h264_read_ue nalu (fun c v => { c with pic_height_in_map_units_minus_1 := toU8 v })
  |> h264_read_bits nalu 1 (fun c v => { c with frame_mbs_only_flag := toBool v })
  |> h264_read_bits nalu 1 (fun c v => { c with direct_8x8_inference_flag := toBool v })
  |> h264_read_bits nalu 1 (fun c v => { c with frame_cropping_flag := toBool v })
  |> h264_read_bits nalu 1 (fun c v => { c with vui_prameters_present_flag := toBool v })
  |> h264_read_bits nalu 1 (fun c v => { c with rbsp_stop_one_bit := toBool v })

/-- `h264_decode_sps`: result, the bitstream with the bit after `num_ref_frames` forced to 1
by `h264_set_bit`, and the context. -/
def h264_decode_sps (nalu : List Nat) (length : Nat) (context : h264_context_t) :
    Bool × List Nat × h264_context_t :=
  if ¬ 0 < length then (false, nalu, context) else
  let s := h264_decode_sps_head nalu context
  let nalu1 := h264_set_bit nalu s.2
  (true, nalu1, (h264_decode_sps_tail nalu1 s).1)

/-! ## h264.c: the composers -/

/-- The output cursor of a reassembly: the buffer, `*index` (as an offset into the buffer),
`*length`, and the number of wall-clock readings taken so far. -/
@[ext]
structure out_t where
  buffer : List Nat
  index : Nat
  length : Nat
  ticks : Nat
  deriving DecidableEq, Repr

/-- The cursor on entry to `frame_reassemble`: `index = media->buffer`, `*length = 0`. -/
def out_t.init (buffer : List Nat) : out_t :=
  { buffer := buffer, index := 0, length := 0, ticks := 0 }

/-- The table `time_sync_uuid`. -/
def time_sync_uuid : List Nat :=
  [0x76, 0x27, 0xDF, 0xE0, 0x49, 0x24, 0x40, 0x84,
   0xB9, 0x8D, 0xF2, 0xC9, 0x44, 0x4B, 0x8E, 0x98]

/-- Append `bs` at the cursor and advance both `*index` and `*length`. -/
def out_t.put (o : out_t) (bs : List Nat) : out_t :=
  { o with buffer := memWrite o.buffer o.index bs,
           index := o.index + bs.length, length := o.length + bs.length }

/-- `h264_compose_start_code`. -/
def h264_compose_start_code (o : out_t) (limit : Nat) : Bool × out_t :=
  if ¬ o.index + 4 < limit then (false, o) else (true, o.put (be32 1))

/-- `h264_compose_avcc_prefix`. -/
def h264_compose_avcc_prefix (o : out_t) (limit : Nat) (nalulen : Nat) : Bool × out_t :=
  if ¬ o.index + 4 < limit then (false, o) else (true, o.put (be32 (nalulen % 2 ^ 32)))

/-- `h264_compose_prefix`. -/
def h264_compose_prefix (o : out_t) (limit : Nat) (pfx : prefix_t) (nalulen : Nat) :
    Bool × out_t :=
  if ¬ 1 < nalulen then (false, o) else
  match pfx with
  | .PREFIX_ANNEXB => h264_compose_start_code o limit
  | .PREFIX_AVCC => h264_compose_avcc_prefix o limit nalulen
  | .PREFIX_NONE => (true, o)

/-- `h264_get_nal_ref_idc`. -/
def h264_get_nal_ref_idc (nal_unit_type : Nat) : Nat :=
  if nal_unit_type = 5 ∨ nal_unit_type = 7 ∨ nal_unit_type = 8 then 3
  else if nal_unit_type = 1 ∨ nal_unit_type = 2 then 2
  else if nal_unit_type = 3 ∨ nal_unit_type = 4 then 1
  else 0

/-- `h264_compose_single_nalu`. -/
def h264_compose_single_nalu (o : out_t) (limit : Nat) (pfx : prefix_t)
    (naluptr : List Nat) (nalulen : Nat) : Bool × out_t :=
  let (result, o) := h264_compose_prefix o limit pfx nalulen
  if !result then (false, o) else
  if ¬ o.index + nalulen < limit then (false, o) else
  (true, o.put (memRead naluptr nalulen))

/-- `h264_compose_timestamp_sei_nalu`; `real_time` answers `g_get_real_time`, and
`nalulen = 1 + 1 + 1 + sizeof(time_sync_uuid) + sizeof(timestamp) + 1`. -/
def h264_compose_timestamp_sei_nalu (real_time : Nat → Nat) (o : out_t) (limit : Nat)
    (pfx : prefix_t) : Bool × out_t :=
  let nalulen := 1 + 1 + 1 + 16 + 8 + 1
  let (result, o) := h264_compose_prefix o limit pfx nalulen
  if !result then (false, o) else
  if ¬ o.index + 1 < limit then (false, o) else
  let o := { o with buffer := memWrite o.buffer o.index [0x06], index := o.index + 1 }
  if ¬ o.index + 1 < limit then (false, o) else
  let o := { o with buffer := memWrite o.buffer o.index [0x05], index := o.index + 1 }
  if ¬ o.index + 1 < limit then (false, o) else
  let o := { o with buffer := memWrite o.buffer o.index [24], index := o.index + 1 }
  let o := { o with length := o.length + 3 }
  if ¬ o.index + 16 < limit then (false, o) else
  let o := o.put time_sync_uuid
  let timestamp := real_time o.ticks % 2 ^ 64
  let o := { o with ticks := o.ticks + 1 }
  if ¬ o.index + 8 < limit then (false, o) else
  let o := o.put (be64 timestamp)
  if ¬ o.index + 1 < limit then (false, o) else
  (true, o.put [0xFF])

/-- The `for` loop of `h264_compose_aggregation_unit`; `aulenptr` is an offset into the
payload and grows by at least 2 in every round, so `fuel = nalulen` rounds are enough. -/
def h264_compose_aggregation_loop (real_time : Nat → Nat) (limit : Nat) (pfx : prefix_t)
    (naluptr : List Nat) (nalulen : Nat) : Nat → Nat → out_t → Bool × out_t
  | 0, _, o => (true, o)
  | fuel + 1, aulenptr, o =>
    let auptr := aulenptr + 2
    if ¬ (aulenptr < nalulen ∧ auptr < nalulen) then (true, o) else
    let aulen := byteAt naluptr aulenptr * 256 + byteAt naluptr (aulenptr + 1)
    let (result, o) := h264_compose_prefix o limit pfx aulen
    if !result then (false, o) else
    if ¬ o.index + aulen < limit then (false, o) else
    let o := o.put (memRead (naluptr.drop auptr) aulen)
    if nal_unit_type (byteAt naluptr auptr) = 8 then
      let (result, o) := h264_compose_timestamp_sei_nalu real_time o limit pfx
      if !result then (false, o) else
      h264_compose_aggregation_loop real_time limit pfx naluptr nalulen fuel
        (aulenptr + 2 + aulen) o
    else
      h264_compose_aggregation_loop real_time limit pfx naluptr nalulen fuel
        (aulenptr + 2 + aulen) o

/-- `h264_compose_aggregation_unit` (built with `ADD_TIMESTAMP_USERDATA_SEI`). -/
def h264_compose_aggregation_unit (real_time : Nat → Nat) (o : out_t) (limit : Nat)
    (pfx : prefix_t) (naluptr : List Nat) (nalulen : Nat) : Bool × out_t :=
  h264_compose_aggregation_loop real_time limit pfx naluptr nalulen nalulen 1 o

/-- `h264_compose_fragmentation_unit`. -/
def h264_compose_fragmentation_unit (o : out_t) (limit : Nat) (pfx : prefix_t)
    (naluptr : List Nat) (nalulen : Nat) (completed : Bool) : Bool × out_t :=
  let fuhdr := byteAt naluptr 1
  let (result, o) :=
    if fu_start fuhdr ≠ 0 then
      let (result, o) := h264_compose_prefix o limit pfx nalulen
      if !result then (false, o) else
      if ¬ o.index + 1 < limit then (false, o) else
      (true, o.put [(if completed then 0 else 1) * 128
                      + h264_get_nal_ref_idc (fu_type fuhdr) * 32 + fu_type fuhdr])
    else (true, o)
  if !result then (false, o) else
  if ¬ o.index + (nalulen - 2) < limit then (false, o) else
  (true, o.put (memRead (naluptr.drop 2) (nalulen - 2)))

/-- `h264_is_fragmented`. -/
def h264_is_fragmented (naluptr : List Nat) (nalulen : Nat) : Bool :=
  if ¬ 1 ≤ nalulen then false else
  let t := nal_unit_type (byteAt naluptr 0)
  if t = 2 ∨ t = 3 ∨ t = 4 then true
  else if t = 28 ∨ t = 29 then true
  else false

/-- `h264_get_frame_type`: the type field of the byte four positions into the buffer. -/
def h264_get_frame_type (naluptr : List Nat) (_nalulen : Nat) : Nat :=
  nal_unit_type (byteAt naluptr 4)

/-- `h264_is_first_nalu`. -/
def h264_is_first_nalu (naluptr : List Nat) (nalulen : Nat) : Bool :=
  if ¬ 1 < nalulen then false else
  let t := nal_unit_type (byteAt naluptr 0)
  if t = 1 ∨ t = 5 ∨ t = 6 ∨ t = 7 ∨ t = 8 ∨ t = 9 then true
  else if t = 10 ∨ t = 11 then false
  else if t = 12 ∨ t = 24 ∨ t = 25 ∨ t = 26 ∨ t = 27 then true
  else if t = 28 ∨ t = 29 then decide (fu_start (byteAt naluptr 1) ≠ 0)
  else false

/-- `h264_is_last_nalu`. -/
def h264_is_last_nalu (naluptr : List Nat) (nalulen : Nat) : Bool :=
  if ¬ 1 < nalulen then false else
  let t := nal_unit_type (byteAt naluptr 0)
  if t = 1 ∨ t = 5 ∨ t = 6 ∨ t = 7 ∨ t = 8 ∨ t = 9 ∨ t = 10 ∨ t = 11 then true
  else if t = 12 ∨ t = 24 ∨ t = 25 ∨ t = 26 ∨ t = 27 then false
  else if t = 28 ∨ t = 29 then decide (fu_end (byteAt naluptr 1) ≠ 0)
  else false

/-- First `switch` of `h264_reassemble_frame`: compose the payload at the cursor according
to the type of its first byte. -/
def h264_compose_payload (real_time : Nat → Nat) (o : out_t) (limit : Nat) (pfx : prefix_t)
    (payload : List Nat) (size : Nat) (completed : Bool) : Bool × out_t :=
  let t := nal_unit_type (byteAt payload 0)
  if t = 1 ∨ t = 5 ∨ t = 6 ∨ t = 7 ∨ t = 8 then
    h264_compose_single_nalu o limit pfx payload size
  else if t = 24 ∨ t = 25 ∨ t = 26 ∨ t = 27 then
    h264_compose_aggregation_unit real_time o limit pfx payload size
  else if t = 28 ∨ t = 29 then
    h264_compose_fragmentation_unit o limit pfx payload size completed
  else (false, o)

/-- Second `switch` of `h264_reassemble_frame` ("Parse H.264 context here"), entered after a
successful composition: `start` is the offset four bytes past the cursor's position on
entry, and the byte found there selects the decoder. -/
def h264_parse_context (start : Nat) (payload : List Nat) (o : out_t)
    (context : h264_context_t) : Bool × out_t × h264_context_t :=
  if h264_is_first_nalu payload o.length then
    let t := nal_unit_type (byteAt o.buffer start)
    if t = 1 ∨ t = 5 then
      let (result, context) := h264_decode_slice_header (o.buffer.drop start) o.length context
      (result, o, context)
    else if t = 7 then
      let (result, nalu, context) := h264_decode_sps (o.buffer.drop start) o.length context
      (result, { o with buffer := o.buffer.take start ++ nalu }, context)
    else (true, o, context)
  else (true, o, context)

/-- `h264_reassemble_frame`: compose the payload at the cursor, then decode the context from
the output at `start = *index + sizeof(uint32_t)`, taken before composing. -/
def h264_reassemble_frame (real_time : Nat → Nat) (o : out_t) (limit : Nat) (pfx : prefix_t)
    (payload : List Nat) (size : Nat) (completed : Bool) (context : h264_context_t) :
    Bool × out_t × h264_context_t :=
  if ¬ 1 < size then (false, o, context) else
  let start := o.index + 4
  let (result, o) := h264_compose_payload real_time o limit pfx payload size completed
  if !result then (false, o, context) else
  h264_parse_context start payload o context

/-! ## opus.c -/

/-- Field `count` of `opus_toc_header_t` (low two bits). -/
def opus_count (b : Nat) : Nat := b % 4

/-- `opus_reassemble_frame`: the payload is copied to the cursor and `*length` grows; the
cursor `*index` itself is not advanced. -/
def opus_reassemble_frame (_real_time : Nat → Nat) (o : out_t) (limit : Nat) (_pfx : prefix_t)
    (payload : List Nat) (size : Nat) (_completed : Bool) (context : h264_context_t) :
    Bool × out_t × h264_context_t :=
  if ¬ 1 ≤ size then (false, o, context) else
  let result := decide (opus_count (byteAt payload 0) ≠ 3)
  if ¬ o.index + size < limit then (false, o, context) else
  (result, { o with buffer := memWrite o.buffer o.index (memRead payload size),
                    length := o.length + size }, context)

/-- `opus_is_fragmented`. -/
def opus_is_fragmented (_frameptr : List Nat) (_framelen : Nat) : Bool := false

/-- `opus_get_frame_type`. -/
def opus_get_frame_type (_frameptr : List Nat) (_framelen : Nat) : Nat := 0

/-- `opus_is_first_frame`. -/
def opus_is_first_frame (_frameptr : List Nat) (framelen : Nat) : Bool := decide (1 ≤ framelen)

/-- `opus_is_last_frame`. -/
def opus_is_last_frame (_frameptr : List Nat) (framelen : Nat) : Bool := decide (1 ≤ framelen)

/-! ## format.c -/

/-- The vtable `format_t`. -/
structure format_t where
  reassemble : (Nat → Nat) → out_t → Nat → prefix_t → List Nat → Nat → Bool →
    h264_context_t → Bool × out_t × h264_context_t
  fragmented : List Nat → Nat → Bool
  frame_type : List Nat → Nat → Nat
  first_unit : List Nat → Nat → Bool
  last_unit : List Nat → Nat → Bool

def h264_format : format_t :=
  { reassemble := h264_reassemble_frame, fragmented := h264_is_fragmented,
    frame_type := h264_get_frame_type, first_unit := h264_is_first_nalu,
    last_unit := h264_is_last_nalu }

def opus_format : format_t :=
  { reassemble := opus_reassemble_frame, fragmented := opus_is_fragmented,
    frame_type := opus_get_frame_type, first_unit := opus_is_first_frame,
    last_unit := opus_is_last_frame }

/-- `format_get_reassembly_context`. -/
def format_get_reassembly_context : codec_t → Option format_t
  | .CODEC_H264 => some h264_format
  | .CODEC_OPUS => some opus_format
  | .CODEC_NONE => none

/-! ## packet.c -/

/-- The record `packet_t`: `rtp` is the datagram; `packet_create` records the datagram's
length as `packet->length`. -/
structure packet_t where
  rtp : List Nat
  created_us : Int
  is_audio : Bool
  deriving DecidableEq, Repr

/-- Field `packet->length`. -/
def packet_t.length (p : packet_t) : Nat := p.rtp.length

/-- Header field `csrc_cnt` (low four bits of byte 0). -/
def packet_t.csrc_cnt (p : packet_t) : Nat := byteAt p.rtp 0 % 16

/-- Header field `extension` (bit 4 of byte 0). -/
def packet_t.extension (p : packet_t) : Nat := byteAt p.rtp 0 / 16 % 2

/-- Header field `padding` (bit 5 of byte 0). -/
def packet_t.padding (p : packet_t) : Nat := byteAt p.rtp 0 / 32 % 2

/-- Header field `marker` (top bit of byte 1). -/
def packet_t.marker (p : packet_t) : Nat := byteAt p.rtp 1 / 128 % 2

/-- The sequence number `ntohs(header.sequence)` (bytes 2 and 3, big-endian). -/
def packet_t.sequence (p : packet_t) : Nat := byteAt p.rtp 2 * 256 + byteAt p.rtp 3

/-- The timestamp `ntohl(header.timestamp)` (bytes 4 to 7, big-endian). -/
def packet_t.timestamp (p : packet_t) : Nat :=
  byteAt p.rtp 4 * 2 ^ 24 + byteAt p.rtp 5 * 2 ^ 16 + byteAt p.rtp 6 * 2 ^ 8 + byteAt p.rtp 7

/-- The pointer `packet->rtp->payload`: the datagram from offset 12 on. -/
def packet_t.payload (p : packet_t) : List Nat := p.rtp.drop 12

/-- `packet_padding_length`: the last byte of the datagram. -/
def packet_padding_length (p : packet_t) : Nat := byteAt p.rtp (p.length - 1)

/-- Offset in the datagram of the pointer that `packet_get_payload` returns: the fixed
header, `csrc_cnt * 4`, and for `extension = 1` the 4-byte extension header plus
`ntohs(extension_length)` bytes, the extension header being read at offset 12. -/
def packet_payload_offset (p : packet_t) : Nat :=
  12 + p.csrc_cnt * 4 + p.extension * 4
    + p.extension * (byteAt p.rtp 14 * 256 + byteAt p.rtp 15)

/-- `packet_get_payload`: result, the payload pointer (the datagram from the offset on) and
the payload length, computed in `size_t`. -/
def packet_get_payload (p : packet_t) : Bool × List Nat × Nat :=
  let padlen := if p.padding ≠ 0 then packet_padding_length p else 0
  let nalulen := packet_payload_offset p
  (true, p.rtp.drop nalulen,
    (((p.length : Int) - (nalulen : Int) - (padlen : Int)) % 2 ^ 64).toNat)

/-- `packet_compare_sequence`, with `G_MAXUSHORT >> 1 = 32767`. -/
def packet_compare_sequence (lpkt rpkt : packet_t) : Int :=
  let lseq : Int := lpkt.sequence
  let rseq : Int := rpkt.sequence
  let wrapped : Int := 1 - 2 * (if (lseq - rseq).natAbs > 32767 then 1 else 0)
  wrapped * (lseq - rseq)

/-! ## GLib containers used by the sources

`GQueue` is a `List`.  `g_queue_sort` is a merge sort driven by the caller's comparison;
`g_queue_insert_sorted` walks past the elements that compare below the new one. -/

/-- The merge step of `g_queue_sort`: the head of the left list is taken when it does not
compare above the head of the right list. -/
def g_list_sort_merge {α : Type} (cmp : α → α → Int) : List α → List α → List α
  | [], l2 => l2
  | a :: l1, l2 => aux a l1 (g_list_sort_merge cmp l1) l2
where
  /-- Insert the right list's heads while they compare below `a`. -/
  aux (a : α) (l1 : List α) (rec1 : List α → List α) : List α → List α
    | [] => a :: l1
    | b :: l2 => if cmp a b ≤ 0 then a :: rec1 (b :: l2) else b :: aux a l1 rec1 l2

/-- The recursion of `g_queue_sort`: split in the middle, sort the halves, merge. -/
def g_list_sort_real {α : Type} (cmp : α → α → Int) : Nat → List α → List α
  | 0, l => l
  | fuel + 1, l =>
    if l.length < 2 then l
    else g_list_sort_merge cmp (g_list_sort_real cmp fuel (l.take (l.length / 2)))
           (g_list_sort_real cmp fuel (l.drop (l.length / 2)))

/-- `g_queue_sort`. -/
def g_queue_sort {α : Type} (q : List α) (cmp : α → α → Int) : List α :=
  g_list_sort_real cmp q.length q

/-- `g_queue_insert_sorted`. -/
def g_queue_insert_sorted {α : Type} (q : List α) (data : α) (func : α → α → Int) : List α :=
  match q with
  | [] => [data]
  | x :: rest =>
    if func x data < 0 then x :: g_queue_insert_sorted rest data func else data :: x :: rest

/-! ## media.h -/

/-- `MAX_FRAME_BUFFER_SIZE`. -/
def MAX_FRAME_BUFFER_SIZE : Nat := 512 * 1024

/-- The record `media_t`; `pfx` is the field `prefix`. -/
structure media_t where
  is_audio : Bool
  pfx : prefix_t
  type : Nat
  rtptime : Nat
  created_us : Int
  timestamp : Nat
  buffer : List Nat
  length : Nat
  head_seq : Nat
  tail_seq : Nat
  context : h264_context_t
  deriving DecidableEq, Repr

/-! ## frame.c -/

/-- The record `frame_t`. -/
structure frame_t where
  packets : List packet_t
  codec : codec_t
  created_us : Int
  timestamp : Nat
  marker : Bool
  completed : Bool
  unitcount : Nat
  deriving DecidableEq, Repr

/-- `frame_create`; `created_us` is the reading of the monotonic clock. -/
def frame_create (timestamp : Nat) (codec : codec_t) (created_us : Int) : frame_t :=
  { packets := [], codec := codec, created_us := created_us, timestamp := timestamp,
    marker := false, completed := false, unitcount := 0 }

/-- `frame_order_packets`. -/
def frame_order_packets (packets : List packet_t) : List packet_t :=
  g_queue_sort packets packet_compare_sequence

/-- `frame_foreach_packet`: one step of the scan over the packets; `prevseq` is the 16-bit
cell the scan updates, `sequence - 1` is computed in `int`. -/
def frame_foreach_packet (prevseq : Nat) (packet : packet_t) : Nat :=
  if (prevseq : Int) = (packet.sequence : Int) - 1 ∨ prevseq = 0 then packet.sequence
  else prevseq

/-- `frame_check_completeness`; `head == tail` holds when the queue has a single packet. -/
def frame_check_completeness (frame : frame_t) : Bool :=
  match format_get_reassembly_context frame.codec with
  | none => false
  | some format =>
    match frame.packets.head?, frame.packets.getLast? with
    | some head, some tail =>
      if !format.first_unit head.payload head.length then false
      else if !format.last_unit tail.payload tail.length then false
      else if frame.packets.length = 1 then !format.fragmented head.payload head.length
      else decide (tail.sequence = frame.packets.foldl frame_foreach_packet 0)
    | _, _ => false

/-- `frame_add_packet`: result, the frame, and the value of `*completed` (written only on
success). -/
def frame_add_packet (frame : frame_t) (packet : packet_t) (completed : Bool) :
    Bool × frame_t × Bool :=
  if packet.timestamp ≠ frame.timestamp then (false, frame, completed) else
  match format_get_reassembly_context frame.codec with
  | none => (false, frame, completed)
  | some format =>
    let frame := { frame with packets := frame.packets ++ [packet] }
    let frame :=
      if packet.marker ≠ 0 ∨ format.last_unit packet.payload packet.length then
        let frame := { frame with marker := true }
        let frame :=
          if frame.packets.length > 1 then
            { frame with packets := frame_order_packets frame.packets }
          else frame
        { frame with completed := frame_check_completeness frame }
      else frame
    (true, frame, frame.completed)

/-- The `while` loop of `frame_reassemble`: pop the head packet, reassemble its payload at
the cursor, count it.  The first component tells how the loop is left: `none` when the queue
has run empty, so that the statements behind the loop follow, and `some result` when a
`goto RETURN` leaves it with that value of the variable `result`.  After
`result = packet_get_payload(...)` the test `!result || !payload || size <= 0` jumps with
`result` still `true` when the payload is empty.  The other components are the packets still
queued and everything the loop writes. -/
def frame_reassemble_loop (real_time : Nat → Nat) (format : format_t) (limit : Nat)
    (pfx : prefix_t) (completed : Bool) :
    List packet_t → out_t → Nat → Nat → Nat → h264_context_t →
      Option Bool × List packet_t × out_t × Nat × Nat × Nat × h264_context_t
  | [], o, unitcount, head_seq, tail_seq, context =>
    (none, [], o, unitcount, head_seq, tail_seq, context)
  | packet :: rest, o, unitcount, head_seq, tail_seq, context =>
    let (result, payload, size) := packet_get_payload packet
    if !result ∨ size = 0 then
      (some result, rest, o, unitcount, head_seq, tail_seq, context) else
    let head_seq := if unitcount = 0 then packet.sequence else head_seq
    let (result, o, context) := format.reassemble real_time o limit pfx payload size
      completed context
    if !result then (some false, rest, o, unitcount, head_seq, tail_seq, context) else
    frame_reassemble_loop real_time format limit pfx completed rest o (unitcount + 1)
      head_seq packet.sequence context

/-- `frame_reassemble`: result, the drained frame, the media and the context (`data`).
`is_audio`, `type`, `created_us` and `rtptime` are written only when the loop has run the
queue empty; a `goto RETURN` inside the loop returns the value `result` has there. -/
def frame_reassemble (real_time : Nat → Nat) (frame : frame_t) (media : media_t)
    (completed : Bool) (context : h264_context_t) :
    Bool × frame_t × media_t × h264_context_t :=
  if ¬ 0 < media.length then (false, frame, media, context) else
  let limit := media.length
  let media := { media with length := 0 }
  match format_get_reassembly_context frame.codec with
  | none => (false, frame, media, context)
  | some format =>
    let (left, packets, o, unitcount, head_seq, tail_seq, context) :=
      frame_reassemble_loop real_time format limit media.pfx completed frame.packets
        (out_t.init media.buffer) frame.unitcount media.head_seq media.tail_seq context
    let frame := { frame with packets := packets, unitcount := unitcount }
    let media := { media with buffer := o.buffer, length := o.length,
                              head_seq := head_seq, tail_seq := tail_seq }
    match left with
    | some result => (result, frame, media, context)
    | none =>
      (true, frame,
        { media with is_audio := decide (frame.codec = .CODEC_OPUS),
                     type := format.frame_type media.buffer media.length,
                     created_us := frame.created_us, rtptime := frame.timestamp },
        context)

/-! ## rtp_depacketizer.c -/

/-- The record `rtp_depacketizer_t`.  The hash table `frames` is the list of its entries
(key, frame); traversals visit the entries in list order and a new entry goes to the end. -/
structure rtp_depacketizer_t where
  frames : List (Nat × frame_t)
  completed : List frame_t
  codec : codec_t
  enqueue_us : Int
  refresh_us : Int
  timeout_us : Int
  reap_us : Int
  context : h264_context_t
  deriving DecidableEq, Repr

/-- `rtp_depacketizer_create`; `now_us` is the reading of the monotonic clock. -/
def rtp_depacketizer_create (codec : codec_t) (timeout_us reap_us : Int) (now_us : Int) :
    rtp_depacketizer_t :=
  { frames := [], completed := [], codec := codec, enqueue_us := 0, refresh_us := now_us,
    timeout_us := timeout_us, reap_us := reap_us, context := {} }

/-- Conversion of a 64-bit difference to the 32-bit `gint` a comparison returns. -/
def toGint (v : Int) : Int := (v + 2 ^ 31) % 2 ^ 32 - 2 ^ 31

/-- `rtp_depacketizer_compare_timestamps`: the 64-bit difference of the timestamps,
returned as `gint`. -/
def rtp_depacketizer_compare_timestamps (lframe rframe : frame_t) : Int :=
  toGint ((lframe.timestamp : Int) - (rframe.timestamp : Int))

/-- `rtp_depacketizer_reap_frame` on one entry: whether the entry is stolen from the table,
and the completion queue afterwards. -/
def rtp_depacketizer_reap_frame (key : Nat) (frame : frame_t) (enqueue_us reap_us : Int)
    (completed : List frame_t) : Bool × List frame_t :=
  if key = 0 then (true, completed) else
  let age_us := enqueue_us - frame.created_us
  if frame.completed ∨ age_us > reap_us then
    (true, g_queue_insert_sorted completed frame rtp_depacketizer_compare_timestamps)
  else (false, completed)

/-- `g_hash_table_foreach_steal` with `rtp_depacketizer_reap_frame`: the entries kept and the
completion queue afterwards. -/
def rtp_depacketizer_reap_sweep (enqueue_us reap_us : Int) :
    List (Nat × frame_t) → List frame_t → List (Nat × frame_t) × List frame_t
  | [], completed => ([], completed)
  | (key, frame) :: rest, completed =>
    let (steal, completed) := rtp_depacketizer_reap_frame key frame enqueue_us reap_us completed
    let (kept, completed) := rtp_depacketizer_reap_sweep enqueue_us reap_us rest completed
    (if steal then kept else (key, frame) :: kept, completed)

/-- `rtp_depacketizer_remove_frame` on one entry. -/
def rtp_depacketizer_remove_frame (key : Nat) (frame : frame_t) (enqueue_us timeout_us : Int) :
    Bool :=
  if key = 0 then true else decide (enqueue_us - frame.created_us > timeout_us)

/-- `rtp_depacketizer_enqueue_packet`: result, `*frame_ready` and the depacketizer.
`enqueue_us` is the clock reading taken on entry, `created_us` the one `frame_create` takes
when a frame is created.  The local `now_us` of the source stays 0. -/
def rtp_depacketizer_enqueue_packet (depacketizer : rtp_depacketizer_t) (packet : packet_t)
    (frame_ready : Bool) (enqueue_us created_us : Int) :
    Bool × Bool × rtp_depacketizer_t :=
  let now_us : Int := 0
  let depacketizer := { depacketizer with enqueue_us := enqueue_us }
  let timestamp := packet.timestamp
  let (frame, new_frame) :=
    match depacketizer.frames.lookup timestamp with
    | some frame => (frame, false)
    | none => (frame_create timestamp depacketizer.codec created_us, true)
  let (result, frame_ready, depacketizer) :=
    match frame_add_packet frame packet false with
    | (false, _, _) => (false, frame_ready, depacketizer)
    | (true, frame, _) =>
      let frames :=
        if new_frame then depacketizer.frames ++ [(timestamp, frame)]
        else depacketizer.frames.map
          (fun (e : Nat × frame_t) => if e.1 = timestamp then (timestamp, frame) else e)
      let (frames, completed) :=
        rtp_depacketizer_reap_sweep depacketizer.enqueue_us depacketizer.reap_us frames
          depacketizer.completed
      (true, !completed.isEmpty, { depacketizer with frames := frames, completed := completed })
  if now_us - depacketizer.refresh_us > depacketizer.timeout_us then
    (result, frame_ready,
      { depacketizer with
        frames := depacketizer.frames.filter
          (fun (e : Nat × frame_t) =>
            !rtp_depacketizer_remove_frame e.1 e.2 depacketizer.enqueue_us
                      depacketizer.timeout_us),
        refresh_us := now_us })
  else (result, frame_ready, depacketizer)

/-- `rtp_depacketizer_add_packet`. -/
def rtp_depacketizer_add_packet (depacketizer : rtp_depacketizer_t) (packet : packet_t)
    (frame_ready : Bool) (enqueue_us created_us : Int) :
    Bool × Bool × rtp_depacketizer_t :=
  rtp_depacketizer_enqueue_packet depacketizer packet frame_ready enqueue_us created_us

/-- `rtp_depacketizer_get_frame`: result, the media and the depacketizer; the popped frame
is destroyed on every path. -/
def rtp_depacketizer_get_frame (real_time : Nat → Nat) (depacketizer : rtp_depacketizer_t)
    (media : media_t) : Bool × media_t × rtp_depacketizer_t :=
  if ¬ 0 < media.length then (false, media, depacketizer) else
  match depacketizer.completed with
  | [] => (false, media, depacketizer)
  | frame :: rest =>
    let depacketizer := { depacketizer with completed := rest }
    let (result, frame, media, context) :=
      frame_reassemble real_time frame media frame.completed depacketizer.context
    let depacketizer := { depacketizer with context := context }
    if !result then (false, media, depacketizer) else
    let media :=
      if frame.codec = .CODEC_H264 then { media with context := depacketizer.context }
      else media
    (true, media, depacketizer)

/-! ## Vocabulary of the statements -/

/-- Bytes of the prefix that `h264_compose_prefix` emits for a unit of `nalulen` bytes. -/
def prefix_bytes (pfx : prefix_t) (nalulen : Nat) : List Nat :=
  match pfx with
  | .PREFIX_NONE => []
  | .PREFIX_ANNEXB => be32 1
  | .PREFIX_AVCC => be32 (nalulen % 2 ^ 32)

/-- The bytes written so far: the buffer up to the cursor. -/
def out_t.written (o : out_t) : List Nat := o.buffer.take o.index

/-- A packet without CSRC entries and without header extension: the payload pointer of
`packet_get_payload` is `packet->rtp->payload`. -/
def packet_t.plain (p : packet_t) : Prop := p.csrc_cnt = 0 ∧ p.extension = 0

instance (p : packet_t) : Decidable p.plain :=
  inferInstanceAs (Decidable (p.csrc_cnt = 0 ∧ p.extension = 0))

/-- The payload length that `packet_get_payload` reports. -/
def packet_t.size (p : packet_t) : Nat := (packet_get_payload p).2.2

/-- The payload slice that `packet_get_payload` describes. -/
def packet_t.body (p : packet_t) : List Nat := (packet_get_payload p).2.1.take p.size

/-- The payload slice lies inside the datagram. -/
def packet_t.sound (p : packet_t) : Prop := p.size ≤ (packet_get_payload p).2.1.length

instance (p : packet_t) : Decidable p.sound :=
  inferInstanceAs (Decidable (p.size ≤ (packet_get_payload p).2.1.length))

/-- Position of a packet's sequence number in the circular 16-bit space, counted from
`base`. -/
def seq_offset (base : Nat) (p : packet_t) : Nat :=
  (p.sequence + 65536 - base % 65536) % 65536

/-- The frame after adding the packets of a list one after another. -/
def frame_add_all (frame : frame_t) (ps : List packet_t) : frame_t :=
  ps.foldl (fun f p => (frame_add_packet f p false).2.1) frame

/-- The fragment body of a fragmentation-unit payload: the bytes after the FU indicator and
the FU header. -/
def packet_t.fu_body (p : packet_t) : List Nat := p.body.drop 2

/-- The NAL header byte with the given fields. -/
def nal_header (forbidden idc type : Nat) : Nat := forbidden * 128 + idc * 32 + type

/-- A packet that carries a fragmentation unit of type FU-A: no CSRC entries, no extension,
a payload slice of at least two bytes inside the datagram, FU indicator of type 28. -/
def packet_t.is_fu (p : packet_t) : Prop :=
  p.plain ∧ p.sound ∧ 2 ≤ p.size ∧ nal_unit_type (byteAt p.body 0) = 28

instance (p : packet_t) : Decidable p.is_fu :=
  inferInstanceAs (Decidable (p.plain ∧ p.sound ∧ 2 ≤ p.size ∧
    nal_unit_type (byteAt p.body 0) = 28))

/-- The FU header: the second byte of the payload slice. -/
def packet_t.fu_header (p : packet_t) : Nat := byteAt p.body 1

/-- An RTP datagram with version 2, no padding, no extension, no CSRC entries, payload type
96 and SSRC 1, carrying `payload`. -/
def rtp_packet (marker seq ts : Nat) (payload : List Nat) : packet_t :=
  { rtp := [0x80, marker * 128 + 96, seq / 256 % 256, seq % 256,
            ts / 2 ^ 24 % 256, ts / 2 ^ 16 % 256, ts / 2 ^ 8 % 256, ts % 256, 0, 0, 0, 1]
           ++ payload,
    created_us := 0, is_audio := false }

/-- A media record with a zero-filled buffer of `capacity` bytes and `length = capacity`. -/
def media_new (pfx : prefix_t) (capacity : Nat) : media_t :=
  { is_audio := false, pfx := pfx, type := 0, rtptime := 0, created_us := 0, timestamp := 0,
    buffer := List.replicate capacity 0, length := capacity, head_seq := 0, tail_seq := 0,
    context := {} }

/-- The depacketizer after a list of add operations, each given as the packet, the clock
reading taken on entry and the clock reading `frame_create` would take. -/
def rtp_depacketizer_add_all (depacketizer : rtp_depacketizer_t)
    (adds : List (packet_t × Int × Int)) : rtp_depacketizer_t :=
  adds.foldl (fun d x => (rtp_depacketizer_add_packet d x.1 false x.2.1 x.2.2).2.2) depacketizer

/-- The SEI timestamp NAL unit for a wall-clock reading: header 06, payload type 05, payload
size 24, the UUID, the reading as eight big-endian bytes, and the trailer FF. -/
def sei_nalu (reading : Nat) : List Nat :=
  [0x06, 0x05, 24] ++ time_sync_uuid ++ be64 (reading % 2 ^ 64) ++ [0xFF]

/-- The body of an aggregation packet that carries the units `us`: each unit preceded by
its length as two big-endian bytes. -/
def stap_encode (us : List (List Nat)) : List Nat :=
  us.flatMap (fun u => [u.length / 256 % 256, u.length % 256] ++ u)

/-- The bytes the aggregation composer is expected to emit for the units `us`: each unit
behind its prefix, and behind every unit of type 8 a prefixed SEI timestamp unit made from
the next wall-clock reading (`k` readings were taken before). -/
def stap_output (pfx : prefix_t) (real_time : Nat → Nat) : Nat → List (List Nat) → List Nat
  | _, [] => []
  | k, u :: rest =>
    prefix_bytes pfx u.length ++ u ++
      (if nal_unit_type (byteAt u 0) = 8 then
        prefix_bytes pfx 28 ++ sei_nalu (real_time k) ++ stap_output pfx real_time (k + 1) rest
      else stap_output pfx real_time k rest)

/-- Number of units of type 8 among `us`. -/
def stap_pps_count (us : List (List Nat)) : Nat :=
  (us.filter (fun u => decide (nal_unit_type (byteAt u 0) = 8))).length

/-- The cursor after `bs` was appended and `n` wall-clock readings were taken. -/
def out_t.emit (o : out_t) (bs : List Nat) (n : Nat) : out_t :=
  { buffer := memWrite o.buffer o.index bs, index := o.index + bs.length,
    length := o.length + bs.length, ticks := o.ticks + n }

/-- The cursor `o1` differs from `o` by writes below `limit` only: the buffer keeps its
size and every byte from position `limit` on. -/
def out_t.below (limit : Nat) (o o1 : out_t) : Prop :=
  o1.buffer.length = o.buffer.length ∧ o1.buffer.drop limit = o.buffer.drop limit

/-- The cursor counts every byte it passed (`*length` is the distance of `*index` from the
buffer start) and stands before `limit`. -/
def out_t.inside (limit : Nat) (o : out_t) : Prop :=
  o.length = o.index ∧ o.index < limit

/-- The unsigned value of the `k` bits from bit `offset` on, most significant bit first. -/
def bits_value (bs : List Nat) (offset : Nat) : Nat → Nat
  | 0 => 0
  | k + 1 => h264_get_bit bs offset * 2 ^ k + bits_value bs (offset + 1) k

/-! ## Scenario inputs -/

/-- S1: one packet, marker set, timestamp 100, sequence 10, a single unit of type 1. -/
def s1_packet : packet_t := rtp_packet 1 10 100 [0x61, 0xAA, 0xBB]

/-- S2: the start fragment (sequence 20, FU header start=1, type 5, body 11). -/
def s2_first : packet_t := rtp_packet 0 20 200 [0x7C, 0x85, 0x11]

/-- S2: the middle fragment (sequence 21, body 22). -/
def s2_middle : packet_t := rtp_packet 0 21 200 [0x7C, 0x05, 0x22]

/-- S2: the end fragment (sequence 22, FU header end=1, marker set, body 33). -/
def s2_last : packet_t := rtp_packet 1 22 200 [0x7C, 0x45, 0x33]

/-- S3: the aggregation payload with an SPS and a PPS. -/
def s3_payload : List Nat :=
  [0x18, 0x00, 0x04, 0x67, 0x42, 0x00, 0x1E, 0x00, 0x04, 0x68, 0xCE, 0x3C, 0x80]

/-- S5: the start fragment at sequence 70. -/
def s5_first : packet_t := rtp_packet 0 70 500 [0x7C, 0x85, 0x11]

/-- S5: the end fragment at sequence 72, marker set. -/
def s5_last : packet_t := rtp_packet 1 72 500 [0x7C, 0x45, 0x33]

/-- S5: a packet of another frame. -/
def s5_other : packet_t := rtp_packet 0 90 600 [0x7C, 0x85, 0x44]

/-- S6: the four fragments at sequence 65534, 65535, 0 and 1, marker on the last. -/
def s6_packet (seq : Nat) : packet_t :=
  if seq = 65534 then rtp_packet 0 65534 200 [0x7C, 0x85, 0x11]
  else if seq = 1 then rtp_packet 1 1 200 [0x7C, 0x45, 0x44]
  else rtp_packet 0 seq 200 [0x7C, 0x05, 0x22]

/-- A padded datagram (P = 1, marker set, sequence 30, timestamp 300): the aggregation
payload `18 00 06 61 42`, whose only unit announces six bytes where two are left, followed
by four bytes of padding `AA BB CC 04`. -/
def stap_overlong_packet : packet_t :=
  { rtp := [0xA0, 0xE0, 0, 30, 0, 0, 1, 44, 0, 0, 0, 1,
            0x18, 0x00, 0x06, 0x61, 0x42, 0xAA, 0xBB, 0xCC, 0x04],
    created_us := 0, is_audio := false }

/-- An aggregation payload whose last unit length is cut after its first byte:
`18 00 02 61 42 00`. -/
def stap_cut_packet : packet_t := rtp_packet 1 31 300 [0x18, 0x00, 0x02, 0x61, 0x42, 0x00]

/-- A depacketizer that received S1 (timestamp 100) and then a packet with timestamp 200
whose payload is a single unit `61 01 02 03`: both frames are in the completion queue. -/
def two_frames_depacketizer : rtp_depacketizer_t :=
  rtp_depacketizer_add_all (rtp_depacketizer_create .CODEC_H264 1000000 1000000 0)
    [(s1_packet, 0, 0), (rtp_packet 1 11 200 [0x61, 0x01, 0x02, 0x03], 0, 0)]

/-- A depacketizer that received a packet with timestamp 50 whose payload `09 10` has the
unsupported NAL type 9, and then S1: both frames are in the completion queue. -/
def bad_head_depacketizer : rtp_depacketizer_t :=
  rtp_depacketizer_add_all (rtp_depacketizer_create .CODEC_H264 1000000 1000000 0)
    [(rtp_packet 1 9 50 [0x09, 0x10], 0, 0), (s1_packet, 0, 0)]

/-- An SPS unit with `log2_max_frame_num_minus4 = 4`: profile 66, level 30, then the fields
`seq_parameter_set_id = 0`, `log2_max_frame_num_minus4 = 4` (`00101`),
`pic_order_cnt_type = 0`, and zeros for the rest. -/
def sps_log2_4 : List Nat := [0x67, 0x42, 0x00, 0x1E, 0x97, 0xBC, 0x80]

/-- A slice unit of type 5 with `first_mb_in_slice = 0`, `slice_type = 7`,
`pic_parameter_set_id = 0`, followed by the bits `10100101` and a final 1 bit. -/
def slice_a5 : List Nat := [0x65, 0x88, 0xD2, 0x80]

/-- A depacketizer that received `sps_log2_4` with timestamp 100 and `slice_a5` with
timestamp 200, each in one packet. -/
def sps_then_slice_depacketizer : rtp_depacketizer_t :=
  rtp_depacketizer_add_all (rtp_depacketizer_create .CODEC_H264 1000000 1000000 0)
    [(rtp_packet 1 10 100 sps_log2_4, 0, 0), (rtp_packet 1 11 200 slice_a5, 0, 0)]

/-- A datagram with one CSRC entry (CC = 1, no marker, sequence 40, timestamp 400): the
CSRC identifier `61 00 00 00` occupies the datagram offsets 12 to 15, the payload is the
start fragment `7C 85 11`. -/
def csrc_packet : packet_t :=
  { rtp := [0x81, 0x60, 0, 40, 0, 0, 1, 144, 0, 0, 0, 1, 0x61, 0x00, 0x00, 0x00,
            0x7C, 0x85, 0x11],
    created_us := 0, is_audio := false }

/-- S1 behind one CSRC entry (CC = 1, marker set, sequence 10, timestamp 100): the CSRC
identifier `00 00 00 2A` occupies the datagram offsets 12 to 15, the payload is
`61 AA BB`. -/
def s1_csrc_packet : packet_t :=
  { rtp := [0x81, 0xE0, 0, 10, 0, 0, 0, 100, 0, 0, 0, 1, 0x00, 0x00, 0x00, 0x2A,
            0x61, 0xAA, 0xBB],
    created_us := 0, is_audio := false }

/-- A datagram that holds padding only (P = 1, no marker, payload type 96, SSRC 1): behind
the fixed header come the three padding bytes `00 00 03`, the last of which is the padding
count, so that the payload has no byte. -/
def padding_only_packet (seq ts : Nat) : packet_t :=
  { rtp := [0xA0, 96, seq / 256 % 256, seq % 256,
            ts / 2 ^ 24 % 256, ts / 2 ^ 16 % 256, ts / 2 ^ 8 % 256, ts % 256, 0, 0, 0, 1,
            0x00, 0x00, 0x03],
    created_us := 0, is_audio := false }

/-- An SPS of the High profile (`profile_idc = 100`, level 30) for a picture of 20 by 14
macroblocks.  Behind the three bytes `64 00 1E` its fields are, from bit 32 on:
`seq_parameter_set_id` = 0 (`1`), `chroma_format_idc` = 1 (`010`), `bit_depth_luma_minus8`
= 0 (`1`), `bit_depth_chroma_minus8` = 0 (`1`), `qpprime_y_zero_transform_bypass_flag`
(`0`), `seq_scaling_matrix_present_flag` (`0`), `log2_max_frame_num_minus4` = 0 (`1`),
`pic_order_cnt_type` = 0 (`1`), `log2_max_pic_order_cnt_lsb_minus4` = 0 (`1`),
`num_ref_frames` = 1 (`010`, bits 43 to 45), `gaps_in_frame_num_value_allowed_flag` = 0
(bit 46), `pic_width_in_mbs_minus1` = 19 (`000010100`, bits 47 to 55),
`pic_height_in_map_units_minus1` = 13 (`0001110`, bits 56 to 62), `frame_mbs_only_flag` = 1,
`direct_8x8_inference_flag` = 1, `frame_cropping_flag` = 0, `vui_parameters_present_flag`
= 0, and the stop bit. -/
def sps_high_profile : List Nat := [0x67, 0x64, 0x00, 0x1E, 0xAC, 0xE8, 0x14, 0x1D, 0x90]


/-! ## Memory and cursor lemmas -/

theorem be32_length (v : Nat) : (be32 v).length = 4 := rfl

theorem prefix_bytes_length_le (pfx : prefix_t) (n : Nat) : (prefix_bytes pfx n).length ≤ 4 := by
  cases pfx <;> simp [prefix_bytes, be32]

theorem memRead_of_le {mem : List Nat} {n : Nat} (h : n ≤ mem.length) :
    memRead mem n = mem.take n := by
  simp [memRead, Nat.sub_eq_zero_of_le h]

theorem memRead_length (mem : List Nat) (n : Nat) : (memRead mem n).length = n := by
  simp [memRead]; omega

theorem memWrite_length {buf : List Nat} {i : Nat} {bs : List Nat}
    (h : i + bs.length ≤ buf.length) : (memWrite buf i bs).length = buf.length := by
  simp [memWrite]; omega

theorem memWrite_take {buf : List Nat} {i : Nat} (bs : List Nat) (h : i ≤ buf.length) :
    (memWrite buf i bs).take (i + bs.length) = buf.take i ++ bs := by
  have h1 : (buf.take i ++ bs).length = i + bs.length := by simp [h]
  rw [memWrite, ← h1, List.take_left']
  rfl

theorem memWrite_take_lt {buf : List Nat} {i n : Nat} (bs : List Nat) (h : i ≤ buf.length)
    (hn : n ≤ i) : (memWrite buf i bs).take n = buf.take n := by
  rw [memWrite, List.append_assoc, List.take_append_of_le_length (by simp [h]; omega)]
  rw [List.take_take]; simp [hn]

theorem put_nil (o : out_t) : o.put [] = o := by
  simp [out_t.put, memWrite]

theorem put_index (o : out_t) (bs : List Nat) : (o.put bs).index = o.index + bs.length := rfl
theorem put_length (o : out_t) (bs : List Nat) : (o.put bs).length = o.length + bs.length := rfl
theorem put_ticks (o : out_t) (bs : List Nat) : (o.put bs).ticks = o.ticks := rfl

theorem put_buffer_length {o : out_t} {bs : List Nat} (h : o.index + bs.length ≤ o.buffer.length) :
    (o.put bs).buffer.length = o.buffer.length := memWrite_length h

theorem put_written {o : out_t} (bs : List Nat) (h : o.index ≤ o.buffer.length) :
    (o.put bs).written = o.written ++ bs := by
  simp only [out_t.written, put_index]
  exact memWrite_take bs h


theorem byteAt_memWrite {buf : List Nat} {i k : Nat} {bs : List Nat} (h : i ≤ buf.length)
    (hk : k < bs.length) : byteAt (memWrite buf i bs) (i + k) = byteAt bs k := by
  unfold byteAt memWrite
  rw [List.getD_eq_getElem?_getD, List.getD_eq_getElem?_getD, List.append_assoc,
    List.getElem?_append_right (by simp [h]), List.getElem?_append_left (by simp [h, hk])]
  simp [h]

theorem byteAt_memWrite_lt {buf : List Nat} {i k : Nat} {bs : List Nat} (h : i ≤ buf.length)
    (hk : k < i) : byteAt (memWrite buf i bs) k = byteAt buf k := by
  unfold byteAt memWrite
  rw [List.getD_eq_getElem?_getD, List.getD_eq_getElem?_getD, List.append_assoc,
    List.getElem?_append_left (by simp [h, hk])]
  simp [List.getElem?_take, hk]

theorem h264_compose_prefix_ok (o : out_t) (limit : Nat) (pfx : prefix_t) (n : Nat)
    (h1 : 1 < n) (hfit : o.index + (prefix_bytes pfx n).length < limit) :
    h264_compose_prefix o limit pfx n = (true, o.put (prefix_bytes pfx n)) := by
  cases pfx
  · simp [ h264_compose_prefix, h1, prefix_bytes, put_nil]
  · have : o.index + 4 < limit := by simpa [prefix_bytes, be32] using hfit
    simp [ h264_compose_prefix, h1, prefix_bytes, h264_compose_start_code, this]
  · have : o.index + 4 < limit := by simpa [prefix_bytes, be32] using hfit
    simp [ h264_compose_prefix, h1, prefix_bytes, h264_compose_avcc_prefix, this]

theorem h264_compose_single_nalu_ok (o : out_t) (limit : Nat) (pfx : prefix_t)
    (naluptr : List Nat) (n : Nat) (h1 : 1 < n)
    (hfit : o.index + (prefix_bytes pfx n).length + n < limit) :
    h264_compose_single_nalu o limit pfx naluptr n
      = (true, (o.put (prefix_bytes pfx n)).put (memRead naluptr n)) := by
  have hp := h264_compose_prefix_ok o limit pfx n h1 (by omega)
  simp [h264_compose_single_nalu, hp, put_index, hfit]

theorem h264_decode_slice_header_fst (nalu : List Nat) (length : Nat) (context : h264_context_t)
    (h : 0 < length) : (h264_decode_slice_header nalu length context).1 = true := by
  simp [h264_decode_slice_header, h]

theorem h264_parse_context_not_sps (start : Nat) (payload : List Nat) (o : out_t)
    (context : h264_context_t) (h7 : nal_unit_type (byteAt o.buffer start) ≠ 7)
    (hlen : 0 < o.length) :
    (h264_parse_context start payload o context).1 = true ∧
    (h264_parse_context start payload o context).2.1 = o := by
  by_cases hf : h264_is_first_nalu payload o.length = true
  · by_cases h15 : nal_unit_type (byteAt o.buffer start) = 1 ∨
        nal_unit_type (byteAt o.buffer start) = 5
    · simp [h264_parse_context, hf, h15, h264_decode_slice_header, hlen]
    · simp [h264_parse_context, hf, h15, h7]
  · simp [h264_parse_context, hf]


theorem h264_parse_context_not_sps' (start : Nat) (payload : List Nat) (o : out_t)
    (context : h264_context_t) (h7 : nal_unit_type (byteAt o.buffer start) ≠ 7)
    (hlen : 0 < o.length) :
    ∃ context', h264_parse_context start payload o context = (true, o, context') := by
  obtain ⟨h1, h2⟩ := h264_parse_context_not_sps start payload o context h7 hlen
  exact ⟨(h264_parse_context start payload o context).2.2, Prod.ext h1 (Prod.ext h2 rfl)⟩

theorem h264_reassemble_frame_single (real_time : Nat → Nat) (o : out_t) (limit : Nat)
    (pfx : prefix_t) (payload : List Nat) (n : Nat) (completed : Bool)
    (context : h264_context_t)
    (ht : nal_unit_type (byteAt payload 0) = 1 ∨ nal_unit_type (byteAt payload 0) = 5 ∨
      nal_unit_type (byteAt payload 0) = 6 ∨ nal_unit_type (byteAt payload 0) = 7 ∨
      nal_unit_type (byteAt payload 0) = 8)
    (h1 : 1 < n) (hfit : o.index + (prefix_bytes pfx n).length + n < limit) :
    h264_reassemble_frame real_time o limit pfx payload n completed context
      = h264_parse_context (o.index + 4) payload
          ((o.put (prefix_bytes pfx n)).put (memRead payload n)) context := by
  simp [h264_reassemble_frame, h1, h264_compose_payload, ht,
    h264_compose_single_nalu_ok o limit pfx payload n h1 hfit]

theorem byteAt_take {l : List Nat} {n k : Nat} (h : k < n) : byteAt (l.take n) k = byteAt l k := by
  simp [byteAt, List.getD_eq_getElem?_getD, List.getElem?_take, h]

theorem packet_get_payload_plain {p : packet_t} (h : p.plain) :
    (packet_get_payload p).2.1 = p.payload := by
  simp [packet_get_payload, packet_payload_offset, h.1, h.2, packet_t.payload]

theorem packet_get_payload_eq (p : packet_t) :
    packet_get_payload p = (true, (packet_get_payload p).2.1, p.size) := rfl

theorem frame_reassemble_loop_cons (real_time : Nat → Nat) (format : format_t) (limit : Nat)
    (pfx : prefix_t) (completed : Bool) (packet : packet_t) (rest : List packet_t)
    (o o' : out_t) (unitcount head_seq tail_seq : Nat) (context context' : h264_context_t)
    (hs : packet.size ≠ 0)
    (hre : format.reassemble real_time o limit pfx (packet_get_payload packet).2.1 packet.size
      completed context = (true, o', context')) :
    frame_reassemble_loop real_time format limit pfx completed (packet :: rest) o unitcount
        head_seq tail_seq context
      = frame_reassemble_loop real_time format limit pfx completed rest o' (unitcount + 1)
          (if unitcount = 0 then packet.sequence else head_seq) packet.sequence context' := by
  have hs' : (packet_get_payload packet).2.2 ≠ 0 := hs
  have hre' : format.reassemble real_time o limit pfx (packet_get_payload packet).2.1
      (packet_get_payload packet).2.2 completed context = (true, o', context') := hre
  have hg : (packet_get_payload packet).1 = true := rfl
  rw [frame_reassemble_loop]
  simp [hs', hre', hg]


theorem byteAt_memRead {mem : List Nat} {n k : Nat} (hn : n ≤ mem.length) (h : k < n) :
    byteAt (memRead mem n) k = byteAt mem k := by
  rw [memRead_of_le hn, byteAt_take h]

theorem plain_length {p : packet_t} (hplain : p.plain) (hsound : p.sound) (hs : 0 < p.size) :
    p.size + 12 ≤ p.length := by
  have h := hsound
  unfold packet_t.sound at h
  rw [packet_get_payload_plain hplain] at h
  simp [packet_t.payload] at h
  unfold packet_t.length
  omega

theorem frame_reassemble_ok (real_time : Nat → Nat) (frame : frame_t) (media : media_t)
    (completed : Bool) (context context' : h264_context_t) (format : format_t)
    (packets : List packet_t) (o : out_t) (unitcount head_seq tail_seq : Nat)
    (hml : 0 < media.length) (hfmt : format_get_reassembly_context frame.codec = some format)
    (hloop : frame_reassemble_loop real_time format media.length media.pfx completed
      frame.packets (out_t.init media.buffer) frame.unitcount media.head_seq media.tail_seq
      context = (none, packets, o, unitcount, head_seq, tail_seq, context')) :
    frame_reassemble real_time frame media completed context
      = (true, { frame with packets := packets, unitcount := unitcount },
          { media with buffer := o.buffer, length := o.length, head_seq := head_seq,
                       tail_seq := tail_seq, is_audio := decide (frame.codec = .CODEC_OPUS),
                       type := format.frame_type o.buffer o.length,
                       created_us := frame.created_us, rtptime := frame.timestamp },
          context') := by
  simp [frame_reassemble, hml, hfmt, hloop]

theorem memWrite_memWrite {buf : List Nat} {i : Nat} (a b : List Nat) (h : i ≤ buf.length) :
    memWrite (memWrite buf i a) (i + a.length) b = memWrite buf i (a ++ b) := by
  have h1 : (buf.take i ++ a).length = i + a.length := by simp [h]
  have e1 : (memWrite buf i a).take (i + a.length) = buf.take i ++ a := memWrite_take a h
  have e2 : (memWrite buf i a).drop (i + a.length + b.length)
      = buf.drop (i + (a ++ b).length) := by
    rw [memWrite, List.drop_append_eq_append_drop, List.drop_eq_nil_of_le (by omega), h1,
      List.drop_drop, List.nil_append]
    congr 1
    simp; omega
  rw [memWrite, e1, e2, memWrite]
  simp

theorem put_put {o : out_t} (a b : List Nat) (h : o.index ≤ o.buffer.length) :
    (o.put a).put b = o.put (a ++ b) := by
  simp only [out_t.put, memWrite_memWrite a b h, List.length_append, Nat.add_assoc]

theorem h264_parse_context_fst (start : Nat) (payload : List Nat) (o : out_t)
    (context : h264_context_t) (hlen : 0 < o.length) :
    (h264_parse_context start payload o context).1 = true ∧
    (h264_parse_context start payload o context).2.1.length = o.length ∧
    (h264_parse_context start payload o context).2.1.index = o.index := by
  by_cases hf : h264_is_first_nalu payload o.length = true
  · by_cases h15 : nal_unit_type (byteAt o.buffer start) = 1 ∨
        nal_unit_type (byteAt o.buffer start) = 5
    · simp [h264_parse_context, hf, h15, h264_decode_slice_header, hlen]
    · by_cases h7 : nal_unit_type (byteAt o.buffer start) = 7
      · simp [h264_parse_context, hf, h15, h7, h264_decode_sps, hlen]
      · simp [h264_parse_context, hf, h15, h7]
  · simp [h264_parse_context, hf]

/-! ## The merge sort of `g_queue_sort` -/

section MergeSort
variable {α : Type} (cmp : α → α → Int)

theorem g_list_sort_merge_nil_right (l1 : List α) : g_list_sort_merge cmp l1 [] = l1 := by
  cases l1 <;> simp [g_list_sort_merge, g_list_sort_merge.aux]

theorem g_list_sort_merge_cons_cons (a b : α) (l1 l2 : List α) :
    g_list_sort_merge cmp (a :: l1) (b :: l2)
      = if cmp a b ≤ 0 then a :: g_list_sort_merge cmp l1 (b :: l2)
        else b :: g_list_sort_merge cmp (a :: l1) l2 := by
  simp [g_list_sort_merge, g_list_sort_merge.aux]

theorem g_list_sort_merge_perm (l1 l2 : List α) :
    (g_list_sort_merge cmp l1 l2).Perm (l1 ++ l2) := by
  induction l1 generalizing l2 with
  | nil => simp [g_list_sort_merge]
  | cons a l1 ih1 =>
    induction l2 with
    | nil => simp [g_list_sort_merge_nil_right]
    | cons b l2 ih2 =>
      rw [g_list_sort_merge_cons_cons]
      split
      · exact (ih1 (b :: l2)).cons a
      · refine (ih2.cons b).trans ?_
        exact (@List.perm_middle _ b (a :: l1) l2).symm

theorem g_list_sort_merge_sorted (k : α → Nat) (l1 l2 : List α)
    (hc : ∀ a ∈ l1, ∀ b ∈ l2, (cmp a b ≤ 0 ↔ k a ≤ k b))
    (h1 : l1.Pairwise (fun a b => k a ≤ k b)) (h2 : l2.Pairwise (fun a b => k a ≤ k b)) :
    (g_list_sort_merge cmp l1 l2).Pairwise (fun a b => k a ≤ k b) := by
  induction l1 generalizing l2 with
  | nil => simpa [g_list_sort_merge] using h2
  | cons a l1 ih1 =>
    induction l2 with
    | nil => simpa [g_list_sort_merge_nil_right] using h1
    | cons b l2 ih2 =>
      rw [g_list_sort_merge_cons_cons]
      have hab := hc a (List.mem_cons_self _ _) b (List.mem_cons_self _ _)
      rw [List.pairwise_cons] at h1 h2
      split
      · rename_i hle
        rw [List.pairwise_cons]
        refine ⟨fun x hx => ?_, ih1 (b :: l2)
          (fun x hx y hy => hc x (List.mem_cons_of_mem _ hx) y hy) h1.2
          (List.pairwise_cons.2 h2)⟩
        have hx' := (g_list_sort_merge_perm cmp l1 (b :: l2)).mem_iff.1 hx
        rcases List.mem_append.1 hx' with hx1 | hx2
        · exact h1.1 x hx1
        · rcases List.mem_cons.1 hx2 with rfl | hx3
          · exact hab.1 hle
          · exact le_trans (hab.1 hle) (h2.1 x hx3)
      · rename_i hle
        have hba : k b ≤ k a := by
          have := mt hab.2 hle
          omega
        rw [List.pairwise_cons]
        refine ⟨fun x hx => ?_, ih2
          (fun x hx y hy => hc x hx y (List.mem_cons_of_mem _ hy)) h2.2⟩
        have hx' := (g_list_sort_merge_perm cmp (a :: l1) l2).mem_iff.1 hx
        rcases List.mem_append.1 hx' with hx1 | hx2
        · rcases List.mem_cons.1 hx1 with rfl | hx3
          · exact hba
          · exact le_trans hba (h1.1 x hx3)
        · exact h2.1 x hx2

theorem g_list_sort_real_perm (fuel : Nat) (l : List α) :
    (g_list_sort_real cmp fuel l).Perm l := by
  induction fuel generalizing l with
  | zero => simp [g_list_sort_real]
  | succ fuel ih =>
    rw [g_list_sort_real]
    split
    · exact List.Perm.refl _
    · refine (g_list_sort_merge_perm cmp _ _).trans ?_
      refine ((ih _).append (ih _)).trans ?_
      rw [List.take_append_drop]

theorem g_list_sort_real_sorted (k : α → Nat) (fuel : Nat) (l : List α)
    (hfuel : l.length ≤ fuel)
    (hc : ∀ a ∈ l, ∀ b ∈ l, (cmp a b ≤ 0 ↔ k a ≤ k b)) :
    (g_list_sort_real cmp fuel l).Pairwise (fun a b => k a ≤ k b) := by
  induction fuel generalizing l with
  | zero =>
    have : l = [] := List.eq_nil_of_length_eq_zero (by omega)
    subst this; simp [g_list_sort_real]
  | succ fuel ih =>
    rw [g_list_sort_real]
    split
    · rename_i hlt
      match l, hlt with
      | [], _ => simp
      | [a], _ => simp
      | _ :: _ :: _, h => exact absurd h (by simp)
    · rename_i hge
      have hlen : 2 ≤ l.length := by omega
      have ht : ∀ x ∈ l.take (l.length / 2), x ∈ l := fun x hx => List.mem_of_mem_take hx
      have hd : ∀ x ∈ l.drop (l.length / 2), x ∈ l := fun x hx => List.mem_of_mem_drop hx
      refine g_list_sort_merge_sorted cmp k _ _ ?_ ?_ ?_
      · intro a ha b hb
        exact hc a (ht a ((g_list_sort_real_perm cmp fuel _).mem_iff.1 ha))
          b (hd b ((g_list_sort_real_perm cmp fuel _).mem_iff.1 hb))
      · exact ih _ (by simp; omega) (fun a ha b hb => hc a (ht a ha) b (ht b hb))
      · exact ih _ (by simp; omega) (fun a ha b hb => hc a (hd a ha) b (hd b hb))

theorem g_queue_sort_perm (q : List α) : (g_queue_sort q cmp).Perm q :=
  g_list_sort_real_perm cmp q.length q

theorem g_queue_sort_sorted (k : α → Nat) (q : List α)
    (hc : ∀ a ∈ q, ∀ b ∈ q, (cmp a b ≤ 0 ↔ k a ≤ k b)) :
    (g_queue_sort q cmp).Pairwise (fun a b => k a ≤ k b) :=
  g_list_sort_real_sorted cmp k q.length q (Nat.le_refl _) hc

end MergeSort

/-! ## Ordering of a frame's packets -/

theorem byteAt_lt (mem : List Nat) (i : Nat) : byteAt mem i < 256 :=
  Nat.mod_lt _ (by decide)

theorem sequence_lt (p : packet_t) : p.sequence < 65536 := by
  have h2 := byteAt_lt p.rtp 2
  have h3 := byteAt_lt p.rtp 3
  unfold packet_t.sequence
  omega

theorem packet_compare_sequence_le_iff (base : Nat) (a b : packet_t)
    (ha : seq_offset base a < 32768) (hb : seq_offset base b < 32768) :
    packet_compare_sequence a b ≤ 0 ↔ seq_offset base a ≤ seq_offset base b := by
  have h1 := sequence_lt a
  have h2 := sequence_lt b
  unfold seq_offset at *
  unfold packet_compare_sequence
  simp only []
  split
  · rename_i h
    simp only [mul_one]
    omega
  · rename_i h
    simp only [mul_zero]
    omega

theorem frame_add_packet_fields (frame : frame_t) (p : packet_t) (c : Bool) (format : format_t)
    (hts : p.timestamp = frame.timestamp)
    (hfmt : format_get_reassembly_context frame.codec = some format) :
    (frame_add_packet frame p c).1 = true ∧
    (frame_add_packet frame p c).2.1.codec = frame.codec ∧
    (frame_add_packet frame p c).2.1.timestamp = frame.timestamp ∧
    (frame_add_packet frame p c).2.1.unitcount = frame.unitcount ∧
    (frame_add_packet frame p c).2.1.created_us = frame.created_us ∧
    (frame_add_packet frame p c).2.1.packets.Perm (frame.packets ++ [p]) := by
  unfold frame_add_packet
  simp only [hts, hfmt, ne_eq, not_true_eq_false, if_false]
  split
  · split
    · refine ⟨?_, ?_, ?_, ?_, ?_, ?_⟩ <;>
        first | trivial | rfl | exact g_queue_sort_perm _ _
    · refine ⟨?_, ?_, ?_, ?_, ?_, ?_⟩ <;> trivial
  · refine ⟨?_, ?_, ?_, ?_, ?_, ?_⟩ <;> trivial

theorem frame_add_packet_marker (frame : frame_t) (p : packet_t) (c : Bool) (format : format_t)
    (hts : p.timestamp = frame.timestamp)
    (hfmt : format_get_reassembly_context frame.codec = some format)
    (hmark : p.marker ≠ 0) :
    (frame_add_packet frame p c).2.1.packets
      = if (frame.packets ++ [p]).length > 1 then frame_order_packets (frame.packets ++ [p])
        else frame.packets ++ [p] := by
  unfold frame_add_packet
  simp only [hts, hfmt, ne_eq, not_true_eq_false, if_false, hmark, not_false_eq_true, true_or,
    if_true]
  split <;> rfl

theorem frame_add_all_fields (ps : List packet_t) (frame : frame_t) (format : format_t)
    (hts : ∀ p ∈ ps, p.timestamp = frame.timestamp)
    (hfmt : format_get_reassembly_context frame.codec = some format) :
    (frame_add_all frame ps).codec = frame.codec ∧
    (frame_add_all frame ps).timestamp = frame.timestamp ∧
    (frame_add_all frame ps).unitcount = frame.unitcount ∧
    (frame_add_all frame ps).created_us = frame.created_us ∧
    (frame_add_all frame ps).packets.Perm (frame.packets ++ ps) := by
  induction ps generalizing frame with
  | nil => simp [frame_add_all]
  | cons p ps ih =>
    obtain ⟨_, h2, h3, h4, h5, h6⟩ := frame_add_packet_fields frame p false format
      (hts p (List.mem_cons_self _ _)) hfmt
    have := ih (frame_add_packet frame p false).2.1
      (fun q hq => by rw [h3]; exact hts q (List.mem_cons_of_mem _ hq)) (by rw [h2]; exact hfmt)
    obtain ⟨i2, i3, i4, i5, i6⟩ := this
    refine ⟨i2.trans h2, i3.trans h3, i4.trans h4, i5.trans h5, ?_⟩
    refine i6.trans ?_
    have := h6.append_right ps
    simpa using this

theorem frame_reassemble_loop_seq (real_time : Nat → Nat) (format : format_t) (limit : Nat)
    (pfx : prefix_t) (completed : Bool) (ps : List packet_t) (o : out_t)
    (unitcount head_seq tail_seq : Nat) (context : h264_context_t)
    (h : (frame_reassemble_loop real_time format limit pfx completed ps o unitcount head_seq
      tail_seq context).1 = none) :
    (frame_reassemble_loop real_time format limit pfx completed ps o unitcount head_seq
      tail_seq context).2.2.2.1 = unitcount + ps.length ∧
    (frame_reassemble_loop real_time format limit pfx completed ps o unitcount head_seq
      tail_seq context).2.2.2.2.1
        = (if unitcount = 0 then (ps.head?.map packet_t.sequence).getD head_seq else head_seq) ∧
    (frame_reassemble_loop real_time format limit pfx completed ps o unitcount head_seq
      tail_seq context).2.2.2.2.2.1 = (ps.getLast?.map packet_t.sequence).getD tail_seq := by
  induction ps generalizing o unitcount head_seq tail_seq context with
  | nil => simp [frame_reassemble_loop]
  | cons p ps ih =>
    rw [frame_reassemble_loop] at h ⊢
    simp only [] at h ⊢
    split at h
    · simp at h
    · split at h
      · simp at h
      · rename_i h1 h2
        rw [if_neg h1, if_neg h2]
        obtain ⟨i1, i2, i3⟩ := ih _ _ _ _ _ h
        refine ⟨by rw [i1]; simp; omega, ?_, ?_⟩
        · rw [i2]; simp
        · rw [i3]
          cases ps with
          | nil => simp
          | cons q qs =>
            rw [List.getLast?_cons_cons]
            obtain ⟨x, hx⟩ : ∃ x, (q :: qs).getLast? = some x :=
              ⟨_, List.getLast?_eq_getLast _ (by simp)⟩
            simp [hx]

/-- The loop is left with `some true` only through the test on an empty payload: when every
packet has a payload of at least one byte it ends with `none` or `some false`. -/
theorem frame_reassemble_loop_left (real_time : Nat → Nat) (format : format_t) (limit : Nat)
    (pfx : prefix_t) (completed : Bool) (ps : List packet_t) (o : out_t)
    (unitcount head_seq tail_seq : Nat) (context : h264_context_t)
    (hsz : ∀ p ∈ ps, p.size ≠ 0) :
    (frame_reassemble_loop real_time format limit pfx completed ps o unitcount head_seq
      tail_seq context).1 ≠ some true := by
  induction ps generalizing o unitcount head_seq tail_seq context with
  | nil => simp [frame_reassemble_loop]
  | cons p ps ih =>
    have hp : (packet_get_payload p).2.2 ≠ 0 := hsz p (List.mem_cons_self _ _)
    have hg : (packet_get_payload p).1 = true := rfl
    rw [frame_reassemble_loop]
    simp only []
    rw [if_neg (by simp [hg, hp])]
    split
    · simp
    · exact ih _ _ _ _ _ (fun q hq => hsz q (List.mem_cons_of_mem _ hq))

/-- A successful `frame_reassemble` of packets with non-empty payloads has run the queue
empty. -/
theorem frame_reassemble_left (real_time : Nat → Nat) (frame : frame_t) (media : media_t)
    (completed : Bool) (context : h264_context_t) (format : format_t)
    (hfmt : format_get_reassembly_context frame.codec = some format)
    (hsz : ∀ p ∈ frame.packets, p.size ≠ 0)
    (h : (frame_reassemble real_time frame media completed context).1 = true) :
    0 < media.length ∧
    (frame_reassemble_loop real_time format media.length media.pfx completed frame.packets
      (out_t.init media.buffer) frame.unitcount media.head_seq media.tail_seq context).1
      = none := by
  unfold frame_reassemble at h
  by_cases hml : 0 < media.length
  · refine ⟨hml, ?_⟩
    simp only [hml, not_true_eq_false, if_false, hfmt] at h
    have hleft := frame_reassemble_loop_left real_time format media.length media.pfx completed
      frame.packets (out_t.init media.buffer) frame.unitcount media.head_seq media.tail_seq
      context hsz
    rcases hl : frame_reassemble_loop real_time format media.length media.pfx completed
      frame.packets (out_t.init media.buffer) frame.unitcount media.head_seq media.tail_seq
      context with ⟨r, pk, o, u, hs, t, c⟩
    rw [hl] at h hleft
    cases r with
    | none => rfl
    | some b =>
      cases b
      · simp at h
      · simp at hleft
  · simp [hml] at h

theorem frame_reassemble_seq (real_time : Nat → Nat) (frame : frame_t) (media : media_t)
    (completed : Bool) (context : h264_context_t)
    (h : (frame_reassemble real_time frame media completed context).1 = true)
    (hsz : ∀ p ∈ frame.packets, p.size ≠ 0)
    (hu : frame.unitcount = 0) (hne : frame.packets ≠ []) :
    frame.packets.head?.map packet_t.sequence
      = some (frame_reassemble real_time frame media completed context).2.2.1.head_seq ∧
    frame.packets.getLast?.map packet_t.sequence
      = some (frame_reassemble real_time frame media completed context).2.2.1.tail_seq := by
  cases hfmt : format_get_reassembly_context frame.codec with
  | none =>
    unfold frame_reassemble at h
    by_cases hml : 0 < media.length
    · simp [hml, hfmt] at h
    · simp [hml] at h
  | some format =>
    obtain ⟨hml, hnone⟩ := frame_reassemble_left real_time frame media completed context format
      hfmt hsz h
    have hseq := frame_reassemble_loop_seq real_time format media.length media.pfx completed
      frame.packets (out_t.init media.buffer) frame.unitcount media.head_seq media.tail_seq
      context hnone
    rcases hl : frame_reassemble_loop real_time format media.length media.pfx completed
      frame.packets (out_t.init media.buffer) frame.unitcount media.head_seq media.tail_seq
      context with ⟨r, pk, o, u, hs, t, c⟩
    rw [hl] at hseq hnone
    simp only [] at hnone
    subst hnone
    rw [frame_reassemble_ok real_time frame media completed context c format pk o u hs t hml
      hfmt hl]
    obtain ⟨_, h2, h3⟩ := hseq
    simp only [hu, if_true] at h2
    obtain ⟨x, xs, hx⟩ := List.exists_cons_of_ne_nil hne
    obtain ⟨y, hy⟩ : ∃ y, frame.packets.getLast? = some y :=
      ⟨_, List.getLast?_eq_getLast _ hne⟩
    rw [hx] at h2
    rw [hy] at h3
    rw [hx, ← hx, hy]
    simp at h2 h3
    simp [hx, h2, h3]

theorem seq_offset_inj (base : Nat) (a b : packet_t)
    (h : seq_offset base a = seq_offset base b) : a.sequence = b.sequence := by
  have h1 := sequence_lt a
  have h2 := sequence_lt b
  unfold seq_offset at h
  omega

theorem frame_order_packets_window (base : Nat) (q : List packet_t)
    (hdist : q.Pairwise (fun a b => a.sequence ≠ b.sequence))
    (hwin : ∀ p ∈ q, seq_offset base p < 32768) :
    (frame_order_packets q).Perm q ∧
    (frame_order_packets q).Pairwise (fun a b => seq_offset base a < seq_offset base b) := by
  have hperm : (frame_order_packets q).Perm q := g_queue_sort_perm _ _
  refine ⟨hperm, ?_⟩
  have hle := g_queue_sort_sorted packet_compare_sequence (seq_offset base) q
    (fun a ha b hb => packet_compare_sequence_le_iff base a b (hwin a ha) (hwin b hb))
  have hne : (frame_order_packets q).Pairwise (fun a b => a.sequence ≠ b.sequence) :=
    (hperm.pairwise_iff (fun {a b} (hab : a.sequence ≠ b.sequence) => Ne.symm hab)).2 hdist
  have := hle.and hne
  refine this.imp ?_
  intro a b ⟨h1, h2⟩
  have := mt (seq_offset_inj base a b) h2
  omega

/-! ## Fragmentation units and completeness -/

theorem memRead_drop {mem : List Nat} {n : Nat} (hn : n ≤ mem.length) :
    memRead (mem.drop 2) (n - 2) = (mem.take n).drop 2 := by
  rw [memRead_of_le (by simp; omega), List.drop_take]

theorem put_put' {o : out_t} {limit : Nat} (a b : List Nat) (hcap : limit ≤ o.buffer.length)
    (h : o.index < limit) : (o.put a).put b = o.put (a ++ b) :=
  put_put a b (by omega)

theorem h264_compose_fragmentation_unit_start (o : out_t) (limit : Nat) (pfx : prefix_t)
    (naluptr : List Nat) (n : Nat) (completed : Bool)
    (hstart : fu_start (byteAt naluptr 1) ≠ 0) (h1 : 1 < n)
    (hfit : o.index + (prefix_bytes pfx n).length + 1 + (n - 2) < limit)
    (hcap : limit ≤ o.buffer.length) :
    h264_compose_fragmentation_unit o limit pfx naluptr n completed
      = (true, o.put (prefix_bytes pfx n
          ++ [nal_header (if completed then 0 else 1)
                ( h264_get_nal_ref_idc (fu_type (byteAt naluptr 1))) (fu_type (byteAt naluptr 1))]
          ++ memRead (naluptr.drop 2) (n - 2))) := by
  have hp := h264_compose_prefix_ok o limit pfx n h1 (by omega)
  have e1 : ((o.put (prefix_bytes pfx n)).put
      [nal_header (if completed then 0 else 1)
        ( h264_get_nal_ref_idc (fu_type (byteAt naluptr 1))) (fu_type (byteAt naluptr 1))]).put
      (memRead (naluptr.drop 2) (n - 2))
      = o.put (prefix_bytes pfx n
          ++ [nal_header (if completed then 0 else 1)
                ( h264_get_nal_ref_idc (fu_type (byteAt naluptr 1))) (fu_type (byteAt naluptr 1))]
          ++ memRead (naluptr.drop 2) (n - 2)) := by
    rw [put_put (o := o) _ _ (by omega), put_put (o := o) _ _ (by omega)]
  rw [← e1]
  have c1 : ¬ limit ≤ o.index + (prefix_bytes pfx n).length + 1 := by omega
  have c2 : ¬ limit ≤ o.index + (prefix_bytes pfx n).length + 1 + (n - 2) := by omega
  cases completed <;>
    simp [h264_compose_fragmentation_unit, hstart, hp, put_index, nal_header, c1, c2]

theorem h264_compose_fragmentation_unit_cont (o : out_t) (limit : Nat) (pfx : prefix_t)
    (naluptr : List Nat) (n : Nat) (completed : Bool)
    (hstart : fu_start (byteAt naluptr 1) = 0) (hfit : o.index + (n - 2) < limit) :
    h264_compose_fragmentation_unit o limit pfx naluptr n completed
      = (true, o.put (memRead (naluptr.drop 2) (n - 2))) := by
  simp [h264_compose_fragmentation_unit, hstart, hfit]

theorem h264_reassemble_frame_fu_cont (real_time : Nat → Nat) (o : out_t) (limit : Nat)
    (pfx : prefix_t) (payload : List Nat) (n : Nat) (completed : Bool)
    (context : h264_context_t)
    (ht : nal_unit_type (byteAt payload 0) = 28 ∨ nal_unit_type (byteAt payload 0) = 29)
    (hstart : fu_start (byteAt payload 1) = 0) (h1 : 1 < n)
    (hfit : o.index + (n - 2) < limit) :
    h264_reassemble_frame real_time o limit pfx payload n completed context
      = (true, o.put (memRead (payload.drop 2) (n - 2)), context) := by
  have hc := h264_compose_fragmentation_unit_cont o limit pfx payload n completed hstart hfit
  rcases ht with ht | ht <;>
    simp [h264_reassemble_frame, h1, h264_compose_payload, ht, hc, h264_parse_context,
      h264_is_first_nalu, hstart]

theorem nal_unit_type_nal_header (f idc t : Nat) (ht : t < 32) :
    nal_unit_type (nal_header f idc t % 256) = t := by
  unfold nal_unit_type nal_header
  omega

theorem fu_type_lt (b : Nat) : fu_type b < 32 := Nat.mod_lt _ (by decide)

theorem h264_reassemble_frame_fu_start (real_time : Nat → Nat) (o : out_t) (limit : Nat)
    (pfx : prefix_t) (payload : List Nat) (n : Nat) (completed : Bool)
    (context : h264_context_t)
    (ht : nal_unit_type (byteAt payload 0) = 28 ∨ nal_unit_type (byteAt payload 0) = 29)
    (hstart : fu_start (byteAt payload 1) ≠ 0) (h1 : 1 < n)
    (hfit : o.index + (prefix_bytes pfx n).length + 1 + (n - 2) < limit)
    (hcap : limit ≤ o.buffer.length) :
    h264_reassemble_frame real_time o limit pfx payload n completed context
      = h264_parse_context (o.index + 4) payload (o.put (prefix_bytes pfx n
          ++ [nal_header (if completed then 0 else 1)
                ( h264_get_nal_ref_idc (fu_type (byteAt payload 1))) (fu_type (byteAt payload 1))]
          ++ memRead (payload.drop 2) (n - 2))) context := by
  have hc := h264_compose_fragmentation_unit_start o limit pfx payload n completed hstart h1
    hfit hcap
  rcases ht with ht | ht <;>
    simp [h264_reassemble_frame, h1, h264_compose_payload, ht, hc]

theorem fu_body_eq {p : packet_t} (hs : p.sound) :
    memRead ((packet_get_payload p).2.1.drop 2) (p.size - 2) = p.fu_body := by
  unfold packet_t.fu_body packet_t.body
  exact memRead_drop hs

theorem fu_body_length {p : packet_t} (hs : p.sound) : p.fu_body.length = p.size - 2 := by
  rw [← fu_body_eq hs, memRead_length]

theorem frame_reassemble_loop_fu_cont (real_time : Nat → Nat) (limit : Nat) (pfx : prefix_t)
    (completed : Bool) (qs : List packet_t) (o : out_t) (unitcount head_seq tail_seq : Nat)
    (context : h264_context_t)
    (hq : ∀ q ∈ qs, q.sound ∧ 2 ≤ q.size ∧
      (nal_unit_type (byteAt (packet_get_payload q).2.1 0) = 28 ∨
        nal_unit_type (byteAt (packet_get_payload q).2.1 0) = 29) ∧
      fu_start (byteAt (packet_get_payload q).2.1 1) = 0)
    (hu : 0 < unitcount) (hfit : o.index + (qs.flatMap packet_t.fu_body).length < limit)
    (hcap : limit ≤ o.buffer.length) :
    frame_reassemble_loop real_time h264_format limit pfx completed qs o unitcount head_seq
        tail_seq context
      = (none, [], o.put (qs.flatMap packet_t.fu_body), unitcount + qs.length, head_seq,
          (qs.getLast?.map packet_t.sequence).getD tail_seq, context) := by
  induction qs generalizing o unitcount tail_seq with
  | nil => simp [frame_reassemble_loop, put_nil]
  | cons q qs ih =>
    obtain ⟨hs, h2, ht, hst⟩ := hq q (List.mem_cons_self _ _)
    have hbl := fu_body_length hs
    simp only [List.flatMap_cons, List.length_append] at hfit
    have hre : h264_format.reassemble real_time o limit pfx (packet_get_payload q).2.1 q.size
        completed context = (true, o.put q.fu_body, context) := by
      show h264_reassemble_frame real_time o limit pfx (packet_get_payload q).2.1 q.size
        completed context = _
      rw [h264_reassemble_frame_fu_cont real_time o limit pfx _ q.size completed context ht hst
        (by omega) (by omega), fu_body_eq hs]
    rw [frame_reassemble_loop_cons real_time h264_format limit pfx completed q qs o _ unitcount
      head_seq tail_seq context context (by omega) hre]
    have hne : ¬ unitcount = 0 := by omega
    rw [if_neg hne]
    rw [ih (o.put q.fu_body) (unitcount + 1) q.sequence
      (fun x hx => hq x (List.mem_cons_of_mem _ hx)) (by omega)
      (by rw [put_index]; omega)
      (by rw [put_buffer_length (by omega)]; exact hcap)]
    rw [put_put _ _ (by omega)]
    simp only [List.flatMap_cons, List.length_cons]
    refine Prod.ext rfl (Prod.ext rfl (Prod.ext rfl (Prod.ext (by simp; omega)
      (Prod.ext rfl (Prod.ext ?_ rfl)))))
    cases qs with
    | nil => simp
    | cons x xs =>
      rw [List.getLast?_cons_cons]
      obtain ⟨y, hy⟩ : ∃ y, (x :: xs).getLast? = some y :=
        ⟨_, List.getLast?_eq_getLast _ (by simp)⟩
      simp [hy]

theorem frame_add_packet_append (frame : frame_t) (p : packet_t) (c : Bool) (format : format_t)
    (hts : p.timestamp = frame.timestamp)
    (hfmt : format_get_reassembly_context frame.codec = some format)
    (hmark : p.marker = 0) (hlast : format.last_unit p.payload p.length = false) :
    frame_add_packet frame p c
      = (true, { frame with packets := frame.packets ++ [p] }, frame.completed) := by
  simp [frame_add_packet, hts, hfmt, hmark, hlast]

theorem frame_add_all_append (ps : List packet_t) (frame : frame_t) (format : format_t)
    (hfmt : format_get_reassembly_context frame.codec = some format)
    (hps : ∀ p ∈ ps, p.timestamp = frame.timestamp ∧ p.marker = 0 ∧
      format.last_unit p.payload p.length = false) :
    frame_add_all frame ps = { frame with packets := frame.packets ++ ps } := by
  induction ps generalizing frame with
  | nil => simp [frame_add_all]
  | cons p ps ih =>
    obtain ⟨h1, h2, h3⟩ := hps p (List.mem_cons_self _ _)
    have := ih { frame with packets := frame.packets ++ [p] } hfmt
      (fun q hq => hps q (List.mem_cons_of_mem _ hq))
    unfold frame_add_all at this ⊢
    rw [List.foldl_cons, frame_add_packet_append frame p false format h1 hfmt h2 h3]
    simpa using this

theorem frame_foreach_packet_run (ps : List packet_t) (prevseq s : Nat)
    (hseq : ps.map packet_t.sequence = List.range' s ps.length)
    (hprev : prevseq + 1 = s ∨ prevseq = 0) (hne : ps ≠ []) :
    ps.foldl frame_foreach_packet prevseq = s + ps.length - 1 := by
  induction ps generalizing prevseq s with
  | nil => exact absurd rfl hne
  | cons p ps ih =>
    simp only [List.map_cons, List.length_cons, List.range'_succ, List.cons.injEq] at hseq
    obtain ⟨hp, hrest⟩ := hseq
    have hstep : frame_foreach_packet prevseq p = s := by
      unfold frame_foreach_packet
      rw [hp]
      rcases hprev with h | h
      · rw [if_pos (Or.inl (by omega))]
      · rw [if_pos (Or.inr h)]
    rw [List.foldl_cons, hstep]
    cases ps with
    | nil => simp
    | cons q qs =>
      rw [ih s (s + 1) hrest (Or.inl rfl) (by simp)]
      simp only [List.length_cons]
      omega

theorem is_fu_facts {p : packet_t} (h : p.is_fu) :
    (packet_get_payload p).2.1 = p.payload ∧ 1 < p.length ∧
    nal_unit_type (byteAt p.payload 0) = 28 ∧ byteAt p.payload 1 = p.fu_header := by
  obtain ⟨hplain, hsound, hsize, ht⟩ := h
  have hpl := packet_get_payload_plain hplain
  have hlen := plain_length hplain hsound (by omega)
  have hb0 : byteAt p.body 0 = byteAt p.payload 0 := by
    unfold packet_t.body; rw [hpl]; exact byteAt_take (by omega)
  have hb1 : byteAt p.body 1 = byteAt p.payload 1 := by
    unfold packet_t.body; rw [hpl]; exact byteAt_take (by omega)
  exact ⟨hpl, by omega, by rw [← hb0]; exact ht, hb1.symm⟩

theorem is_fu_last_unit {p : packet_t} (h : p.is_fu) :
    h264_format.last_unit p.payload p.length = decide (fu_end p.fu_header ≠ 0) := by
  obtain ⟨_, hl, ht, hb⟩ := is_fu_facts h
  show h264_is_last_nalu p.payload p.length = _
  simp [h264_is_last_nalu, hl, ht, hb]

theorem is_fu_first_unit {p : packet_t} (h : p.is_fu) :
    h264_format.first_unit p.payload p.length = decide (fu_start p.fu_header ≠ 0) := by
  obtain ⟨_, hl, ht, hb⟩ := is_fu_facts h
  show h264_is_first_nalu p.payload p.length = _
  simp [h264_is_first_nalu, hl, ht, hb]

theorem frame_order_packets_run (q : List packet_t) (s : Nat)
    (hseq : q.map packet_t.sequence = List.range' s q.length) (hk : q.length ≤ 32768) :
    frame_order_packets q = q := by
  have hmem : ∀ p ∈ q, s ≤ p.sequence ∧ p.sequence < s + q.length := by
    intro p hp
    have : p.sequence ∈ q.map packet_t.sequence := List.mem_map_of_mem _ hp
    rw [hseq, List.mem_range'_1] at this
    exact this
  have hoff : ∀ p ∈ q, seq_offset s p = p.sequence - s := by
    intro p hp
    have := hmem p hp
    have := sequence_lt p
    unfold seq_offset
    omega
  have hlt : q.Pairwise (fun a b => a.sequence < b.sequence) := by
    have := List.pairwise_lt_range' s q.length
    rw [← hseq, List.pairwise_map] at this
    exact this
  have hlt' : q.Pairwise (fun a b => seq_offset s a < seq_offset s b) := by
    refine List.Pairwise.imp_of_mem ?_ hlt
    intro a b ha hb hab
    have := hmem a ha
    have := hmem b hb
    rw [hoff a ha, hoff b hb]
    omega
  obtain ⟨hperm, hsorted⟩ := frame_order_packets_window s q
    (hlt.imp (fun h => Nat.ne_of_lt h))
    (fun p hp => by have := hmem p hp; rw [hoff p hp]; omega)
  haveI : IsAntisymm packet_t (fun a b => seq_offset s a < seq_offset s b) :=
    ⟨fun a b h1 h2 => absurd h1 (by omega)⟩
  exact List.eq_of_perm_of_sorted hperm hsorted hlt'

theorem put_init_take (buf bs : List Nat) :
    ((out_t.init buf).put bs).buffer.take bs.length = bs := by
  have := @memWrite_take buf 0 bs (by omega)
  simpa [out_t.put, out_t.init] using this

theorem getLast?_cons_concat {α : Type} (a : α) (l : List α) (b : α) :
    (a :: (l ++ [b])).getLast? = some b := by
  rw [← List.cons_append]
  exact List.getLast?_concat _

theorem frame_check_completeness_run (frame : frame_t) (p0 pl : packet_t)
    (mid : List packet_t) (s : Nat) (hcodec : frame.codec = .CODEC_H264)
    (hpk : frame.packets = p0 :: (mid ++ [pl]))
    (hseq : (p0 :: (mid ++ [pl])).map packet_t.sequence = List.range' s (mid.length + 2))
    (hfirst : h264_format.first_unit p0.payload p0.length = true)
    (hlast : h264_format.last_unit pl.payload pl.length = true) :
    frame_check_completeness frame = true := by
  have hlen : (p0 :: (mid ++ [pl])).length = mid.length + 2 := by simp
  have hrun := frame_foreach_packet_run (p0 :: (mid ++ [pl])) 0 s (by rw [hlen]; exact hseq)
    (Or.inr rfl) (by simp)
  have hpl : pl.sequence = s + (mid.length + 2) - 1 := by
    have h1 : ((p0 :: (mid ++ [pl])).map packet_t.sequence).getLast? = some pl.sequence := by
      rw [List.map_cons, List.map_append]
      exact getLast?_cons_concat _ _ _
    rw [hseq] at h1
    have h2 : (List.range' s (mid.length + 2)).getLast?
        = some (s + (mid.length + 1)) := by
      rw [show mid.length + 2 = (mid.length + 1) + 1 from rfl, List.range'_concat]
      simp
    rw [h2] at h1
    have := Option.some.inj h1
    omega
  have hgl : (p0 :: (mid ++ [pl])).getLast? = some pl := getLast?_cons_concat _ _ _
  unfold frame_check_completeness
  rw [hcodec, hpk, hgl]
  simp only [format_get_reassembly_context, List.head?_cons, hfirst, hlast, hlen]
  rw [hrun, hlen]
  simp [hpl]

/-! ## The context pass, the sweep and the add operations -/

theorem h264_get_bits_loop_snd (bs : List Nat) (count offset code : Nat) :
    (h264_get_bits_loop bs count offset code).2 = offset + count := by
  induction count generalizing offset code with
  | zero => rfl
  | succ n ih => rw [h264_get_bits_loop, ih]; omega

theorem h264_get_bits_snd (bs : List Nat) (offset count : Nat) :
    (h264_get_bits bs offset count).2 = offset + count :=
  h264_get_bits_loop_snd bs count offset 0

theorem h264_scan_zeroes_snd (bs : List Nat) (fuel offset zeroes : Nat) :
    offset ≤ (h264_scan_zeroes bs fuel offset zeroes).2 := by
  induction fuel generalizing offset zeroes with
  | zero => simp [h264_scan_zeroes]
  | succ n ih =>
    rw [h264_scan_zeroes]
    split
    · simp
    · exact le_trans (Nat.le_succ _) (ih _ _)

theorem le_uexpgolomb (bs : List Nat) (a offset : Nat) (h : a ≤ offset) :
    a ≤ (h264_decode_uexpgolomb bs offset).2 := by
  have := h264_scan_zeroes_snd bs (8 * bs.length - offset) offset 0
  unfold h264_decode_uexpgolomb
  simp only []
  split
  · simp only [h264_get_bits_snd]; omega
  · simp only []; omega

theorem le_sexpgolomb (bs : List Nat) (a offset : Nat) (h : a ≤ offset) :
    a ≤ (h264_decode_sexpgolomb bs offset).2 := by
  have := le_uexpgolomb bs a offset h
  unfold h264_decode_sexpgolomb
  simp only []
  split <;> simpa using this

theorem le_skip_sexpgolomb (bs : List Nat) (count a offset : Nat) (h : a ≤ offset) :
    a ≤ h264_skip_sexpgolomb bs count offset := by
  induction count generalizing offset with
  | zero => simpa [h264_skip_sexpgolomb] using h
  | succ n ih => rw [h264_skip_sexpgolomb]; exact ih _ (le_sexpgolomb bs a offset h)

theorem h264_read_bits_snd (nalu : List Nat) (count : Nat)
    (assign : h264_context_t → Nat → h264_context_t) (s : h264_context_t × Nat) :
    (h264_read_bits nalu count assign s).2 = s.2 + count :=
  h264_get_bits_snd nalu s.2 count

theorem le_read_ue (nalu : List Nat) (assign : h264_context_t → Nat → h264_context_t)
    (s : h264_context_t × Nat) (a : Nat) (h : a ≤ s.2) : a ≤ (h264_read_ue nalu assign s).2 :=
  le_uexpgolomb nalu a s.2 h

theorem le_read_se (nalu : List Nat) (assign : h264_context_t → Nat → h264_context_t)
    (s : h264_context_t × Nat) (a : Nat) (h : a ≤ s.2) : a ≤ (h264_read_se nalu assign s).2 :=
  le_sexpgolomb nalu a s.2 h

theorem le_read_bits (nalu : List Nat) (count : Nat)
    (assign : h264_context_t → Nat → h264_context_t)
    (s : h264_context_t × Nat) (a : Nat) (h : a ≤ s.2) :
    a ≤ (h264_read_bits nalu count assign s).2 := by
  rw [h264_read_bits_snd]; omega

theorem le_decode_sps_id (nalu : List Nat) (s : h264_context_t × Nat) (a : Nat)
    (h : a ≤ s.2) : a ≤ (h264_decode_sps_id nalu s).2 := by
  unfold h264_decode_sps_id
  split
  · exact h
  · exact le_read_ue _ _ _ _ h

theorem le_decode_sps_poc (nalu : List Nat) (s : h264_context_t × Nat) (a : Nat)
    (h : a ≤ s.2) : a ≤ (h264_decode_sps_poc nalu s).2 := by
  unfold h264_decode_sps_poc
  split
  · exact le_read_ue _ _ _ _ h
  · apply le_skip_sexpgolomb
    apply le_read_ue
    apply le_read_se
    apply le_read_se
    apply le_read_bits
    exact h

theorem h264_decode_sps_head_snd (nalu : List Nat) (context : h264_context_t) :
    32 ≤ (h264_decode_sps_head nalu context).2 := by
  unfold h264_decode_sps_head
  apply le_read_ue
  apply le_decode_sps_poc
  apply le_read_ue
  apply le_read_ue
  apply le_decode_sps_id
  simp only [h264_read_bits_snd]
  omega

theorem h264_set_bit_length (bs : List Nat) (off : Nat) :
    (h264_set_bit bs off).length = bs.length := by
  simp [h264_set_bit]

theorem spliced_set_bit_getElem? (b : List Nat) (start off j : Nat) (hoff : 8 ≤ off)
    (hj : j ≤ start) :
    (b.take start ++ h264_set_bit (b.drop start) off)[j]? = b[j]? := by
  by_cases hs : start ≤ b.length
  · rcases Nat.lt_or_eq_of_le hj with hlt | heq
    · rw [List.getElem?_append_left (by simp; omega), List.getElem?_take_of_lt hlt]
    · subst heq
      rw [List.getElem?_append_right (by simp), List.length_take, Nat.min_eq_left hs,
        Nat.sub_self]
      unfold h264_set_bit
      rw [List.getElem?_modify]
      have h0 : ¬ off / 8 = 0 := by omega
      simp [h0]
  · have hd : b.drop start = [] := List.drop_eq_nil_of_le (by omega)
    rw [hd, List.take_of_length_le (by omega)]
    simp [h264_set_bit]

theorem h264_parse_context_buffer (start : Nat) (payload : List Nat) (o : out_t)
    (context : h264_context_t) :
    (h264_parse_context start payload o context).2.1.buffer.length = o.buffer.length ∧
    ∀ j, j ≤ start →
      byteAt (h264_parse_context start payload o context).2.1.buffer j = byteAt o.buffer j := by
  by_cases hf : h264_is_first_nalu payload o.length = true
  · by_cases h15 : nal_unit_type (byteAt o.buffer start) = 1 ∨
        nal_unit_type (byteAt o.buffer start) = 5
    · simp [h264_parse_context, hf, h15]
    · by_cases h7 : nal_unit_type (byteAt o.buffer start) = 7
      · by_cases hl : 0 < o.length
        · have hb : (h264_parse_context start payload o context).2.1.buffer
              = o.buffer.take start ++ h264_set_bit (o.buffer.drop start)
                  (h264_decode_sps_head (o.buffer.drop start) context).2 := by
            simp [h264_parse_context, hf, h15, h7, h264_decode_sps, hl]
          rw [hb]
          refine ⟨?_, fun j hj => ?_⟩
          · rw [List.length_append, h264_set_bit_length, ← List.length_append,
              List.take_append_drop]
          · unfold byteAt
            rw [List.getD_eq_getElem?_getD, List.getD_eq_getElem?_getD,
              spliced_set_bit_getElem? _ _ _ _
                (le_trans (by decide) (h264_decode_sps_head_snd _ _)) hj]
        · have hb : (h264_parse_context start payload o context).2.1.buffer
              = o.buffer.take start ++ o.buffer.drop start := by
            simp [h264_parse_context, hf, h15, h7, h264_decode_sps, hl]
          rw [hb, List.take_append_drop]
          exact ⟨rfl, fun _ _ => rfl⟩
      · simp [h264_parse_context, hf, h15, h7]
  · simp [h264_parse_context, hf]

theorem g_queue_insert_sorted_mem {α : Type} (q : List α) (data x : α) (func : α → α → Int) :
    x ∈ g_queue_insert_sorted q data func ↔ x = data ∨ x ∈ q := by
  induction q with
  | nil => simp [g_queue_insert_sorted]
  | cons y ys ih =>
    rw [g_queue_insert_sorted]
    split
    · simp only [List.mem_cons, ih]
      tauto
    · simp only [List.mem_cons]

theorem rtp_depacketizer_reap_frame_mem (key : Nat) (frame : frame_t) (enqueue_us reap_us : Int)
    (completed : List frame_t) (x : frame_t) (hx : x ∈ completed) :
    x ∈ (rtp_depacketizer_reap_frame key frame enqueue_us reap_us completed).2 := by
  unfold rtp_depacketizer_reap_frame
  split
  · exact hx
  · simp only []
    split
    · exact (g_queue_insert_sorted_mem _ _ _ _).2 (Or.inr hx)
    · exact hx

theorem rtp_depacketizer_reap_sweep_mem (enqueue_us reap_us : Int)
    (frames : List (Nat × frame_t)) (completed : List frame_t) (x : frame_t)
    (hx : x ∈ completed) :
    x ∈ (rtp_depacketizer_reap_sweep enqueue_us reap_us frames completed).2 := by
  induction frames generalizing completed with
  | nil => simpa [rtp_depacketizer_reap_sweep] using hx
  | cons e rest ih =>
    obtain ⟨key, frame⟩ := e
    rw [rtp_depacketizer_reap_sweep]
    exact ih _ (rtp_depacketizer_reap_frame_mem key frame enqueue_us reap_us completed x hx)

theorem rtp_depacketizer_reap_sweep_keys (enqueue_us reap_us : Int)
    (frames : List (Nat × frame_t)) (completed : List frame_t) (e : Nat × frame_t)
    (he : e ∈ (rtp_depacketizer_reap_sweep enqueue_us reap_us frames completed).1) :
    e ∈ frames := by
  induction frames generalizing completed with
  | nil => simp [rtp_depacketizer_reap_sweep] at he
  | cons e' rest ih =>
    obtain ⟨key, frame⟩ := e'
    rw [rtp_depacketizer_reap_sweep] at he
    simp only [] at he
    split at he
    · exact List.mem_cons_of_mem _ (ih _ he)
    · rcases List.mem_cons.1 he with h | h
      · rw [h]; exact List.mem_cons_self _ _
      · exact List.mem_cons_of_mem _ (ih _ h)

theorem rtp_depacketizer_enqueue_packet_new (d : rtp_depacketizer_t) (packet : packet_t)
    (frame_ready : Bool) (enqueue_us created_us : Int) (frame : frame_t) (cc : Bool)
    (hlook : d.frames.lookup packet.timestamp = none)
    (hadd : frame_add_packet (frame_create packet.timestamp d.codec created_us) packet false
      = (true, frame, cc))
    (hno : ¬ (0 - d.refresh_us > d.timeout_us)) :
    (rtp_depacketizer_enqueue_packet d packet frame_ready enqueue_us created_us).2.2
      = { d with
          enqueue_us := enqueue_us,
          frames := (rtp_depacketizer_reap_sweep enqueue_us d.reap_us
            (d.frames ++ [(packet.timestamp, frame)]) d.completed).1,
          completed := (rtp_depacketizer_reap_sweep enqueue_us d.reap_us
            (d.frames ++ [(packet.timestamp, frame)]) d.completed).2 } := by
  have hno' : ¬ d.timeout_us < -d.refresh_us := by omega
  simp [rtp_depacketizer_enqueue_packet, hlook, hadd, hno']

theorem rtp_depacketizer_enqueue_packet_old (d : rtp_depacketizer_t) (packet : packet_t)
    (frame_ready : Bool) (enqueue_us created_us : Int) (frame0 frame : frame_t) (cc : Bool)
    (hlook : d.frames.lookup packet.timestamp = some frame0)
    (hadd : frame_add_packet frame0 packet false = (true, frame, cc))
    (hno : ¬ (0 - d.refresh_us > d.timeout_us)) :
    (rtp_depacketizer_enqueue_packet d packet frame_ready enqueue_us created_us).2.2
      = { d with
          enqueue_us := enqueue_us,
          frames := (rtp_depacketizer_reap_sweep enqueue_us d.reap_us
            (d.frames.map (fun (e : Nat × frame_t) =>
              if e.1 = packet.timestamp then (packet.timestamp, frame) else e)) d.completed).1,
          completed := (rtp_depacketizer_reap_sweep enqueue_us d.reap_us
            (d.frames.map (fun (e : Nat × frame_t) =>
              if e.1 = packet.timestamp then (packet.timestamp, frame) else e)) d.completed).2 }
      := by
  have hno' : ¬ d.timeout_us < -d.refresh_us := by omega
  simp [rtp_depacketizer_enqueue_packet, hlook, hadd, hno']

theorem frame_order_packets_sorted (q : List packet_t) (base : Nat)
    (hsorted : q.Pairwise (fun a b => seq_offset base a < seq_offset base b))
    (hwin : ∀ p ∈ q, seq_offset base p < 32768) :
    frame_order_packets q = q := by
  have hne : q.Pairwise (fun a b => a.sequence ≠ b.sequence) := by
    refine hsorted.imp ?_
    intro a b hab heq
    unfold seq_offset at hab
    rw [heq] at hab
    omega
  obtain ⟨hperm, hs⟩ := frame_order_packets_window base q hne hwin
  haveI : IsAntisymm packet_t (fun a b => seq_offset base a < seq_offset base b) :=
    ⟨fun a b h1 h2 => absurd h1 (by omega)⟩
  exact List.eq_of_perm_of_sorted hperm hs hsorted

theorem nal_forbidden_nal_header (idc t : Nat) (hidc : idc ≤ 3) (ht : t < 32) :
    nal_forbidden (nal_header 1 idc t % 256) = 1 := by
  unfold nal_forbidden nal_header
  omega

theorem h264_get_nal_ref_idc_le (t : Nat) : h264_get_nal_ref_idc t ≤ 3 := by
  unfold h264_get_nal_ref_idc
  split
  · omega
  · split
    · omega
    · split <;> omega

theorem byteAt_append_right {a b : List Nat} {k : Nat} :
    byteAt (a ++ b) (a.length + k) = byteAt b k := by
  unfold byteAt
  rw [List.getD_eq_getElem?_getD, List.getD_eq_getElem?_getD,
    List.getElem?_append_right (by omega)]
  simp

/-- Reassembly of a frame made of a start fragment and an end fragment, with the `completed`
flag false. -/
theorem frame_reassemble_gap (real_time : Nat → Nat) (p70 p72 : packet_t) (created_us : Int)
    (ts : Nat) (media : media_t) (context : h264_context_t)
    (h70 : p70.is_fu) (hs70 : fu_start p70.fu_header = 1)
    (h72 : p72.is_fu) (hs72 : fu_start p72.fu_header = 0)
    (hfit : (prefix_bytes media.pfx p70.size).length + 1 + p70.fu_body.length
      + p72.fu_body.length < media.length)
    (hcap : media.length ≤ media.buffer.length) :
    (frame_reassemble real_time ⟨[p70, p72], .CODEC_H264, created_us, ts, true, false, 0⟩ media
      false context).1 = true ∧
    nal_forbidden (byteAt (frame_reassemble real_time
      ⟨[p70, p72], .CODEC_H264, created_us, ts, true, false, 0⟩ media false
      context).2.2.1.buffer (prefix_bytes media.pfx p70.size).length) = 1 := by
  obtain ⟨g1, _, g3, g4⟩ := is_fu_facts h70
  obtain ⟨q1, _, q3, q4⟩ := is_fu_facts h72
  have hb0 := fu_body_length h70.2.1
  have hs0 := h70.2.2.1
  have hpl := prefix_bytes_length_le media.pfx p70.size
  have hre0 := h264_reassemble_frame_fu_start real_time (out_t.init media.buffer) media.length
    media.pfx p70.payload p70.size false context (Or.inl g3)
    (by rw [g4, hs70]; decide) (by omega)
    (by show 0 + _ + 1 + (p70.size - 2) < media.length; omega) hcap
  rw [g4, ← g1, fu_body_eq h70.2.1] at hre0
  simp only [Bool.false_eq_true, if_false] at hre0
  obtain ⟨hdr, hhdr⟩ : ∃ h, h = nal_header 1 ( h264_get_nal_ref_idc (fu_type p70.fu_header))
    (fu_type p70.fu_header) := ⟨_, rfl⟩
  rw [← hhdr] at hre0
  obtain ⟨pre, hpre⟩ : ∃ l, l = prefix_bytes media.pfx p70.size := ⟨_, rfl⟩
  rw [← hpre] at hre0 hfit hpl ⊢
  have hXlen : (pre ++ [hdr] ++ p70.fu_body).length = pre.length + 1 + p70.fu_body.length := by
    simp only [List.length_append, List.length_cons, List.length_nil]
  -- the state after the context pass
  have ho1 : ((out_t.init media.buffer).put (pre ++ [hdr] ++ p70.fu_body)).length
      = pre.length + 1 + p70.fu_body.length := by
    rw [put_length, hXlen]; show 0 + _ = _; omega
  obtain ⟨k1, k2, k3⟩ := h264_parse_context_fst ((out_t.init media.buffer).index + 4)
    (packet_get_payload p70).2.1 ((out_t.init media.buffer).put (pre ++ [hdr] ++ p70.fu_body))
    context (by rw [ho1]; omega)
  obtain ⟨k4, k5⟩ := h264_parse_context_buffer ((out_t.init media.buffer).index + 4)
    (packet_get_payload p70).2.1 ((out_t.init media.buffer).put (pre ++ [hdr] ++ p70.fu_body))
    context
  rcases hP : h264_parse_context ((out_t.init media.buffer).index + 4)
    (packet_get_payload p70).2.1 ((out_t.init media.buffer).put (pre ++ [hdr] ++ p70.fu_body))
    context with ⟨b, o1, context'⟩
  rw [hP] at k1 k2 k3 k4 k5 hre0
  simp only [] at k1 k2 k3 k4 k5
  subst k1
  rw [put_index, hXlen] at k3
  rw [put_buffer_length (by rw [hXlen]; show 0 + _ ≤ media.buffer.length; omega)] at k4
  have k3' : o1.index = pre.length + 1 + p70.fu_body.length := by
    rw [k3]; show 0 + _ = _; omega
  have k4' : o1.buffer.length = media.buffer.length := k4
  have hloop0 := frame_reassemble_loop_cons real_time h264_format media.length media.pfx
    false p70 [p72] (out_t.init media.buffer) o1 0 media.head_seq media.tail_seq context
    context' (by omega) hre0
  have hloop1 := frame_reassemble_loop_fu_cont real_time media.length media.pfx false
    [p72] o1 (0 + 1) (if 0 = 0 then p70.sequence else media.head_seq) p70.sequence
    context'
    (by
      intro q hq
      rw [List.mem_singleton.1 hq]
      exact ⟨h72.2.1, h72.2.2.1, Or.inl (by rw [q1]; exact q3), by rw [q1, q4]; exact hs72⟩)
    (by omega)
    (by simp only [List.flatMap_cons, List.flatMap_nil, List.append_nil]; rw [k3']; omega)
    (by rw [k4']; exact hcap)
  rw [hloop1] at hloop0
  rw [frame_reassemble_ok real_time ⟨[p70, p72], .CODEC_H264, created_us, ts, true, false, 0⟩
    media false context context' h264_format _ _ _ _ _ (by omega) rfl hloop0]
  refine ⟨rfl, ?_⟩
  show nal_forbidden (byteAt (o1.put ([p72].flatMap packet_t.fu_body)).buffer pre.length) = 1
  have e1 : byteAt (o1.put ([p72].flatMap packet_t.fu_body)).buffer pre.length
      = byteAt o1.buffer pre.length :=
    byteAt_memWrite_lt (by rw [k4', k3']; omega) (by rw [k3']; omega)
  have e2 : byteAt o1.buffer pre.length
      = byteAt ((out_t.init media.buffer).put (pre ++ [hdr] ++ p70.fu_body)).buffer
          pre.length := k5 pre.length (by show pre.length ≤ 0 + 4; omega)
  have e3 : byteAt ((out_t.init media.buffer).put (pre ++ [hdr] ++ p70.fu_body)).buffer
      pre.length = hdr % 256 := by
    have := @byteAt_memWrite media.buffer 0 pre.length
      (pre ++ [hdr] ++ p70.fu_body) (by omega) (by rw [hXlen]; omega)
    rw [Nat.zero_add] at this
    have h2 : byteAt (pre ++ [hdr] ++ p70.fu_body) pre.length = hdr % 256 := by
      have := byteAt_append_right (a := pre) (b := [hdr] ++ p70.fu_body) (k := 0)
      rw [Nat.add_zero, ← List.append_assoc] at this
      rw [this]
      simp [byteAt]
    rw [h2] at this
    exact this
  rw [e1, e2, e3, hhdr]
  exact nal_forbidden_nal_header _ _ (h264_get_nal_ref_idc_le _) (fu_type_lt _)

theorem rtp_depacketizer_add_all_append (d : rtp_depacketizer_t)
    (xs ys : List (packet_t × Int × Int)) :
    rtp_depacketizer_add_all d (xs ++ ys)
      = rtp_depacketizer_add_all (rtp_depacketizer_add_all d xs) ys := by
  simp [rtp_depacketizer_add_all, List.foldl_append]

theorem rtp_depacketizer_add_all_singleton (d : rtp_depacketizer_t) (p : packet_t)
    (e c : Int) :
    rtp_depacketizer_add_all d [(p, e, c)]
      = (rtp_depacketizer_enqueue_packet d p false e c).2.2 := rfl

theorem rtp_depacketizer_reap_sweep_steal (enqueue_us reap_us : Int) (key : Nat)
    (frame : frame_t) (rest : List (Nat × frame_t)) (completed : List frame_t)
    (hk : key ≠ 0) (hreap : frame.completed = true ∨ enqueue_us - frame.created_us > reap_us) :
    rtp_depacketizer_reap_sweep enqueue_us reap_us ((key, frame) :: rest) completed
      = rtp_depacketizer_reap_sweep enqueue_us reap_us rest
          (g_queue_insert_sorted completed frame rtp_depacketizer_compare_timestamps) := by
  rw [rtp_depacketizer_reap_sweep]
  simp [rtp_depacketizer_reap_frame, hk, hreap]

theorem frame_reassemble_codec (real_time : Nat → Nat) (frame : frame_t) (media : media_t)
    (completed : Bool) (context : h264_context_t) :
    (frame_reassemble real_time frame media completed context).2.1.codec = frame.codec := by
  unfold frame_reassemble
  by_cases hml : 0 < media.length
  · cases hfmt : format_get_reassembly_context frame.codec with
    | none => simp [hml]
    | some format =>
      simp only [hml, not_true_eq_false, if_false]
      split <;> rfl
  · simp [hml]

/-! ## Aggregation units -/

theorem put_eq_emit (o : out_t) (bs : List Nat) : o.put bs = o.emit bs 0 := rfl

theorem emit_emit {o : out_t} (a b : List Nat) (m n : Nat) (h : o.index ≤ o.buffer.length) :
    (o.emit a m).emit b n = o.emit (a ++ b) (m + n) := by
  simp only [out_t.emit, memWrite_memWrite a b h, List.length_append, Nat.add_assoc]

theorem emit_nil (o : out_t) : o.emit [] 0 = o := put_nil o

theorem sei_nalu_length (reading : Nat) : (sei_nalu reading).length = 28 := by
  simp [sei_nalu, time_sync_uuid, be64]

theorem h264_compose_timestamp_sei_nalu_ok (real_time : Nat → Nat) (o : out_t) (limit : Nat)
    (pfx : prefix_t) (hfit : o.index + (prefix_bytes pfx 28).length + 28 < limit)
    (hcap : limit ≤ o.buffer.length) :
    h264_compose_timestamp_sei_nalu real_time o limit pfx
      = (true, o.emit (prefix_bytes pfx 28 ++ sei_nalu (real_time o.ticks)) 1) := by
  have hp := h264_compose_prefix_ok o limit pfx 28 (by decide) (by omega)
  have hi : o.index ≤ o.buffer.length := by omega
  have c1 : ¬ limit ≤ o.index + (prefix_bytes pfx 28).length + 1 := by omega
  have c2 : ¬ limit ≤ o.index + (prefix_bytes pfx 28).length + 1 + 1 := by omega
  have c3 : ¬ limit ≤ o.index + (prefix_bytes pfx 28).length + 1 + 1 + 1 := by omega
  have c4 : ¬ limit ≤ o.index + (prefix_bytes pfx 28).length + 1 + 1 + 1 + 16 := by omega
  have c5 : ¬ limit ≤ o.index + (prefix_bytes pfx 28).length + 1 + 1 + 1 + 16 + 8 := by omega
  have c6 : ¬ limit ≤ o.index + (prefix_bytes pfx 28).length + 1 + 1 + 1 + 16 + 8 + 1 := by
    omega
  have e : o.emit (prefix_bytes pfx 28 ++ sei_nalu (real_time o.ticks)) 1
      = ((((((o.emit (prefix_bytes pfx 28) 0).emit [0x06] 0).emit [0x05] 0).emit [24] 0).emit
          time_sync_uuid 0).emit (be64 (real_time o.ticks % 2 ^ 64)) 1).emit [0xFF] 0 := by
    have l1 : (o.emit (prefix_bytes pfx 28) 0).index ≤ (o.emit (prefix_bytes pfx 28) 0).buffer.length := by
      show o.index + _ ≤ (memWrite _ _ _).length
      rw [memWrite_length (by omega)]; omega
    rw [emit_emit _ _ _ _ l1, emit_emit _ _ _ _ l1, emit_emit _ _ _ _ l1, emit_emit _ _ _ _ l1,
      emit_emit _ _ _ _ l1, emit_emit _ _ _ _ hi]
    simp [sei_nalu]
  rw [e]
  simp [h264_compose_timestamp_sei_nalu, hp, put_eq_emit, out_t.emit, out_t.put, c1, c2, c3, c4,
    c5, c6, time_sync_uuid, be64]

theorem byteAt_drop (l : List Nat) (n k : Nat) : byteAt (l.drop n) k = byteAt l (n + k) := by
  simp [byteAt, List.getD_eq_getElem?_getD, List.getElem?_drop]

theorem byteAt_append_left' {a b : List Nat} {k : Nat} (h : k < a.length) :
    byteAt (a ++ b) k = byteAt a k := by
  unfold byteAt
  rw [List.getD_eq_getElem?_getD, List.getD_eq_getElem?_getD, List.getElem?_append_left h]

theorem stap_output_length_cons (pfx : prefix_t) (real_time : Nat → Nat) (k : Nat)
    (u : List Nat) (rest : List (List Nat)) :
    (stap_output pfx real_time k (u :: rest)).length
      = (prefix_bytes pfx u.length).length + u.length
        + (if nal_unit_type (byteAt u 0) = 8 then
            (prefix_bytes pfx 28).length + 28
              + (stap_output pfx real_time (k + 1) rest).length
          else (stap_output pfx real_time k rest).length) := by
  rw [stap_output]
  split <;> simp [sei_nalu_length] <;> omega

theorem h264_compose_aggregation_loop_ok (real_time : Nat → Nat) (limit : Nat) (pfx : prefix_t)
    (naluptr : List Nat) (nalulen : Nat) (us : List (List Nat)) (tail : List Nat)
    (fuel aulenptr : Nat) (o : out_t)
    (hus : ∀ u ∈ us, 2 ≤ u.length ∧ u.length < 65536)
    (hmem : naluptr.drop aulenptr = stap_encode us ++ tail)
    (hlen : nalulen = aulenptr + (stap_encode us).length)
    (hfuel : us.length ≤ fuel)
    (hfit : o.index + (stap_output pfx real_time o.ticks us).length < limit)
    (hcap : limit ≤ o.buffer.length) :
    h264_compose_aggregation_loop real_time limit pfx naluptr nalulen fuel aulenptr o
      = (true, o.emit (stap_output pfx real_time o.ticks us) (stap_pps_count us)) := by
  induction us generalizing fuel aulenptr o with
  | nil =>
    have h0 : ¬ (aulenptr < nalulen ∧ aulenptr + 2 < nalulen) := by
      simp [stap_encode] at hlen; omega
    cases fuel with
    | zero => simp [h264_compose_aggregation_loop, stap_output, stap_pps_count, emit_nil]
    | succ f =>
      rw [h264_compose_aggregation_loop]
      simp only [h0, not_false_eq_true, if_true]
      simp [stap_output, stap_pps_count, emit_nil]
  | cons u rest ih =>
    obtain ⟨hu2, hu16⟩ := hus u (List.mem_cons_self _ _)
    cases fuel with
    | zero => simp at hfuel
    | succ f =>
      have henc : stap_encode (u :: rest)
          = [u.length / 256 % 256, u.length % 256] ++ u ++ stap_encode rest := by
        simp [stap_encode]
      rw [henc] at hmem hlen
      have hlen' : nalulen = aulenptr + 2 + u.length + (stap_encode rest).length := by
        rw [hlen]; simp; omega
      have hc : aulenptr < nalulen ∧ aulenptr + 2 < nalulen := by omega
      have hb0 : byteAt naluptr aulenptr = u.length / 256 % 256 := by
        have := byteAt_drop naluptr aulenptr 0
        rw [hmem] at this
        rw [Nat.add_zero] at this
        rw [← this]
        simp [byteAt]
      have hb1 : byteAt naluptr (aulenptr + 1) = u.length % 256 := by
        have := byteAt_drop naluptr aulenptr 1
        rw [hmem] at this
        rw [← this]
        simp [byteAt]
      have haulen : byteAt naluptr aulenptr * 256 + byteAt naluptr (aulenptr + 1) = u.length := by
        rw [hb0, hb1]; omega
      have hdrop2 : naluptr.drop (aulenptr + 2) = u ++ (stap_encode rest ++ tail) := by
        have : naluptr.drop (aulenptr + 2) = (naluptr.drop aulenptr).drop 2 := by
          rw [List.drop_drop]
        rw [this, hmem]
        simp
      have hread : memRead (naluptr.drop (aulenptr + 2)) u.length = u := by
        rw [hdrop2, memRead_of_le (by simp), List.take_left' rfl]
      have htype : byteAt naluptr (aulenptr + 2) = byteAt u 0 := by
        have := byteAt_drop naluptr (aulenptr + 2) 0
        rw [hdrop2, Nat.add_zero, byteAt_append_left' (by omega)] at this
        exact this.symm
      have hnext : naluptr.drop (aulenptr + 2 + u.length) = stap_encode rest ++ tail := by
        have : naluptr.drop (aulenptr + 2 + u.length)
            = (naluptr.drop (aulenptr + 2)).drop u.length := by
          rw [List.drop_drop]
        rw [this, hdrop2, List.drop_left' rfl]
      rw [stap_output_length_cons] at hfit
      have hpl := prefix_bytes_length_le pfx 28
      have hi : o.index ≤ o.buffer.length := by omega
      have hp := h264_compose_prefix_ok o limit pfx u.length (by omega)
        (by split at hfit <;> omega)
      have c1 : ¬ limit ≤ o.index + (prefix_bytes pfx u.length).length + u.length := by
        split at hfit <;> omega
      have e1 : (o.put (prefix_bytes pfx u.length)).put u
          = o.emit (prefix_bytes pfx u.length ++ u) 0 := by
        rw [put_put _ _ hi]; rfl
      rw [h264_compose_aggregation_loop]
      simp only [hc, and_self, not_true_eq_false, if_false, haulen, hp, hread, htype, Bool.not_true,
        Bool.false_eq_true, put_index, c1, Nat.not_lt]
      rw [e1]
      have hidx : (o.emit (prefix_bytes pfx u.length ++ u) 0).index
          = o.index + ((prefix_bytes pfx u.length).length + u.length) := by
        simp [out_t.emit]
      have hbl : (o.emit (prefix_bytes pfx u.length ++ u) 0).buffer.length = o.buffer.length := by
        show (memWrite _ _ _).length = _
        rw [memWrite_length (by simp; split at hfit <;> omega)]
      by_cases h8 : nal_unit_type (byteAt u 0) = 8
      · rw [if_pos h8] at hfit
        simp only [h8, if_true]
        rw [h264_compose_timestamp_sei_nalu_ok real_time _ limit pfx (by rw [hidx]; omega)
          (by rw [hbl]; exact hcap)]
        simp only [Bool.not_true, Bool.false_eq_true, if_false]
        rw [emit_emit _ _ _ _ hi]
        rw [ih f (aulenptr + 2 + u.length) _ (fun v hv => hus v (List.mem_cons_of_mem _ hv))
          hnext (by omega) (by simpa using hfuel)
          (by
            show o.index + _ + _ < limit
            simp only [List.length_append, sei_nalu_length]
            show _ + (stap_output pfx real_time (o.ticks + (0 + 1)) rest).length < limit
            rw [Nat.zero_add]
            omega)
          (by show (memWrite _ _ _).length ≥ limit
              rw [memWrite_length (by simp [sei_nalu_length]; omega)]; exact hcap)]
        rw [emit_emit _ _ _ _ hi]
        have ht0 : (o.emit (prefix_bytes pfx u.length ++ u) 0).ticks = o.ticks := by
          simp [out_t.emit]
        have hc8 : stap_pps_count (u :: rest) = 0 + 1 + stap_pps_count rest := by
          simp [stap_pps_count, List.filter_cons, h8]; omega
        have ho8 : stap_output pfx real_time o.ticks (u :: rest)
            = prefix_bytes pfx u.length ++ u ++ (prefix_bytes pfx 28
                ++ sei_nalu (real_time o.ticks)) ++ stap_output pfx real_time (o.ticks + 1) rest := by
          rw [stap_output, if_pos h8]; simp
        rw [hc8, ho8, ht0]
        rfl
      · rw [if_neg h8] at hfit
        simp only [h8, if_false]
        rw [ih f (aulenptr + 2 + u.length) _ (fun v hv => hus v (List.mem_cons_of_mem _ hv))
          hnext (by omega) (by simpa using hfuel)
          (by rw [hidx]; show _ + (stap_output pfx real_time (o.ticks + 0) rest).length < limit
              rw [Nat.add_zero]; omega)
          (by rw [hbl]; exact hcap)]
        rw [emit_emit _ _ _ _ hi]
        have ht0 : (o.emit (prefix_bytes pfx u.length ++ u) 0).ticks = o.ticks := by
          simp [out_t.emit]
        have hc8 : stap_pps_count (u :: rest) = 0 + stap_pps_count rest := by
          simp [stap_pps_count, List.filter_cons, h8]
        have ho8 : stap_output pfx real_time o.ticks (u :: rest)
            = prefix_bytes pfx u.length ++ u ++ stap_output pfx real_time o.ticks rest := by
          rw [stap_output, if_neg h8]
        rw [hc8, ho8, ht0]

theorem stap_encode_cons (u : List Nat) (us : List (List Nat)) :
    stap_encode (u :: us) = [u.length / 256 % 256, u.length % 256] ++ u ++ stap_encode us := by
  simp [stap_encode]

theorem h264_compose_aggregation_unit_ok (real_time : Nat → Nat) (o : out_t) (limit : Nat)
    (pfx : prefix_t) (hdr : Nat) (us : List (List Nat)) (tail : List Nat)
    (hus : ∀ u ∈ us, 2 ≤ u.length ∧ u.length < 65536)
    (hfit : o.index + (stap_output pfx real_time o.ticks us).length < limit)
    (hcap : limit ≤ o.buffer.length) :
    h264_compose_aggregation_unit real_time o limit pfx (hdr :: stap_encode us ++ tail)
        (hdr :: stap_encode us).length
      = (true, o.emit (stap_output pfx real_time o.ticks us) (stap_pps_count us)) := by
  unfold h264_compose_aggregation_unit
  apply h264_compose_aggregation_loop_ok real_time limit pfx _ _ us tail _ 1 o hus
  · simp
  · simp; omega
  · have : ∀ (l : List (List Nat)), (∀ u ∈ l, 2 ≤ u.length ∧ u.length < 65536) →
        l.length ≤ (stap_encode l).length := by
      intro l
      induction l with
      | nil => simp
      | cons a l ih =>
        intro h
        have := ih (fun v hv => h v (List.mem_cons_of_mem _ hv))
        rw [stap_encode_cons]
        simp
        omega
    have := this us hus
    simp
    omega
  · exact hfit
  · exact hcap

/-! ## Bits of a byte region -/

theorem byteAt_modify (bs : List Nat) (f : Nat → Nat) (n i : Nat) :
    byteAt (bs.modify f n) i
      = if n = i ∧ i < bs.length then f (bs.getD i 0) % 256 else byteAt bs i := by
  unfold byteAt
  rw [List.getD_eq_getElem?_getD, List.getD_eq_getElem?_getD, List.getElem?_modify]
  by_cases hn : n = i
  · subst hn
    by_cases hl : n < bs.length
    · simp [hl, List.getElem?_eq_getElem hl]
    · simp [hl, List.getElem?_eq_none (Nat.le_of_not_lt hl)]
  · simp [hn]

theorem bit_or_same (b k : Nat) (hk : k < 8) : (b ||| 2 ^ k) % 256 / 2 ^ k % 2 = 1 := by
  have h := Nat.toNat_testBit ((b ||| 2 ^ k) % 256) k
  rw [← h, show (256 : Nat) = 2 ^ 8 from rfl, Nat.testBit_mod_two_pow, Nat.testBit_or,
    Nat.testBit_two_pow_self]
  simp [hk]

theorem bit_or_other (b k j : Nat) (hjk : j ≠ k) :
    (b ||| 2 ^ k) % 256 / 2 ^ j % 2 = b % 256 / 2 ^ j % 2 := by
  rw [← Nat.toNat_testBit ((b ||| 2 ^ k) % 256) j, ← Nat.toNat_testBit (b % 256) j,
    show (256 : Nat) = 2 ^ 8 from rfl, Nat.testBit_mod_two_pow, Nat.testBit_mod_two_pow,
    Nat.testBit_or, Nat.testBit_two_pow]
  have : decide (k = j) = false := by simp; omega
  simp [this]

theorem h264_get_bit_set_bit_same (bs : List Nat) (off : Nat) (h : off < 8 * bs.length) :
    h264_get_bit (h264_set_bit bs off) off = 1 := by
  unfold h264_get_bit h264_set_bit
  rw [byteAt_modify, if_pos ⟨rfl, by omega⟩]
  exact bit_or_same _ _ (by omega)

theorem h264_get_bit_set_bit_other (bs : List Nat) (off j : Nat) (hj : j ≠ off) :
    h264_get_bit (h264_set_bit bs off) j = h264_get_bit bs j := by
  unfold h264_get_bit h264_set_bit
  rw [byteAt_modify]
  by_cases hc : off / 8 = j / 8 ∧ j / 8 < bs.length
  · rw [if_pos hc]
    have : byteAt bs (j / 8) = bs.getD (j / 8) 0 % 256 := rfl
    rw [this]
    exact bit_or_other _ _ _ (by omega)
  · rw [if_neg hc]

theorem h264_decode_sps_flag (nalu : List Nat) (s : h264_context_t × Nat) :
    (h264_decode_sps_tail nalu s).1.gaps_in_frame_num_value_allowed_flag
      = toBool (h264_get_bit nalu s.2) := by
  have h : (h264_decode_sps_tail nalu s).1.gaps_in_frame_num_value_allowed_flag
      = toBool (h264_get_bits nalu s.2 1).1 := rfl
  rw [h]
  have : (h264_get_bits nalu s.2 1).1 = h264_get_bit nalu s.2 % 2 ^ 32 := by
    simp [h264_get_bits, h264_get_bits_loop]
  rw [this]
  have hb : h264_get_bit nalu s.2 < 2 := by unfold h264_get_bit; omega
  rw [Nat.mod_eq_of_lt (by omega)]

/-! ## The comparison of sequence numbers -/

theorem packet_compare_sequence_eq (lpkt rpkt : packet_t) :
    packet_compare_sequence lpkt rpkt
      = if ((lpkt.sequence : Int) - (rpkt.sequence : Int)).natAbs ≤ 32767
        then (lpkt.sequence : Int) - (rpkt.sequence : Int)
        else -((lpkt.sequence : Int) - (rpkt.sequence : Int)) := by
  unfold packet_compare_sequence
  by_cases h : ((lpkt.sequence : Int) - (rpkt.sequence : Int)).natAbs ≤ 32767
  · have h1 : ¬ ((lpkt.sequence : Int) - (rpkt.sequence : Int)).natAbs > 32767 := by omega
    simp only [h, h1, if_true, if_false]
    omega
  · have h1 : ((lpkt.sequence : Int) - (rpkt.sequence : Int)).natAbs > 32767 := by omega
    simp only [h, h1, if_true, if_false]
    omega

/-! ## Adjacent order after `g_queue_sort` -/

section MergeChain
variable {α : Type} (cmp : α → α → Int)

theorem g_list_sort_merge_chain (htot : ∀ a b, ¬ cmp a b ≤ 0 → cmp b a ≤ 0) (x : α)
    (l1 l2 : List α) (h1 : List.Chain (fun a b => cmp a b ≤ 0) x l1)
    (h2 : List.Chain (fun a b => cmp a b ≤ 0) x l2) :
    List.Chain (fun a b => cmp a b ≤ 0) x (g_list_sort_merge cmp l1 l2) := by
  induction l1 generalizing l2 x with
  | nil => simpa [g_list_sort_merge] using h2
  | cons a l1 ih1 =>
    induction l2 generalizing x with
    | nil => simpa [g_list_sort_merge_nil_right] using h1
    | cons b l2 ih2 =>
      rw [g_list_sort_merge_cons_cons]
      rw [List.chain_cons] at h1 h2
      by_cases hab : cmp a b ≤ 0
      · rw [if_pos hab]
        exact List.Chain.cons h1.1 (ih1 a (b :: l2) h1.2 (List.Chain.cons hab h2.2))
      · rw [if_neg hab]
        exact List.Chain.cons h2.1 (ih2 b (List.Chain.cons (htot a b hab) h1.2) h2.2)

theorem g_list_sort_merge_chain' (htot : ∀ a b, ¬ cmp a b ≤ 0 → cmp b a ≤ 0)
    (l1 l2 : List α) (h1 : List.Chain' (fun a b => cmp a b ≤ 0) l1)
    (h2 : List.Chain' (fun a b => cmp a b ≤ 0) l2) :
    List.Chain' (fun a b => cmp a b ≤ 0) (g_list_sort_merge cmp l1 l2) := by
  cases l1 with
  | nil => simpa [g_list_sort_merge] using h2
  | cons a l1 =>
    cases l2 with
    | nil => simpa [g_list_sort_merge_nil_right] using h1
    | cons b l2 =>
      rw [g_list_sort_merge_cons_cons]
      by_cases hab : cmp a b ≤ 0
      · rw [if_pos hab]
        exact g_list_sort_merge_chain cmp htot a l1 (b :: l2) h1 (List.Chain.cons hab h2)
      · rw [if_neg hab]
        exact g_list_sort_merge_chain cmp htot b (a :: l1) l2
          (List.Chain.cons (htot a b hab) h1) h2

theorem g_list_sort_real_chain' (htot : ∀ a b, ¬ cmp a b ≤ 0 → cmp b a ≤ 0) (fuel : Nat)
    (l : List α) (hfuel : l.length ≤ fuel) :
    List.Chain' (fun a b => cmp a b ≤ 0) (g_list_sort_real cmp fuel l) := by
  induction fuel generalizing l with
  | zero =>
    have : l = [] := List.eq_nil_of_length_eq_zero (by omega)
    subst this; simp [g_list_sort_real]
  | succ fuel ih =>
    rw [g_list_sort_real]
    split
    · rename_i hlt
      match l, hlt with
      | [], _ => simp
      | [a], _ => simp
      | _ :: _ :: _, h => exact absurd h (by simp)
    · rename_i hge
      have hlen : 2 ≤ l.length := by omega
      exact g_list_sort_merge_chain' cmp htot _ _ (ih _ (by simp; omega))
        (ih _ (by simp; omega))

theorem g_queue_sort_chain' (htot : ∀ a b, ¬ cmp a b ≤ 0 → cmp b a ≤ 0) (q : List α) :
    List.Chain' (fun a b => cmp a b ≤ 0) (g_queue_sort q cmp) :=
  g_list_sort_real_chain' cmp htot q.length q (Nat.le_refl _)

end MergeChain

theorem packet_compare_sequence_total (a b : packet_t)
    (h : ¬ packet_compare_sequence a b ≤ 0) : packet_compare_sequence b a ≤ 0 := by
  rw [packet_compare_sequence_eq] at h ⊢
  split at h <;> split <;> omega

theorem frame_order_packets_chain' (q : List packet_t) :
    List.Chain' (fun a b => packet_compare_sequence a b ≤ 0) (frame_order_packets q) :=
  g_queue_sort_chain' packet_compare_sequence packet_compare_sequence_total q

/-! ## The completeness scan -/

theorem frame_foreach_packet_stay (v : Nat) (p : packet_t) (hv : v ≠ 0)
    (hp : p.sequence ≠ v + 1) : frame_foreach_packet v p = v := by
  unfold frame_foreach_packet
  rw [if_neg]
  intro h
  rcases h with h | h
  · omega
  · exact hv h

theorem frame_foreach_packet_next (v : Nat) (p : packet_t) (hp : p.sequence = v + 1) :
    frame_foreach_packet v p = v + 1 := by
  unfold frame_foreach_packet
  rw [if_pos (Or.inl (by omega)), hp]

theorem frame_foreach_packet_moved (v : Nat) (hv : v ≠ 0) (ps : List packet_t)
    (h : ps.foldl frame_foreach_packet v ≠ v) : ∃ p ∈ ps, p.sequence = v + 1 := by
  induction ps with
  | nil => exact absurd rfl h
  | cons x ps ih =>
    by_cases hx : x.sequence = v + 1
    · exact ⟨x, List.mem_cons_self _ _, hx⟩
    · rw [List.foldl_cons, frame_foreach_packet_stay v x hv hx] at h
      obtain ⟨p, hp, hps⟩ := ih h
      exact ⟨p, List.mem_cons_of_mem _ hp, hps⟩

theorem frame_foreach_packet_contiguous (base : Nat) (h : packet_t) (ps : List packet_t)
    (hh : h.sequence ≠ 0)
    (hs : (h :: ps).Pairwise (fun a b => seq_offset base a < seq_offset base b))
    (hscan : ((h :: ps).getLast (List.cons_ne_nil _ _)).sequence
      = ps.foldl frame_foreach_packet h.sequence) :
    (h :: ps).map packet_t.sequence = List.range' h.sequence (ps.length + 1) := by
  induction ps generalizing h with
  | nil => simp [List.range']
  | cons x ps ih =>
    rw [List.pairwise_cons] at hs
    have hlast : (h :: x :: ps).getLast (List.cons_ne_nil _ _)
        = (x :: ps).getLast (List.cons_ne_nil _ _) := List.getLast_cons (List.cons_ne_nil _ _)
    rw [hlast, List.foldl_cons] at hscan
    by_cases hx : x.sequence = h.sequence + 1
    · rw [frame_foreach_packet_next _ _ hx, ← hx] at hscan
      have := ih x (by omega) hs.2 hscan
      rw [List.map_cons, this, hx]
      rfl
    · exfalso
      rw [frame_foreach_packet_stay _ _ hh hx] at hscan
      have hmem : (x :: ps).getLast (List.cons_ne_nil _ _) ∈ x :: ps := List.getLast_mem _
      have hlt := hs.1 _ hmem
      by_cases hmv : ps.foldl frame_foreach_packet h.sequence = h.sequence
      · rw [hmv] at hscan
        unfold seq_offset at hlt
        omega
      · obtain ⟨p, hp, hps⟩ := frame_foreach_packet_moved _ hh ps hmv
        have h1 := hs.1 x (List.mem_cons_self _ _)
        have h2 := (List.pairwise_cons.1 hs.2).1 p hp
        have := sequence_lt p
        unfold seq_offset at h1 h2
        omega

theorem frame_check_completeness_scan (frame : frame_t) (h x : packet_t) (ps : List packet_t)
    (hp : frame.packets = h :: x :: ps) (hc : frame_check_completeness frame = true) :
    ((h :: x :: ps).getLast (List.cons_ne_nil _ _)).sequence
      = (x :: ps).foldl frame_foreach_packet h.sequence := by
  unfold frame_check_completeness at hc
  cases hfmt : format_get_reassembly_context frame.codec with
  | none => simp [hfmt] at hc
  | some format =>
    have hl : (h :: x :: ps).getLast? = some ((h :: x :: ps).getLast (List.cons_ne_nil _ _)) :=
      List.getLast?_eq_getLast _ _
    simp only [hfmt, hp, List.head?_cons, hl] at hc
    split at hc
    · simp at hc
    · split at hc
      · simp at hc
      · rw [if_neg (by simp)] at hc
        have := of_decide_eq_true hc
        rw [this, List.foldl_cons]
        congr 1
        simp [frame_foreach_packet]

theorem frame_reassemble_unitcount (real_time : Nat → Nat) (frame : frame_t) (media : media_t)
    (completed : Bool) (context : h264_context_t)
    (h : (frame_reassemble real_time frame media completed context).1 = true)
    (hsz : ∀ p ∈ frame.packets, p.size ≠ 0) :
    (frame_reassemble real_time frame media completed context).2.1.unitcount
      = frame.unitcount + frame.packets.length := by
  cases hfmt : format_get_reassembly_context frame.codec with
  | none =>
    unfold frame_reassemble at h
    by_cases hml : 0 < media.length
    · simp [hml, hfmt] at h
    · simp [hml] at h
  | some format =>
    obtain ⟨hml, hnone⟩ := frame_reassemble_left real_time frame media completed context format
      hfmt hsz h
    have hseq := frame_reassemble_loop_seq real_time format media.length media.pfx completed
      frame.packets (out_t.init media.buffer) frame.unitcount media.head_seq media.tail_seq
      context hnone
    rcases hl : frame_reassemble_loop real_time format media.length media.pfx completed
      frame.packets (out_t.init media.buffer) frame.unitcount media.head_seq media.tail_seq
      context with ⟨r, pk, o, u, hs, t, c⟩
    rw [hl] at hseq hnone
    simp only [] at hnone
    subst hnone
    rw [frame_reassemble_ok real_time frame media completed context c format pk o u hs t hml
      hfmt hl]
    exact hseq.1

/-! ## Reassembly does not read the context -/

theorem h264_read_bits_snd_eq (nalu : List Nat) (count : Nat)
    (a1 a2 : h264_context_t → Nat → h264_context_t) (s1 s2 : h264_context_t × Nat)
    (h : s1.2 = s2.2) :
    (h264_read_bits nalu count a1 s1).2 = (h264_read_bits nalu count a2 s2).2 := by
  show (h264_get_bits nalu s1.2 count).2 = (h264_get_bits nalu s2.2 count).2
  rw [h]

theorem h264_read_ue_snd_eq (nalu : List Nat)
    (a1 a2 : h264_context_t → Nat → h264_context_t) (s1 s2 : h264_context_t × Nat)
    (h : s1.2 = s2.2) : (h264_read_ue nalu a1 s1).2 = (h264_read_ue nalu a2 s2).2 := by
  show (h264_decode_uexpgolomb nalu s1.2).2 = (h264_decode_uexpgolomb nalu s2.2).2
  rw [h]

theorem h264_read_se_snd_eq (nalu : List Nat)
    (a1 a2 : h264_context_t → Nat → h264_context_t) (s1 s2 : h264_context_t × Nat)
    (h : s1.2 = s2.2) : (h264_read_se nalu a1 s1).2 = (h264_read_se nalu a2 s2).2 := by
  show (h264_decode_sexpgolomb nalu s1.2).2 = (h264_decode_sexpgolomb nalu s2.2).2
  rw [h]

theorem h264_decode_sps_id_snd_eq (nalu : List Nat) (s1 s2 : h264_context_t × Nat)
    (h : s1.2 = s2.2) (hp : s1.1.profile_idc = s2.1.profile_idc) :
    (h264_decode_sps_id nalu s1).2 = (h264_decode_sps_id nalu s2).2 := by
  unfold h264_decode_sps_id
  rw [hp]
  by_cases hs : h264_sps_skips_id s2.1.profile_idc = true
  · rw [if_pos hs, if_pos hs]; exact h
  · rw [if_neg hs, if_neg hs]; exact h264_read_ue_snd_eq _ _ _ _ _ h

theorem h264_skip_cycle_eq (nalu : List Nat) (t1 t2 : h264_context_t × Nat)
    (e : t1.2 = t2.2) :
    h264_skip_sexpgolomb nalu
      (h264_read_ue nalu (fun c v => { c with num_ref_frames_in_pic_order_cnt_cycle := toI8 v })
        t1).1.num_ref_frames_in_pic_order_cnt_cycle.toNat
      (h264_read_ue nalu (fun c v => { c with num_ref_frames_in_pic_order_cnt_cycle := toI8 v })
        t1).2
    = h264_skip_sexpgolomb nalu
      (h264_read_ue nalu (fun c v => { c with num_ref_frames_in_pic_order_cnt_cycle := toI8 v })
        t2).1.num_ref_frames_in_pic_order_cnt_cycle.toNat
      (h264_read_ue nalu (fun c v => { c with num_ref_frames_in_pic_order_cnt_cycle := toI8 v })
        t2).2 := by
  have k : ∀ t : h264_context_t × Nat,
      h264_skip_sexpgolomb nalu
        (h264_read_ue nalu
          (fun c v => { c with num_ref_frames_in_pic_order_cnt_cycle := toI8 v })
          t).1.num_ref_frames_in_pic_order_cnt_cycle.toNat
        (h264_read_ue nalu
          (fun c v => { c with num_ref_frames_in_pic_order_cnt_cycle := toI8 v }) t).2
      = h264_skip_sexpgolomb nalu (toI8 (h264_decode_uexpgolomb nalu t.2).1).toNat
          (h264_decode_uexpgolomb nalu t.2).2 := fun _ => rfl
  rw [k t1, k t2, e]

theorem h264_decode_sps_poc_snd_eq (nalu : List Nat) (s1 s2 : h264_context_t × Nat)
    (h : s1.2 = s2.2) (hp : s1.1.pic_order_cnt_type = s2.1.pic_order_cnt_type) :
    (h264_decode_sps_poc nalu s1).2 = (h264_decode_sps_poc nalu s2).2 := by
  unfold h264_decode_sps_poc
  rw [hp]
  by_cases hs : s2.1.pic_order_cnt_type = 0
  · rw [if_pos hs, if_pos hs]; exact h264_read_ue_snd_eq _ _ _ _ _ h
  · rw [if_neg hs, if_neg hs]
    have e : (h264_read_se nalu (fun c v => { c with offset_for_top_to_bottom_field := toI8 v })
        (h264_read_se nalu (fun c v => { c with offset_for_non_ref_pic := toI8 v })
          (h264_read_bits nalu 1
            (fun c v => { c with delta_pic_order_always_zero_flag := toBool v }) s1))).2
        = (h264_read_se nalu (fun c v => { c with offset_for_top_to_bottom_field := toI8 v })
        (h264_read_se nalu (fun c v => { c with offset_for_non_ref_pic := toI8 v })
          (h264_read_bits nalu 1
            (fun c v => { c with delta_pic_order_always_zero_flag := toBool v }) s2))).2 :=
      h264_read_se_snd_eq _ _ _ _ _ (h264_read_se_snd_eq _ _ _ _ _
        (h264_read_bits_snd_eq _ _ _ _ _ _ h))
    revert e
    generalize h264_read_se nalu (fun c v => { c with offset_for_top_to_bottom_field := toI8 v })
        (h264_read_se nalu (fun c v => { c with offset_for_non_ref_pic := toI8 v })
          (h264_read_bits nalu 1
            (fun c v => { c with delta_pic_order_always_zero_flag := toBool v }) s1)) = t1
    generalize h264_read_se nalu (fun c v => { c with offset_for_top_to_bottom_field := toI8 v })
        (h264_read_se nalu (fun c v => { c with offset_for_non_ref_pic := toI8 v })
          (h264_read_bits nalu 1
            (fun c v => { c with delta_pic_order_always_zero_flag := toBool v }) s2)) = t2
    intro e
    exact h264_skip_cycle_eq nalu t1 t2 e

theorem h264_read_ue_poc_type_eq (nalu : List Nat) (s1 s2 : h264_context_t × Nat)
    (h : s1.2 = s2.2) :
    (h264_read_ue nalu (fun c v => { c with pic_order_cnt_type := toU8 v })
      s1).1.pic_order_cnt_type
    = (h264_read_ue nalu (fun c v => { c with pic_order_cnt_type := toU8 v })
      s2).1.pic_order_cnt_type := by
  show toU8 (h264_decode_uexpgolomb nalu s1.2).1 = toU8 (h264_decode_uexpgolomb nalu s2.2).1
  rw [h]

theorem h264_decode_sps_head_snd_eq (nalu : List Nat) (c1 c2 : h264_context_t) :
    (h264_decode_sps_head nalu c1).2 = (h264_decode_sps_head nalu c2).2 := by
  have hA : ∀ c : h264_context_t,
      (h264_read_bits nalu 5 (fun c v => { c with nal_unit_type := toU8 v })
        (h264_read_bits nalu 2 (fun c v => { c with nal_ref_idc := toU8 v })
          (h264_read_bits nalu 1 (fun c v => { c with forbidden_zero_bit := toU8 v })
            (c, 0)))).2 = 8 := by
    intro c
    rfl
  unfold h264_decode_sps_head
  refine h264_read_ue_snd_eq _ _ _ _ _ (h264_decode_sps_poc_snd_eq _ _ _
    (h264_read_ue_snd_eq _ _ _ _ _ ?hY) (h264_read_ue_poc_type_eq _ _ _ ?hY))
  refine h264_read_ue_snd_eq _ _ _ _ _ (h264_decode_sps_id_snd_eq _ _ _ ?_ ?_)
  · refine h264_read_bits_snd_eq _ _ _ _ _ _ (h264_read_bits_snd_eq _ _ _ _ _ _
      (h264_read_bits_snd_eq _ _ _ _ _ _ (h264_read_bits_snd_eq _ _ _ _ _ _
        (h264_read_bits_snd_eq _ _ _ _ _ _ (h264_read_bits_snd_eq _ _ _ _ _ _
          (h264_read_bits_snd_eq _ _ _ _ _ _ ?_))))))
    rw [hA c1, hA c2]
  · show toU8 (h264_get_bits nalu _ 8).1 = toU8 (h264_get_bits nalu _ 8).1
    rw [hA c1, hA c2]

theorem h264_decode_sps_context_free (nalu : List Nat) (length : Nat)
    (c1 c2 : h264_context_t) :
    (h264_decode_sps nalu length c1).1 = (h264_decode_sps nalu length c2).1 ∧
    (h264_decode_sps nalu length c1).2.1 = (h264_decode_sps nalu length c2).2.1 := by
  by_cases hl : 0 < length
  · have e : ∀ c, h264_decode_sps nalu length c
        = (true, h264_set_bit nalu (h264_decode_sps_head nalu c).2,
            (h264_decode_sps_tail (h264_set_bit nalu (h264_decode_sps_head nalu c).2)
              (h264_decode_sps_head nalu c)).1) := by
      intro c
      simp [h264_decode_sps, hl]
    rw [e c1, e c2, h264_decode_sps_head_snd_eq nalu c1 c2]
    exact ⟨rfl, rfl⟩
  · have e : ∀ c, h264_decode_sps nalu length c = (false, nalu, c) := by
      intro c
      simp [h264_decode_sps, hl]
    rw [e c1, e c2]
    exact ⟨rfl, rfl⟩

theorem h264_decode_slice_header_context_free (nalu : List Nat) (length : Nat)
    (c1 c2 : h264_context_t) :
    (h264_decode_slice_header nalu length c1).1 = (h264_decode_slice_header nalu length c2).1 := by
  unfold h264_decode_slice_header
  by_cases hl : ¬ 0 < length
  · rw [if_pos hl, if_pos hl]
  · rw [if_neg hl, if_neg hl]

theorem h264_parse_context_context_free (start : Nat) (payload : List Nat) (o : out_t)
    (c1 c2 : h264_context_t) :
    (h264_parse_context start payload o c1).1 = (h264_parse_context start payload o c2).1 ∧
    (h264_parse_context start payload o c1).2.1 = (h264_parse_context start payload o c2).2.1 := by
  by_cases hf : h264_is_first_nalu payload o.length = true
  · by_cases h15 : nal_unit_type (byteAt o.buffer start) = 1 ∨
        nal_unit_type (byteAt o.buffer start) = 5
    · have e : ∀ c, h264_parse_context start payload o c
          = ((h264_decode_slice_header (o.buffer.drop start) o.length c).1, o,
             (h264_decode_slice_header (o.buffer.drop start) o.length c).2) := by
        intro c
        simp [h264_parse_context, hf, h15]
      rw [e c1, e c2]
      exact ⟨h264_decode_slice_header_context_free _ _ _ _, rfl⟩
    · by_cases h7 : nal_unit_type (byteAt o.buffer start) = 7
      · have e : ∀ c, h264_parse_context start payload o c
            = ((h264_decode_sps (o.buffer.drop start) o.length c).1,
               { o with buffer := o.buffer.take start
                   ++ (h264_decode_sps (o.buffer.drop start) o.length c).2.1 },
               (h264_decode_sps (o.buffer.drop start) o.length c).2.2) := by
          intro c
          simp [h264_parse_context, hf, h15, h7]
        obtain ⟨k1, k2⟩ := h264_decode_sps_context_free (o.buffer.drop start) o.length c1 c2
        rw [e c1, e c2]
        exact ⟨k1, by simp only [k2]⟩
      · have e : ∀ c, h264_parse_context start payload o c = (true, o, c) := by
          intro c
          simp [h264_parse_context, hf, h15, h7]
        rw [e c1, e c2]
        exact ⟨rfl, rfl⟩
  · have e : ∀ c, h264_parse_context start payload o c = (true, o, c) := by
      intro c
      simp [h264_parse_context, hf]
    rw [e c1, e c2]
    exact ⟨rfl, rfl⟩

theorem h264_reassemble_frame_context_free (real_time : Nat → Nat) (o : out_t) (limit : Nat)
    (pfx : prefix_t) (payload : List Nat) (size : Nat) (completed : Bool)
    (c1 c2 : h264_context_t) :
    (h264_reassemble_frame real_time o limit pfx payload size completed c1).1
      = (h264_reassemble_frame real_time o limit pfx payload size completed c2).1 ∧
    (h264_reassemble_frame real_time o limit pfx payload size completed c1).2.1
      = (h264_reassemble_frame real_time o limit pfx payload size completed c2).2.1 := by
  unfold h264_reassemble_frame
  by_cases hs : 1 < size
  · simp only [hs, not_true_eq_false, if_false]
    rcases hc : h264_compose_payload real_time o limit pfx payload size completed with ⟨r, o1⟩
    cases r
    · simp
    · simp only [Bool.not_true, Bool.false_eq_true, if_false]
      exact h264_parse_context_context_free _ _ _ _ _
  · simp [hs]

theorem format_reassemble_context_free (codec : codec_t) (format : format_t)
    (hfmt : format_get_reassembly_context codec = some format)
    (real_time : Nat → Nat) (o : out_t) (limit : Nat)
    (pfx : prefix_t) (payload : List Nat) (size : Nat) (completed : Bool)
    (c1 c2 : h264_context_t) :
    (format.reassemble real_time o limit pfx payload size completed c1).1
      = (format.reassemble real_time o limit pfx payload size completed c2).1 ∧
    (format.reassemble real_time o limit pfx payload size completed c1).2.1
      = (format.reassemble real_time o limit pfx payload size completed c2).2.1 := by
  cases codec with
  | CODEC_NONE => simp [format_get_reassembly_context] at hfmt
  | CODEC_H264 =>
    have : format = h264_format := by
      simp [format_get_reassembly_context] at hfmt; exact hfmt.symm
    subst this
    exact h264_reassemble_frame_context_free _ _ _ _ _ _ _ _ _
  | CODEC_OPUS =>
    have : format = opus_format := by
      simp [format_get_reassembly_context] at hfmt; exact hfmt.symm
    subst this
    show (opus_reassemble_frame real_time o limit pfx payload size completed c1).1
        = (opus_reassemble_frame real_time o limit pfx payload size completed c2).1 ∧
      (opus_reassemble_frame real_time o limit pfx payload size completed c1).2.1
        = (opus_reassemble_frame real_time o limit pfx payload size completed c2).2.1
    unfold opus_reassemble_frame
    split
    · exact ⟨rfl, rfl⟩
    · split <;> exact ⟨rfl, rfl⟩

theorem frame_reassemble_loop_cons_fail (real_time : Nat → Nat) (format : format_t)
    (limit : Nat) (pfx : prefix_t) (completed : Bool) (packet : packet_t)
    (rest : List packet_t) (o o1 : out_t) (unitcount head_seq tail_seq : Nat)
    (context context1 : h264_context_t) (hs : packet.size ≠ 0)
    (hre : format.reassemble real_time o limit pfx (packet_get_payload packet).2.1 packet.size
      completed context = (false, o1, context1)) :
    frame_reassemble_loop real_time format limit pfx completed (packet :: rest) o unitcount
        head_seq tail_seq context
      = (some false, rest, o1, unitcount,
          (if unitcount = 0 then packet.sequence else head_seq), tail_seq, context1) := by
  have hs1 : (packet_get_payload packet).2.2 ≠ 0 := hs
  have hre1 : format.reassemble real_time o limit pfx (packet_get_payload packet).2.1
      (packet_get_payload packet).2.2 completed context = (false, o1, context1) := hre
  have hg : (packet_get_payload packet).1 = true := rfl
  rw [frame_reassemble_loop]
  simp [hs1, hre1, hg]

theorem frame_reassemble_loop_cons_empty (real_time : Nat → Nat) (format : format_t)
    (limit : Nat) (pfx : prefix_t) (completed : Bool) (packet : packet_t)
    (rest : List packet_t) (o : out_t) (unitcount head_seq tail_seq : Nat)
    (context : h264_context_t) (hs : packet.size = 0) :
    frame_reassemble_loop real_time format limit pfx completed (packet :: rest) o unitcount
        head_seq tail_seq context
      = (some true, rest, o, unitcount, head_seq, tail_seq, context) := by
  have hs1 : (packet_get_payload packet).2.2 = 0 := hs
  have hg : (packet_get_payload packet).1 = true := rfl
  rw [frame_reassemble_loop]
  simp [hs1, hg]

theorem frame_reassemble_loop_context_free (codec : codec_t) (format : format_t)
    (hfmt : format_get_reassembly_context codec = some format)
    (real_time : Nat → Nat) (limit : Nat) (pfx : prefix_t) (completed : Bool)
    (ps : List packet_t) (o : out_t) (u1 u2 h1 h2 t1 t2 : Nat) (c1 c2 : h264_context_t) :
    (frame_reassemble_loop real_time format limit pfx completed ps o u1 h1 t1 c1).1
      = (frame_reassemble_loop real_time format limit pfx completed ps o u2 h2 t2 c2).1 ∧
    (frame_reassemble_loop real_time format limit pfx completed ps o u1 h1 t1 c1).2.2.1
      = (frame_reassemble_loop real_time format limit pfx completed ps o u2 h2 t2 c2).2.2.1 := by
  induction ps generalizing o u1 u2 h1 h2 t1 t2 c1 c2 with
  | nil => simp [frame_reassemble_loop]
  | cons p ps ih =>
    by_cases hs : p.size = 0
    · rw [frame_reassemble_loop_cons_empty _ _ _ _ _ _ _ _ _ _ _ _ hs,
        frame_reassemble_loop_cons_empty _ _ _ _ _ _ _ _ _ _ _ _ hs]
      exact ⟨rfl, rfl⟩
    · obtain ⟨k1, k2⟩ := format_reassemble_context_free codec format hfmt real_time o limit pfx
        (packet_get_payload p).2.1 p.size completed c1 c2
      rcases e1 : format.reassemble real_time o limit pfx (packet_get_payload p).2.1
        p.size completed c1 with ⟨r1, o1, d1⟩
      rcases e2 : format.reassemble real_time o limit pfx (packet_get_payload p).2.1
        p.size completed c2 with ⟨r2, o2, d2⟩
      rw [e1, e2] at k1 k2
      simp only [] at k1 k2
      subst k1 k2
      cases r1
      · rw [frame_reassemble_loop_cons_fail _ _ _ _ _ _ _ _ _ _ _ _ _ _ hs e1,
          frame_reassemble_loop_cons_fail _ _ _ _ _ _ _ _ _ _ _ _ _ _ hs e2]
        exact ⟨rfl, rfl⟩
      · rw [frame_reassemble_loop_cons _ _ _ _ _ _ _ _ _ _ _ _ _ _ hs e1,
          frame_reassemble_loop_cons _ _ _ _ _ _ _ _ _ _ _ _ _ _ hs e2]
        exact ih _ _ _ _ _ _ _ _ _

theorem frame_reassemble_output (real_time : Nat → Nat) (frame : frame_t) (media : media_t)
    (completed : Bool) (context : h264_context_t) (format : format_t)
    (hml : 0 < media.length) (hfmt : format_get_reassembly_context frame.codec = some format) :
    (frame_reassemble real_time frame media completed context).1
      = (frame_reassemble_loop real_time format media.length media.pfx completed frame.packets
          (out_t.init media.buffer) frame.unitcount media.head_seq media.tail_seq
          context).1.getD true ∧
    (frame_reassemble real_time frame media completed context).2.2.1.buffer
      = (frame_reassemble_loop real_time format media.length media.pfx completed frame.packets
          (out_t.init media.buffer) frame.unitcount media.head_seq media.tail_seq
          context).2.2.1.buffer ∧
    (frame_reassemble real_time frame media completed context).2.2.1.length
      = (frame_reassemble_loop real_time format media.length media.pfx completed frame.packets
          (out_t.init media.buffer) frame.unitcount media.head_seq media.tail_seq
          context).2.2.1.length := by
  unfold frame_reassemble
  simp only [hml, not_true_eq_false, if_false, hfmt]
  rcases frame_reassemble_loop real_time format media.length media.pfx completed
    frame.packets (out_t.init media.buffer) frame.unitcount media.head_seq media.tail_seq
    context with ⟨r, pk, o, u, hs, t, c⟩
  cases r <;> exact ⟨rfl, rfl, rfl⟩

theorem frame_reassemble_no_format (real_time : Nat → Nat) (frame : frame_t) (media : media_t)
    (completed : Bool) (context : h264_context_t)
    (hfmt : format_get_reassembly_context frame.codec = none) :
    (frame_reassemble real_time frame media completed context).1 = false ∧
    (frame_reassemble real_time frame media completed context).2.2.1.buffer = media.buffer ∧
    (frame_reassemble real_time frame media completed context).2.2.1.length
      = (if 0 < media.length then 0 else media.length) := by
  unfold frame_reassemble
  by_cases hml : 0 < media.length
  · simp only [hml, not_true_eq_false, if_false, hfmt, if_true]
    refine ⟨?_, ?_, ?_⟩ <;> trivial
  · simp only [hml, not_false_eq_true, if_true, if_false]
    refine ⟨?_, ?_, ?_⟩ <;> trivial

theorem frame_reassemble_no_room (real_time : Nat → Nat) (frame : frame_t) (media : media_t)
    (completed : Bool) (context : h264_context_t) (hml : ¬ 0 < media.length) :
    frame_reassemble real_time frame media completed context = (false, frame, media, context) := by
  unfold frame_reassemble
  simp only [hml, not_false_eq_true, if_true]

/-! ## Bounds of the output cursor, the completion queue -/

theorem below_refl (limit : Nat) (o : out_t) : o.below limit o := ⟨rfl, rfl⟩

theorem below_trans {limit : Nat} {a b c : out_t} (h1 : a.below limit b)
    (h2 : b.below limit c) : a.below limit c :=
  ⟨h2.1.trans h1.1, h2.2.trans h1.2⟩

theorem below_cap {limit : Nat} {o o1 : out_t} (h : o.below limit o1)
    (hcap : limit ≤ o.buffer.length) : limit ≤ o1.buffer.length := by
  rw [h.1]; exact hcap

theorem memWrite_keeps {limit L : Nat} {D buf : List Nat} {i : Nat} {bs : List Nat}
    (hcap : limit ≤ L) (hb : buf.length = L ∧ buf.drop limit = D)
    (h : i + bs.length < limit) :
    (memWrite buf i bs).length = L ∧ (memWrite buf i bs).drop limit = D := by
  obtain ⟨hl, hd⟩ := hb
  refine ⟨by rw [memWrite_length (by omega), hl], ?_⟩
  rw [← hd]
  unfold memWrite
  have h1 : (buf.take i ++ bs).length = i + bs.length := by
    rw [List.length_append, List.length_take]; omega
  rw [List.drop_append_eq_append_drop, List.drop_of_length_le (by omega), h1, List.nil_append,
    List.drop_drop]
  congr 1
  omega

theorem below_put {limit : Nat} {o : out_t} (bs : List Nat) (hcap : limit ≤ o.buffer.length)
    (h : o.index + bs.length < limit) : o.below limit (o.put bs) :=
  memWrite_keeps hcap ⟨rfl, rfl⟩ h

theorem h264_compose_prefix_below (o : out_t) (limit : Nat) (pfx : prefix_t) (n : Nat)
    (hcap : limit ≤ o.buffer.length) :
    o.below limit ( h264_compose_prefix o limit pfx n).2 := by
  unfold h264_compose_prefix h264_compose_start_code h264_compose_avcc_prefix
  cases pfx <;> dsimp only <;> split_ifs <;>
    first
    | exact below_refl _ _
    | exact below_put _ hcap (by simp only [be32, List.length_cons, List.length_nil]; omega)

theorem h264_compose_prefix_inside (o : out_t) (limit : Nat) (pfx : prefix_t) (n : Nat)
    (hin : o.inside limit) (hres : ( h264_compose_prefix o limit pfx n).1 = true) :
    ( h264_compose_prefix o limit pfx n).2.inside limit := by
  revert hres
  unfold h264_compose_prefix h264_compose_start_code h264_compose_avcc_prefix
  obtain ⟨h1, h2⟩ := hin
  cases pfx <;> dsimp only <;> split_ifs <;> intro hres <;>
    first
    | exact ⟨h1, h2⟩
    | (simp at hres; done)
    | (refine ⟨?_, ?_⟩ <;>
        simp only [out_t.put, be32, List.length_cons, List.length_nil] <;> omega)

theorem h264_compose_single_nalu_below (o : out_t) (limit : Nat) (pfx : prefix_t)
    (naluptr : List Nat) (nalulen : Nat) (hcap : limit ≤ o.buffer.length) :
    o.below limit (h264_compose_single_nalu o limit pfx naluptr nalulen).2 := by
  unfold h264_compose_single_nalu
  have hp := h264_compose_prefix_below o limit pfx nalulen hcap
  generalize ( h264_compose_prefix o limit pfx nalulen) = r at hp ⊢
  obtain ⟨res, o1⟩ := r
  have hcap1 := below_cap hp hcap
  dsimp only at hp hcap1 ⊢
  split_ifs with c1 c2 <;> dsimp only <;>
    first
    | exact hp
    | exact below_trans hp (below_put _ hcap1 (by rw [memRead_length]; omega))

theorem h264_compose_single_nalu_inside (o : out_t) (limit : Nat) (pfx : prefix_t)
    (naluptr : List Nat) (nalulen : Nat) (hin : o.inside limit)
    (hres : (h264_compose_single_nalu o limit pfx naluptr nalulen).1 = true) :
    (h264_compose_single_nalu o limit pfx naluptr nalulen).2.inside limit := by
  revert hres
  unfold h264_compose_single_nalu
  have hp := h264_compose_prefix_inside o limit pfx nalulen hin
  generalize ( h264_compose_prefix o limit pfx nalulen) = r at hp ⊢
  obtain ⟨res, o1⟩ := r
  dsimp only at hp ⊢
  split_ifs with c1 c2 <;> dsimp only <;> intro hres <;>
    first
    | (simp at hres; done)
    | (have hr : res = true := by simpa using c1
       obtain ⟨h1, h2⟩ := hp hr
       refine ⟨?_, ?_⟩ <;> simp only [out_t.put, memRead_length] <;> omega)

theorem h264_compose_timestamp_sei_nalu_below (real_time : Nat → Nat) (o : out_t)
    (limit : Nat) (pfx : prefix_t) (hcap : limit ≤ o.buffer.length) :
    o.below limit (h264_compose_timestamp_sei_nalu real_time o limit pfx).2 := by
  unfold h264_compose_timestamp_sei_nalu
  dsimp only
  have hp := h264_compose_prefix_below o limit pfx (1 + 1 + 1 + 16 + 8 + 1) hcap
  generalize ( h264_compose_prefix o limit pfx (1 + 1 + 1 + 16 + 8 + 1)) = r at hp ⊢
  obtain ⟨res, o1⟩ := r
  have hcap1 := below_cap hp hcap
  dsimp only at hp hcap1 ⊢
  refine below_trans hp ?_
  clear hp hcap
  unfold out_t.below
  dsimp only [out_t.put, be64, time_sync_uuid, List.length_cons, List.length_nil]
  repeat' first
    | split
    | refine memWrite_keeps hcap1 ?_ ?_
    | with_reducible exact ⟨rfl, rfl⟩
    | (simp only [List.length_cons, List.length_nil]; omega)

theorem h264_compose_timestamp_sei_nalu_inside (real_time : Nat → Nat) (o : out_t)
    (limit : Nat) (pfx : prefix_t) (hin : o.inside limit)
    (hres : (h264_compose_timestamp_sei_nalu real_time o limit pfx).1 = true) :
    (h264_compose_timestamp_sei_nalu real_time o limit pfx).2.inside limit := by
  revert hres
  unfold h264_compose_timestamp_sei_nalu
  dsimp only
  have hp := h264_compose_prefix_inside o limit pfx (1 + 1 + 1 + 16 + 8 + 1) hin
  generalize ( h264_compose_prefix o limit pfx (1 + 1 + 1 + 16 + 8 + 1)) = r at hp ⊢
  obtain ⟨res, o1⟩ := r
  dsimp only at hp ⊢
  clear hin
  unfold out_t.inside at hp ⊢
  dsimp only [out_t.put, be64, time_sync_uuid, List.length_cons, List.length_nil]
  cases res with
  | false => intro h; rw [if_pos (show (!false) = true from rfl)] at h; exact absurd h Bool.false_ne_true
  | true =>
    obtain ⟨h1, h2⟩ := hp rfl
    clear hp
    repeat' first
      | split
      | (intro hres; exact absurd hres Bool.false_ne_true)
      | (intro _; dsimp only; omega)

theorem h264_compose_fragmentation_unit_cont_eq (o : out_t) (limit : Nat) (pfx : prefix_t)
    (naluptr : List Nat) (n : Nat) (completed : Bool)
    (hs : fu_start (byteAt naluptr 1) = 0) :
    h264_compose_fragmentation_unit o limit pfx naluptr n completed
      = if ¬ o.index + (n - 2) < limit then (false, o)
        else (true, o.put (memRead (naluptr.drop 2) (n - 2))) := by
  simp [h264_compose_fragmentation_unit, hs]

theorem h264_compose_fragmentation_unit_start_eq (o : out_t) (limit : Nat) (pfx : prefix_t)
    (naluptr : List Nat) (n : Nat) (completed : Bool) (res : Bool) (o1 : out_t)
    (hs : fu_start (byteAt naluptr 1) ≠ 0)
    (hp : h264_compose_prefix o limit pfx n = (res, o1)) :
    h264_compose_fragmentation_unit o limit pfx naluptr n completed
      = if res = false then (false, o1)
        else if ¬ o1.index + 1 < limit then (false, o1)
        else if ¬ o1.index + 1 + (n - 2) < limit then
          (false, o1.put [(if completed then 0 else 1) * 128
            + h264_get_nal_ref_idc (fu_type (byteAt naluptr 1)) * 32
            + fu_type (byteAt naluptr 1)])
        else
          (true, (o1.put [(if completed then 0 else 1) * 128
            + h264_get_nal_ref_idc (fu_type (byteAt naluptr 1)) * 32
            + fu_type (byteAt naluptr 1)]).put (memRead (naluptr.drop 2) (n - 2))) := by
  unfold h264_compose_fragmentation_unit
  dsimp only
  rw [if_pos hs, hp]
  cases res with
  | false => simp
  | true =>
    by_cases c1 : o1.index + 1 < limit
    · by_cases c2 : o1.index + 1 + (n - 2) < limit
      · simp [c1, c2, out_t.put]
      · simp [c1, c2, out_t.put]
    · simp [c1]

theorem h264_compose_fragmentation_unit_below (o : out_t) (limit : Nat) (pfx : prefix_t)
    (naluptr : List Nat) (nalulen : Nat) (completed : Bool) (hcap : limit ≤ o.buffer.length) :
    o.below limit (h264_compose_fragmentation_unit o limit pfx naluptr nalulen completed).2 := by
  by_cases hs : fu_start (byteAt naluptr 1) = 0
  · rw [h264_compose_fragmentation_unit_cont_eq o limit pfx naluptr nalulen completed hs]
    by_cases c : o.index + (nalulen - 2) < limit
    · rw [if_neg (not_not.2 c)]
      exact below_put _ hcap (by rw [memRead_length]; exact c)
    · rw [if_pos c]
      exact below_refl _ _
  · have hp := h264_compose_prefix_below o limit pfx nalulen hcap
    rcases hpe : h264_compose_prefix o limit pfx nalulen with ⟨res, o1⟩
    rw [hpe] at hp
    have hcap1 := below_cap hp hcap
    rw [h264_compose_fragmentation_unit_start_eq o limit pfx naluptr nalulen completed
      res o1 hs hpe]
    dsimp only at hp hcap1
    by_cases c0 : res = false
    · rw [if_pos c0]; exact hp
    rw [if_neg c0]
    by_cases c1 : o1.index + 1 < limit
    swap
    · rw [if_pos c1]; exact hp
    rw [if_neg (not_not.2 c1)]
    have hb1 := below_trans hp (@below_put limit o1
      [(if completed then 0 else 1) * 128
        + h264_get_nal_ref_idc (fu_type (byteAt naluptr 1)) * 32
        + fu_type (byteAt naluptr 1)] hcap1 c1)
    by_cases c2 : o1.index + 1 + (nalulen - 2) < limit
    swap
    · rw [if_pos c2]; exact hb1
    rw [if_neg (not_not.2 c2)]
    exact below_trans hb1 (below_put _ (below_cap hb1 hcap)
      (by rw [memRead_length]; exact c2))

theorem h264_compose_fragmentation_unit_inside (o : out_t) (limit : Nat) (pfx : prefix_t)
    (naluptr : List Nat) (nalulen : Nat) (completed : Bool) (hin : o.inside limit)
    (hres : (h264_compose_fragmentation_unit o limit pfx naluptr nalulen completed).1 = true) :
    (h264_compose_fragmentation_unit o limit pfx naluptr nalulen completed).2.inside limit := by
  revert hres
  by_cases hs : fu_start (byteAt naluptr 1) = 0
  · rw [h264_compose_fragmentation_unit_cont_eq o limit pfx naluptr nalulen completed hs]
    obtain ⟨h1, h2⟩ := hin
    by_cases c : o.index + (nalulen - 2) < limit
    · rw [if_neg (not_not.2 c)]
      intro _
      exact ⟨by simp only [out_t.put, memRead_length]; omega,
        by simp only [out_t.put, memRead_length]; omega⟩
    · rw [if_pos c]
      intro h; exact absurd h Bool.false_ne_true
  · have hp := h264_compose_prefix_inside o limit pfx nalulen hin
    rcases hpe : h264_compose_prefix o limit pfx nalulen with ⟨res, o1⟩
    rw [hpe] at hp
    rw [h264_compose_fragmentation_unit_start_eq o limit pfx naluptr nalulen completed
      res o1 hs hpe]
    dsimp only at hp
    by_cases c0 : res = false
    · rw [if_pos c0]; intro h; exact absurd h Bool.false_ne_true
    rw [if_neg c0]
    obtain ⟨h1, h2⟩ := hp (by simpa using c0)
    by_cases c1 : o1.index + 1 < limit
    swap
    · rw [if_pos c1]; intro h; exact absurd h Bool.false_ne_true
    rw [if_neg (not_not.2 c1)]
    by_cases c2 : o1.index + 1 + (nalulen - 2) < limit
    swap
    · rw [if_pos c2]; intro h; exact absurd h Bool.false_ne_true
    rw [if_neg (not_not.2 c2)]
    intro _
    exact ⟨by simp only [out_t.put, memRead_length, List.length_cons, List.length_nil]; omega,
      by simp only [out_t.put, memRead_length, List.length_cons, List.length_nil]; omega⟩

theorem h264_compose_aggregation_loop_below (real_time : Nat → Nat) (limit : Nat)
    (pfx : prefix_t) (naluptr : List Nat) (nalulen : Nat) (fuel aulenptr : Nat) (o : out_t)
    (hcap : limit ≤ o.buffer.length) :
    o.below limit
      (h264_compose_aggregation_loop real_time limit pfx naluptr nalulen fuel aulenptr o).2 := by
  induction fuel generalizing aulenptr o with
  | zero => rw [h264_compose_aggregation_loop]; exact below_refl _ _
  | succ fuel ih =>
    rw [h264_compose_aggregation_loop]
    dsimp only
    by_cases c : aulenptr < nalulen ∧ aulenptr + 2 < nalulen
    swap
    · rw [if_pos c]; exact below_refl _ _
    rw [if_neg (not_not.2 c)]
    generalize byteAt naluptr aulenptr * 256 + byteAt naluptr (aulenptr + 1) = aulen
    have hp := h264_compose_prefix_below o limit pfx aulen hcap
    rcases hpe : h264_compose_prefix o limit pfx aulen with ⟨res, o1⟩
    rw [hpe] at hp
    have hcap1 := below_cap hp hcap
    dsimp only at hp hcap1 ⊢
    cases res with
    | false => exact hp
    | true =>
      rw [if_neg (by simp)]
      by_cases c1 : o1.index + aulen < limit
      swap
      · rw [if_pos c1]; exact hp
      rw [if_neg (not_not.2 c1)]
      have hb2 := below_trans hp (@below_put limit o1
        (memRead (naluptr.drop (aulenptr + 2)) aulen) hcap1
        (by rw [memRead_length]; exact c1))
      have hcap2 := below_cap hb2 hcap
      by_cases c8 : nal_unit_type (byteAt naluptr (aulenptr + 2)) = 8
      · rw [if_pos c8]
        have hs := h264_compose_timestamp_sei_nalu_below real_time
          (o1.put (memRead (naluptr.drop (aulenptr + 2)) aulen)) limit pfx hcap2
        rcases hse : h264_compose_timestamp_sei_nalu real_time
          (o1.put (memRead (naluptr.drop (aulenptr + 2)) aulen)) limit pfx with ⟨r3, o3⟩
        rw [hse] at hs
        have hb3 := below_trans hb2 hs
        dsimp only at hb3 ⊢
        cases r3 with
        | false => exact hb3
        | true =>
          rw [if_neg (by simp)]
          exact below_trans hb3 (ih _ _ (below_cap hb3 hcap))
      · rw [if_neg c8]
        exact below_trans hb2 (ih _ _ hcap2)

theorem h264_compose_aggregation_loop_inside (real_time : Nat → Nat) (limit : Nat)
    (pfx : prefix_t) (naluptr : List Nat) (nalulen : Nat) (fuel aulenptr : Nat) (o : out_t)
    (hin : o.inside limit)
    (hres : (h264_compose_aggregation_loop real_time limit pfx naluptr nalulen fuel aulenptr
      o).1 = true) :
    (h264_compose_aggregation_loop real_time limit pfx naluptr nalulen fuel aulenptr
      o).2.inside limit := by
  induction fuel generalizing aulenptr o with
  | zero => rw [h264_compose_aggregation_loop]; exact hin
  | succ fuel ih =>
    revert hres
    rw [h264_compose_aggregation_loop]
    dsimp only
    by_cases c : aulenptr < nalulen ∧ aulenptr + 2 < nalulen
    swap
    · rw [if_pos c]; intro _; exact hin
    rw [if_neg (not_not.2 c)]
    generalize byteAt naluptr aulenptr * 256 + byteAt naluptr (aulenptr + 1) = aulen
    have hp := h264_compose_prefix_inside o limit pfx aulen hin
    rcases hpe : h264_compose_prefix o limit pfx aulen with ⟨res, o1⟩
    rw [hpe] at hp
    dsimp only at hp ⊢
    cases res with
    | false => rw [if_pos (show (!false) = true from rfl)]; intro h; exact absurd h Bool.false_ne_true
    | true =>
      rw [if_neg (by simp)]
      obtain ⟨h1, h2⟩ := hp rfl
      by_cases c1 : o1.index + aulen < limit
      swap
      · rw [if_pos c1]; intro h; exact absurd h Bool.false_ne_true
      rw [if_neg (not_not.2 c1)]
      have hin2 : (o1.put (memRead (naluptr.drop (aulenptr + 2)) aulen)).inside limit :=
        ⟨by simp only [out_t.put, memRead_length]; omega,
         by simp only [out_t.put, memRead_length]; omega⟩
      by_cases c8 : nal_unit_type (byteAt naluptr (aulenptr + 2)) = 8
      · rw [if_pos c8]
        have hs := h264_compose_timestamp_sei_nalu_inside real_time
          (o1.put (memRead (naluptr.drop (aulenptr + 2)) aulen)) limit pfx hin2
        rcases hse : h264_compose_timestamp_sei_nalu real_time
          (o1.put (memRead (naluptr.drop (aulenptr + 2)) aulen)) limit pfx with ⟨r3, o3⟩
        rw [hse] at hs
        dsimp only at hs ⊢
        cases r3 with
        | false => rw [if_pos (show (!false) = true from rfl)]; intro h; exact absurd h Bool.false_ne_true
        | true =>
          rw [if_neg (by simp)]
          exact ih _ _ (hs rfl)
      · rw [if_neg c8]
        exact ih _ _ hin2

theorem h264_compose_payload_below (real_time : Nat → Nat) (o : out_t) (limit : Nat)
    (pfx : prefix_t) (payload : List Nat) (size : Nat) (completed : Bool)
    (hcap : limit ≤ o.buffer.length) :
    o.below limit (h264_compose_payload real_time o limit pfx payload size completed).2 := by
  unfold h264_compose_payload
  dsimp only
  split_ifs
  · exact h264_compose_single_nalu_below o limit pfx payload size hcap
  · exact h264_compose_aggregation_loop_below real_time limit pfx payload size size 1 o hcap
  · exact h264_compose_fragmentation_unit_below o limit pfx payload size completed hcap
  · exact below_refl _ _

theorem h264_compose_payload_inside (real_time : Nat → Nat) (o : out_t) (limit : Nat)
    (pfx : prefix_t) (payload : List Nat) (size : Nat) (completed : Bool)
    (hin : o.inside limit)
    (hres : (h264_compose_payload real_time o limit pfx payload size completed).1 = true) :
    (h264_compose_payload real_time o limit pfx payload size completed).2.inside limit := by
  revert hres
  unfold h264_compose_payload
  dsimp only
  split_ifs
  · exact h264_compose_single_nalu_inside o limit pfx payload size hin
  · exact h264_compose_aggregation_loop_inside real_time limit pfx payload size size 1 o hin
  · exact h264_compose_fragmentation_unit_inside o limit pfx payload size completed hin
  · intro h; exact h.elim

theorem opus_reassemble_frame_below (real_time : Nat → Nat) (o : out_t) (limit : Nat)
    (pfx : prefix_t) (payload : List Nat) (size : Nat) (completed : Bool)
    (context : h264_context_t) (hcap : limit ≤ o.buffer.length) :
    o.below limit
      (opus_reassemble_frame real_time o limit pfx payload size completed context).2.1 := by
  unfold opus_reassemble_frame
  dsimp only
  by_cases c1 : 1 ≤ size
  swap
  · rw [if_pos c1]; exact below_refl _ _
  rw [if_neg (not_not.2 c1)]
  by_cases c2 : o.index + size < limit
  swap
  · rw [if_pos c2]; exact below_refl _ _
  rw [if_neg (not_not.2 c2)]
  exact memWrite_keeps hcap ⟨rfl, rfl⟩ (by rw [memRead_length]; exact c2)

theorem h264_parse_context_cursor (start : Nat) (payload : List Nat) (o : out_t)
    (context : h264_context_t) :
    (h264_parse_context start payload o context).2.1.index = o.index ∧
    (h264_parse_context start payload o context).2.1.length = o.length := by
  unfold h264_parse_context
  dsimp only
  split_ifs <;> exact ⟨rfl, rfl⟩

theorem h264_reassemble_frame_inside (real_time : Nat → Nat) (o : out_t) (limit : Nat)
    (pfx : prefix_t) (payload : List Nat) (size : Nat) (completed : Bool)
    (context : h264_context_t) (hin : o.inside limit)
    (hres : (h264_reassemble_frame real_time o limit pfx payload size completed context).1
      = true) :
    (h264_reassemble_frame real_time o limit pfx payload size completed context).2.1.inside
      limit := by
  revert hres
  unfold h264_reassemble_frame
  by_cases hs : 1 < size
  swap
  · rw [if_pos hs]; intro h; exact absurd h Bool.false_ne_true
  rw [if_neg (not_not.2 hs)]
  dsimp only
  have hc := h264_compose_payload_inside real_time o limit pfx payload size completed hin
  rcases hce : h264_compose_payload real_time o limit pfx payload size completed with ⟨r, o1⟩
  rw [hce] at hc
  dsimp only at hc ⊢
  cases r with
  | false => rw [if_pos (show (!false) = true from rfl)]; intro h; exact absurd h Bool.false_ne_true
  | true =>
    rw [if_neg (by simp)]
    intro _
    obtain ⟨h1, h2⟩ := hc rfl
    obtain ⟨e1, e2⟩ := h264_parse_context_cursor (o.index + 4) payload o1 context
    exact ⟨by rw [e1, e2]; exact h1, by rw [e1]; exact h2⟩

theorem frame_reassemble_loop_inside (real_time : Nat → Nat) (limit : Nat) (pfx : prefix_t)
    (completed : Bool) (ps : List packet_t) (o : out_t) (u h t : Nat) (c : h264_context_t)
    (hin : o.inside limit)
    (hres : (frame_reassemble_loop real_time h264_format limit pfx completed ps o u h t
      c).1.getD true = true) :
    (frame_reassemble_loop real_time h264_format limit pfx completed ps o u h t
      c).2.2.1.inside limit := by
  induction ps generalizing o u h t c with
  | nil => rw [frame_reassemble_loop]; exact hin
  | cons p ps ih =>
    revert hres
    by_cases hs : p.size = 0
    · rw [frame_reassemble_loop_cons_empty _ _ _ _ _ _ _ _ _ _ _ _ hs]
      intro _; exact hin
    · have hr := h264_reassemble_frame_inside real_time o limit pfx (packet_get_payload p).2.1
        p.size completed c hin
      rcases hre : h264_reassemble_frame real_time o limit pfx (packet_get_payload p).2.1
        p.size completed c with ⟨r, o1, c1⟩
      rw [hre] at hr
      cases r with
      | false =>
        rw [frame_reassemble_loop_cons_fail real_time h264_format limit pfx completed p ps o o1
          u h t c c1 hs hre]
        intro hres; exact absurd hres Bool.false_ne_true
      | true =>
        rw [frame_reassemble_loop_cons real_time h264_format limit pfx completed p ps o o1
          u h t c c1 hs hre]
        exact ih _ _ _ _ _ (hr rfl)

theorem frame_reassemble_loop_opus_one (real_time : Nat → Nat) (limit : Nat) (pfx : prefix_t)
    (completed : Bool) (ps : List packet_t) (buffer : List Nat) (u h t : Nat)
    (c : h264_context_t) (hl : 0 < limit) (hps : ps.length ≤ 1)
    (hres : (frame_reassemble_loop real_time opus_format limit pfx completed ps
      (out_t.init buffer) u h t c).1.getD true = true) :
    (frame_reassemble_loop real_time opus_format limit pfx completed ps
      (out_t.init buffer) u h t c).2.2.1.length < limit := by
  match ps, hps with
  | [], _ => rw [frame_reassemble_loop]; exact hl
  | [p], _ =>
    revert hres
    by_cases hs : p.size = 0
    · rw [frame_reassemble_loop_cons_empty _ _ _ _ _ _ _ _ _ _ _ _ hs]
      intro _; exact hl
    · rcases hre : opus_reassemble_frame real_time (out_t.init buffer) limit pfx
        (packet_get_payload p).2.1 p.size completed c with ⟨r, o1, c1⟩
      have ho : r = true → o1.length < limit := by
        intro hr
        subst hr
        unfold opus_reassemble_frame at hre
        dsimp only at hre
        by_cases c1 : 1 ≤ p.size
        swap
        · rw [if_pos c1] at hre; exact absurd (congrArg Prod.fst hre) Bool.false_ne_true
        rw [if_neg (not_not.2 c1)] at hre
        by_cases c2 : (out_t.init buffer).index + p.size < limit
        swap
        · rw [if_pos c2] at hre; exact absurd (congrArg Prod.fst hre) Bool.false_ne_true
        rw [if_neg (not_not.2 c2)] at hre
        have e := congrArg (fun x => x.2.1.length) hre
        dsimp only at e
        rw [← e]
        exact c2
      cases r with
      | false =>
        rw [frame_reassemble_loop_cons_fail real_time opus_format limit pfx completed p [] _ o1
          u h t c c1 hs hre]
        intro hres; exact absurd hres Bool.false_ne_true
      | true =>
        rw [frame_reassemble_loop_cons real_time opus_format limit pfx completed p [] _ o1
          u h t c c1 hs hre, frame_reassemble_loop]
        intro _; exact ho rfl

theorem frame_reassemble_length_lt (real_time : Nat → Nat) (frame : frame_t) (media : media_t)
    (completed : Bool) (context : h264_context_t)
    (hc : frame.codec = .CODEC_H264 ∨ frame.packets.length ≤ 1)
    (hres : (frame_reassemble real_time frame media completed context).1 = true) :
    (frame_reassemble real_time frame media completed context).2.2.1.length < media.length := by
  by_cases hml : 0 < media.length
  swap
  · rw [frame_reassemble_no_room real_time frame media completed context hml] at hres
    exact absurd hres Bool.false_ne_true
  rcases hcodec : frame.codec with _ | _ | _
  · have hf : format_get_reassembly_context frame.codec = none := by rw [hcodec]; rfl
    rw [(frame_reassemble_no_format real_time frame media completed context hf).1] at hres
    exact absurd hres Bool.false_ne_true
  · have hf : format_get_reassembly_context frame.codec = some h264_format := by
      rw [hcodec]; rfl
    obtain ⟨e1, _, e3⟩ := frame_reassemble_output real_time frame media completed context
      h264_format hml hf
    rw [e1] at hres
    rw [e3]
    have hi := frame_reassemble_loop_inside real_time media.length media.pfx completed
      frame.packets (out_t.init media.buffer) frame.unitcount media.head_seq media.tail_seq
      context ⟨rfl, hml⟩ hres
    rw [hi.1]; exact hi.2
  · have hf : format_get_reassembly_context frame.codec = some opus_format := by
      rw [hcodec]; rfl
    have hps : frame.packets.length ≤ 1 := by
      rcases hc with h | h
      · rw [hcodec] at h; cases h
      · exact h
    obtain ⟨e1, _, e3⟩ := frame_reassemble_output real_time frame media completed context
      opus_format hml hf
    rw [e1] at hres
    rw [e3]
    exact frame_reassemble_loop_opus_one real_time media.length media.pfx completed
      frame.packets media.buffer frame.unitcount media.head_seq media.tail_seq context hml
      hps hres

theorem h264_compose_single_nalu_no_room (o : out_t) (limit : Nat) (pfx : prefix_t)
    (naluptr : List Nat) (n : Nat)
    (h : ¬ o.index + (prefix_bytes pfx n).length + n < limit) :
    (h264_compose_single_nalu o limit pfx naluptr n).1 = false := by
  by_cases h1 : 1 < n
  swap
  · simp [h264_compose_single_nalu, h264_compose_prefix, h1]
  by_cases hp : o.index + (prefix_bytes pfx n).length < limit
  · rw [h264_compose_single_nalu, h264_compose_prefix_ok o limit pfx n h1 hp]
    dsimp only
    rw [if_neg (by simp), if_pos (by rw [put_index]; exact h)]
  · cases pfx
    · have h0 : ¬ o.index + n < limit := by
        simpa [prefix_bytes] using h
      simp [h264_compose_single_nalu, h264_compose_prefix, h1, h0]
    · have : ¬ o.index + 4 < limit := by simpa [prefix_bytes, be32] using hp
      simp [h264_compose_single_nalu, h264_compose_prefix, h1, h264_compose_start_code, this]
    · have : ¬ o.index + 4 < limit := by simpa [prefix_bytes, be32] using hp
      simp [h264_compose_single_nalu, h264_compose_prefix, h1, h264_compose_avcc_prefix, this]

theorem opus_reassemble_frame_no_room (real_time : Nat → Nat) (o : out_t) (limit : Nat)
    (pfx : prefix_t) (payload : List Nat) (size : Nat) (completed : Bool)
    (context : h264_context_t) (h : ¬ o.index + size < limit) :
    opus_reassemble_frame real_time o limit pfx payload size completed context
      = (false, o, context) := by
  unfold opus_reassemble_frame
  dsimp only
  split_ifs <;> rfl

theorem frame_reassemble_loop_fu_only (real_time : Nat → Nat) (limit : Nat) (pfx : prefix_t)
    (completed : Bool) (qs : List packet_t) (o : out_t) (unitcount head_seq tail_seq : Nat)
    (context : h264_context_t)
    (hq : ∀ q ∈ qs, q.is_fu ∧ fu_start q.fu_header = 0)
    (hfit : o.index + (qs.flatMap packet_t.fu_body).length < limit)
    (hcap : limit ≤ o.buffer.length) :
    ∃ u h t, frame_reassemble_loop real_time h264_format limit pfx completed qs o unitcount
        head_seq tail_seq context
      = (none, [], o.put (qs.flatMap packet_t.fu_body), u, h, t, context) := by
  induction qs generalizing o unitcount head_seq tail_seq with
  | nil => exact ⟨unitcount, head_seq, tail_seq, by simp [frame_reassemble_loop, put_nil]⟩
  | cons q qs ih =>
    obtain ⟨hfu, hst⟩ := hq q (List.mem_cons_self _ _)
    obtain ⟨g1, _, g3, g4⟩ := is_fu_facts hfu
    have hs := hfu.2.1
    have h2 := hfu.2.2.1
    have hbl := fu_body_length hs
    simp only [List.flatMap_cons, List.length_append] at hfit
    have hre : h264_format.reassemble real_time o limit pfx (packet_get_payload q).2.1 q.size
        completed context = (true, o.put q.fu_body, context) := by
      show h264_reassemble_frame real_time o limit pfx (packet_get_payload q).2.1 q.size
        completed context = _
      rw [h264_reassemble_frame_fu_cont real_time o limit pfx _ q.size completed context
        (Or.inl (by rw [g1]; exact g3)) (by rw [g1, g4]; exact hst) (by omega) (by omega),
        fu_body_eq hs]
    rw [frame_reassemble_loop_cons real_time h264_format limit pfx completed q qs o _ unitcount
      head_seq tail_seq context context (by omega) hre]
    obtain ⟨u, h, t, e⟩ := ih (o.put q.fu_body) (unitcount + 1)
      (if unitcount = 0 then q.sequence else head_seq) q.sequence
      (fun x hx => hq x (List.mem_cons_of_mem _ hx))
      (by rw [put_index]; omega)
      (by rw [put_buffer_length (by omega)]; exact hcap)
    refine ⟨u, h, t, ?_⟩
    rw [e, put_put _ _ (by omega)]
    simp only [List.flatMap_cons]

theorem frame_reassemble_context_free (real_time : Nat → Nat) (frame : frame_t)
    (media : media_t) (completed : Bool) (c1 c2 : h264_context_t) :
    (frame_reassemble real_time frame media completed c1).1
      = (frame_reassemble real_time frame media completed c2).1 ∧
    (frame_reassemble real_time frame media completed c1).2.2.1.buffer
      = (frame_reassemble real_time frame media completed c2).2.2.1.buffer ∧
    (frame_reassemble real_time frame media completed c1).2.2.1.length
      = (frame_reassemble real_time frame media completed c2).2.2.1.length := by
  by_cases hml : 0 < media.length
  · cases hfmt : format_get_reassembly_context frame.codec with
    | none =>
      obtain ⟨a1, a2, a3⟩ := frame_reassemble_no_format real_time frame media completed c1 hfmt
      obtain ⟨b1, b2, b3⟩ := frame_reassemble_no_format real_time frame media completed c2 hfmt
      rw [a1, a2, a3, b1, b2, b3]
      exact ⟨rfl, rfl, rfl⟩
    | some format =>
      obtain ⟨a1, a2, a3⟩ := frame_reassemble_output real_time frame media completed c1 format
        hml hfmt
      obtain ⟨b1, b2, b3⟩ := frame_reassemble_output real_time frame media completed c2 format
        hml hfmt
      obtain ⟨k1, k2⟩ := frame_reassemble_loop_context_free frame.codec format hfmt real_time
        media.length media.pfx completed frame.packets (out_t.init media.buffer)
        frame.unitcount frame.unitcount media.head_seq media.head_seq media.tail_seq
        media.tail_seq c1 c2
      rw [a1, a2, a3, b1, b2, b3, k1, k2]
      exact ⟨rfl, rfl, rfl⟩
  · rw [frame_reassemble_no_room _ _ _ _ c1 hml, frame_reassemble_no_room _ _ _ _ c2 hml]
    exact ⟨rfl, rfl, rfl⟩

theorem rtp_depacketizer_get_frame_head (real_time : Nat → Nat) (d : rtp_depacketizer_t)
    (media : media_t) (frame : frame_t) (rest : List frame_t)
    (hq : d.completed = frame :: rest) (hml : 0 < media.length) :
    (rtp_depacketizer_get_frame real_time d media).1
      = (frame_reassemble real_time frame media frame.completed d.context).1 ∧
    (rtp_depacketizer_get_frame real_time d media).2.1.buffer
      = (frame_reassemble real_time frame media frame.completed d.context).2.2.1.buffer ∧
    (rtp_depacketizer_get_frame real_time d media).2.1.length
      = (frame_reassemble real_time frame media frame.completed d.context).2.2.1.length ∧
    (rtp_depacketizer_get_frame real_time d media).2.2.completed = rest ∧
    (rtp_depacketizer_get_frame real_time d media).2.2.frames = d.frames := by
  unfold rtp_depacketizer_get_frame
  rw [hq]
  simp only [hml, not_true_eq_false, if_false]
  rcases frame_reassemble real_time frame media frame.completed d.context
    with ⟨r, f, m, c⟩
  cases r
  · exact ⟨rfl, rfl, rfl, rfl, rfl⟩
  · dsimp only
    by_cases hc : f.codec = .CODEC_H264
    · simp only [hc, if_true, Bool.not_true, Bool.false_eq_true, if_false]
      exact ⟨trivial, trivial, trivial, trivial, trivial⟩
    · simp only [hc, if_false, Bool.not_true, Bool.false_eq_true]
      exact ⟨trivial, trivial, trivial, trivial, trivial⟩

theorem rtp_depacketizer_get_frame_no_room (real_time : Nat → Nat) (d : rtp_depacketizer_t)
    (media : media_t) (hml : ¬ 0 < media.length) :
    rtp_depacketizer_get_frame real_time d media = (false, media, d) := by
  unfold rtp_depacketizer_get_frame
  rw [if_pos hml]

theorem rtp_depacketizer_get_frame_empty (real_time : Nat → Nat) (d : rtp_depacketizer_t)
    (media : media_t) (hq : d.completed = []) :
    rtp_depacketizer_get_frame real_time d media = (false, media, d) := by
  unfold rtp_depacketizer_get_frame
  rw [hq]
  split <;> rfl

theorem rtp_depacketizer_get_frame_context_free (real_time : Nat → Nat)
    (d1 d2 : rtp_depacketizer_t) (media : media_t)
    (hc : d1.completed = d2.completed) (hf : d1.frames = d2.frames) :
    (rtp_depacketizer_get_frame real_time d1 media).1
      = (rtp_depacketizer_get_frame real_time d2 media).1 ∧
    (rtp_depacketizer_get_frame real_time d1 media).2.1.buffer
      = (rtp_depacketizer_get_frame real_time d2 media).2.1.buffer ∧
    (rtp_depacketizer_get_frame real_time d1 media).2.1.length
      = (rtp_depacketizer_get_frame real_time d2 media).2.1.length ∧
    (rtp_depacketizer_get_frame real_time d1 media).2.2.completed
      = (rtp_depacketizer_get_frame real_time d2 media).2.2.completed ∧
    (rtp_depacketizer_get_frame real_time d1 media).2.2.frames
      = (rtp_depacketizer_get_frame real_time d2 media).2.2.frames := by
  by_cases hml : 0 < media.length
  · cases hq : d2.completed with
    | nil =>
      rw [rtp_depacketizer_get_frame_empty real_time d1 media (hc.trans hq),
        rtp_depacketizer_get_frame_empty real_time d2 media hq]
      exact ⟨rfl, rfl, rfl, hc, hf⟩
    | cons frame rest =>
      obtain ⟨a1, a2, a3, a4, a5⟩ := rtp_depacketizer_get_frame_head real_time d1 media frame
        rest (hc.trans hq) hml
      obtain ⟨b1, b2, b3, b4, b5⟩ := rtp_depacketizer_get_frame_head real_time d2 media frame
        rest hq hml
      obtain ⟨k1, k2, k3⟩ := frame_reassemble_context_free real_time frame media
        frame.completed d1.context d2.context
      rw [a1, a2, a3, a4, a5, b1, b2, b3, b4, b5, k1, k2, k3]
      exact ⟨rfl, rfl, rfl, rfl, hf⟩
  · rw [rtp_depacketizer_get_frame_no_room real_time d1 media hml,
      rtp_depacketizer_get_frame_no_room real_time d2 media hml]
    exact ⟨rfl, rfl, rfl, hc, hf⟩

/-! ## The bit reader, the decoders, the sweep and the predicates -/

theorem nal_header_bits (f idc t : Nat) (hf : f < 2) (hidc : idc < 4) (ht : t < 32) :
    nal_header f idc t = (f <<< 7) ||| (idc <<< 5) ||| t := by
  unfold nal_header
  interval_cases f <;> interval_cases idc <;> interval_cases t <;> rfl

theorem h264_get_nal_ref_idc_lt (t : Nat) : h264_get_nal_ref_idc t < 4 := by
  unfold h264_get_nal_ref_idc
  split_ifs <;> omega

theorem h264_compose_fragmentation_unit_indicator (o : out_t) (limit : Nat) (pfx : prefix_t)
    (b1 b2 : Nat) (rest : List Nat) (n : Nat) (completed : Bool) :
    h264_compose_fragmentation_unit o limit pfx (b1 :: rest) n completed
      = h264_compose_fragmentation_unit o limit pfx (b2 :: rest) n completed := by
  have e1 : byteAt (b1 :: rest) 1 = byteAt (b2 :: rest) 1 := by simp [byteAt]
  unfold h264_compose_fragmentation_unit
  dsimp only
  rw [e1]
  rfl

theorem h264_get_bit_lt (bs : List Nat) (i : Nat) : h264_get_bit bs i < 2 := by
  unfold h264_get_bit; omega

theorem h264_get_bit_inside (bs : List Nat) (i : Nat) (h : h264_get_bit bs i ≠ 0) :
    i < 8 * bs.length := by
  by_contra hc
  apply h
  have hlen : bs.length ≤ i / 8 := by omega
  simp [h264_get_bit, byteAt, List.getD_eq_getElem?_getD, List.getElem?_eq_none hlen]

theorem bits_value_lt (bs : List Nat) (offset k : Nat) : bits_value bs offset k < 2 ^ k := by
  induction k generalizing offset with
  | zero => simp [bits_value]
  | succ k ih =>
    rw [bits_value, pow_succ]
    have h1 := h264_get_bit_lt bs offset
    have h2 := ih (offset + 1)
    have h3 : h264_get_bit bs offset * 2 ^ k ≤ 1 * 2 ^ k :=
      Nat.mul_le_mul_right _ (by omega)
    omega

theorem h264_get_bits_loop_value (bs : List Nat) (k offset code : Nat) (hc : code < 2 ^ 32) :
    h264_get_bits_loop bs k offset code
      = ((code * 2 ^ k + bits_value bs offset k) % 2 ^ 32, offset + k) := by
  induction k generalizing offset code with
  | zero =>
    rw [h264_get_bits_loop, bits_value, pow_zero, Nat.mul_one, Nat.add_zero,
      Nat.mod_eq_of_lt hc]
    rfl
  | succ k ih =>
    rw [h264_get_bits_loop, ih _ _ (Nat.mod_lt _ (by decide)), bits_value]
    refine Prod.ext ?_ (by simp only []; omega)
    show ((code * 2 + h264_get_bit bs offset) % 2 ^ 32 * 2 ^ k + bits_value bs (offset + 1) k)
        % 2 ^ 32
      = (code * 2 ^ (k + 1) + (h264_get_bit bs offset * 2 ^ k + bits_value bs (offset + 1) k))
        % 2 ^ 32
    have e : (code * 2 + h264_get_bit bs offset) * 2 ^ k + bits_value bs (offset + 1) k
        = code * 2 ^ (k + 1) + (h264_get_bit bs offset * 2 ^ k + bits_value bs (offset + 1) k)
        := by ring
    rw [← e]
    exact ((Nat.mod_modEq _ _).mul_right _).add_right _

theorem h264_get_bits_value (bs : List Nat) (offset k : Nat) (hk : k ≤ 32) :
    h264_get_bits bs offset k = (bits_value bs offset k, offset + k) := by
  unfold h264_get_bits
  rw [h264_get_bits_loop_value _ _ _ _ (by decide), Nat.zero_mul, Nat.zero_add, Nat.mod_eq_of_lt]
  exact lt_of_lt_of_le (bits_value_lt bs offset k) (Nat.pow_le_pow_right (by decide) hk)

theorem h264_scan_zeroes_run (bs : List Nat) (k fuel offset zeroes : Nat) (hf : k < fuel)
    (hz : ∀ i < k, h264_get_bit bs (offset + i) = 0)
    (h1 : h264_get_bit bs (offset + k) ≠ 0) :
    h264_scan_zeroes bs fuel offset zeroes = (zeroes + k, offset + k + 1) := by
  induction k generalizing fuel offset zeroes with
  | zero =>
    obtain ⟨f, rfl⟩ : ∃ f, fuel = f + 1 := ⟨fuel - 1, by omega⟩
    rw [h264_scan_zeroes, if_pos (by simpa using h1)]
    rfl
  | succ k ih =>
    obtain ⟨f, rfl⟩ : ∃ f, fuel = f + 1 := ⟨fuel - 1, by omega⟩
    have h0 : h264_get_bit bs offset = 0 := by simpa using hz 0 (by omega)
    rw [h264_scan_zeroes, if_neg (by rw [h0]; simp)]
    rw [ih f (offset + 1) (zeroes + 1) (by omega)
      (fun i hi => by have := hz (i + 1) (by omega); rwa [show offset + (i + 1) = offset + 1 + i by omega] at this)
      (by rwa [show offset + 1 + k = offset + (k + 1) by omega])]
    refine Prod.ext (by simp only []; omega) (by simp only []; omega)

theorem h264_decode_uexpgolomb_eq (bs : List Nat) (o k : Nat) (hk : k ≤ 31)
    (hz : ∀ i < k, h264_get_bit bs (o + i) = 0) (h1 : h264_get_bit bs (o + k) = 1) :
    h264_decode_uexpgolomb bs o
      = (2 ^ k - 1 + bits_value bs (o + k + 1) k, o + 2 * k + 1) := by
  have hin := h264_get_bit_inside bs (o + k) (by rw [h1]; decide)
  have hscan := h264_scan_zeroes_run bs k (8 * bs.length - o) o 0 (by omega) hz
    (by rw [h1]; decide)
  unfold h264_decode_uexpgolomb
  rw [hscan]
  dsimp only
  rw [Nat.zero_add]
  by_cases hk0 : 0 < k
  · rw [if_pos hk0, h264_get_bits_value bs (o + k + 1) k (by omega)]
    dsimp only
    have hc := bits_value_lt bs (o + k + 1) k
    have hp : 2 ^ k ≤ 2 ^ 31 := Nat.pow_le_pow_right (by decide) hk
    have hp1 : 0 < 2 ^ k := Nat.two_pow_pos k
    refine Prod.ext ?_ (by simp only []; omega)
    simp only []
    generalize 2 ^ k = P at hc hp hp1 ⊢
    generalize bits_value bs (o + k + 1) k = code at hc ⊢
    norm_num at hp ⊢
    omega
  · have : k = 0 := by omega
    subst this
    rw [if_neg hk0]
    simp [bits_value]

theorem h264_compose_prefix_true (o : out_t) (limit : Nat) (pfx : prefix_t) (n : Nat)
    (h : ( h264_compose_prefix o limit pfx n).1 = true) :
    ( h264_compose_prefix o limit pfx n).2.index = o.index + (prefix_bytes pfx n).length ∧
    (pfx = .PREFIX_NONE ∨ o.index + 4 < limit) := by
  revert h
  unfold h264_compose_prefix h264_compose_start_code h264_compose_avcc_prefix
  cases pfx <;> dsimp only <;> split_ifs <;> intro h <;>
    first
    | (simp at h; done)
    | exact ⟨rfl, Or.inl rfl⟩
    | exact ⟨rfl, Or.inr (by assumption)⟩

theorem h264_compose_timestamp_sei_nalu_fits (real_time : Nat → Nat) (o : out_t)
    (limit : Nat) (pfx : prefix_t)
    (hres : (h264_compose_timestamp_sei_nalu real_time o limit pfx).1 = true) :
    o.index + (prefix_bytes pfx 28).length + 28 < limit := by
  revert hres
  unfold h264_compose_timestamp_sei_nalu
  dsimp only
  have hp := h264_compose_prefix_true o limit pfx (1 + 1 + 1 + 16 + 8 + 1)
  rcases hpe : h264_compose_prefix o limit pfx (1 + 1 + 1 + 16 + 8 + 1) with ⟨res, o1⟩
  rw [hpe] at hp
  dsimp only at hp ⊢
  have hpl : (prefix_bytes pfx (1 + 1 + 1 + 16 + 8 + 1)).length = (prefix_bytes pfx 28).length :=
    rfl
  rw [hpl] at hp
  dsimp only [out_t.put, be64, time_sync_uuid, List.length_cons, List.length_nil]
  cases res with
  | false => intro h; rw [if_pos (show (!false) = true from rfl)] at h; exact absurd h Bool.false_ne_true
  | true =>
    obtain ⟨h1, _⟩ := hp rfl
    repeat' first
      | split
      | (intro hres; exact absurd hres Bool.false_ne_true)
      | (intro _; omega)

theorem rtp_depacketizer_get_frame_context (real_time : Nat → Nat) (d : rtp_depacketizer_t)
    (media : media_t) (frame : frame_t) (rest : List frame_t)
    (hq : d.completed = frame :: rest) (hml : 0 < media.length) :
    (rtp_depacketizer_get_frame real_time d media).2.2.context
      = (frame_reassemble real_time frame media frame.completed d.context).2.2.2 := by
  unfold rtp_depacketizer_get_frame
  rw [hq]
  simp only [hml, not_true_eq_false, if_false]
  rcases frame_reassemble real_time frame media frame.completed d.context
    with ⟨r, f, m, c⟩
  cases r <;> rfl

theorem h264_get_bits_byte (nalu : List Nat) (j : Nat) :
    h264_get_bits nalu (8 * j) 8 = (byteAt nalu j, 8 * j + 8) := by
  rw [h264_get_bits_value nalu (8 * j) 8 (by decide)]
  refine Prod.ext ?_ rfl
  show bits_value nalu (8 * j) 8 = byteAt nalu j
  have hb : byteAt nalu j < 256 := by unfold byteAt; omega
  have e : ∀ i, i < 8 → h264_get_bit nalu (8 * j + i) = byteAt nalu j / 2 ^ (7 - i) % 2 := by
    intro i hi
    unfold h264_get_bit
    rw [show (8 * j + i) / 8 = j by omega, show (8 * j + i) % 8 = i by omega]
  have e0 := e 0 (by decide)
  rw [Nat.add_zero] at e0
  simp only [bits_value, e0, Nat.add_assoc, e 1 (by decide), e 2 (by decide), e 3 (by decide),
    e 4 (by decide), e 5 (by decide), e 6 (by decide), e 7 (by decide)]
  norm_num
  omega

theorem h264_sps_skips_id_iff (p : Nat) :
    h264_sps_skips_id p = true
      ↔ p ∈ [100, 110, 122, 244, 44, 83, 86, 118, 128, 138, 144] := by
  simp only [h264_sps_skips_id, Bool.or_eq_true, decide_eq_true_eq, List.mem_cons,
    List.mem_singleton, List.not_mem_nil, or_false]
  tauto

theorem h264_decode_sps_tail_keeps (nalu : List Nat) (s : h264_context_t × Nat) :
    (h264_decode_sps_tail nalu s).1.profile_idc = s.1.profile_idc ∧
    (h264_decode_sps_tail nalu s).1.level_idc = s.1.level_idc ∧
    (h264_decode_sps_tail nalu s).1.seq_parameter_set_id = s.1.seq_parameter_set_id ∧
    (h264_decode_sps_tail nalu s).1.log2_max_frame_num_minus4
      = s.1.log2_max_frame_num_minus4 ∧
    (h264_decode_sps_tail nalu s).1.pic_order_cnt_type = s.1.pic_order_cnt_type := by
  unfold h264_decode_sps_tail
  simp only [h264_read_bits, h264_read_ue]
  exact ⟨trivial, trivial, trivial, trivial, trivial⟩

theorem h264_decode_sps_poc_keeps (nalu : List Nat) (s : h264_context_t × Nat) :
    (h264_decode_sps_poc nalu s).1.profile_idc = s.1.profile_idc ∧
    (h264_decode_sps_poc nalu s).1.level_idc = s.1.level_idc ∧
    (h264_decode_sps_poc nalu s).1.seq_parameter_set_id = s.1.seq_parameter_set_id ∧
    (h264_decode_sps_poc nalu s).1.log2_max_frame_num_minus4
      = s.1.log2_max_frame_num_minus4 ∧
    (h264_decode_sps_poc nalu s).1.pic_order_cnt_type = s.1.pic_order_cnt_type := by
  unfold h264_decode_sps_poc
  split
  · simp only [h264_read_ue]
    exact ⟨trivial, trivial, trivial, trivial, trivial⟩
  · simp only [h264_read_bits, h264_read_ue, h264_read_se]
    exact ⟨trivial, trivial, trivial, trivial, trivial⟩

theorem h264_decode_sps_head_eq (nalu : List Nat) (context : h264_context_t) :
    ∃ s10 : h264_context_t × Nat, s10.2 = 32 ∧ s10.1.profile_idc = byteAt nalu 1 ∧
      s10.1.level_idc = byteAt nalu 3 ∧
      s10.1.seq_parameter_set_id = context.seq_parameter_set_id ∧
      h264_decode_sps_head nalu context
        = h264_read_ue nalu (fun c v => { c with num_ref_frames := toU8 v })
            (h264_decode_sps_poc nalu
              (h264_read_ue nalu (fun c v => { c with pic_order_cnt_type := toU8 v })
                (h264_read_ue nalu (fun c v => { c with log2_max_frame_num_minus4 := toU8 v })
                  (h264_decode_sps_id nalu s10)))) := by
  have hb1 : byteAt nalu 1 < 256 := by unfold byteAt; omega
  have hb3 : byteAt nalu 3 < 256 := by unfold byteAt; omega
  refine ⟨_, ?_, ?_, ?_, ?_, rfl⟩
  · simp only [h264_read_bits_snd]
  · simp only [h264_read_bits, h264_get_bits_snd]
    have := h264_get_bits_byte nalu 1
    norm_num at this ⊢
    rw [this, toU8, Nat.mod_eq_of_lt hb1]
  · simp only [h264_read_bits, h264_get_bits_snd]
    have := h264_get_bits_byte nalu 3
    norm_num at this ⊢
    rw [this, toU8, Nat.mod_eq_of_lt hb3]
  · simp only [h264_read_bits]

theorem rtp_depacketizer_enqueue_packet_fail (d : rtp_depacketizer_t) (packet : packet_t)
    (frame_ready : Bool) (enqueue_us created_us : Int)
    (hadd : (frame_add_packet
      (match d.frames.lookup packet.timestamp with
        | some frame => frame
        | none => frame_create packet.timestamp d.codec created_us) packet false).1 = false) :
    (rtp_depacketizer_enqueue_packet d packet frame_ready enqueue_us created_us).1 = false := by
  unfold rtp_depacketizer_enqueue_packet
  dsimp only
  cases hl : d.frames.lookup packet.timestamp with
  | none =>
    rw [hl] at hadd
    dsimp only at hadd ⊢
    rcases hf : frame_add_packet (frame_create packet.timestamp d.codec created_us) packet false
      with ⟨r, f, c⟩
    rw [hf] at hadd
    dsimp only at hadd
    subst hadd
    dsimp only
    split <;> rfl
  | some frame0 =>
    rw [hl] at hadd
    dsimp only at hadd ⊢
    rcases hf : frame_add_packet frame0 packet false with ⟨r, f, c⟩
    rw [hf] at hadd
    dsimp only at hadd
    subst hadd
    dsimp only
    split <;> rfl

theorem rtp_depacketizer_enqueue_packet_new_ok (d : rtp_depacketizer_t) (packet : packet_t)
    (frame_ready : Bool) (enqueue_us created_us : Int) (frame : frame_t) (cc : Bool)
    (hlook : d.frames.lookup packet.timestamp = none)
    (hadd : frame_add_packet (frame_create packet.timestamp d.codec created_us) packet false
      = (true, frame, cc)) :
    (rtp_depacketizer_enqueue_packet d packet frame_ready enqueue_us created_us).1 = true ∧
    (rtp_depacketizer_enqueue_packet d packet frame_ready enqueue_us created_us).2.2.completed
      = (rtp_depacketizer_reap_sweep enqueue_us d.reap_us
          (d.frames ++ [(packet.timestamp, frame)]) d.completed).2 ∧
    ∀ e ∈ (rtp_depacketizer_enqueue_packet d packet frame_ready enqueue_us
        created_us).2.2.frames,
      e ∈ (rtp_depacketizer_reap_sweep enqueue_us d.reap_us
          (d.frames ++ [(packet.timestamp, frame)]) d.completed).1 := by
  unfold rtp_depacketizer_enqueue_packet
  dsimp only
  rw [hlook]
  dsimp only
  rw [hadd]
  dsimp only
  rw [if_pos rfl]
  split
  · refine ⟨rfl, rfl, fun e he => ?_⟩
    exact (List.mem_filter.1 he).1
  · exact ⟨rfl, rfl, fun e he => he⟩

theorem rtp_depacketizer_enqueue_packet_old_ok (d : rtp_depacketizer_t) (packet : packet_t)
    (frame_ready : Bool) (enqueue_us created_us : Int) (frame0 frame : frame_t) (cc : Bool)
    (hlook : d.frames.lookup packet.timestamp = some frame0)
    (hadd : frame_add_packet frame0 packet false = (true, frame, cc)) :
    (rtp_depacketizer_enqueue_packet d packet frame_ready enqueue_us created_us).1 = true ∧
    (rtp_depacketizer_enqueue_packet d packet frame_ready enqueue_us created_us).2.2.completed
      = (rtp_depacketizer_reap_sweep enqueue_us d.reap_us
          (d.frames.map (fun (e : Nat × frame_t) =>
            if e.1 = packet.timestamp then (packet.timestamp, frame) else e)) d.completed).2 ∧
    ∀ e ∈ (rtp_depacketizer_enqueue_packet d packet frame_ready enqueue_us
        created_us).2.2.frames,
      e ∈ (rtp_depacketizer_reap_sweep enqueue_us d.reap_us
          (d.frames.map (fun (e : Nat × frame_t) =>
            if e.1 = packet.timestamp then (packet.timestamp, frame) else e)) d.completed).1 := by
  unfold rtp_depacketizer_enqueue_packet
  dsimp only
  rw [hlook]
  dsimp only
  rw [hadd]
  dsimp only
  rw [if_neg Bool.false_ne_true]
  split
  · refine ⟨rfl, rfl, fun e he => ?_⟩
    exact (List.mem_filter.1 he).1
  · exact ⟨rfl, rfl, fun e he => he⟩

theorem rtp_depacketizer_reap_sweep_cons (enqueue_us reap_us : Int) (key : Nat)
    (frame : frame_t) (rest : List (Nat × frame_t)) (completed : List frame_t) :
    rtp_depacketizer_reap_sweep enqueue_us reap_us ((key, frame) :: rest) completed
      = ((if (rtp_depacketizer_reap_frame key frame enqueue_us reap_us completed).1 then
            (rtp_depacketizer_reap_sweep enqueue_us reap_us rest
              (rtp_depacketizer_reap_frame key frame enqueue_us reap_us completed).2).1
          else (key, frame) ::
            (rtp_depacketizer_reap_sweep enqueue_us reap_us rest
              (rtp_depacketizer_reap_frame key frame enqueue_us reap_us completed).2).1),
         (rtp_depacketizer_reap_sweep enqueue_us reap_us rest
              (rtp_depacketizer_reap_frame key frame enqueue_us reap_us completed).2).2) := by
  rw [rtp_depacketizer_reap_sweep]

theorem rtp_depacketizer_reap_frame_zero (frame : frame_t) (enqueue_us reap_us : Int)
    (completed : List frame_t) :
    rtp_depacketizer_reap_frame 0 frame enqueue_us reap_us completed = (true, completed) := by
  simp [rtp_depacketizer_reap_frame]

theorem rtp_depacketizer_reap_sweep_zero (enqueue_us reap_us : Int)
    (frames : List (Nat × frame_t)) (completed : List frame_t) :
    rtp_depacketizer_reap_sweep enqueue_us reap_us frames completed
      = rtp_depacketizer_reap_sweep enqueue_us reap_us
          (frames.filter (fun e => decide (e.1 ≠ 0))) completed := by
  induction frames generalizing completed with
  | nil => rfl
  | cons e rest ih =>
    obtain ⟨key, frame⟩ := e
    by_cases hk : key = 0
    · subst hk
      rw [rtp_depacketizer_reap_sweep_cons, rtp_depacketizer_reap_frame_zero]
      dsimp only
      rw [if_pos rfl, List.filter_cons_of_neg (by simp), ← ih]
    · rw [List.filter_cons_of_pos (by simpa using hk), rtp_depacketizer_reap_sweep_cons,
        rtp_depacketizer_reap_sweep_cons, ← ih]

theorem rtp_depacketizer_reap_sweep_append (enqueue_us reap_us : Int)
    (l1 l2 : List (Nat × frame_t)) (completed : List frame_t) :
    rtp_depacketizer_reap_sweep enqueue_us reap_us (l1 ++ l2) completed
      = ((rtp_depacketizer_reap_sweep enqueue_us reap_us l1 completed).1
          ++ (rtp_depacketizer_reap_sweep enqueue_us reap_us l2
              (rtp_depacketizer_reap_sweep enqueue_us reap_us l1 completed).2).1,
         (rtp_depacketizer_reap_sweep enqueue_us reap_us l2
              (rtp_depacketizer_reap_sweep enqueue_us reap_us l1 completed).2).2) := by
  induction l1 generalizing completed with
  | nil => rfl
  | cons e rest ih =>
    obtain ⟨key, frame⟩ := e
    rw [List.cons_append, rtp_depacketizer_reap_sweep_cons, rtp_depacketizer_reap_sweep_cons, ih]
    split <;> rfl

theorem filter_zero_map_replace (frames : List (Nat × frame_t)) (frame : frame_t) :
    (frames.map (fun (e : Nat × frame_t) => if e.1 = 0 then (0, frame) else e)).filter
        (fun e => decide (e.1 ≠ 0))
      = frames.filter (fun e => decide (e.1 ≠ 0)) := by
  induction frames with
  | nil => rfl
  | cons e rest ih =>
    by_cases hk : e.1 = 0
    · rw [List.map_cons, if_pos hk, List.filter_cons_of_neg (by simp),
        List.filter_cons_of_neg (by simpa using hk), ih]
    · rw [List.map_cons, if_neg hk, List.filter_cons_of_pos (by simpa using hk),
        List.filter_cons_of_pos (by simpa using hk), ih]

theorem h264_is_last_nalu_aggregation (naluptr : List Nat) (nalulen : Nat)
    (ht : nal_unit_type (byteAt naluptr 0) ∈ [24, 25, 26, 27]) :
    h264_is_last_nalu naluptr nalulen = false := by
  simp only [List.mem_cons, List.mem_singleton, List.not_mem_nil, or_false] at ht
  unfold h264_is_last_nalu
  by_cases h1 : 1 < nalulen
  · rcases ht with h | h | h | h <;> simp [h1, h]
  · simp [h1]

theorem frame_check_completeness_aggregation_tail (frame : frame_t) (t : packet_t)
    (hcodec : frame.codec = .CODEC_H264) (htail : frame.packets.getLast? = some t)
    (ht : nal_unit_type (byteAt t.rtp 12) ∈ [24, 25, 26, 27]) :
    frame_check_completeness frame = false := by
  have hb : byteAt t.payload 0 = byteAt t.rtp 12 := by
    unfold packet_t.payload; rw [byteAt_drop]
  rw [← hb] at ht
  have hl : h264_format.last_unit t.payload t.length = false :=
    h264_is_last_nalu_aggregation _ _ ht
  unfold frame_check_completeness
  rw [hcodec]
  show (match frame.packets.head?, frame.packets.getLast? with
    | some head, some tail =>
      if !h264_format.first_unit head.payload head.length then false
      else if !h264_format.last_unit tail.payload tail.length then false
      else if frame.packets.length = 1 then !h264_format.fragmented head.payload head.length
      else decide (tail.sequence = frame.packets.foldl frame_foreach_packet 0)
    | _, _ => false) = false
  rw [htail]
  cases frame.packets.head? with
  | none => rfl
  | some head =>
    dsimp only
    rw [hl]
    split <;> rfl

theorem frame_check_completeness_congr (f g : frame_t) (hc : f.codec = g.codec)
    (hp : f.packets = g.packets) : frame_check_completeness f = frame_check_completeness g := by
  unfold frame_check_completeness
  rw [hc, hp]

theorem frame_add_packet_completed (frame : frame_t) (p : packet_t) (c : Bool)
    (hres : (frame_add_packet frame p c).1 = true) :
    (frame_add_packet frame p c).2.2 = (frame_add_packet frame p c).2.1.completed ∧
    (frame_add_packet frame p c).2.1.codec = frame.codec ∧
    ((frame_add_packet frame p c).2.1.completed = frame.completed ∨
      (frame_add_packet frame p c).2.1.completed
        = frame_check_completeness (frame_add_packet frame p c).2.1) := by
  revert hres
  unfold frame_add_packet
  by_cases hts : p.timestamp = frame.timestamp
  swap
  · rw [if_pos hts]; intro h; exact absurd h Bool.false_ne_true
  rw [if_neg (not_not.2 hts)]
  cases hf : format_get_reassembly_context frame.codec with
  | none => intro h; exact absurd h Bool.false_ne_true
  | some format =>
    dsimp only
    intro _
    split
    · split
      · exact ⟨rfl, rfl, Or.inr (frame_check_completeness_congr _ _ rfl rfl)⟩
      · exact ⟨rfl, rfl, Or.inr (frame_check_completeness_congr _ _ rfl rfl)⟩
    · exact ⟨rfl, rfl, Or.inl rfl⟩

theorem frame_add_packet_fresh_completed (codec : codec_t) (format : format_t)
    (hf : format_get_reassembly_context codec = some format) (p : packet_t) (ts : Nat)
    (created_us : Int) (c : Bool) (hts : p.timestamp = ts) :
    (frame_add_packet (frame_create ts codec created_us) p c).1 = true ∧
    (frame_add_packet (frame_create ts codec created_us) p c).2.1.packets = [p] ∧
    (frame_add_packet (frame_create ts codec created_us) p c).2.2
      = ((decide (p.marker ≠ 0) || format.last_unit p.payload p.length) &&
          (format.first_unit p.payload p.length &&
            (format.last_unit p.payload p.length &&
              !format.fragmented p.payload p.length))) := by
  unfold frame_add_packet frame_create
  dsimp only
  rw [if_neg (not_not.2 hts), hf]
  dsimp only [List.nil_append]
  by_cases hm : p.marker ≠ 0 ∨ format.last_unit p.payload p.length = true
  · rw [if_pos hm]
    dsimp only [List.length_singleton]
    rw [if_neg (by decide)]
    refine ⟨rfl, rfl, ?_⟩
    dsimp only
    unfold frame_check_completeness
    dsimp only
    rw [hf]
    dsimp only [List.head?_cons, List.getLast?_singleton, List.length_singleton]
    have hm1 : (decide (p.marker ≠ 0) || format.last_unit p.payload p.length) = true := by
      simpa using hm
    rw [hm1]
    cases format.first_unit p.payload p.length <;>
      cases format.last_unit p.payload p.length <;>
        cases format.fragmented p.payload p.length <;> rfl
  · rw [if_neg hm]
    refine ⟨rfl, rfl, ?_⟩
    have hm1 : (decide (p.marker ≠ 0) || format.last_unit p.payload p.length) = false := by
      simpa using hm
    rw [hm1]
    rfl

theorem h264_single_unit_add (p : packet_t) (created_us : Int) (c : Bool)
    (hlen : 1 < p.length)
    (ht : nal_unit_type (byteAt p.rtp 12) ∈ [1, 5, 6, 7, 8, 9]) :
    h264_is_last_nalu p.payload p.length = true ∧
    frame_add_packet (frame_create p.timestamp .CODEC_H264 created_us) p c
      = (true, ⟨[p], .CODEC_H264, created_us, p.timestamp, true, true, 0⟩, true) := by
  have hb : byteAt p.payload 0 = byteAt p.rtp 12 := by
    unfold packet_t.payload; rw [byteAt_drop]
  rw [← hb] at ht
  simp only [List.mem_cons, List.mem_singleton, List.not_mem_nil, or_false] at ht
  refine ⟨?_, ?_⟩
  · rcases ht with h | h | h | h | h | h <;> simp [h264_is_last_nalu, hlen, h]
  · rcases ht with h | h | h | h | h | h <;>
      simp [frame_add_packet, frame_create, format_get_reassembly_context, h264_format,
        frame_check_completeness, h264_is_first_nalu, h264_is_last_nalu, h264_is_fragmented,
        hlen, h, show 1 ≤ p.length by omega]

theorem h264_predicates_read (a b : List Nat) (n : Nat) (h0 : byteAt a 0 = byteAt b 0)
    (h1 : byteAt a 1 = byteAt b 1) :
    h264_is_first_nalu a n = h264_is_first_nalu b n ∧
    h264_is_last_nalu a n = h264_is_last_nalu b n ∧
    h264_is_fragmented a n = h264_is_fragmented b n := by
  unfold h264_is_first_nalu h264_is_last_nalu h264_is_fragmented
  rw [h0, h1]
  exact ⟨rfl, rfl, rfl⟩

theorem format_predicates_read (codec : codec_t) (format : format_t)
    (hf : format_get_reassembly_context codec = some format) (p q : packet_t)
    (h12 : byteAt p.rtp 12 = byteAt q.rtp 12) (h13 : byteAt p.rtp 13 = byteAt q.rtp 13)
    (hl : p.length = q.length) :
    format.first_unit p.payload p.length = format.first_unit q.payload q.length ∧
    format.last_unit p.payload p.length = format.last_unit q.payload q.length ∧
    format.fragmented p.payload p.length = format.fragmented q.payload q.length := by
  have h0 : byteAt p.payload 0 = byteAt q.payload 0 := by
    unfold packet_t.payload
    rw [byteAt_drop, byteAt_drop]
    exact h12
  have h1 : byteAt p.payload 1 = byteAt q.payload 1 := by
    unfold packet_t.payload
    rw [byteAt_drop, byteAt_drop]
    exact h13
  rw [hl]
  cases codec with
  | CODEC_NONE => cases hf
  | CODEC_H264 =>
    have : format = h264_format := by
      have := hf; simp [format_get_reassembly_context] at this; exact this.symm
    subst this
    exact h264_predicates_read _ _ _ h0 h1
  | CODEC_OPUS =>
    have : format = opus_format := by
      have := hf; simp [format_get_reassembly_context] at this; exact this.symm
    subst this
    exact ⟨rfl, rfl, rfl⟩

theorem h264_parse_context_sps (start : Nat) (payload : List Nat) (o : out_t)
    (context : h264_context_t) (hf : h264_is_first_nalu payload o.length = true)
    (h7 : nal_unit_type (byteAt o.buffer start) = 7) (hlen : 0 < o.length) :
    ∃ context1, h264_parse_context start payload o context
      = (true,
         { buffer := o.buffer.take start ++ h264_set_bit (o.buffer.drop start)
             (h264_decode_sps_head (o.buffer.drop start) context).2,
           index := o.index, length := o.length, ticks := o.ticks },
         context1) := by
  refine ⟨(h264_parse_context start payload o context).2.2, ?_⟩
  simp [h264_parse_context, hf, h7, h264_decode_sps, hlen]

theorem h264_decode_sps_head_baseline (nalu : List Nat) (context : h264_context_t)
    (hp : h264_sps_skips_id (byteAt nalu 1) = false)
    (hpoc : toU8 (h264_decode_uexpgolomb nalu
      (h264_decode_uexpgolomb nalu (h264_decode_uexpgolomb nalu 32).2).2).1 = 0) :
    (h264_decode_sps_head nalu context).2
      = (h264_decode_uexpgolomb nalu
          (h264_decode_uexpgolomb nalu
            (h264_decode_uexpgolomb nalu
              (h264_decode_uexpgolomb nalu
                (h264_decode_uexpgolomb nalu 32).2).2).2).2).2 := by
  obtain ⟨s10, h32, hprof, _, _, hhead⟩ := h264_decode_sps_head_eq nalu context
  rw [hhead]
  have hid : h264_decode_sps_id nalu s10
      = h264_read_ue nalu (fun c v => { c with seq_parameter_set_id := toU8 v }) s10 := by
    unfold h264_decode_sps_id
    rw [hprof, hp]
    rfl
  rw [hid]
  have hpt : (h264_read_ue nalu (fun c v => { c with pic_order_cnt_type := toU8 v })
      (h264_read_ue nalu (fun c v => { c with log2_max_frame_num_minus4 := toU8 v })
        (h264_read_ue nalu (fun c v => { c with seq_parameter_set_id := toU8 v })
          s10))).1.pic_order_cnt_type = 0 := by
    simp only [h264_read_ue, h32]
    exact hpoc
  unfold h264_decode_sps_poc
  rw [if_pos hpt]
  simp only [h264_read_ue, h32]

/-! ## C1 -/

/-- Single NAL unit packets without CSRC entries and without extension.  Such a packet,
with a payload of type 1, 5, 6 or 8 and at least two bytes and with the marker set, is added
to a fresh H.264 frame; the output fits the media buffer and the prefix mode is Annex-B.
Then `frame_add_packet` succeeds and reports `completed = true`, `frame_reassemble` succeeds,
the buffer starts with `00 00 00 01` followed by the payload verbatim, `media.length` is
`4 + payload length`, `head_seq` and `tail_seq` are the packet's sequence number, and
`media.type` is the NAL unit type. -/
theorem single_nalu_frame_annexb (p : packet_t) (media : media_t) (real_time : Nat → Nat)
    (context : h264_context_t) (created_us : Int) (c : Bool)
    (hplain : p.plain) (hsound : p.sound) (hsize : 2 ≤ p.size)
    (htype : nal_unit_type (byteAt p.body 0) = 1 ∨ nal_unit_type (byteAt p.body 0) = 5 ∨
      nal_unit_type (byteAt p.body 0) = 6 ∨ nal_unit_type (byteAt p.body 0) = 8)
    (hmark : p.marker = 1) (hpfx : media.pfx = .PREFIX_ANNEXB)
    (hfit : 4 + p.size < media.length) (hcap : media.length ≤ media.buffer.length) :
    (frame_add_packet (frame_create p.timestamp .CODEC_H264 created_us) p c).1 = true ∧
    (frame_add_packet (frame_create p.timestamp .CODEC_H264 created_us) p c).2.2 = true ∧
    (frame_reassemble real_time
        (frame_add_packet (frame_create p.timestamp .CODEC_H264 created_us) p c).2.1
        media true context).1 = true ∧
    ((frame_reassemble real_time
        (frame_add_packet (frame_create p.timestamp .CODEC_H264 created_us) p c).2.1
        media true context).2.2.1.buffer.take (4 + p.size) = [0, 0, 0, 1] ++ p.body) ∧
    (frame_reassemble real_time
        (frame_add_packet (frame_create p.timestamp .CODEC_H264 created_us) p c).2.1
        media true context).2.2.1.length = 4 + p.size ∧
    (frame_reassemble real_time
        (frame_add_packet (frame_create p.timestamp .CODEC_H264 created_us) p c).2.1
        media true context).2.2.1.head_seq = p.sequence ∧
    (frame_reassemble real_time
        (frame_add_packet (frame_create p.timestamp .CODEC_H264 created_us) p c).2.1
        media true context).2.2.1.tail_seq = p.sequence ∧
    (frame_reassemble real_time
        (frame_add_packet (frame_create p.timestamp .CODEC_H264 created_us) p c).2.1
        media true context).2.2.1.type = nal_unit_type (byteAt p.body 0) := by
  have hpl := packet_get_payload_plain hplain
  have hlen := plain_length hplain hsound (by omega)
  have hb0 : byteAt p.body 0 = byteAt p.payload 0 := by
    unfold packet_t.body; rw [hpl]; exact byteAt_take (by omega)
  rw [hb0] at htype
  have hin : p.size ≤ p.payload.length := by
    have := hsound; unfold packet_t.sound at this; rwa [hpl] at this
  have hbody : p.body = memRead p.payload p.size := by
    unfold packet_t.body; rw [hpl, memRead_of_le hin]
  -- the frame after the add
  have hadd : frame_add_packet (frame_create p.timestamp .CODEC_H264 created_us) p c
      = (true, { packets := [p], codec := .CODEC_H264, created_us := created_us,
                 timestamp := p.timestamp, marker := true, completed := true,
                 unitcount := 0 }, true) := by
    have hl : 1 < p.length := by omega
    rcases htype with h | h | h | h <;>
      simp [frame_add_packet, frame_create, format_get_reassembly_context, h264_format, hmark,
        frame_check_completeness, h264_is_first_nalu, h264_is_last_nalu, h264_is_fragmented,
        hl, h]
  rw [hadd]
  dsimp only
  -- the single round of the loop
  let o0 : out_t := out_t.init media.buffer
  let o2 : out_t := (o0.put (prefix_bytes .PREFIX_ANNEXB p.size)).put (memRead p.payload p.size)
  have hbyte : byteAt o2.buffer 4 = byteAt p.payload 0 := by
    have h4 : (memWrite media.buffer 0 (be32 1)).length = media.buffer.length :=
      memWrite_length (by simp [be32]; omega)
    have := @byteAt_memWrite (memWrite media.buffer 0 (be32 1)) 4 0
      (memRead p.payload p.size) (by rw [h4]; omega) (by rw [memRead_length]; omega)
    rw [byteAt_memRead hin (by omega)] at this
    simpa [o2, o0, out_t.init, out_t.put, prefix_bytes, be32] using this
  have h7 : nal_unit_type (byteAt o2.buffer (o0.index + 4)) ≠ 7 := by
    show nal_unit_type (byteAt o2.buffer (0 + 4)) ≠ 7
    rw [Nat.zero_add, hbyte]; omega
  obtain ⟨context', hpc⟩ := h264_parse_context_not_sps' (o0.index + 4) p.payload o2 context h7
    (by show 0 < 0 + 4 + (memRead p.payload p.size).length; omega)
  have hre : h264_format.reassemble real_time o0 media.length .PREFIX_ANNEXB
      (packet_get_payload p).2.1 p.size true context = (true, o2, context') := by
    rw [hpl]
    show h264_reassemble_frame real_time o0 media.length .PREFIX_ANNEXB p.payload p.size true
      context = _
    rw [h264_reassemble_frame_single real_time o0 media.length .PREFIX_ANNEXB p.payload p.size
      true context (by omega) (by omega) (by simp [prefix_bytes, be32, o0, out_t.init]; omega)]
    exact hpc
  have hloop := frame_reassemble_loop_cons real_time h264_format media.length .PREFIX_ANNEXB
    true p [] o0 o2 0 media.head_seq media.tail_seq context context' (by omega) hre
  have hw : o2.buffer.take (4 + p.size) = [0, 0, 0, 1] ++ p.body := by
    have h4 : (memWrite media.buffer 0 (be32 1)).length = media.buffer.length :=
      memWrite_length (by simp [be32]; omega)
    have := @memWrite_take (memWrite media.buffer 0 (be32 1)) 4
      (memRead p.payload p.size) (by rw [h4]; omega)
    rw [memRead_length] at this
    have h0 := @memWrite_take media.buffer 0 (be32 1) (by omega)
    have h0' : (memWrite media.buffer 0 (be32 1)).take 4 = [0, 0, 0, 1] := by
      simpa [be32] using h0
    rw [h0'] at this
    rw [hbody]
    simpa [o2, o0, out_t.init, out_t.put, prefix_bytes, be32] using this
  have hml : 0 < media.length := by omega
  have hloop' : frame_reassemble_loop real_time h264_format media.length media.pfx true
      [p] (out_t.init media.buffer) 0 media.head_seq media.tail_seq context
      = (none, [], o2, 1, p.sequence, p.sequence, context') := by
    rw [hpfx, hloop]; simp [frame_reassemble_loop]
  rw [frame_reassemble_ok real_time ⟨[p], .CODEC_H264, created_us, p.timestamp, true, true, 0⟩
    media true context context' h264_format [] o2 1 p.sequence p.sequence hml rfl hloop']
  refine ⟨rfl, rfl, rfl, ?_, ?_, rfl, rfl, ?_⟩
  · simpa using hw
  · simp [o2, o0, out_t.init, put_length, memRead_length, prefix_bytes, be32]
  · simp [h264_format, h264_get_frame_type, hbyte, hb0]

/-- The statement above at S1: payload `61 AA BB`, sequence 10. -/
theorem single_nalu_frame_annexb_witness :
    s1_packet.plain ∧ s1_packet.sound ∧ 2 ≤ s1_packet.size ∧
    nal_unit_type (byteAt s1_packet.body 0) = 1 ∧ s1_packet.marker = 1 ∧
    s1_packet.body = [0x61, 0xAA, 0xBB] ∧ s1_packet.sequence = 10 ∧
    ((frame_add_packet (frame_create s1_packet.timestamp .CODEC_H264 0) s1_packet false).1 = true ∧
    (frame_add_packet (frame_create s1_packet.timestamp .CODEC_H264 0) s1_packet false).2.2
      = true ∧
    (frame_reassemble (fun _ => 0)
        (frame_add_packet (frame_create s1_packet.timestamp .CODEC_H264 0) s1_packet false).2.1
        (media_new .PREFIX_ANNEXB 16) true {}).1 = true ∧
    ((frame_reassemble (fun _ => 0)
        (frame_add_packet (frame_create s1_packet.timestamp .CODEC_H264 0) s1_packet false).2.1
        (media_new .PREFIX_ANNEXB 16) true {}).2.2.1.buffer.take (4 + s1_packet.size)
      = [0, 0, 0, 1] ++ s1_packet.body) ∧
    (frame_reassemble (fun _ => 0)
        (frame_add_packet (frame_create s1_packet.timestamp .CODEC_H264 0) s1_packet false).2.1
        (media_new .PREFIX_ANNEXB 16) true {}).2.2.1.length = 4 + s1_packet.size ∧
    (frame_reassemble (fun _ => 0)
        (frame_add_packet (frame_create s1_packet.timestamp .CODEC_H264 0) s1_packet false).2.1
        (media_new .PREFIX_ANNEXB 16) true {}).2.2.1.head_seq = s1_packet.sequence ∧
    (frame_reassemble (fun _ => 0)
        (frame_add_packet (frame_create s1_packet.timestamp .CODEC_H264 0) s1_packet false).2.1
        (media_new .PREFIX_ANNEXB 16) true {}).2.2.1.tail_seq = s1_packet.sequence ∧
    (frame_reassemble (fun _ => 0)
        (frame_add_packet (frame_create s1_packet.timestamp .CODEC_H264 0) s1_packet false).2.1
        (media_new .PREFIX_ANNEXB 16) true {}).2.2.1.type
      = nal_unit_type (byteAt s1_packet.body 0)) :=
  ⟨by decide, by decide, by decide, by decide, by decide, by decide, by decide,
   single_nalu_frame_annexb s1_packet (media_new .PREFIX_ANNEXB 16) (fun _ => 0) {} 0 false
     (by decide) (by decide) (by decide) (Or.inl (by decide)) (by decide) rfl (by decide)
     (by decide)⟩

/-- Claim C1 at S1 sent with one CSRC entry.  The datagram has CC = 1, the marker, sequence
10, timestamp 100, the CSRC identifier `00 00 00 2A` and the payload `61 AA BB`, a single
NAL unit of type 1.  `frame_add_packet` succeeds but reports `completed = false` where the
claim has `completed = true`: the predicates are given `packet->rtp->payload`, the datagram
from offset 12 on, and the byte there is the first CSRC byte `00`, of type 0.  For S1 itself,
the same payload without the CSRC entry, `completed = true` is reported.  Reassembly of the
frame, which takes the payload from `packet_get_payload`, succeeds and writes
`00 00 00 01 61 AA BB`.  Added to a depacketizer the datagram leaves `frame_ready` false and
the completion queue empty; S1 itself sets `frame_ready`. -/
theorem single_nalu_csrc_not_completed :
    s1_csrc_packet.csrc_cnt = 1 ∧ s1_csrc_packet.extension = 0 ∧ s1_csrc_packet.marker = 1 ∧
    s1_csrc_packet.sequence = 10 ∧ s1_csrc_packet.timestamp = 100 ∧
    s1_csrc_packet.body = [0x61, 0xAA, 0xBB] ∧
    byteAt s1_csrc_packet.payload 0 = 0x00 ∧
    (frame_add_packet (frame_create 100 .CODEC_H264 0) s1_csrc_packet false).1 = true ∧
    (frame_add_packet (frame_create 100 .CODEC_H264 0) s1_csrc_packet false).2.2 = false ∧
    (frame_add_packet (frame_create 100 .CODEC_H264 0) s1_packet false).2.2 = true ∧
    (frame_reassemble (fun _ => 0)
      (frame_add_packet (frame_create 100 .CODEC_H264 0) s1_csrc_packet false).2.1
      (media_new .PREFIX_ANNEXB 16) false {}).1 = true ∧
    (frame_reassemble (fun _ => 0)
      (frame_add_packet (frame_create 100 .CODEC_H264 0) s1_csrc_packet false).2.1
      (media_new .PREFIX_ANNEXB 16) false {}).2.2.1.buffer.take 7
      = [0x00, 0x00, 0x00, 0x01, 0x61, 0xAA, 0xBB] ∧
    (rtp_depacketizer_add_packet (rtp_depacketizer_create .CODEC_H264 1000000 100000 0)
      s1_csrc_packet false 10 11).1 = true ∧
    (rtp_depacketizer_add_packet (rtp_depacketizer_create .CODEC_H264 1000000 100000 0)
      s1_csrc_packet false 10 11).2.1 = false ∧
    (rtp_depacketizer_add_packet (rtp_depacketizer_create .CODEC_H264 1000000 100000 0)
      s1_csrc_packet false 10 11).2.2.completed = [] ∧
    (rtp_depacketizer_add_packet (rtp_depacketizer_create .CODEC_H264 1000000 100000 0)
      s1_packet false 10 11).2.1 = true := by
  decide

/-! ## C2 -/

/-- Claim C2, amended.  One NAL unit of a type other than 7 is carried as FU-A fragments in
at least two packets with the same timestamp and the sequence numbers `s, s + 1, ...` (a run
of at most 32768 numbers that does not pass 65535): the first fragment has start = 1, the
last one end = 1 and the marker, and the packets are added in sequence order.  Then the frame
is not completed before the last fragment is added and is completed when it is added, and
reassembly with prefix Annex-B succeeds and writes `00 00 00 01`, the reconstructed NAL
header byte (forbidden = 0, `nal_ref_idc` from the table of `h264_get_nal_ref_idc`, the
fragment type), and the fragment bodies concatenated in sequence order. -/
theorem fu_frame_reassembles (ts : Nat) (created_us : Int) (p0 : packet_t)
    (mid : List packet_t) (pl : packet_t) (s : Nat) (media : media_t)
    (real_time : Nat → Nat) (context : h264_context_t) (c : Bool)
    (hfu : ∀ p ∈ p0 :: (mid ++ [pl]), p.is_fu ∧ p.timestamp = ts)
    (hseq : (p0 :: (mid ++ [pl])).map packet_t.sequence = List.range' s (mid.length + 2))
    (hk : mid.length + 2 ≤ 32768)
    (h0 : fu_start p0.fu_header = 1 ∧ fu_end p0.fu_header = 0 ∧ p0.marker = 0)
    (hmid : ∀ p ∈ mid, fu_start p.fu_header = 0 ∧ fu_end p.fu_header = 0 ∧ p.marker = 0)
    (hl : fu_start pl.fu_header = 0 ∧ fu_end pl.fu_header = 1 ∧ pl.marker = 1)
    (ht7 : fu_type p0.fu_header ≠ 7) (hpfx : media.pfx = .PREFIX_ANNEXB)
    (hfit : 5 + ((p0 :: (mid ++ [pl])).flatMap packet_t.fu_body).length < media.length)
    (hcap : media.length ≤ media.buffer.length) :
    (frame_add_all (frame_create ts .CODEC_H264 created_us) (p0 :: mid)).completed = false ∧
    (frame_add_packet (frame_add_all (frame_create ts .CODEC_H264 created_us) (p0 :: mid))
      pl c).2.2 = true ∧
    (frame_reassemble real_time
      (frame_add_packet (frame_add_all (frame_create ts .CODEC_H264 created_us) (p0 :: mid))
        pl c).2.1 media true context).1 = true ∧
    (frame_reassemble real_time
      (frame_add_packet (frame_add_all (frame_create ts .CODEC_H264 created_us) (p0 :: mid))
        pl c).2.1 media true context).2.2.1.length
      = 5 + ((p0 :: (mid ++ [pl])).flatMap packet_t.fu_body).length ∧
    (frame_reassemble real_time
      (frame_add_packet (frame_add_all (frame_create ts .CODEC_H264 created_us) (p0 :: mid))
        pl c).2.1 media true context).2.2.1.buffer.take
        (5 + ((p0 :: (mid ++ [pl])).flatMap packet_t.fu_body).length)
      = [0, 0, 0, 1]
        ++ [nal_header 0 ( h264_get_nal_ref_idc (fu_type p0.fu_header)) (fu_type p0.fu_header)]
        ++ (p0 :: (mid ++ [pl])).flatMap packet_t.fu_body := by
  have hfu0 := (hfu p0 (List.mem_cons_self _ _)).1
  have hful := (hfu pl (by simp)).1
  have hfumid : ∀ p ∈ mid, p.is_fu ∧ p.timestamp = ts := fun p hp =>
    hfu p (List.mem_cons_of_mem _ (List.mem_append_left _ hp))
  -- the adds before the last fragment only append
  have hF1 : frame_add_all (frame_create ts .CODEC_H264 created_us) (p0 :: mid)
      = ⟨p0 :: mid, .CODEC_H264, created_us, ts, false, false, 0⟩ := by
    rw [frame_add_all_append (p0 :: mid) (frame_create ts .CODEC_H264 created_us) h264_format
      rfl]
    · simp [frame_create]
    · intro p hp
      rcases List.mem_cons.1 hp with rfl | hp
      · refine ⟨(hfu p (List.mem_cons_self _ _)).2, h0.2.2, ?_⟩
        rw [is_fu_last_unit hfu0]; simp [h0.2.1]
      · refine ⟨(hfumid p hp).2, (hmid p hp).2.2, ?_⟩
        rw [is_fu_last_unit (hfumid p hp).1]; simp [(hmid p hp).2.1]
  rw [hF1]
  refine ⟨rfl, ?_⟩
  -- the last fragment orders the packets and completes the frame
  have hall : p0 :: mid ++ [pl] = p0 :: (mid ++ [pl]) := rfl
  have hsort : frame_order_packets (p0 :: (mid ++ [pl])) = p0 :: (mid ++ [pl]) :=
    frame_order_packets_run _ s (by simpa using hseq) (by simpa using hk)
  have hcheck : frame_check_completeness
      ⟨p0 :: (mid ++ [pl]), .CODEC_H264, created_us, ts, true, false, 0⟩ = true := by
    refine frame_check_completeness_run _ p0 pl mid s rfl rfl hseq ?_ ?_
    · rw [is_fu_first_unit hfu0]; simp [h0.1]
    · rw [is_fu_last_unit hful]; simp [hl.2.1]
  have hadd : frame_add_packet ⟨p0 :: mid, .CODEC_H264, created_us, ts, false, false, 0⟩ pl c
      = (true, ⟨p0 :: (mid ++ [pl]), .CODEC_H264, created_us, ts, true, true, 0⟩, true) := by
    have hts : pl.timestamp = ts := (hfu pl (by simp)).2
    simp [frame_add_packet, hts, format_get_reassembly_context, hl.2.2, hsort, hcheck]
  rw [hadd]
  refine ⟨rfl, ?_⟩
  dsimp only
  -- reassembly: the start fragment, then the continuation fragments
  obtain ⟨g1, _, g3, g4⟩ := is_fu_facts hfu0
  have hb0 := fu_body_length hfu0.2.1
  have hs0 := hfu0.2.2.1
  simp only [List.flatMap_cons, List.length_append] at hfit
  have hlimit : (out_t.init media.buffer).index
      + (prefix_bytes .PREFIX_ANNEXB p0.size).length + 1 + (p0.size - 2) < media.length := by
    show 0 + 4 + 1 + (p0.size - 2) < media.length
    omega
  have hre0 := h264_reassemble_frame_fu_start real_time (out_t.init media.buffer) media.length
    .PREFIX_ANNEXB p0.payload p0.size true context (Or.inl g3)
    (by rw [g4, h0.1]; decide) (by omega) hlimit hcap
  rw [g4, ← g1, fu_body_eq hfu0.2.1] at hre0
  have hpre : prefix_bytes .PREFIX_ANNEXB p0.size = [0, 0, 0, 1] := rfl
  rw [hpre] at hre0
  simp only [if_true] at hre0
  obtain ⟨hdr, hhdr⟩ : ∃ h, h = nal_header 0 ( h264_get_nal_ref_idc (fu_type p0.fu_header))
    (fu_type p0.fu_header) := ⟨_, rfl⟩
  rw [← hhdr] at hre0 ⊢
  have hbyte : byteAt ((out_t.init media.buffer).put ([0, 0, 0, 1] ++ [hdr]
      ++ p0.fu_body)).buffer ((out_t.init media.buffer).index + 4) = hdr % 256 := by
    have := @byteAt_memWrite media.buffer 0 4
      ([0, 0, 0, 1] ++ [hdr] ++ p0.fu_body) (by omega) (by simp)
    simpa [out_t.put, out_t.init, byteAt] using this
  have hXlen : ([0, 0, 0, 1] ++ [hdr] ++ p0.fu_body).length = 5 + p0.fu_body.length := by
    simp only [List.length_append, List.length_cons, List.length_nil]
  obtain ⟨context', hpc⟩ := h264_parse_context_not_sps' ((out_t.init media.buffer).index + 4)
    (packet_get_payload p0).2.1 ((out_t.init media.buffer).put ([0, 0, 0, 1] ++ [hdr]
      ++ p0.fu_body)) context
    (by rw [hbyte, hhdr, nal_unit_type_nal_header _ _ _ (fu_type_lt _)]; exact ht7)
    (by rw [put_length, hXlen]; omega)
  rw [hpc] at hre0
  have hloop0 := frame_reassemble_loop_cons real_time h264_format media.length .PREFIX_ANNEXB
    true p0 (mid ++ [pl]) (out_t.init media.buffer) _ 0 media.head_seq media.tail_seq context
    context' (by omega) hre0
  have hcont : ∀ q ∈ mid ++ [pl], q.sound ∧ 2 ≤ q.size ∧
      (nal_unit_type (byteAt (packet_get_payload q).2.1 0) = 28 ∨
        nal_unit_type (byteAt (packet_get_payload q).2.1 0) = 29) ∧
      fu_start (byteAt (packet_get_payload q).2.1 1) = 0 := by
    intro q hq
    have hq' := (hfu q (List.mem_cons_of_mem _ hq)).1
    obtain ⟨q1, _, q3, q4⟩ := is_fu_facts hq'
    refine ⟨hq'.2.1, hq'.2.2.1, Or.inl (by rw [q1]; exact q3), ?_⟩
    rw [q1, q4]
    rcases List.mem_append.1 hq with hm | hm
    · exact (hmid q hm).1
    · rw [List.mem_singleton.1 hm]; exact hl.1
  have hloop1 := frame_reassemble_loop_fu_cont real_time media.length .PREFIX_ANNEXB true
    (mid ++ [pl]) ((out_t.init media.buffer).put ([0, 0, 0, 1] ++ [hdr] ++ p0.fu_body))
    (0 + 1) (if 0 = 0 then p0.sequence else media.head_seq) p0.sequence
    context' hcont (by omega)
    (by rw [put_index, hXlen]; show 0 + _ + _ < _; omega)
    (by rw [put_buffer_length (by rw [hXlen]; show 0 + _ ≤ media.buffer.length; omega)]
        exact hcap)
  rw [hloop1, put_put _ _ (by show 0 ≤ _; omega)] at hloop0
  rw [← hpfx] at hloop0
  rw [frame_reassemble_ok real_time ⟨p0 :: (mid ++ [pl]), .CODEC_H264, created_us, ts, true,
    true, 0⟩ media true context context' h264_format _ _ _ _ _ (by omega) rfl hloop0]
  have hL : ([0, 0, 0, 1] ++ [hdr] ++ p0.fu_body
      ++ (mid ++ [pl]).flatMap packet_t.fu_body).length
      = 5 + ((p0 :: (mid ++ [pl])).flatMap packet_t.fu_body).length := by
    rw [List.length_append, hXlen, List.flatMap_cons, List.length_append]; omega
  refine ⟨rfl, ?_, ?_⟩
  · show 0 + _ = _
    rw [hL]; omega
  · show List.take _ ((out_t.init media.buffer).put _).buffer = _
    rw [← hL, put_init_take, List.flatMap_cons]
    simp only [List.append_assoc]

/-- The amended claim C2 at S2: three fragments of type 5 with the bodies 11, 22, 33. -/
theorem fu_frame_reassembles_witness :
    (∀ p ∈ s2_first :: ([s2_middle] ++ [s2_last]), p.is_fu ∧ p.timestamp = 200) ∧
    (s2_first :: ([s2_middle] ++ [s2_last])).map packet_t.sequence = [20, 21, 22] ∧
    fu_type s2_first.fu_header = 5 ∧
    (s2_first :: ([s2_middle] ++ [s2_last])).flatMap packet_t.fu_body = [0x11, 0x22, 0x33] ∧
    nal_header 0 ( h264_get_nal_ref_idc (fu_type s2_first.fu_header))
      (fu_type s2_first.fu_header) = 0x65 ∧
    ((frame_add_all (frame_create 200 .CODEC_H264 0) (s2_first :: [s2_middle])).completed
      = false ∧
    (frame_add_packet (frame_add_all (frame_create 200 .CODEC_H264 0) (s2_first :: [s2_middle]))
      s2_last false).2.2 = true ∧
    (frame_reassemble (fun _ => 0)
      (frame_add_packet (frame_add_all (frame_create 200 .CODEC_H264 0) (s2_first :: [s2_middle]))
        s2_last false).2.1 (media_new .PREFIX_ANNEXB 16) true {}).1 = true ∧
    (frame_reassemble (fun _ => 0)
      (frame_add_packet (frame_add_all (frame_create 200 .CODEC_H264 0) (s2_first :: [s2_middle]))
        s2_last false).2.1 (media_new .PREFIX_ANNEXB 16) true {}).2.2.1.length
      = 5 + ((s2_first :: ([s2_middle] ++ [s2_last])).flatMap packet_t.fu_body).length ∧
    (frame_reassemble (fun _ => 0)
      (frame_add_packet (frame_add_all (frame_create 200 .CODEC_H264 0) (s2_first :: [s2_middle]))
        s2_last false).2.1 (media_new .PREFIX_ANNEXB 16) true {}).2.2.1.buffer.take
        (5 + ((s2_first :: ([s2_middle] ++ [s2_last])).flatMap packet_t.fu_body).length)
      = [0, 0, 0, 1]
        ++ [nal_header 0 ( h264_get_nal_ref_idc (fu_type s2_first.fu_header))
              (fu_type s2_first.fu_header)]
        ++ (s2_first :: ([s2_middle] ++ [s2_last])).flatMap packet_t.fu_body) :=
  ⟨by decide, by decide, by decide, by decide, by decide,
   fu_frame_reassembles 200 0 s2_first [s2_middle] s2_last 20 (media_new .PREFIX_ANNEXB 16)
     (fun _ => 0) {} false (by decide) (by decide) (by decide) (by decide) (by decide)
     (by decide) (by decide) rfl (by decide) (by decide)⟩

/-- Claim C2 fails for a fragmented unit of type 7: the start fragment carries
`42 00 1E F8 FF FF`, the end fragment `AA`; the reconstructed SPS is decoded in place and one
bit is set, so the output holds `FC` where the fragment body has `F8`. -/
theorem fu_sps_frame_not_verbatim :
    (frame_add_packet
      (frame_add_all (frame_create 200 .CODEC_H264 0)
        [rtp_packet 0 20 200 [0x7C, 0x87, 0x42, 0x00, 0x1E, 0xF8, 0xFF, 0xFF]])
      (rtp_packet 1 21 200 [0x7C, 0x47, 0xAA]) false).2.2 = true ∧
    (frame_reassemble (fun _ => 0)
      (frame_add_packet
        (frame_add_all (frame_create 200 .CODEC_H264 0)
          [rtp_packet 0 20 200 [0x7C, 0x87, 0x42, 0x00, 0x1E, 0xF8, 0xFF, 0xFF]])
        (rtp_packet 1 21 200 [0x7C, 0x47, 0xAA]) false).2.1
      (media_new .PREFIX_ANNEXB 32) true {}).1 = true ∧
    (frame_reassemble (fun _ => 0)
      (frame_add_packet
        (frame_add_all (frame_create 200 .CODEC_H264 0)
          [rtp_packet 0 20 200 [0x7C, 0x87, 0x42, 0x00, 0x1E, 0xF8, 0xFF, 0xFF]])
        (rtp_packet 1 21 200 [0x7C, 0x47, 0xAA]) false).2.1
      (media_new .PREFIX_ANNEXB 32) true {}).2.2.1.buffer.take 12
      = [0, 0, 0, 1, 0x67, 0x42, 0x00, 0x1E, 0xFC, 0xFF, 0xFF, 0xAA] := by
  decide

/-! ## C3 -/

/-- Claim C3, amended.  An aggregation payload (outer NAL type 24) holds the units
`u :: us`, each of 2 to 65535 bytes behind its 16-bit big-endian length, and the output
fits.  Then `h264_reassemble_frame` with prefix Annex-B succeeds and writes at the cursor, in
order, every unit behind a start code and, after every unit of type 8, a start code and one
SEI timestamp unit; that unit has 28 bytes: `06 05 18`, the 16 bytes of the UUID, the
wall-clock reading as 8 big-endian bytes, `FF`.  The bytes are verbatim but for one bit: when
the first unit has type 7, `h264_decode_sps` runs on the output from that unit on and sets
the bit its statements up to `num_ref_frames` arrive at, 32 bits or more behind the first
bit of the unit, to 1.  The cursor and `*length` advance by the number of bytes written. -/
theorem stap_a_units_emitted (real_time : Nat → Nat) (o : out_t) (limit : Nat) (hdr : Nat)
    (u : List Nat) (us : List (List Nat)) (tail : List Nat) (completed : Bool)
    (context : h264_context_t)
    (ht : nal_unit_type hdr = 24)
    (hus : ∀ v ∈ u :: us, 2 ≤ v.length ∧ v.length < 65536)
    (hfit : o.index +
      (stap_output .PREFIX_ANNEXB real_time o.ticks (u :: us)).length < limit)
    (hcap : limit ≤ o.buffer.length) :
    (sei_nalu (real_time o.ticks)).length = 28 ∧
    32 ≤ (h264_decode_sps_head
      ((memWrite o.buffer o.index
        (stap_output .PREFIX_ANNEXB real_time o.ticks (u :: us))).drop (o.index + 4))
      context).2 ∧
    ∃ context1,
      h264_reassemble_frame real_time o limit .PREFIX_ANNEXB
          (hdr :: stap_encode (u :: us) ++ tail) (hdr :: stap_encode (u :: us)).length
          completed context
        = (true,
           { buffer :=
               if nal_unit_type (byteAt u 0) = 7 then
                 (memWrite o.buffer o.index
                   (stap_output .PREFIX_ANNEXB real_time o.ticks (u :: us))).take (o.index + 4)
                 ++ h264_set_bit
                   ((memWrite o.buffer o.index
                     (stap_output .PREFIX_ANNEXB real_time o.ticks (u :: us))).drop
                       (o.index + 4))
                   (h264_decode_sps_head
                     ((memWrite o.buffer o.index
                       (stap_output .PREFIX_ANNEXB real_time o.ticks (u :: us))).drop
                         (o.index + 4))
                     context).2
               else
                 memWrite o.buffer o.index
                   (stap_output .PREFIX_ANNEXB real_time o.ticks (u :: us)),
             index := o.index + (stap_output .PREFIX_ANNEXB real_time o.ticks (u :: us)).length,
             length := o.length + (stap_output .PREFIX_ANNEXB real_time o.ticks (u :: us)).length,
             ticks := o.ticks + stap_pps_count (u :: us) },
           context1) := by
  refine ⟨sei_nalu_length _, h264_decode_sps_head_snd _ _, ?_⟩
  have hagg := h264_compose_aggregation_unit_ok real_time o limit .PREFIX_ANNEXB hdr (u :: us)
    tail hus hfit hcap
  have hu := hus u (List.mem_cons_self _ _)
  have h1 : 1 < (hdr :: stap_encode (u :: us)).length := by
    rw [stap_encode_cons]; simp
  have hb : nal_unit_type (byteAt (hdr :: stap_encode (u :: us) ++ tail) 0) = 24 := by
    have : byteAt (hdr :: stap_encode (u :: us) ++ tail) 0 = hdr % 256 := by simp [byteAt]
    rw [this]
    unfold nal_unit_type at ht ⊢
    omega
  have hre : h264_reassemble_frame real_time o limit .PREFIX_ANNEXB
      (hdr :: stap_encode (u :: us) ++ tail) (hdr :: stap_encode (u :: us)).length
      completed context
      = h264_parse_context (o.index + 4) (hdr :: stap_encode (u :: us) ++ tail)
          (o.emit (stap_output .PREFIX_ANNEXB real_time o.ticks (u :: us))
            (stap_pps_count (u :: us))) context := by
    simp only [h264_reassemble_frame, h1, not_true_eq_false, if_false, h264_compose_payload,
      hb, hagg]
    simp
  rw [hre]
  have hlen4 : 4 < (stap_output .PREFIX_ANNEXB real_time o.ticks (u :: us)).length := by
    rw [stap_output_length_cons]
    simp [prefix_bytes, be32_length]
    omega
  have hbyte : byteAt (o.emit (stap_output .PREFIX_ANNEXB real_time o.ticks (u :: us))
      (stap_pps_count (u :: us))).buffer (o.index + 4) = byteAt u 0 := by
    show byteAt (memWrite _ _ _) _ = _
    rw [byteAt_memWrite (by omega) hlen4]
    rw [stap_output]
    have : prefix_bytes .PREFIX_ANNEXB u.length = [0, 0, 0, 1] := by
      simp [prefix_bytes, be32]
    rw [this]
    cases u with
    | nil => simp at hu
    | cons a t => rfl
  have hpos : 0 < (o.emit (stap_output .PREFIX_ANNEXB real_time o.ticks (u :: us))
      (stap_pps_count (u :: us))).length := by
    show 0 < o.length + _; omega
  by_cases h7 : nal_unit_type (byteAt u 0) = 7
  · rw [if_pos h7]
    have hfirst : h264_is_first_nalu (hdr :: stap_encode (u :: us) ++ tail)
        (o.emit (stap_output .PREFIX_ANNEXB real_time o.ticks (u :: us))
          (stap_pps_count (u :: us))).length = true := by
      have h2 : 1 < (o.emit (stap_output .PREFIX_ANNEXB real_time o.ticks (u :: us))
          (stap_pps_count (u :: us))).length := by
        show 1 < o.length + _; omega
      unfold h264_is_first_nalu
      rw [if_neg (not_not.2 h2)]
      dsimp only
      rw [hb]
      rw [if_neg (by decide), if_neg (by decide), if_pos (by decide)]
    exact h264_parse_context_sps _ _ _ _ hfirst (by rw [hbyte]; exact h7) hpos
  · rw [if_neg h7]
    exact h264_parse_context_not_sps' _ _ _ _ (by rw [hbyte]; exact h7) hpos

/-- The amended claim C3 at S3, the payload `18 | 00 04 | 67 42 00 1E | 00 04 | 68 CE 3C 80`:
the first unit is an SPS of four bytes, and the bit set is bit 170 behind its first bit. -/
theorem stap_a_units_emitted_witness :
    nal_unit_type 0x18 = 24 ∧
    0x18 :: stap_encode [[0x67, 0x42, 0x00, 0x1E], [0x68, 0xCE, 0x3C, 0x80]] ++ [] = s3_payload ∧
    nal_unit_type (byteAt [0x67, 0x42, 0x00, 0x1E] 0) = 7 ∧
    (h264_decode_sps_head
      ((memWrite (List.replicate 64 0) 0
        (stap_output .PREFIX_ANNEXB (fun _ => 0x0102030405060708) 0
          [[0x67, 0x42, 0x00, 0x1E], [0x68, 0xCE, 0x3C, 0x80]])).drop (0 + 4)) {}).2 = 170 ∧
    ((sei_nalu 0x0102030405060708).length = 28 ∧
    32 ≤ (h264_decode_sps_head
      ((memWrite (List.replicate 64 0) 0
        (stap_output .PREFIX_ANNEXB (fun _ => 0x0102030405060708) 0
          [[0x67, 0x42, 0x00, 0x1E], [0x68, 0xCE, 0x3C, 0x80]])).drop (0 + 4)) {}).2 ∧
    ∃ context1,
      h264_reassemble_frame (fun _ => 0x0102030405060708) (out_t.init (List.replicate 64 0)) 64
          .PREFIX_ANNEXB
          (0x18 :: stap_encode [[0x67, 0x42, 0x00, 0x1E], [0x68, 0xCE, 0x3C, 0x80]] ++ [])
          (0x18 :: stap_encode [[0x67, 0x42, 0x00, 0x1E], [0x68, 0xCE, 0x3C, 0x80]]).length
          true {}
        = (true,
           { buffer :=
               if nal_unit_type (byteAt [0x67, 0x42, 0x00, 0x1E] 0) = 7 then
                 (memWrite (List.replicate 64 0) 0
                   (stap_output .PREFIX_ANNEXB (fun _ => 0x0102030405060708) 0
                     [[0x67, 0x42, 0x00, 0x1E], [0x68, 0xCE, 0x3C, 0x80]])).take (0 + 4)
                 ++ h264_set_bit
                   ((memWrite (List.replicate 64 0) 0
                     (stap_output .PREFIX_ANNEXB (fun _ => 0x0102030405060708) 0
                       [[0x67, 0x42, 0x00, 0x1E], [0x68, 0xCE, 0x3C, 0x80]])).drop (0 + 4))
                   (h264_decode_sps_head
                     ((memWrite (List.replicate 64 0) 0
                       (stap_output .PREFIX_ANNEXB (fun _ => 0x0102030405060708) 0
                         [[0x67, 0x42, 0x00, 0x1E], [0x68, 0xCE, 0x3C, 0x80]])).drop (0 + 4))
                     {}).2
               else
                 memWrite (List.replicate 64 0) 0
                   (stap_output .PREFIX_ANNEXB (fun _ => 0x0102030405060708) 0
                     [[0x67, 0x42, 0x00, 0x1E], [0x68, 0xCE, 0x3C, 0x80]]),
             index := 0 + (stap_output .PREFIX_ANNEXB (fun _ => 0x0102030405060708) 0
                 [[0x67, 0x42, 0x00, 0x1E], [0x68, 0xCE, 0x3C, 0x80]]).length,
             length := 0 + (stap_output .PREFIX_ANNEXB (fun _ => 0x0102030405060708) 0
                 [[0x67, 0x42, 0x00, 0x1E], [0x68, 0xCE, 0x3C, 0x80]]).length,
             ticks := 0 + stap_pps_count [[0x67, 0x42, 0x00, 0x1E], [0x68, 0xCE, 0x3C, 0x80]] },
           context1)) :=
  ⟨by decide, by decide, by decide, by decide,
   stap_a_units_emitted (fun _ => 0x0102030405060708) (out_t.init (List.replicate 64 0)) 64 0x18
     [0x67, 0x42, 0x00, 0x1E] [[0x68, 0xCE, 0x3C, 0x80]] [] true {} (by decide) (by decide)
     (by decide) (by decide)⟩

/-- Claim C3 fails at S3: for the payload `18 | 00 04 | 67 42 00 1E | 00 04 | 68 CE 3C 80`
reassembly succeeds and writes 48 bytes, the SEI unit has 28 of them, and the third byte of
the UUID in the output is `FF`, not `DF`: the first unit is an SPS, it is decoded in place,
and the bit that decoder sets lies behind the four bytes of the SPS. -/
theorem stap_a_s3_output :
    (h264_reassemble_frame (fun _ => 0x0102030405060708) (out_t.init (List.replicate 64 0)) 64
      .PREFIX_ANNEXB
      [0x18, 0x00, 0x04, 0x67, 0x42, 0x00, 0x1E, 0x00, 0x04, 0x68, 0xCE, 0x3C, 0x80] 13
      true {}).1 = true ∧
    (h264_reassemble_frame (fun _ => 0x0102030405060708) (out_t.init (List.replicate 64 0)) 64
      .PREFIX_ANNEXB
      [0x18, 0x00, 0x04, 0x67, 0x42, 0x00, 0x1E, 0x00, 0x04, 0x68, 0xCE, 0x3C, 0x80] 13
      true {}).2.1.length = 48 ∧
    (h264_reassemble_frame (fun _ => 0x0102030405060708) (out_t.init (List.replicate 64 0)) 64
      .PREFIX_ANNEXB
      [0x18, 0x00, 0x04, 0x67, 0x42, 0x00, 0x1E, 0x00, 0x04, 0x68, 0xCE, 0x3C, 0x80] 13
      true {}).2.1.buffer.take 48
      = [0x00, 0x00, 0x00, 0x01, 0x67, 0x42, 0x00, 0x1E,
         0x00, 0x00, 0x00, 0x01, 0x68, 0xCE, 0x3C, 0x80,
         0x00, 0x00, 0x00, 0x01, 0x06, 0x05, 0x18,
         0x76, 0x27, 0xFF, 0xE0, 0x49, 0x24, 0x40, 0x84,
         0xB9, 0x8D, 0xF2, 0xC9, 0x44, 0x4B, 0x8E, 0x98,
         0x01, 0x02, 0x03, 0x04, 0x05, 0x06, 0x07, 0x08, 0xFF] := by
  decide

/-! ## C4 -/

/-- Claim C4 at S4 turned into fragments: the end fragment with sequence 51 and the marker
is added first, the start fragment with sequence 50 second.  The packets stay in arrival
order `[51, 50]`, the frame is not completed, and reassembly reports `head_seq = 51`,
`tail_seq = 50` and writes the body of packet 51 first. -/
theorem marker_first_not_ordered :
    (frame_add_all (frame_create 300 .CODEC_H264 0)
      [rtp_packet 1 51 300 [0x7C, 0x45, 0x22], rtp_packet 0 50 300 [0x7C, 0x85, 0x11]]
      ).packets.map packet_t.sequence = [51, 50] ∧
    (frame_add_all (frame_create 300 .CODEC_H264 0)
      [rtp_packet 1 51 300 [0x7C, 0x45, 0x22], rtp_packet 0 50 300 [0x7C, 0x85, 0x11]]
      ).completed = false ∧
    (frame_reassemble (fun _ => 0)
      (frame_add_all (frame_create 300 .CODEC_H264 0)
        [rtp_packet 1 51 300 [0x7C, 0x45, 0x22], rtp_packet 0 50 300 [0x7C, 0x85, 0x11]])
      (media_new .PREFIX_ANNEXB 32) false {}).1 = true ∧
    (frame_reassemble (fun _ => 0)
      (frame_add_all (frame_create 300 .CODEC_H264 0)
        [rtp_packet 1 51 300 [0x7C, 0x45, 0x22], rtp_packet 0 50 300 [0x7C, 0x85, 0x11]])
      (media_new .PREFIX_ANNEXB 32) false {}).2.2.1.head_seq = 51 ∧
    (frame_reassemble (fun _ => 0)
      (frame_add_all (frame_create 300 .CODEC_H264 0)
        [rtp_packet 1 51 300 [0x7C, 0x45, 0x22], rtp_packet 0 50 300 [0x7C, 0x85, 0x11]])
      (media_new .PREFIX_ANNEXB 32) false {}).2.2.1.tail_seq = 50 ∧
    (frame_reassemble (fun _ => 0)
      (frame_add_all (frame_create 300 .CODEC_H264 0)
        [rtp_packet 1 51 300 [0x7C, 0x45, 0x22], rtp_packet 0 50 300 [0x7C, 0x85, 0x11]])
      (media_new .PREFIX_ANNEXB 32) false {}).2.2.1.buffer.take 7
      = [0x22, 0, 0, 0, 1, 0xE5, 0x11] := by
  decide

/-! ## C5 -/

/-- A gapped frame whose timestamp is not 0.  The fragments 70 (start) and 72 (end, marker)
of one frame with timestamp `ts` are added while the frame is younger than `reap_us`.  Then
the frame stays in the table with `completed = false` and the completion queue stays empty.
A third add, for a packet of another timestamp, at a time when
`enqueue_us - created_us > reap_us` holds for the frame, takes the frame out of the table and
puts it in the completion queue, still with `completed = false`.  Whenever that frame is at
the head of the completion queue and the output fits, `rtp_depacketizer_get_frame` succeeds
and the NAL header byte it writes behind the prefix has `forbidden_zero_bit = 1`. -/
theorem gap_frame_reaped_incomplete (timeout_us reap_us t0 e1 c1 e2 c2 e3 c3 : Int)
    (p70 p72 q : packet_t) (ts : Nat)
    (ht0 : 0 ≤ t0) (htimeout : 0 ≤ timeout_us) (hts : ts ≠ 0)
    (h70 : p70.is_fu ∧ p70.timestamp = ts ∧ p70.sequence = 70 ∧ p70.marker = 0 ∧
      fu_start p70.fu_header = 1 ∧ fu_end p70.fu_header = 0)
    (h72 : p72.is_fu ∧ p72.timestamp = ts ∧ p72.sequence = 72 ∧ p72.marker = 1 ∧
      fu_start p72.fu_header = 0 ∧ fu_end p72.fu_header = 1)
    (hq : q.timestamp ≠ ts)
    (hyoung1 : ¬ e1 - c1 > reap_us) (hyoung2 : ¬ e2 - c1 > reap_us) (hold : e3 - c1 > reap_us) :
    (rtp_depacketizer_add_all (rtp_depacketizer_create .CODEC_H264 timeout_us reap_us t0)
      [(p70, e1, c1), (p72, e2, c2)]).frames
      = [(ts, ⟨[p70, p72], .CODEC_H264, c1, ts, true, false, 0⟩)] ∧
    (rtp_depacketizer_add_all (rtp_depacketizer_create .CODEC_H264 timeout_us reap_us t0)
      [(p70, e1, c1), (p72, e2, c2)]).completed = [] ∧
    (rtp_depacketizer_add_all (rtp_depacketizer_create .CODEC_H264 timeout_us reap_us t0)
      [(p70, e1, c1), (p72, e2, c2), (q, e3, c3)]).frames.lookup ts = none ∧
    (⟨[p70, p72], .CODEC_H264, c1, ts, true, false, 0⟩ : frame_t) ∈
      (rtp_depacketizer_add_all (rtp_depacketizer_create .CODEC_H264 timeout_us reap_us t0)
        [(p70, e1, c1), (p72, e2, c2), (q, e3, c3)]).completed ∧
    ∀ (real_time : Nat → Nat) (d : rtp_depacketizer_t) (rest : List frame_t) (media : media_t),
      d.completed = ⟨[p70, p72], .CODEC_H264, c1, ts, true, false, 0⟩ :: rest →
      (prefix_bytes media.pfx p70.size).length + 1 + p70.fu_body.length
        + p72.fu_body.length < media.length →
      media.length ≤ media.buffer.length →
      (rtp_depacketizer_get_frame real_time d media).1 = true ∧
      nal_forbidden (byteAt (rtp_depacketizer_get_frame real_time d media).2.1.buffer
        (prefix_bytes media.pfx p70.size).length) = 1 := by
  obtain ⟨f70, t70, s70, m70, st70, en70⟩ := h70
  obtain ⟨f72, t72, s72, m72, st72, en72⟩ := h72
  have hno : ¬ (0 - t0 > timeout_us) := by omega
  -- first add: a new frame holding the start fragment
  have hadd1 : frame_add_packet (frame_create p70.timestamp .CODEC_H264 c1) p70 false
      = (true, ⟨[p70], .CODEC_H264, c1, ts, false, false, 0⟩, false) := by
    rw [frame_add_packet_append (frame_create p70.timestamp .CODEC_H264 c1) p70 false
      h264_format rfl rfl m70
      (by rw [is_fu_last_unit f70]; simp [en70])]
    simp [frame_create, t70]
  have hd1 : rtp_depacketizer_add_all
      (rtp_depacketizer_create .CODEC_H264 timeout_us reap_us t0) [(p70, e1, c1)]
      = ⟨[(ts, ⟨[p70], .CODEC_H264, c1, ts, false, false, 0⟩)], [], .CODEC_H264, e1, t0,
          timeout_us, reap_us, {}⟩ := by
    have := rtp_depacketizer_enqueue_packet_new
      (rtp_depacketizer_create .CODEC_H264 timeout_us reap_us t0) p70 false e1 c1 _ _ rfl hadd1
      hno
    rw [rtp_depacketizer_add_all_singleton, this]
    simp [rtp_depacketizer_create, rtp_depacketizer_reap_sweep, rtp_depacketizer_reap_frame,
      t70, hts, hyoung1]
  -- second add: the end fragment; the packets are ordered, the gap keeps the frame incomplete
  have hsort : frame_order_packets [p70, p72] = [p70, p72] := by
    refine frame_order_packets_sorted _ 70 ?_ ?_
    · simp [seq_offset, s70, s72]
    · intro p hp
      simp only [List.mem_cons, List.mem_singleton, List.not_mem_nil, or_false] at hp
      rcases hp with rfl | rfl
      · simp [seq_offset, s70]
      · simp [seq_offset, s72]
  have hcheck : frame_check_completeness
      ⟨[p70, p72], .CODEC_H264, c1, ts, true, false, 0⟩ = false := by
    have hf := is_fu_first_unit f70
    have hl := is_fu_last_unit f72
    simp only [frame_check_completeness, format_get_reassembly_context, List.head?_cons,
      List.getLast?_cons_cons, List.getLast?_singleton, hf, hl]
    simp [st70, en72, frame_foreach_packet, s70, s72]
  have hadd2 : frame_add_packet ⟨[p70], .CODEC_H264, c1, ts, false, false, 0⟩ p72 false
      = (true, ⟨[p70, p72], .CODEC_H264, c1, ts, true, false, 0⟩, false) := by
    simp [frame_add_packet, t72, format_get_reassembly_context, m72, hsort, hcheck]
  have hd2 : rtp_depacketizer_add_all
      (rtp_depacketizer_create .CODEC_H264 timeout_us reap_us t0) [(p70, e1, c1), (p72, e2, c2)]
      = ⟨[(ts, ⟨[p70, p72], .CODEC_H264, c1, ts, true, false, 0⟩)], [], .CODEC_H264, e2, t0,
          timeout_us, reap_us, {}⟩ := by
    rw [show [(p70, e1, c1), (p72, e2, c2)] = [(p70, e1, c1)] ++ [(p72, e2, c2)] from rfl,
      rtp_depacketizer_add_all_append, hd1]
    have := rtp_depacketizer_enqueue_packet_old
      ⟨[(ts, ⟨[p70], .CODEC_H264, c1, ts, false, false, 0⟩)], [], .CODEC_H264, e1, t0,
        timeout_us, reap_us, {}⟩ p72 false e2 c2 _ _ _ (by simp [List.lookup, t72]) hadd2 hno
    simp only [t72, List.map_cons, List.map_nil, eq_self_iff_true, if_true] at this
    rw [rtp_depacketizer_add_all_singleton, this]
    simp [rtp_depacketizer_reap_sweep, rtp_depacketizer_reap_frame, hts, hyoung2]
  -- third add: any packet of another timestamp, late enough to reap the gapped frame
  have hd3 : rtp_depacketizer_add_all
      (rtp_depacketizer_create .CODEC_H264 timeout_us reap_us t0)
      [(p70, e1, c1), (p72, e2, c2), (q, e3, c3)]
      = (rtp_depacketizer_enqueue_packet
          ⟨[(ts, ⟨[p70, p72], .CODEC_H264, c1, ts, true, false, 0⟩)], [], .CODEC_H264, e2, t0,
            timeout_us, reap_us, {}⟩ q false e3 c3).2.2 := by
    rw [show [(p70, e1, c1), (p72, e2, c2), (q, e3, c3)]
        = [(p70, e1, c1), (p72, e2, c2)] ++ [(q, e3, c3)] from rfl,
      rtp_depacketizer_add_all_append, hd2, rtp_depacketizer_add_all_singleton]
  obtain ⟨a1, _, _, _, _, _⟩ := frame_add_packet_fields
    (frame_create q.timestamp .CODEC_H264 c3) q false h264_format rfl rfl
  rcases haq : frame_add_packet (frame_create q.timestamp .CODEC_H264 c3) q false
    with ⟨b, fq, cq⟩
  rw [haq] at a1
  simp only [] at a1
  subst a1
  have hlook : (([(ts, ⟨[p70, p72], .CODEC_H264, c1, ts, true, false, 0⟩)] :
      List (Nat × frame_t))).lookup q.timestamp = none := by
    have hb : (q.timestamp == ts) = false := by simpa using hq
    simp [List.lookup, hb]
  have hd3' := rtp_depacketizer_enqueue_packet_new
    ⟨[(ts, ⟨[p70, p72], .CODEC_H264, c1, ts, true, false, 0⟩)], [], .CODEC_H264, e2, t0,
      timeout_us, reap_us, {}⟩ q false e3 c3 fq cq hlook haq hno
  rw [hd3'] at hd3
  rw [hd2, hd3]
  refine ⟨rfl, rfl, ?_, ?_, ?_⟩
  · -- the key is gone from the map
    rw [List.singleton_append, rtp_depacketizer_reap_sweep_steal _ _ _ _ _ _ hts (Or.inr hold)]
    rw [List.lookup_eq_none_iff]
    intro e he
    have := rtp_depacketizer_reap_sweep_keys _ _ _ _ e he
    simp only [List.mem_singleton] at this
    rw [this]
    simpa using Ne.symm hq
  · -- the frame is queued, still incomplete
    rw [List.singleton_append, rtp_depacketizer_reap_sweep_steal _ _ _ _ _ _ hts (Or.inr hold)]
    exact rtp_depacketizer_reap_sweep_mem _ _ _ _ _ (by simp [g_queue_insert_sorted])
  · intro real_time d rest media hd hfit hcap
    obtain ⟨r1, r2⟩ := frame_reassemble_gap real_time p70 p72 c1 ts media d.context f70 st70
      f72 st72 hfit hcap
    have hml : 0 < media.length := by omega
    rcases hfr : frame_reassemble real_time
      ⟨[p70, p72], .CODEC_H264, c1, ts, true, false, 0⟩ media false d.context
      with ⟨b, fr, m, cx⟩
    rw [hfr] at r1 r2
    simp only [] at r1 r2
    subst r1
    have hcodec : fr.codec = .CODEC_H264 := by
      have := frame_reassemble_codec real_time
        ⟨[p70, p72], .CODEC_H264, c1, ts, true, false, 0⟩ media false d.context
      rw [hfr] at this
      exact this
    simp [rtp_depacketizer_get_frame, hml, hd, hfr, hcodec, r2]

/-- The statement above at S5 with `reap_us = 100000`: the third add comes 100001
microseconds after the frame was created. -/
theorem gap_frame_reaped_incomplete_witness :
    (s5_first.is_fu ∧ s5_first.timestamp = 500 ∧ s5_first.sequence = 70 ∧ s5_first.marker = 0 ∧
      fu_start s5_first.fu_header = 1 ∧ fu_end s5_first.fu_header = 0) ∧
    (s5_last.is_fu ∧ s5_last.timestamp = 500 ∧ s5_last.sequence = 72 ∧ s5_last.marker = 1 ∧
      fu_start s5_last.fu_header = 0 ∧ fu_end s5_last.fu_header = 1) ∧
    s5_other.timestamp ≠ 500 ∧
    ((rtp_depacketizer_add_all (rtp_depacketizer_create .CODEC_H264 1000000 100000 0)
      [(s5_first, 10, 11), (s5_last, 20, 21)]).frames
      = [(500, ⟨[s5_first, s5_last], .CODEC_H264, 11, 500, true, false, 0⟩)] ∧
    (rtp_depacketizer_add_all (rtp_depacketizer_create .CODEC_H264 1000000 100000 0)
      [(s5_first, 10, 11), (s5_last, 20, 21)]).completed = [] ∧
    (rtp_depacketizer_add_all (rtp_depacketizer_create .CODEC_H264 1000000 100000 0)
      [(s5_first, 10, 11), (s5_last, 20, 21), (s5_other, 100012, 100013)]).frames.lookup 500
      = none ∧
    (⟨[s5_first, s5_last], .CODEC_H264, 11, 500, true, false, 0⟩ : frame_t) ∈
      (rtp_depacketizer_add_all (rtp_depacketizer_create .CODEC_H264 1000000 100000 0)
        [(s5_first, 10, 11), (s5_last, 20, 21), (s5_other, 100012, 100013)]).completed ∧
    ∀ (real_time : Nat → Nat) (d : rtp_depacketizer_t) (rest : List frame_t) (media : media_t),
      d.completed = ⟨[s5_first, s5_last], .CODEC_H264, 11, 500, true, false, 0⟩ :: rest →
      (prefix_bytes media.pfx s5_first.size).length + 1 + s5_first.fu_body.length
        + s5_last.fu_body.length < media.length →
      media.length ≤ media.buffer.length →
      (rtp_depacketizer_get_frame real_time d media).1 = true ∧
      nal_forbidden (byteAt (rtp_depacketizer_get_frame real_time d media).2.1.buffer
        (prefix_bytes media.pfx s5_first.size).length) = 1) :=
  ⟨by decide, by decide, by decide,
   gap_frame_reaped_incomplete 1000000 100000 0 10 11 20 21 100012 100013 s5_first s5_last
     s5_other 500 (by decide) (by decide) (by decide) (by decide) (by decide) (by decide)
     (by decide) (by decide) (by decide)⟩

/-- Claim C5 at S5 with the RTP timestamp 0 in place of 500 (`reap_us = 100000`, frame
created at 11).  After the add of the start fragment 70 the table is empty and the completion
queue is empty, and so they are after the add of the end fragment 72: each add makes a new
frame, and the sweep at the end of the add drops it.  After a third add at 100012, of a
packet with timestamp 600, the table holds the frame 600 only, the completion queue is still
empty and `rtp_depacketizer_get_frame` fails: nothing of the gapped frame is ever delivered.
With the timestamp 500 the same three adds put the gapped frame in the completion queue. -/
theorem gap_frame_timestamp_zero_not_reaped :
    (rtp_depacketizer_add_all (rtp_depacketizer_create .CODEC_H264 1000000 100000 0)
      [(rtp_packet 0 70 0 [0x7C, 0x85, 0x11], 10, 11)]).frames = [] ∧
    (rtp_depacketizer_add_all (rtp_depacketizer_create .CODEC_H264 1000000 100000 0)
      [(rtp_packet 0 70 0 [0x7C, 0x85, 0x11], 10, 11)]).completed = [] ∧
    (rtp_depacketizer_add_all (rtp_depacketizer_create .CODEC_H264 1000000 100000 0)
      [(rtp_packet 0 70 0 [0x7C, 0x85, 0x11], 10, 11),
       (rtp_packet 1 72 0 [0x7C, 0x45, 0x33], 20, 21)]).frames = [] ∧
    (rtp_depacketizer_add_all (rtp_depacketizer_create .CODEC_H264 1000000 100000 0)
      [(rtp_packet 0 70 0 [0x7C, 0x85, 0x11], 10, 11),
       (rtp_packet 1 72 0 [0x7C, 0x45, 0x33], 20, 21)]).completed = [] ∧
    (rtp_depacketizer_add_all (rtp_depacketizer_create .CODEC_H264 1000000 100000 0)
      [(rtp_packet 0 70 0 [0x7C, 0x85, 0x11], 10, 11),
       (rtp_packet 1 72 0 [0x7C, 0x45, 0x33], 20, 21),
       (s5_other, 100012, 100013)]).frames.map Prod.fst = [600] ∧
    (rtp_depacketizer_add_all (rtp_depacketizer_create .CODEC_H264 1000000 100000 0)
      [(rtp_packet 0 70 0 [0x7C, 0x85, 0x11], 10, 11),
       (rtp_packet 1 72 0 [0x7C, 0x45, 0x33], 20, 21),
       (s5_other, 100012, 100013)]).completed = [] ∧
    (rtp_depacketizer_get_frame (fun _ => 0)
      (rtp_depacketizer_add_all (rtp_depacketizer_create .CODEC_H264 1000000 100000 0)
        [(rtp_packet 0 70 0 [0x7C, 0x85, 0x11], 10, 11),
         (rtp_packet 1 72 0 [0x7C, 0x45, 0x33], 20, 21),
         (s5_other, 100012, 100013)])
      (media_new .PREFIX_ANNEXB 32)).1 = false ∧
    (⟨[s5_first, s5_last], .CODEC_H264, 11, 500, true, false, 0⟩ : frame_t) ∈
      (rtp_depacketizer_add_all (rtp_depacketizer_create .CODEC_H264 1000000 100000 0)
        [(s5_first, 10, 11), (s5_last, 20, 21), (s5_other, 100012, 100013)]).completed := by
  decide

/-! ## C6 -/

/-- Claim C6 at S6: the fragments 65534 (start), 65535, 0 and 1 (end, marker) are added in
this order.  The packets are ordered `[65534, 65535, 0, 1]`, yet the completeness check
leaves `completed = false`. -/
theorem wrapped_run_not_completed :
    (frame_add_packet
      (frame_add_all (frame_create 200 .CODEC_H264 0)
        [rtp_packet 0 65534 200 [0x7C, 0x85, 0x11], rtp_packet 0 65535 200 [0x7C, 0x05, 0x22],
         rtp_packet 0 0 200 [0x7C, 0x05, 0x33]])
      (rtp_packet 1 1 200 [0x7C, 0x45, 0x44]) false).2.2 = false ∧
    (frame_add_packet
      (frame_add_all (frame_create 200 .CODEC_H264 0)
        [rtp_packet 0 65534 200 [0x7C, 0x85, 0x11], rtp_packet 0 65535 200 [0x7C, 0x05, 0x22],
         rtp_packet 0 0 200 [0x7C, 0x05, 0x33]])
      (rtp_packet 1 1 200 [0x7C, 0x45, 0x44]) false).2.1.packets.map packet_t.sequence
      = [65534, 65535, 0, 1] := by
  decide

/-! ## C7 -/

/-- Ordering of a frame, and the sequence span when every packet carries a payload.  The
packets of one frame carry distinct sequence numbers that lie within a circular window of
2^15 numbers starting at `base`, and they are added in any order with a marker packet last.
Then the frame holds the same packets in circular ascending order (ascending offset from
`base` modulo 2^16); and when no packet has an empty payload, whenever reassembly of the
frame succeeds, `media.head_seq` is the sequence number of the first and `media.tail_seq`
that of the last packet of this order. -/
theorem frame_orders_circular_window (codec : codec_t) (format : format_t)
    (hfmt : format_get_reassembly_context codec = some format) (ts : Nat) (created_us : Int)
    (ps : List packet_t) (pm : packet_t) (c : Bool) (base : Nat)
    (hts : ∀ p ∈ ps ++ [pm], p.timestamp = ts) (hmark : pm.marker ≠ 0)
    (hdist : (ps ++ [pm]).Pairwise (fun a b => a.sequence ≠ b.sequence))
    (hwin : ∀ p ∈ ps ++ [pm], seq_offset base p < 32768)
    (hsz : ∀ p ∈ ps ++ [pm], p.size ≠ 0) :
    (frame_add_packet (frame_add_all (frame_create ts codec created_us) ps) pm c).2.1.packets.Perm
      (ps ++ [pm]) ∧
    (frame_add_packet (frame_add_all (frame_create ts codec created_us) ps) pm
      c).2.1.packets.Pairwise (fun a b => seq_offset base a < seq_offset base b) ∧
    ∀ (real_time : Nat → Nat) (media : media_t) (completed : Bool) (context : h264_context_t),
      (frame_reassemble real_time
        (frame_add_packet (frame_add_all (frame_create ts codec created_us) ps) pm c).2.1
        media completed context).1 = true →
      (frame_add_packet (frame_add_all (frame_create ts codec created_us) ps) pm
          c).2.1.packets.head?.map packet_t.sequence
        = some (frame_reassemble real_time
            (frame_add_packet (frame_add_all (frame_create ts codec created_us) ps) pm c).2.1
            media completed context).2.2.1.head_seq ∧
      (frame_add_packet (frame_add_all (frame_create ts codec created_us) ps) pm
          c).2.1.packets.getLast?.map packet_t.sequence
        = some (frame_reassemble real_time
            (frame_add_packet (frame_add_all (frame_create ts codec created_us) ps) pm c).2.1
            media completed context).2.2.1.tail_seq := by
  obtain ⟨a2, a3, a4, _, a6⟩ := frame_add_all_fields ps (frame_create ts codec created_us) format
    (fun p hp => hts p (List.mem_append_left _ hp)) hfmt
  have a6' : (frame_add_all (frame_create ts codec created_us) ps).packets.Perm ps := by
    simpa [frame_create] using a6
  have hts' : pm.timestamp = (frame_add_all (frame_create ts codec created_us) ps).timestamp := by
    rw [a3]; exact hts pm (by simp)
  have hfmt' : format_get_reassembly_context
      (frame_add_all (frame_create ts codec created_us) ps).codec = some format := by
    rw [a2]; exact hfmt
  obtain ⟨_, _, _, b4, _, b6⟩ := frame_add_packet_fields _ pm c format hts' hfmt'
  have hperm := b6.trans (a6'.append_right [pm])
  have hsorted : (frame_add_packet (frame_add_all (frame_create ts codec created_us) ps) pm
      c).2.1.packets.Pairwise (fun a b => seq_offset base a < seq_offset base b) := by
    rw [frame_add_packet_marker _ pm c format hts' hfmt' hmark]
    have hq := a6'.append_right [pm]
    by_cases hlen : ((frame_add_all (frame_create ts codec created_us) ps).packets
        ++ [pm]).length > 1
    · rw [if_pos hlen]
      refine (frame_order_packets_window base _ ?_ ?_).2
      · exact (hq.pairwise_iff
          (fun {a b} (hab : a.sequence ≠ b.sequence) => Ne.symm hab)).2 hdist
      · exact fun p hp => hwin p (hq.mem_iff.1 hp)
    · rw [if_neg hlen]
      have : (frame_add_all (frame_create ts codec created_us) ps).packets = [] := by
        apply List.eq_nil_of_length_eq_zero
        rw [List.length_append, List.length_singleton] at hlen
        omega
      rw [this]
      simp
  refine ⟨hperm, hsorted, ?_⟩
  intro real_time media completed context h
  refine frame_reassemble_seq real_time _ media completed context h
    (fun p hp => hsz p (hperm.mem_iff.1 hp)) ?_ ?_
  · rw [b4, a4]; rfl
  · intro hnil
    have := hperm.length_eq
    rw [hnil] at this
    simp at this

/-- The statement above at S6, the packets added in the order 0, 65535, 65534, 1: they are
ordered `[65534, 65535, 0, 1]`, and a reassembly reports `head_seq = 65534` and
`tail_seq = 1`. -/
theorem frame_orders_circular_window_witness :
    (∀ p ∈ [s6_packet 0, s6_packet 65535, s6_packet 65534] ++ [s6_packet 1],
      p.timestamp = 200) ∧
    (s6_packet 1).marker ≠ 0 ∧
    ([s6_packet 0, s6_packet 65535, s6_packet 65534] ++ [s6_packet 1]).Pairwise
      (fun a b => a.sequence ≠ b.sequence) ∧
    (∀ p ∈ [s6_packet 0, s6_packet 65535, s6_packet 65534] ++ [s6_packet 1],
      seq_offset 65534 p < 32768) ∧
    (∀ p ∈ [s6_packet 0, s6_packet 65535, s6_packet 65534] ++ [s6_packet 1], p.size ≠ 0) ∧
    (frame_add_packet (frame_add_all (frame_create 200 .CODEC_H264 0)
      [s6_packet 0, s6_packet 65535, s6_packet 65534]) (s6_packet 1)
      false).2.1.packets.map packet_t.sequence = [65534, 65535, 0, 1] ∧
    (frame_reassemble (fun _ => 0)
      (frame_add_packet (frame_add_all (frame_create 200 .CODEC_H264 0)
        [s6_packet 0, s6_packet 65535, s6_packet 65534]) (s6_packet 1) false).2.1
      (media_new .PREFIX_ANNEXB 32) true {}).1 = true ∧
    (frame_reassemble (fun _ => 0)
      (frame_add_packet (frame_add_all (frame_create 200 .CODEC_H264 0)
        [s6_packet 0, s6_packet 65535, s6_packet 65534]) (s6_packet 1) false).2.1
      (media_new .PREFIX_ANNEXB 32) true {}).2.2.1.head_seq = 65534 ∧
    (frame_reassemble (fun _ => 0)
      (frame_add_packet (frame_add_all (frame_create 200 .CODEC_H264 0)
        [s6_packet 0, s6_packet 65535, s6_packet 65534]) (s6_packet 1) false).2.1
      (media_new .PREFIX_ANNEXB 32) true {}).2.2.1.tail_seq = 1 ∧
    ((frame_add_packet (frame_add_all (frame_create 200 .CODEC_H264 0)
      [s6_packet 0, s6_packet 65535, s6_packet 65534]) (s6_packet 1) false).2.1.packets.Perm
      ([s6_packet 0, s6_packet 65535, s6_packet 65534] ++ [s6_packet 1]) ∧
    (frame_add_packet (frame_add_all (frame_create 200 .CODEC_H264 0)
      [s6_packet 0, s6_packet 65535, s6_packet 65534]) (s6_packet 1)
      false).2.1.packets.Pairwise (fun a b => seq_offset 65534 a < seq_offset 65534 b) ∧
    ∀ (real_time : Nat → Nat) (media : media_t) (completed : Bool) (context : h264_context_t),
      (frame_reassemble real_time
        (frame_add_packet (frame_add_all (frame_create 200 .CODEC_H264 0)
          [s6_packet 0, s6_packet 65535, s6_packet 65534]) (s6_packet 1) false).2.1
        media completed context).1 = true →
      (frame_add_packet (frame_add_all (frame_create 200 .CODEC_H264 0)
          [s6_packet 0, s6_packet 65535, s6_packet 65534]) (s6_packet 1)
          false).2.1.packets.head?.map packet_t.sequence
        = some (frame_reassemble real_time
            (frame_add_packet (frame_add_all (frame_create 200 .CODEC_H264 0)
              [s6_packet 0, s6_packet 65535, s6_packet 65534]) (s6_packet 1) false).2.1
            media completed context).2.2.1.head_seq ∧
      (frame_add_packet (frame_add_all (frame_create 200 .CODEC_H264 0)
          [s6_packet 0, s6_packet 65535, s6_packet 65534]) (s6_packet 1)
          false).2.1.packets.getLast?.map packet_t.sequence
        = some (frame_reassemble real_time
            (frame_add_packet (frame_add_all (frame_create 200 .CODEC_H264 0)
              [s6_packet 0, s6_packet 65535, s6_packet 65534]) (s6_packet 1) false).2.1
            media completed context).2.2.1.tail_seq) :=
  ⟨by decide, by decide, by decide, by decide, by decide, by decide, by decide, by decide,
   by decide,
   frame_orders_circular_window .CODEC_H264 h264_format rfl 200 0
     [s6_packet 0, s6_packet 65535, s6_packet 65534] (s6_packet 1) false 65534
     (by decide) (by decide) (by decide) (by decide) (by decide)⟩

/-- Claim C7 at S6 with the fragment at sequence 0 replaced by a datagram that holds padding
only (P = 1, padding `00 00 03`), whose payload is empty.  The packets are added in the
order 0, 65535, 65534, 1, the marker packet last, and are ordered `[65534, 65535, 0, 1]`.
`frame_reassemble` returns true with `head_seq = 65534` and `tail_seq = 65535`, where the
claim has `tail_seq = 1`: at the empty payload the loop jumps to `RETURN` with `result` still
true from `packet_get_payload`.  Two packets are counted, the packet 1 is still queued, the
output has the 7 bytes of the first two fragments, and `media.rtptime` is not written (the
frame has the timestamp 200). -/
theorem padding_packet_stops_reassembly :
    (padding_only_packet 0 200).size = 0 ∧
    (padding_only_packet 0 200).sequence = 0 ∧
    (padding_only_packet 0 200).timestamp = 200 ∧
    (frame_add_packet (frame_add_all (frame_create 200 .CODEC_H264 0)
      [padding_only_packet 0 200, s6_packet 65535, s6_packet 65534]) (s6_packet 1)
      false).2.1.packets.map packet_t.sequence = [65534, 65535, 0, 1] ∧
    (frame_reassemble (fun _ => 0)
      (frame_add_packet (frame_add_all (frame_create 200 .CODEC_H264 0)
        [padding_only_packet 0 200, s6_packet 65535, s6_packet 65534]) (s6_packet 1) false).2.1
      (media_new .PREFIX_ANNEXB 32) false {}).1 = true ∧
    (frame_reassemble (fun _ => 0)
      (frame_add_packet (frame_add_all (frame_create 200 .CODEC_H264 0)
        [padding_only_packet 0 200, s6_packet 65535, s6_packet 65534]) (s6_packet 1) false).2.1
      (media_new .PREFIX_ANNEXB 32) false {}).2.2.1.head_seq = 65534 ∧
    (frame_reassemble (fun _ => 0)
      (frame_add_packet (frame_add_all (frame_create 200 .CODEC_H264 0)
        [padding_only_packet 0 200, s6_packet 65535, s6_packet 65534]) (s6_packet 1) false).2.1
      (media_new .PREFIX_ANNEXB 32) false {}).2.2.1.tail_seq = 65535 ∧
    (frame_reassemble (fun _ => 0)
      (frame_add_packet (frame_add_all (frame_create 200 .CODEC_H264 0)
        [padding_only_packet 0 200, s6_packet 65535, s6_packet 65534]) (s6_packet 1) false).2.1
      (media_new .PREFIX_ANNEXB 32) false {}).2.1.unitcount = 2 ∧
    (frame_reassemble (fun _ => 0)
      (frame_add_packet (frame_add_all (frame_create 200 .CODEC_H264 0)
        [padding_only_packet 0 200, s6_packet 65535, s6_packet 65534]) (s6_packet 1) false).2.1
      (media_new .PREFIX_ANNEXB 32) false {}).2.1.packets.map packet_t.sequence = [1] ∧
    (frame_reassemble (fun _ => 0)
      (frame_add_packet (frame_add_all (frame_create 200 .CODEC_H264 0)
        [padding_only_packet 0 200, s6_packet 65535, s6_packet 65534]) (s6_packet 1) false).2.1
      (media_new .PREFIX_ANNEXB 32) false {}).2.2.1.length = 7 ∧
    (frame_reassemble (fun _ => 0)
      (frame_add_packet (frame_add_all (frame_create 200 .CODEC_H264 0)
        [padding_only_packet 0 200, s6_packet 65535, s6_packet 65534]) (s6_packet 1) false).2.1
      (media_new .PREFIX_ANNEXB 32) false {}).2.2.1.rtptime = 0 := by
  decide

/-! ## C8 -/

/-- Single NAL units with prefix None.  For a payload that is a single NAL unit of type 1,
5, 6, 7 or 8 with at least two bytes that fits the buffer, `h264_reassemble_frame` with
prefix None succeeds and the output length is the payload length; the output bytes are the
payload verbatim whenever the byte at offset 4 of the buffer after the copy does not have
type 7. -/
theorem h264_single_nalu_none_round_trip (real_time : Nat → Nat) (buf : List Nat)
    (limit : Nat) (payload : List Nat) (n : Nat) (completed : Bool) (context : h264_context_t)
    (ht : nal_unit_type (byteAt payload 0) = 1 ∨ nal_unit_type (byteAt payload 0) = 5 ∨
      nal_unit_type (byteAt payload 0) = 6 ∨ nal_unit_type (byteAt payload 0) = 7 ∨
      nal_unit_type (byteAt payload 0) = 8)
    (h2 : 2 ≤ n) (hin : n ≤ payload.length) (hfit : n < limit) (_hcap : limit ≤ buf.length) :
    (h264_reassemble_frame real_time (out_t.init buf) limit .PREFIX_NONE payload n completed
      context).1 = true ∧
    (h264_reassemble_frame real_time (out_t.init buf) limit .PREFIX_NONE payload n completed
      context).2.1.length = n ∧
    (nal_unit_type (byteAt (memWrite buf 0 (payload.take n)) 4) ≠ 7 →
      (h264_reassemble_frame real_time (out_t.init buf) limit .PREFIX_NONE payload n completed
        context).2.1.buffer.take n = payload.take n) := by
  have hre := h264_reassemble_frame_single real_time (out_t.init buf) limit .PREFIX_NONE payload
    n completed context ht (by omega) (by simp [prefix_bytes, out_t.init]; omega)
  have ho : ((out_t.init buf).put (prefix_bytes .PREFIX_NONE n)).put (memRead payload n)
      = ⟨memWrite buf 0 (payload.take n), n, n, 0⟩ := by
    rw [show prefix_bytes prefix_t.PREFIX_NONE n = [] from rfl, put_nil]
    simp [out_t.put, out_t.init, memRead_of_le hin, hin]
  rw [ho] at hre
  rw [hre]
  obtain ⟨h1, h2', _⟩ := h264_parse_context_fst ((out_t.init buf).index + 4) payload
    ⟨memWrite buf 0 (payload.take n), n, n, 0⟩ context (by show 0 < n; omega)
  refine ⟨h1, h2', fun h7 => ?_⟩
  have := (h264_parse_context_not_sps ((out_t.init buf).index + 4) payload
    ⟨memWrite buf 0 (payload.take n), n, n, 0⟩ context (by simpa [out_t.init] using h7)
    (by show 0 < n; omega)).2
  rw [this]
  have hw := @memWrite_take buf 0 (payload.take n) (by omega)
  simpa [hin] using hw

/-- The statement above at the payload `61 AA BB`. -/
theorem h264_single_nalu_none_round_trip_witness :
    nal_unit_type (byteAt [0x61, 0xAA, 0xBB] 0) = 1 ∧
    nal_unit_type (byteAt (memWrite (List.replicate 16 0) 0 ([0x61, 0xAA, 0xBB].take 3)) 4) ≠ 7 ∧
    ((h264_reassemble_frame (fun _ => 0) (out_t.init (List.replicate 16 0)) 16 .PREFIX_NONE
      [0x61, 0xAA, 0xBB] 3 true {}).1 = true ∧
    (h264_reassemble_frame (fun _ => 0) (out_t.init (List.replicate 16 0)) 16 .PREFIX_NONE
      [0x61, 0xAA, 0xBB] 3 true {}).2.1.length = 3 ∧
    (nal_unit_type (byteAt (memWrite (List.replicate 16 0) 0 ([0x61, 0xAA, 0xBB].take 3)) 4) ≠ 7 →
      (h264_reassemble_frame (fun _ => 0) (out_t.init (List.replicate 16 0)) 16 .PREFIX_NONE
        [0x61, 0xAA, 0xBB] 3 true {}).2.1.buffer.take 3 = [0x61, 0xAA, 0xBB].take 3)) :=
  ⟨by decide, by decide,
   h264_single_nalu_none_round_trip (fun _ => 0) (List.replicate 16 0) 16 [0x61, 0xAA, 0xBB] 3
     true {} (Or.inl (by decide)) (by decide) (by decide) (by decide) (by decide)⟩

/-- Claim C8 at the payload `61 11 22 33 07 42 00 1E F8 FF FF`, a single NAL unit of type 1
with 11 bytes, reassembled with prefix None into a zeroed buffer of 16 bytes.  Reassembly
succeeds with output length 11, but the output is not the payload: byte 8 is `FC`, not `F8`.
`h264_reassemble_frame` looks for the NAL header at `*index + 4`, its place behind a 4-byte
prefix, though prefix None writes none; the byte found there, `07`, has type 7, so
`h264_decode_sps` runs on the bytes from offset 4 on and sets bit 37 behind that byte. -/
theorem h264_single_nalu_none_not_verbatim :
    nal_unit_type (byteAt [0x61, 0x11, 0x22, 0x33, 0x07, 0x42, 0x00, 0x1E, 0xF8, 0xFF, 0xFF] 0)
      = 1 ∧
    (h264_reassemble_frame (fun _ => 0) (out_t.init (List.replicate 16 0)) 16 .PREFIX_NONE
      [0x61, 0x11, 0x22, 0x33, 0x07, 0x42, 0x00, 0x1E, 0xF8, 0xFF, 0xFF] 11 true {}).1 = true ∧
    (h264_reassemble_frame (fun _ => 0) (out_t.init (List.replicate 16 0)) 16 .PREFIX_NONE
      [0x61, 0x11, 0x22, 0x33, 0x07, 0x42, 0x00, 0x1E, 0xF8, 0xFF, 0xFF] 11 true {}).2.1.length
      = 11 ∧
    (h264_reassemble_frame (fun _ => 0) (out_t.init (List.replicate 16 0)) 16 .PREFIX_NONE
      [0x61, 0x11, 0x22, 0x33, 0x07, 0x42, 0x00, 0x1E, 0xF8, 0xFF, 0xFF] 11 true {}).2.1.buffer.take 11
      = [0x61, 0x11, 0x22, 0x33, 0x07, 0x42, 0x00, 0x1E, 0xFC, 0xFF, 0xFF] ∧
    (h264_reassemble_frame (fun _ => 0) (out_t.init (List.replicate 16 0)) 16 .PREFIX_NONE
      [0x61, 0x11, 0x22, 0x33, 0x07, 0x42, 0x00, 0x1E, 0xF8, 0xFF, 0xFF] 11 true {}).2.1.buffer.take 11
      ≠ [0x61, 0x11, 0x22, 0x33, 0x07, 0x42, 0x00, 0x1E, 0xF8, 0xFF, 0xFF] ∧
    (h264_reassemble_frame (fun _ => 0) (out_t.init (List.replicate 16 0)) 16 .PREFIX_ANNEXB
      [0x61, 0x11, 0x22, 0x33, 0x07, 0x42, 0x00, 0x1E, 0xF8, 0xFF, 0xFF] 11 true {}).2.1.buffer.take 15
      = [0x00, 0x00, 0x00, 0x01,
         0x61, 0x11, 0x22, 0x33, 0x07, 0x42, 0x00, 0x1E, 0xF8, 0xFF, 0xFF] := by
  decide

/-! ## C9 -/

/-- Claim C9.  For a frame that holds one Opus packet whose payload has at least one byte,
lies inside the datagram, has TOC count 0, 1 or 2 and fits the buffer, `frame_reassemble`
succeeds in every prefix mode, the output bytes are the payload verbatim (TOC byte
included, no prefix), and the output length is the payload length. -/
theorem opus_round_trip (p : packet_t) (frame : frame_t) (media : media_t)
    (real_time : Nat → Nat) (context : h264_context_t) (completed : Bool)
    (hframe : frame.packets = [p]) (hcodec : frame.codec = .CODEC_OPUS)
    (hsound : p.sound) (hsize : 1 ≤ p.size)
    (hcount : opus_count (byteAt p.body 0) = 0 ∨ opus_count (byteAt p.body 0) = 1 ∨
      opus_count (byteAt p.body 0) = 2)
    (hfit : p.size < media.length) (_hcap : media.length ≤ media.buffer.length) :
    (frame_reassemble real_time frame media completed context).1 = true ∧
    (frame_reassemble real_time frame media completed context).2.2.1.buffer.take p.size
      = p.body ∧
    (frame_reassemble real_time frame media completed context).2.2.1.length = p.size := by
  have hb0 : byteAt p.body 0 = byteAt (packet_get_payload p).2.1 0 := by
    unfold packet_t.body; exact byteAt_take (by omega)
  rw [hb0] at hcount
  have hc3 : opus_count (byteAt (packet_get_payload p).2.1 0) ≠ 3 := by omega
  have hre : opus_format.reassemble real_time (out_t.init media.buffer) media.length media.pfx
      (packet_get_payload p).2.1 p.size completed context
      = (true, ⟨memWrite media.buffer 0 (memRead (packet_get_payload p).2.1 p.size), 0,
                p.size, 0⟩, context) := by
    show opus_reassemble_frame real_time (out_t.init media.buffer) media.length media.pfx
      (packet_get_payload p).2.1 p.size completed context = _
    simp [opus_reassemble_frame, hsize, hc3, out_t.init, hfit]
  have hloop := frame_reassemble_loop_cons real_time opus_format media.length media.pfx
    completed p [] _ _ frame.unitcount media.head_seq media.tail_seq context context
    (by omega) hre
  have hloop' : frame_reassemble_loop real_time opus_format media.length media.pfx completed
      frame.packets (out_t.init media.buffer) frame.unitcount media.head_seq media.tail_seq
      context = (none, [], ⟨memWrite media.buffer 0 (memRead (packet_get_payload p).2.1 p.size),
        0, p.size, 0⟩, frame.unitcount + 1,
        (if frame.unitcount = 0 then p.sequence else media.head_seq), p.sequence, context) := by
    rw [hframe, hloop]; simp [frame_reassemble_loop]
  have hfmt : format_get_reassembly_context frame.codec = some opus_format := by
    rw [hcodec]; rfl
  rw [frame_reassemble_ok real_time frame media completed context context opus_format _ _ _ _ _
    (by omega) hfmt hloop']
  refine ⟨rfl, ?_, rfl⟩
  have := @memWrite_take media.buffer 0
    (memRead (packet_get_payload p).2.1 p.size) (by omega)
  rw [memRead_length, memRead_of_le hsound] at this
  simpa [packet_t.body, memRead_of_le hsound] using this

/-- The claim C9 at the payload `08 AA BB` (TOC count 0) with prefix mode AVCC. -/
theorem opus_round_trip_witness :
    (rtp_packet 1 10 100 [0x08, 0xAA, 0xBB]).sound ∧
    (rtp_packet 1 10 100 [0x08, 0xAA, 0xBB]).body = [0x08, 0xAA, 0xBB] ∧
    opus_count (byteAt (rtp_packet 1 10 100 [0x08, 0xAA, 0xBB]).body 0) = 0 ∧
    ((frame_reassemble (fun _ => 0)
      ⟨[rtp_packet 1 10 100 [0x08, 0xAA, 0xBB]], .CODEC_OPUS, 0, 100, true, true, 0⟩
      (media_new .PREFIX_AVCC 16) true {}).1 = true ∧
    (frame_reassemble (fun _ => 0)
      ⟨[rtp_packet 1 10 100 [0x08, 0xAA, 0xBB]], .CODEC_OPUS, 0, 100, true, true, 0⟩
      (media_new .PREFIX_AVCC 16) true {}).2.2.1.buffer.take
        (rtp_packet 1 10 100 [0x08, 0xAA, 0xBB]).size
      = (rtp_packet 1 10 100 [0x08, 0xAA, 0xBB]).body ∧
    (frame_reassemble (fun _ => 0)
      ⟨[rtp_packet 1 10 100 [0x08, 0xAA, 0xBB]], .CODEC_OPUS, 0, 100, true, true, 0⟩
      (media_new .PREFIX_AVCC 16) true {}).2.2.1.length
      = (rtp_packet 1 10 100 [0x08, 0xAA, 0xBB]).size) :=
  ⟨by decide, by decide, by decide,
   opus_round_trip (rtp_packet 1 10 100 [0x08, 0xAA, 0xBB])
     ⟨[rtp_packet 1 10 100 [0x08, 0xAA, 0xBB]], .CODEC_OPUS, 0, 100, true, true, 0⟩
     (media_new .PREFIX_AVCC 16) (fun _ => 0) {} true rfl rfl (by decide) (by decide)
     (Or.inl (by decide)) (by decide) (by decide)⟩

/-! ## C10 -/

/-- Claim C10 at two single-packet frames with timestamps 1 and 2147483650, added in this
order: the completion queue holds them as `[2147483650, 1]`, and two `get_frame` calls deliver
`rtptime = 2147483650` and then `rtptime = 1`. -/
theorem completion_queue_not_ascending :
    ((rtp_depacketizer_add_packet
      (rtp_depacketizer_add_packet (rtp_depacketizer_create .CODEC_H264 1000000 100000 0)
        (rtp_packet 1 10 1 [0x61, 0xAA, 0xBB]) false 10 11).2.2
      (rtp_packet 1 11 2147483650 [0x61, 0xCC, 0xDD]) false 20 21).2.2.completed.map
        frame_t.timestamp) = [2147483650, 1] ∧
    (rtp_depacketizer_get_frame (fun _ => 0)
      (rtp_depacketizer_add_packet
        (rtp_depacketizer_add_packet (rtp_depacketizer_create .CODEC_H264 1000000 100000 0)
          (rtp_packet 1 10 1 [0x61, 0xAA, 0xBB]) false 10 11).2.2
        (rtp_packet 1 11 2147483650 [0x61, 0xCC, 0xDD]) false 20 21).2.2
      (media_new .PREFIX_ANNEXB 32)).2.1.rtptime = 2147483650 ∧
    (rtp_depacketizer_get_frame (fun _ => 0)
      (rtp_depacketizer_get_frame (fun _ => 0)
        (rtp_depacketizer_add_packet
          (rtp_depacketizer_add_packet (rtp_depacketizer_create .CODEC_H264 1000000 100000 0)
            (rtp_packet 1 10 1 [0x61, 0xAA, 0xBB]) false 10 11).2.2
          (rtp_packet 1 11 2147483650 [0x61, 0xCC, 0xDD]) false 20 21).2.2
        (media_new .PREFIX_ANNEXB 32)).2.2
      (media_new .PREFIX_ANNEXB 32)).2.1.rtptime = 1 := by
  decide

/-! ## C11 -/

/-- Claim C11 at a frame with timestamp 0.  A start fragment with timestamp 0 is added to an
empty depacketizer: the add succeeds, the frame is not completed and not older than
`reap_us`, yet after the add it is neither in the table nor in the completion queue.  The
same holds for a single-unit packet with timestamp 0, whose frame is completed. -/
theorem timestamp_zero_frame_lost :
    (rtp_depacketizer_add_packet (rtp_depacketizer_create .CODEC_H264 1000000 100000 1000)
      (rtp_packet 0 70 0 [0x7C, 0x85, 0x11]) false 2000 2001).1 = true ∧
    (frame_add_packet (frame_create 0 .CODEC_H264 2001)
      (rtp_packet 0 70 0 [0x7C, 0x85, 0x11]) false).2.1.completed = false ∧
    ¬ ((2000 : Int) - 2001 > 100000) ∧
    (rtp_depacketizer_add_packet (rtp_depacketizer_create .CODEC_H264 1000000 100000 1000)
      (rtp_packet 0 70 0 [0x7C, 0x85, 0x11]) false 2000 2001).2.2.frames = [] ∧
    (rtp_depacketizer_add_packet (rtp_depacketizer_create .CODEC_H264 1000000 100000 1000)
      (rtp_packet 0 70 0 [0x7C, 0x85, 0x11]) false 2000 2001).2.2.completed = [] ∧
    (rtp_depacketizer_add_packet (rtp_depacketizer_create .CODEC_H264 1000000 100000 1000)
      (rtp_packet 1 10 0 [0x61, 0xAA, 0xBB]) false 2000 2001).1 = true ∧
    (frame_add_packet (frame_create 0 .CODEC_H264 2001)
      (rtp_packet 1 10 0 [0x61, 0xAA, 0xBB]) false).2.1.completed = true ∧
    (rtp_depacketizer_add_packet (rtp_depacketizer_create .CODEC_H264 1000000 100000 1000)
      (rtp_packet 1 10 0 [0x61, 0xAA, 0xBB]) false 2000 2001).2.2.frames = [] ∧
    (rtp_depacketizer_add_packet (rtp_depacketizer_create .CODEC_H264 1000000 100000 1000)
      (rtp_packet 1 10 0 [0x61, 0xAA, 0xBB]) false 2000 2001).2.2.completed = [] := by
  decide

/-! ## C12 -/

/-- Claim C12 at a depacketizer created at time 1000 with `timeout_us = 100`: a start
fragment is added at time 1010 and a packet of another frame at time 2000.  At the end of the
second add `enqueue_us - refresh_us = 1000` and the age of the first frame is 990, both above
`timeout_us`, yet the first frame is still in the table and `refresh_us` is still 1000. -/
theorem timeout_sweep_does_not_run :
    ((2000 : Int) - 1000 > 100) ∧ ((2000 : Int) - 1010 > 100) ∧
    (rtp_depacketizer_add_all (rtp_depacketizer_create .CODEC_H264 100 1000000 1000)
      [(rtp_packet 0 70 500 [0x7C, 0x85, 0x11], 1010, 1010),
       (rtp_packet 0 80 600 [0x7C, 0x85, 0x22], 2000, 2000)]).frames.map Prod.fst
      = [500, 600] ∧
    ((rtp_depacketizer_add_all (rtp_depacketizer_create .CODEC_H264 100 1000000 1000)
      [(rtp_packet 0 70 500 [0x7C, 0x85, 0x11], 1010, 1010),
       (rtp_packet 0 80 600 [0x7C, 0x85, 0x22], 2000, 2000)]).frames.lookup 500).map
        frame_t.created_us = some 1010 ∧
    (rtp_depacketizer_add_all (rtp_depacketizer_create .CODEC_H264 100 1000000 1000)
      [(rtp_packet 0 70 500 [0x7C, 0x85, 0x11], 1010, 1010),
       (rtp_packet 0 80 600 [0x7C, 0x85, 0x22], 2000, 2000)]).enqueue_us = 2000 ∧
    (rtp_depacketizer_add_all (rtp_depacketizer_create .CODEC_H264 100 1000000 1000)
      [(rtp_packet 0 70 500 [0x7C, 0x85, 0x11], 1010, 1010),
       (rtp_packet 0 80 600 [0x7C, 0x85, 0x22], 2000, 2000)]).refresh_us = 1000 := by
  decide

/-! ## C13 -/

/-- Claim C13 at a frame with the start fragment 0 and the end fragment 2 (marker), the
fragment 1 missing: the packets are ordered `[0, 2]`, the completeness check returns true and
`frame_add_packet` reports `completed = true`. -/
theorem gap_after_sequence_zero_completes :
    (frame_add_packet
      (frame_add_all (frame_create 200 .CODEC_H264 0) [rtp_packet 0 0 200 [0x7C, 0x85, 0x11]])
      (rtp_packet 1 2 200 [0x7C, 0x45, 0x33]) false).2.1.packets.map packet_t.sequence
      = [0, 2] ∧
    frame_check_completeness
      (frame_add_packet
        (frame_add_all (frame_create 200 .CODEC_H264 0) [rtp_packet 0 0 200 [0x7C, 0x85, 0x11]])
        (rtp_packet 1 2 200 [0x7C, 0x45, 0x33]) false).2.1 = true ∧
    (frame_add_packet
      (frame_add_all (frame_create 200 .CODEC_H264 0) [rtp_packet 0 0 200 [0x7C, 0x85, 0x11]])
      (rtp_packet 1 2 200 [0x7C, 0x45, 0x33]) false).2.2 = true := by
  decide

/-! ## C14 -/

/-- Claim C14 at S2 with prefix AVCC: the three fragments are rejoined to the four bytes
`65 11 22 33`, and the length written in front of them is 3, the payload length of the
first fragment packet. -/
theorem avcc_length_of_fragmented_unit :
    (frame_reassemble (fun _ => 0)
      (frame_add_packet (frame_add_all (frame_create 200 .CODEC_H264 0) [s2_first, s2_middle])
        s2_last false).2.1 (media_new .PREFIX_AVCC 16) true {}).1 = true ∧
    (frame_reassemble (fun _ => 0)
      (frame_add_packet (frame_add_all (frame_create 200 .CODEC_H264 0) [s2_first, s2_middle])
        s2_last false).2.1 (media_new .PREFIX_AVCC 16) true {}).2.2.1.length = 8 ∧
    (frame_reassemble (fun _ => 0)
      (frame_add_packet (frame_add_all (frame_create 200 .CODEC_H264 0) [s2_first, s2_middle])
        s2_last false).2.1 (media_new .PREFIX_AVCC 16) true {}).2.2.1.buffer.take 8
      = [0x00, 0x00, 0x00, 0x03, 0x65, 0x11, 0x22, 0x33] := by
  decide

/-! ## C15 -/

/-- Claim C15 at two datagrams of 23 bytes.  The first has `extension = 1`, no CSRC entry,
the extension header `BE DE 00 01` with one word of extension data, and the payload
`61 AA BB`: `packet_get_payload` returns the slice at offset 17 with length 6.  The second has
one CSRC entry `00 00 00 05` followed by the extension header `BE DE 00 00`: the length
field is read from the CSRC entry, the slice starts behind the datagram and the length is
`2 ^ 64 - 2`. -/
theorem extension_length_counted_in_bytes :
    (packet_get_payload
      ⟨[0x90, 0xE0, 0x00, 0x0A, 0x00, 0x00, 0x00, 0x64, 0x00, 0x00, 0x00, 0x01,
        0xBE, 0xDE, 0x00, 0x01, 0x10, 0x20, 0x30, 0x40, 0x61, 0xAA, 0xBB], 0, false⟩).1 = true ∧
    (packet_get_payload
      ⟨[0x90, 0xE0, 0x00, 0x0A, 0x00, 0x00, 0x00, 0x64, 0x00, 0x00, 0x00, 0x01,
        0xBE, 0xDE, 0x00, 0x01, 0x10, 0x20, 0x30, 0x40, 0x61, 0xAA, 0xBB], 0, false⟩).2.2 = 6 ∧
    (packet_get_payload
      ⟨[0x90, 0xE0, 0x00, 0x0A, 0x00, 0x00, 0x00, 0x64, 0x00, 0x00, 0x00, 0x01,
        0xBE, 0xDE, 0x00, 0x01, 0x10, 0x20, 0x30, 0x40, 0x61, 0xAA, 0xBB], 0, false⟩).2.1
      = [0x20, 0x30, 0x40, 0x61, 0xAA, 0xBB] ∧
    (packet_get_payload
      ⟨[0x91, 0xE0, 0x00, 0x0A, 0x00, 0x00, 0x00, 0x64, 0x00, 0x00, 0x00, 0x01,
        0x00, 0x00, 0x00, 0x05, 0xBE, 0xDE, 0x00, 0x00, 0x61, 0xAA, 0xBB], 0, false⟩).2.2
      = 2 ^ 64 - 2 ∧
    (packet_get_payload
      ⟨[0x91, 0xE0, 0x00, 0x0A, 0x00, 0x00, 0x00, 0x64, 0x00, 0x00, 0x00, 0x01,
        0x00, 0x00, 0x00, 0x05, 0xBE, 0xDE, 0x00, 0x00, 0x61, 0xAA, 0xBB], 0, false⟩).2.1 = [] := by
  decide

/-! ## C16 -/

/-- Claim C16, amended.  For all packets, whose sequence numbers are 16-bit numbers `a` and
`b`, `packet_compare_sequence` returns the difference `a - b` when `|a - b| <= 32767` and
the sign-inverted difference `-(a - b)` when `|a - b| >= 32768`. -/
theorem packet_compare_sequence_threshold (lpkt rpkt : packet_t) :
    lpkt.sequence < 2 ^ 16 ∧ rpkt.sequence < 2 ^ 16 ∧
    (((lpkt.sequence : Int) - (rpkt.sequence : Int)).natAbs ≤ 32767 →
      packet_compare_sequence lpkt rpkt = (lpkt.sequence : Int) - (rpkt.sequence : Int)) ∧
    (((lpkt.sequence : Int) - (rpkt.sequence : Int)).natAbs ≥ 32768 →
      packet_compare_sequence lpkt rpkt = -((lpkt.sequence : Int) - (rpkt.sequence : Int))) := by
  refine ⟨sequence_lt lpkt, sequence_lt rpkt, fun h => ?_, fun h => ?_⟩
  · rw [packet_compare_sequence_eq, if_pos h]
  · rw [packet_compare_sequence_eq, if_neg (by omega)]

/-- Claim C16 fails at `|a - b| = 2 ^ 15`: for `a = 32768` and `b = 0` the comparison returns
`-32768`, the sign-inverted difference. -/
theorem packet_compare_sequence_at_half :
    (rtp_packet 0 32768 0 []).sequence = 32768 ∧ (rtp_packet 0 0 0 []).sequence = 0 ∧
    packet_compare_sequence (rtp_packet 0 32768 0 []) (rtp_packet 0 0 0 []) = -32768 := by
  decide

/-- The amended claim C16 at the pairs (20, 22) and (65535, 1): the first comparison returns
`-2`, the second the sign-inverted difference `-65534`. -/
theorem packet_compare_sequence_threshold_witness :
    packet_compare_sequence (rtp_packet 0 20 0 []) (rtp_packet 0 22 0 [])
      = (((rtp_packet 0 20 0 []).sequence : Int) - ((rtp_packet 0 22 0 []).sequence : Int)) ∧
    packet_compare_sequence (rtp_packet 0 65535 0 []) (rtp_packet 0 1 0 [])
      = -(((rtp_packet 0 65535 0 []).sequence : Int) - ((rtp_packet 0 1 0 []).sequence : Int)) ∧
    packet_compare_sequence (rtp_packet 0 20 0 []) (rtp_packet 0 22 0 []) = -2 ∧
    packet_compare_sequence (rtp_packet 0 65535 0 []) (rtp_packet 0 1 0 []) = -65534 :=
  ⟨(packet_compare_sequence_threshold (rtp_packet 0 20 0 []) (rtp_packet 0 22 0 [])).2.2.1
     (by decide),
   (packet_compare_sequence_threshold (rtp_packet 0 65535 0 []) (rtp_packet 0 1 0 [])).2.2.2
     (by decide),
   by decide, by decide⟩

/-! ## C17 -/

/-- Sequence span of a completed frame whose head is not at sequence 0.  A frame has the
unit count 0 and packets with distinct sequence numbers in circular ascending order
(ascending offset from `base` modulo 2^16), none with an empty payload; its head sequence
number is not 0 unless the head is the only packet; the completeness check holds on it and
its reassembly succeeds.  Then the unit count after reassembly is the number of packets, at
least 1, and `media.tail_seq = media.head_seq + (unit count - 1)` without wrap. -/
theorem completed_frame_sequence_span (real_time : Nat → Nat) (frame : frame_t)
    (media : media_t) (completed : Bool) (context : h264_context_t) (base : Nat)
    (hu : frame.unitcount = 0)
    (hs : frame.packets.Pairwise (fun a b => seq_offset base a < seq_offset base b))
    (hh : ∀ h ∈ frame.packets.head?, h.sequence = 0 → frame.packets.length = 1)
    (hc : frame_check_completeness frame = true)
    (hsz : ∀ p ∈ frame.packets, p.size ≠ 0)
    (hre : (frame_reassemble real_time frame media completed context).1 = true) :
    (frame_reassemble real_time frame media completed context).2.1.unitcount
      = frame.packets.length ∧
    1 ≤ (frame_reassemble real_time frame media completed context).2.1.unitcount ∧
    (frame_reassemble real_time frame media completed context).2.2.1.tail_seq
      = (frame_reassemble real_time frame media completed context).2.2.1.head_seq
        + ((frame_reassemble real_time frame media completed context).2.1.unitcount - 1) := by
  have hcount := frame_reassemble_unitcount real_time frame media completed context hre hsz
  rw [hu, Nat.zero_add] at hcount
  have hne : frame.packets ≠ [] := by
    intro hnil
    simp [frame_check_completeness, hnil] at hc
    split at hc <;> simp at hc
  obtain ⟨hhead, htail⟩ := frame_reassemble_seq real_time frame media completed context hre
    hsz hu hne
  rw [hcount]
  refine ⟨rfl, ?_, ?_⟩
  · cases hp : frame.packets with
    | nil => exact absurd hp hne
    | cons a l => simp
  · cases hp : frame.packets with
    | nil => exact absurd hp hne
    | cons h l =>
      cases l with
      | nil =>
        rw [hp] at hhead htail
        simp at hhead htail
        simp [← hhead, ← htail]
      | cons x ps =>
        have hh0 : h.sequence ≠ 0 := by
          intro h0
          have := hh h (by rw [hp]; simp) h0
          rw [hp] at this
          simp at this
        have hscan := frame_check_completeness_scan frame h x ps hp hc
        rw [hp] at hs
        have hrun := frame_foreach_packet_contiguous base h (x :: ps) hh0 hs hscan
        rw [hp] at hhead htail
        have hl : (h :: x :: ps).getLast? = some ((h :: x :: ps).getLast (List.cons_ne_nil _ _)) :=
          List.getLast?_eq_getLast _ _
        rw [hl] at htail
        simp only [List.head?_cons, Option.map_some', Option.some.injEq] at hhead htail
        rw [← hhead, ← htail]
        have hlastmap : ((h :: x :: ps).map packet_t.sequence).getLast?
            = some (h.sequence + (ps.length + 1)) := by
          rw [hrun]
          simp [List.getLast?_range']
        rw [List.getLast?_map, hl] at hlastmap
        simp only [Option.map_some', Option.some.injEq] at hlastmap
        rw [hlastmap]
        simp

/-- The statement above at S2. -/
theorem completed_frame_sequence_span_witness :
    (frame_add_packet (frame_add_all (frame_create 200 .CODEC_H264 0) [s2_first, s2_middle])
      s2_last false).2.1.completed = true ∧
    (frame_add_packet (frame_add_all (frame_create 200 .CODEC_H264 0) [s2_first, s2_middle])
      s2_last false).2.1.packets.map packet_t.sequence = [20, 21, 22] ∧
    (frame_reassemble (fun _ => 0)
      (frame_add_packet (frame_add_all (frame_create 200 .CODEC_H264 0) [s2_first, s2_middle])
        s2_last false).2.1 (media_new .PREFIX_ANNEXB 16) true {}).2.2.1.head_seq = 20 ∧
    ((frame_reassemble (fun _ => 0)
      (frame_add_packet (frame_add_all (frame_create 200 .CODEC_H264 0) [s2_first, s2_middle])
        s2_last false).2.1 (media_new .PREFIX_ANNEXB 16) true {}).2.1.unitcount
      = (frame_add_packet (frame_add_all (frame_create 200 .CODEC_H264 0) [s2_first, s2_middle])
          s2_last false).2.1.packets.length ∧
    1 ≤ (frame_reassemble (fun _ => 0)
      (frame_add_packet (frame_add_all (frame_create 200 .CODEC_H264 0) [s2_first, s2_middle])
        s2_last false).2.1 (media_new .PREFIX_ANNEXB 16) true {}).2.1.unitcount ∧
    (frame_reassemble (fun _ => 0)
      (frame_add_packet (frame_add_all (frame_create 200 .CODEC_H264 0) [s2_first, s2_middle])
        s2_last false).2.1 (media_new .PREFIX_ANNEXB 16) true {}).2.2.1.tail_seq
      = (frame_reassemble (fun _ => 0)
          (frame_add_packet (frame_add_all (frame_create 200 .CODEC_H264 0) [s2_first, s2_middle])
            s2_last false).2.1 (media_new .PREFIX_ANNEXB 16) true {}).2.2.1.head_seq
        + ((frame_reassemble (fun _ => 0)
          (frame_add_packet (frame_add_all (frame_create 200 .CODEC_H264 0) [s2_first, s2_middle])
            s2_last false).2.1 (media_new .PREFIX_ANNEXB 16) true {}).2.1.unitcount - 1)) :=
  ⟨by decide, by decide, by decide,
   completed_frame_sequence_span (fun _ => 0)
     (frame_add_packet (frame_add_all (frame_create 200 .CODEC_H264 0) [s2_first, s2_middle])
       s2_last false).2.1 (media_new .PREFIX_ANNEXB 16) true {} 20
     (by decide) (by decide) (by decide) (by decide) (by decide) (by decide)⟩

/-- Claim C17 at a frame with timestamp 200 that holds the start fragment with sequence 0
and the end fragment with sequence 2 and the marker; the fragment 1 is missing.  The frame is
completed (the scan of `frame_foreach_packet` takes `*prevseq == 0` for "no packet seen" and
accepts the packet behind the head 0 whatever its number), it reassembles successfully and
all its packets are drained: the unit count is 2, `head_seq = 0` and `tail_seq = 2`, so the
distance `(tail_seq - head_seq) mod 2^16` is 2 and not `unit_count - 1 = 1`. -/
theorem sequence_zero_gap_frame_span :
    (frame_add_packet
      (frame_add_all (frame_create 200 .CODEC_H264 0) [rtp_packet 0 0 200 [0x7C, 0x85, 0x11]])
      (rtp_packet 1 2 200 [0x7C, 0x45, 0x33]) false).2.1.completed = true ∧
    (frame_reassemble (fun _ => 0)
      (frame_add_packet
        (frame_add_all (frame_create 200 .CODEC_H264 0) [rtp_packet 0 0 200 [0x7C, 0x85, 0x11]])
        (rtp_packet 1 2 200 [0x7C, 0x45, 0x33]) false).2.1
      (media_new .PREFIX_ANNEXB 32) true {}).1 = true ∧
    (frame_reassemble (fun _ => 0)
      (frame_add_packet
        (frame_add_all (frame_create 200 .CODEC_H264 0) [rtp_packet 0 0 200 [0x7C, 0x85, 0x11]])
        (rtp_packet 1 2 200 [0x7C, 0x45, 0x33]) false).2.1
      (media_new .PREFIX_ANNEXB 32) true {}).2.1.packets = [] ∧
    (frame_reassemble (fun _ => 0)
      (frame_add_packet
        (frame_add_all (frame_create 200 .CODEC_H264 0) [rtp_packet 0 0 200 [0x7C, 0x85, 0x11]])
        (rtp_packet 1 2 200 [0x7C, 0x45, 0x33]) false).2.1
      (media_new .PREFIX_ANNEXB 32) true {}).2.1.unitcount = 2 ∧
    (frame_reassemble (fun _ => 0)
      (frame_add_packet
        (frame_add_all (frame_create 200 .CODEC_H264 0) [rtp_packet 0 0 200 [0x7C, 0x85, 0x11]])
        (rtp_packet 1 2 200 [0x7C, 0x45, 0x33]) false).2.1
      (media_new .PREFIX_ANNEXB 32) true {}).2.2.1.head_seq = 0 ∧
    (frame_reassemble (fun _ => 0)
      (frame_add_packet
        (frame_add_all (frame_create 200 .CODEC_H264 0) [rtp_packet 0 0 200 [0x7C, 0x85, 0x11]])
        (rtp_packet 1 2 200 [0x7C, 0x45, 0x33]) false).2.1
      (media_new .PREFIX_ANNEXB 32) true {}).2.2.1.tail_seq = 2 ∧
    (((frame_reassemble (fun _ => 0)
        (frame_add_packet
          (frame_add_all (frame_create 200 .CODEC_H264 0)
            [rtp_packet 0 0 200 [0x7C, 0x85, 0x11]])
          (rtp_packet 1 2 200 [0x7C, 0x45, 0x33]) false).2.1
        (media_new .PREFIX_ANNEXB 32) true {}).2.2.1.tail_seq : Int)
      - ((frame_reassemble (fun _ => 0)
        (frame_add_packet
          (frame_add_all (frame_create 200 .CODEC_H264 0)
            [rtp_packet 0 0 200 [0x7C, 0x85, 0x11]])
          (rtp_packet 1 2 200 [0x7C, 0x45, 0x33]) false).2.1
        (media_new .PREFIX_ANNEXB 32) true {}).2.2.1.head_seq : Int)) % 2 ^ 16
      ≠ ((frame_reassemble (fun _ => 0)
        (frame_add_packet
          (frame_add_all (frame_create 200 .CODEC_H264 0)
            [rtp_packet 0 0 200 [0x7C, 0x85, 0x11]])
          (rtp_packet 1 2 200 [0x7C, 0x45, 0x33]) false).2.1
        (media_new .PREFIX_ANNEXB 32) true {}).2.1.unitcount : Int) - 1 := by
  decide

/-! ## C18 -/

/-- Claim C18, amended.  When a successful `frame_add_packet` on a frame whose completed flag
is false reports `completed = true`, the completed flag of the frame is true and its packet
list is in ascending order under `packet_compare_sequence`: every adjacent pair compares
`<= 0`. -/
theorem frame_completed_transition_sorted (frame : frame_t) (p : packet_t) (c : Bool)
    (h0 : frame.completed = false) (h1 : (frame_add_packet frame p c).1 = true)
    (h2 : (frame_add_packet frame p c).2.2 = true) :
    (frame_add_packet frame p c).2.1.completed = true ∧
    List.Chain' (fun a b => packet_compare_sequence a b ≤ 0)
      (frame_add_packet frame p c).2.1.packets := by
  unfold frame_add_packet at h1 h2 ⊢
  by_cases hts : p.timestamp = frame.timestamp
  · cases hfmt : format_get_reassembly_context frame.codec with
    | none => simp [hts, hfmt] at h1
    | some format =>
      simp only [hts, hfmt, ne_eq, not_true_eq_false, if_false] at h2 ⊢
      by_cases hm : ¬p.marker = 0 ∨ format.last_unit p.payload p.length = true
      · simp only [hm, if_true] at h2 ⊢
        refine ⟨h2, ?_⟩
        by_cases hl : (frame.packets ++ [p]).length > 1
        · simp only [hl, if_true]
          exact frame_order_packets_chain' _
        · simp only [hl, if_false]
          have : frame.packets = [] := by
            apply List.eq_nil_of_length_eq_zero
            rw [List.length_append, List.length_singleton] at hl
            omega
          rw [this]
          simp
      · simp only [hm, if_false] at h2
        rw [h0] at h2
        exact absurd h2 (by simp)
  · simp [hts] at h1

/-- The amended claim C18 at S2 with the fragments added in the order 21, 20, 22. -/
theorem frame_completed_transition_sorted_witness :
    (frame_add_all (frame_create 200 .CODEC_H264 0) [s2_middle, s2_first]).completed = false ∧
    (frame_add_packet (frame_add_all (frame_create 200 .CODEC_H264 0) [s2_middle, s2_first])
      s2_last false).2.1.packets.map packet_t.sequence = [20, 21, 22] ∧
    ((frame_add_packet (frame_add_all (frame_create 200 .CODEC_H264 0) [s2_middle, s2_first])
      s2_last false).2.1.completed = true ∧
    List.Chain' (fun a b => packet_compare_sequence a b ≤ 0)
      (frame_add_packet (frame_add_all (frame_create 200 .CODEC_H264 0) [s2_middle, s2_first])
        s2_last false).2.1.packets) :=
  ⟨by decide, by decide,
   frame_completed_transition_sorted
     (frame_add_all (frame_create 200 .CODEC_H264 0) [s2_middle, s2_first]) s2_last false
     (by decide) (by decide) (by decide)⟩

/-- Claim C18 fails when a packet is added after the flag was set: a single-unit packet with
sequence 10 completes the frame, a fragment with sequence 5 and no marker is added next; the
flag is still true and the list is `[10, 5]`, whose pair compares `5 > 0`. -/
theorem frame_completed_not_sorted :
    (frame_add_all (frame_create 200 .CODEC_H264 0)
      [rtp_packet 1 10 200 [0x61, 0xAA, 0xBB], rtp_packet 0 5 200 [0x7C, 0x05, 0x22]]
      ).completed = true ∧
    (frame_add_all (frame_create 200 .CODEC_H264 0)
      [rtp_packet 1 10 200 [0x61, 0xAA, 0xBB], rtp_packet 0 5 200 [0x7C, 0x05, 0x22]]
      ).packets.map packet_t.sequence = [10, 5] ∧
    packet_compare_sequence (rtp_packet 1 10 200 [0x61, 0xAA, 0xBB])
      (rtp_packet 0 5 200 [0x7C, 0x05, 0x22]) = 5 := by
  decide

/-! ## C19 -/

/-- The bit that `h264_decode_sps` sets.  `h264_decode_sps` runs on `nalu`, the output
buffer from the header of the emitted SPS on, and the offset that its statements up to
`num_ref_frames` arrive at lies inside the buffer.  Then the decoder succeeds, the bit at that
offset is 1 afterwards, `context.gaps_in_frame_num_value_allowed_flag` is true, the buffer
keeps its length, and every other bit is the same as before. -/
theorem h264_decode_sps_forces_gaps_flag (nalu : List Nat) (length : Nat)
    (context : h264_context_t) (hlen : 0 < length)
    (hin : (h264_decode_sps_head nalu context).2 < 8 * nalu.length) :
    (h264_decode_sps nalu length context).1 = true ∧
    h264_get_bit (h264_decode_sps nalu length context).2.1
      (h264_decode_sps_head nalu context).2 = 1 ∧
    (h264_decode_sps nalu length context).2.2.gaps_in_frame_num_value_allowed_flag = true ∧
    (h264_decode_sps nalu length context).2.1.length = nalu.length ∧
    ∀ j, j ≠ (h264_decode_sps_head nalu context).2 →
      h264_get_bit (h264_decode_sps nalu length context).2.1 j = h264_get_bit nalu j := by
  have hd : h264_decode_sps nalu length context
      = (true, h264_set_bit nalu (h264_decode_sps_head nalu context).2,
          (h264_decode_sps_tail (h264_set_bit nalu (h264_decode_sps_head nalu context).2)
            (h264_decode_sps_head nalu context)).1) := by
    simp [h264_decode_sps, hlen]
  rw [hd]
  refine ⟨rfl, h264_get_bit_set_bit_same _ _ hin, ?_, h264_set_bit_length _ _,
    fun j hj => h264_get_bit_set_bit_other _ _ _ hj⟩
  show (h264_decode_sps_tail _ _).1.gaps_in_frame_num_value_allowed_flag = true
  rw [h264_decode_sps_flag, h264_get_bit_set_bit_same _ _ hin]
  rfl

/-- Outside the listed profiles and for `pic_order_cnt_type = 0` the bit that
`h264_decode_sps` sets lies behind five ue(v) codes that start at bit 32
(`seq_parameter_set_id`, `log2_max_frame_num_minus4`, `pic_order_cnt_type`,
`log2_max_pic_order_cnt_lsb_minus4`, `num_ref_frames`), where an SPS of these profiles holds
`gaps_in_frame_num_value_allowed_flag`: when that bit lies inside the buffer it is 1
afterwards and every other bit is unchanged. -/
theorem h264_decode_sps_baseline_flag (nalu : List Nat) (length : Nat)
    (context : h264_context_t) (hlen : 0 < length)
    (hp : byteAt nalu 1 ∉ [100, 110, 122, 244, 44, 83, 86, 118, 128, 138, 144])
    (hpoc : toU8 (h264_decode_uexpgolomb nalu
      (h264_decode_uexpgolomb nalu (h264_decode_uexpgolomb nalu 32).2).2).1 = 0)
    (hin : (h264_decode_uexpgolomb nalu
          (h264_decode_uexpgolomb nalu
            (h264_decode_uexpgolomb nalu
              (h264_decode_uexpgolomb nalu
                (h264_decode_uexpgolomb nalu 32).2).2).2).2).2 < 8 * nalu.length) :
    h264_get_bit (h264_decode_sps nalu length context).2.1
      (h264_decode_uexpgolomb nalu
          (h264_decode_uexpgolomb nalu
            (h264_decode_uexpgolomb nalu
              (h264_decode_uexpgolomb nalu
                (h264_decode_uexpgolomb nalu 32).2).2).2).2).2 = 1 ∧
    (h264_decode_sps nalu length context).2.2.gaps_in_frame_num_value_allowed_flag = true ∧
    ∀ j, j ≠ (h264_decode_uexpgolomb nalu
          (h264_decode_uexpgolomb nalu
            (h264_decode_uexpgolomb nalu
              (h264_decode_uexpgolomb nalu
                (h264_decode_uexpgolomb nalu 32).2).2).2).2).2 →
      h264_get_bit (h264_decode_sps nalu length context).2.1 j = h264_get_bit nalu j := by
  have hs : h264_sps_skips_id (byteAt nalu 1) = false := by
    cases hc : h264_sps_skips_id (byteAt nalu 1) with
    | false => rfl
    | true => exact absurd ((h264_sps_skips_id_iff _).1 hc) hp
  have hb := h264_decode_sps_head_baseline nalu context hs hpoc
  rw [← hb] at hin ⊢
  obtain ⟨_, h2, h3, _, h5⟩ := h264_decode_sps_forces_gaps_flag nalu length context hlen hin
  exact ⟨h2, h3, h5⟩

/-- The statement above at the Baseline SPS `67 42 00 1E F8 FF FF`: the flag is bit 37, and
`F8` becomes `FC`. -/
theorem h264_decode_sps_forces_gaps_flag_witness :
    (h264_decode_sps_head [0x67, 0x42, 0x00, 0x1E, 0xF8, 0xFF, 0xFF] {}).2 = 37 ∧
    h264_get_bit [0x67, 0x42, 0x00, 0x1E, 0xF8, 0xFF, 0xFF] 37 = 0 ∧
    (h264_decode_sps [0x67, 0x42, 0x00, 0x1E, 0xF8, 0xFF, 0xFF] 7 {}).2.1
      = [0x67, 0x42, 0x00, 0x1E, 0xFC, 0xFF, 0xFF] ∧
    ((h264_decode_sps [0x67, 0x42, 0x00, 0x1E, 0xF8, 0xFF, 0xFF] 7 {}).1 = true ∧
    h264_get_bit (h264_decode_sps [0x67, 0x42, 0x00, 0x1E, 0xF8, 0xFF, 0xFF] 7 {}).2.1
      (h264_decode_sps_head [0x67, 0x42, 0x00, 0x1E, 0xF8, 0xFF, 0xFF] {}).2 = 1 ∧
    (h264_decode_sps [0x67, 0x42, 0x00, 0x1E, 0xF8, 0xFF, 0xFF] 7
      {}).2.2.gaps_in_frame_num_value_allowed_flag = true ∧
    (h264_decode_sps [0x67, 0x42, 0x00, 0x1E, 0xF8, 0xFF, 0xFF] 7 {}).2.1.length
      = [0x67, 0x42, 0x00, 0x1E, 0xF8, 0xFF, 0xFF].length ∧
    ∀ j, j ≠ (h264_decode_sps_head [0x67, 0x42, 0x00, 0x1E, 0xF8, 0xFF, 0xFF] {}).2 →
      h264_get_bit (h264_decode_sps [0x67, 0x42, 0x00, 0x1E, 0xF8, 0xFF, 0xFF] 7 {}).2.1 j
        = h264_get_bit [0x67, 0x42, 0x00, 0x1E, 0xF8, 0xFF, 0xFF] j) :=
  ⟨by decide, by decide, by decide,
   h264_decode_sps_forces_gaps_flag [0x67, 0x42, 0x00, 0x1E, 0xF8, 0xFF, 0xFF] 7 {}
     (by decide) (by decide)⟩

/-- Claim C19 at an SPS of the High profile, `67 64 00 1E AC E8 14 1D 90`.  Read as ue(v)
codes and flags from bit 32 on, its fields are `seq_parameter_set_id` = 0 (bit 32),
`chroma_format_idc` = 1 (bits 33 to 35), the two bit depths 0 (bits 36 and 37), two flags
(bits 38 and 39), `log2_max_frame_num_minus4` = 0 (bit 40), `pic_order_cnt_type` = 0 (bit
41), `log2_max_pic_order_cnt_lsb_minus4` = 0 (bit 42), `num_ref_frames` = 1 (bits 43 to 45);
the bit behind `num_ref_frames`, `gaps_in_frame_num_value_allowed_flag`, is bit 46 and is 0;
the picture has 19 + 1 by 13 + 1 macroblocks.  `h264_decode_sps` succeeds and arrives at
bit 62: for `profile_idc = 100` it skips `seq_parameter_set_id` and reads none of the fields
of the High profile, so it takes bit 32 for `log2_max_frame_num_minus4` and the bits
behind it for a picture order count of type 1.  It sets bit 62: byte 7 changes from `1D` to
`1F`, which is the last bit of `pic_height_in_map_units_minus1` and makes it 14.  Bit 46 is
still 0 in the output, while the context reports the flag as true.  The same holds when the
unit is reassembled as a single NAL unit behind a start code. -/
theorem high_profile_sps_flag_not_forced :
    nal_unit_type (byteAt sps_high_profile 0) = 7 ∧
    byteAt sps_high_profile 1 = 100 ∧
    h264_decode_uexpgolomb sps_high_profile 32 = (0, 33) ∧
    h264_decode_uexpgolomb sps_high_profile 33 = (1, 36) ∧
    h264_decode_uexpgolomb sps_high_profile 36 = (0, 37) ∧
    h264_decode_uexpgolomb sps_high_profile 37 = (0, 38) ∧
    h264_get_bits sps_high_profile 38 2 = (0, 40) ∧
    h264_decode_uexpgolomb sps_high_profile 40 = (0, 41) ∧
    h264_decode_uexpgolomb sps_high_profile 41 = (0, 42) ∧
    h264_decode_uexpgolomb sps_high_profile 42 = (0, 43) ∧
    h264_decode_uexpgolomb sps_high_profile 43 = (1, 46) ∧
    h264_get_bit sps_high_profile 46 = 0 ∧
    h264_decode_uexpgolomb sps_high_profile 47 = (19, 56) ∧
    h264_decode_uexpgolomb sps_high_profile 56 = (13, 63) ∧
    (h264_decode_sps_head sps_high_profile {}).2 = 62 ∧
    (h264_decode_sps sps_high_profile 9 {}).1 = true ∧
    (h264_decode_sps sps_high_profile 9 {}).2.1
      = [0x67, 0x64, 0x00, 0x1E, 0xAC, 0xE8, 0x14, 0x1F, 0x90] ∧
    h264_get_bit (h264_decode_sps sps_high_profile 9 {}).2.1 46 = 0 ∧
    h264_decode_uexpgolomb (h264_decode_sps sps_high_profile 9 {}).2.1 56 = (14, 63) ∧
    (h264_decode_sps sps_high_profile 9 {}).2.2.gaps_in_frame_num_value_allowed_flag = true ∧
    (h264_reassemble_frame (fun _ => 0) (out_t.init (List.replicate 16 0)) 16 .PREFIX_ANNEXB
      sps_high_profile 9 true {}).1 = true ∧
    (h264_reassemble_frame (fun _ => 0) (out_t.init (List.replicate 16 0)) 16 .PREFIX_ANNEXB
      sps_high_profile 9 true {}).2.1.buffer.take 13
      = [0x00, 0x00, 0x00, 0x01, 0x67, 0x64, 0x00, 0x1E, 0xAC, 0xE8, 0x14, 0x1F, 0x90] := by
  decide

/-! ## C20 -/

/-- Claim C20, amended.  Two reassemblies of frames with the same ordered packet list and the
same codec, into media with the same prefix mode, the same buffer contents and the same
`length`, with the same completed flag and the same wall-clock readings, report the same
result and leave the same buffer contents and the same output length, whatever the codec
contexts, the unit counts and the other fields of the frames and the media are. -/
theorem frame_reassemble_deterministic (real_time : Nat → Nat) (f1 f2 : frame_t)
    (m1 m2 : media_t) (completed : Bool) (c1 c2 : h264_context_t)
    (hp : f1.packets = f2.packets) (hcodec : f1.codec = f2.codec) (hpfx : m1.pfx = m2.pfx)
    (hbuf : m1.buffer = m2.buffer) (hlen : m1.length = m2.length) :
    (frame_reassemble real_time f1 m1 completed c1).1
      = (frame_reassemble real_time f2 m2 completed c2).1 ∧
    (frame_reassemble real_time f1 m1 completed c1).2.2.1.buffer
      = (frame_reassemble real_time f2 m2 completed c2).2.2.1.buffer ∧
    (frame_reassemble real_time f1 m1 completed c1).2.2.1.length
      = (frame_reassemble real_time f2 m2 completed c2).2.2.1.length := by
  by_cases hml : 0 < m2.length
  · have hml1 : 0 < m1.length := by rw [hlen]; exact hml
    cases hfmt : format_get_reassembly_context f2.codec with
    | none =>
      obtain ⟨a1, a2, a3⟩ := frame_reassemble_no_format real_time f1 m1 completed c1
        (by rw [hcodec]; exact hfmt)
      obtain ⟨b1, b2, b3⟩ := frame_reassemble_no_format real_time f2 m2 completed c2 hfmt
      rw [a1, a2, a3, b1, b2, b3, hbuf, hlen]
      exact ⟨rfl, rfl, rfl⟩
    | some format =>
      obtain ⟨a1, a2, a3⟩ := frame_reassemble_output real_time f1 m1 completed c1 format hml1
        (by rw [hcodec]; exact hfmt)
      obtain ⟨b1, b2, b3⟩ := frame_reassemble_output real_time f2 m2 completed c2 format hml
        hfmt
      obtain ⟨k1, k2⟩ := frame_reassemble_loop_context_free f2.codec format hfmt real_time
        m2.length m2.pfx completed f2.packets (out_t.init m2.buffer) f1.unitcount f2.unitcount
        m1.head_seq m2.head_seq m1.tail_seq m2.tail_seq c1 c2
      rw [a1, a2, a3, b1, b2, b3, hp, hpfx, hbuf, hlen, k1, k2]
      exact ⟨rfl, rfl, rfl⟩
  · have hml1 : ¬ 0 < m1.length := by rw [hlen]; exact hml
    rw [frame_reassemble_no_room _ _ _ _ _ hml, frame_reassemble_no_room _ _ _ _ _ hml1]
    exact ⟨rfl, hbuf, hlen⟩

/-- The amended claim C20 at a frame that holds one SPS packet, reassembled with two
different contexts. -/
theorem frame_reassemble_deterministic_witness :
    (frame_reassemble (fun _ => 0)
      ⟨[rtp_packet 1 10 100 [0x67, 0x42, 0x00, 0x1E, 0xF8, 0xFF, 0xFF]], .CODEC_H264, 0, 100,
        true, true, 0⟩ (media_new .PREFIX_ANNEXB 16) true {}).2.2.1.buffer.take 11
      = [0, 0, 0, 1, 0x67, 0x42, 0x00, 0x1E, 0xFC, 0xFF, 0xFF] ∧
    ((frame_reassemble (fun _ => 0)
      ⟨[rtp_packet 1 10 100 [0x67, 0x42, 0x00, 0x1E, 0xF8, 0xFF, 0xFF]], .CODEC_H264, 0, 100,
        true, true, 0⟩ (media_new .PREFIX_ANNEXB 16) true {}).1
      = (frame_reassemble (fun _ => 0)
      ⟨[rtp_packet 1 10 100 [0x67, 0x42, 0x00, 0x1E, 0xF8, 0xFF, 0xFF]], .CODEC_H264, 77, 100,
        false, false, 5⟩ { media_new .PREFIX_ANNEXB 16 with head_seq := 9, rtptime := 3 } true
      { profile_idc := 100, pic_order_cnt_type := 1,
        num_ref_frames_in_pic_order_cnt_cycle := 3 }).1 ∧
    (frame_reassemble (fun _ => 0)
      ⟨[rtp_packet 1 10 100 [0x67, 0x42, 0x00, 0x1E, 0xF8, 0xFF, 0xFF]], .CODEC_H264, 0, 100,
        true, true, 0⟩ (media_new .PREFIX_ANNEXB 16) true {}).2.2.1.buffer
      = (frame_reassemble (fun _ => 0)
      ⟨[rtp_packet 1 10 100 [0x67, 0x42, 0x00, 0x1E, 0xF8, 0xFF, 0xFF]], .CODEC_H264, 77, 100,
        false, false, 5⟩ { media_new .PREFIX_ANNEXB 16 with head_seq := 9, rtptime := 3 } true
      { profile_idc := 100, pic_order_cnt_type := 1,
        num_ref_frames_in_pic_order_cnt_cycle := 3 }).2.2.1.buffer ∧
    (frame_reassemble (fun _ => 0)
      ⟨[rtp_packet 1 10 100 [0x67, 0x42, 0x00, 0x1E, 0xF8, 0xFF, 0xFF]], .CODEC_H264, 0, 100,
        true, true, 0⟩ (media_new .PREFIX_ANNEXB 16) true {}).2.2.1.length
      = (frame_reassemble (fun _ => 0)
      ⟨[rtp_packet 1 10 100 [0x67, 0x42, 0x00, 0x1E, 0xF8, 0xFF, 0xFF]], .CODEC_H264, 77, 100,
        false, false, 5⟩ { media_new .PREFIX_ANNEXB 16 with head_seq := 9, rtptime := 3 } true
      { profile_idc := 100, pic_order_cnt_type := 1,
        num_ref_frames_in_pic_order_cnt_cycle := 3 }).2.2.1.length) :=
  ⟨by decide,
   frame_reassemble_deterministic (fun _ => 0)
     ⟨[rtp_packet 1 10 100 [0x67, 0x42, 0x00, 0x1E, 0xF8, 0xFF, 0xFF]], .CODEC_H264, 0, 100,
       true, true, 0⟩
     ⟨[rtp_packet 1 10 100 [0x67, 0x42, 0x00, 0x1E, 0xF8, 0xFF, 0xFF]], .CODEC_H264, 77, 100,
       false, false, 5⟩
     (media_new .PREFIX_ANNEXB 16) { media_new .PREFIX_ANNEXB 16 with head_seq := 9, rtptime := 3 }
     true {} { profile_idc := 100, pic_order_cnt_type := 1,
               num_ref_frames_in_pic_order_cnt_cycle := 3 } rfl rfl rfl rfl rfl⟩

/-- Claim C20 fails for an aggregation packet that holds a PPS: reassembled with the
wall-clock reading 1 and with the reading 2, the outputs differ in the timestamp bytes of the
SEI unit. -/
theorem reassembly_depends_on_wall_clock :
    (frame_reassemble (fun _ => 1)
      ⟨[rtp_packet 1 10 100 [0x18, 0x00, 0x04, 0x68, 0xCE, 0x3C, 0x80]], .CODEC_H264, 0, 100,
        true, false, 0⟩ (media_new .PREFIX_ANNEXB 64) false {}).1 = true ∧
    (frame_reassemble (fun _ => 1)
      ⟨[rtp_packet 1 10 100 [0x18, 0x00, 0x04, 0x68, 0xCE, 0x3C, 0x80]], .CODEC_H264, 0, 100,
        true, false, 0⟩ (media_new .PREFIX_ANNEXB 64) false {}).2.2.1.length = 40 ∧
    (frame_reassemble (fun _ => 1)
      ⟨[rtp_packet 1 10 100 [0x18, 0x00, 0x04, 0x68, 0xCE, 0x3C, 0x80]], .CODEC_H264, 0, 100,
        true, false, 0⟩ (media_new .PREFIX_ANNEXB 64) false {}).2.2.1.buffer.take 40
      = [0, 0, 0, 1, 0x68, 0xCE, 0x3C, 0x80, 0, 0, 0, 1, 0x06, 0x05, 0x18,
         0x76, 0x27, 0xDF, 0xE0, 0x49, 0x24, 0x40, 0x84,
         0xB9, 0x8D, 0xF2, 0xC9, 0x44, 0x4B, 0x8E, 0x98,
         0, 0, 0, 0, 0, 0, 0, 1, 0xFF] ∧
    (frame_reassemble (fun _ => 2)
      ⟨[rtp_packet 1 10 100 [0x18, 0x00, 0x04, 0x68, 0xCE, 0x3C, 0x80]], .CODEC_H264, 0, 100,
        true, false, 0⟩ (media_new .PREFIX_ANNEXB 64) false {}).2.2.1.buffer.take 40
      = [0, 0, 0, 1, 0x68, 0xCE, 0x3C, 0x80, 0, 0, 0, 1, 0x06, 0x05, 0x18,
         0x76, 0x27, 0xDF, 0xE0, 0x49, 0x24, 0x40, 0x84,
         0xB9, 0x8D, 0xF2, 0xC9, 0x44, 0x4B, 0x8E, 0x98,
         0, 0, 0, 0, 0, 0, 0, 2, 0xFF] := by
  decide

/-! ## C21 -/

/-- Bound checks of the composers.  The composers check `index + unit_bytes < limit` before
every write: whatever the result, `h264_compose_payload` and `opus_reassemble_frame` leave
the buffer's size and every byte at position `limit` or beyond as they were; a single NAL
unit that with its prefix would reach or pass the limit and an Opus payload that would reach
or pass it fail; and a successful `frame_reassemble` of an H.264 frame, or of a frame with at
most one packet, leaves an output length strictly below `media.length` on entry. -/
theorem composers_respect_limit (real_time : Nat → Nat) (limit : Nat) :
    (∀ (o : out_t) (pfx : prefix_t) (payload : List Nat) (size : Nat) (completed : Bool),
      limit ≤ o.buffer.length →
      (h264_compose_payload real_time o limit pfx payload size completed).2.buffer.length
        = o.buffer.length ∧
      (h264_compose_payload real_time o limit pfx payload size completed).2.buffer.drop limit
        = o.buffer.drop limit) ∧
    (∀ (o : out_t) (pfx : prefix_t) (payload : List Nat) (size : Nat) (completed : Bool)
        (context : h264_context_t),
      limit ≤ o.buffer.length →
      (opus_reassemble_frame real_time o limit pfx payload size completed
        context).2.1.buffer.length = o.buffer.length ∧
      (opus_reassemble_frame real_time o limit pfx payload size completed
        context).2.1.buffer.drop limit = o.buffer.drop limit) ∧
    (∀ (o : out_t) (pfx : prefix_t) (naluptr : List Nat) (n : Nat),
      ¬ o.index + (prefix_bytes pfx n).length + n < limit →
      (h264_compose_single_nalu o limit pfx naluptr n).1 = false) ∧
    (∀ (o : out_t) (pfx : prefix_t) (payload : List Nat) (size : Nat) (completed : Bool)
        (context : h264_context_t),
      ¬ o.index + size < limit →
      opus_reassemble_frame real_time o limit pfx payload size completed context
        = (false, o, context)) ∧
    (∀ (frame : frame_t) (media : media_t) (completed : Bool) (context : h264_context_t),
      media.length = limit →
      (frame.codec = .CODEC_H264 ∨ frame.packets.length ≤ 1) →
      (frame_reassemble real_time frame media completed context).1 = true →
      (frame_reassemble real_time frame media completed context).2.2.1.length < limit) := by
  refine ⟨?_, ?_, ?_, ?_, ?_⟩
  · intro o pfx payload size completed hcap
    exact h264_compose_payload_below real_time o limit pfx payload size completed hcap
  · intro o pfx payload size completed context hcap
    exact opus_reassemble_frame_below real_time o limit pfx payload size completed context hcap
  · intro o pfx naluptr n h
    exact h264_compose_single_nalu_no_room o limit pfx naluptr n h
  · intro o pfx payload size completed context h
    exact opus_reassemble_frame_no_room real_time o limit pfx payload size completed context h
  · intro frame media completed context hl hc hres
    rw [← hl]
    exact frame_reassemble_length_lt real_time frame media completed context hc hres

/-- The statement above at S1 and a buffer of 16 bytes: the frame reassembles to 7 bytes,
fewer than 16, and a single NAL unit of 12 bytes behind a start code does not fit. -/
theorem composers_respect_limit_witness :
    (frame_reassemble (fun _ => 0) (frame_add_all (frame_create 100 .CODEC_H264 0) [s1_packet])
      (media_new .PREFIX_ANNEXB 16) true {}).1 = true ∧
    (frame_reassemble (fun _ => 0) (frame_add_all (frame_create 100 .CODEC_H264 0) [s1_packet])
      (media_new .PREFIX_ANNEXB 16) true {}).2.2.1.length = 7 ∧
    (frame_reassemble (fun _ => 0) (frame_add_all (frame_create 100 .CODEC_H264 0) [s1_packet])
      (media_new .PREFIX_ANNEXB 16) true {}).2.2.1.length < 16 ∧
    (h264_compose_single_nalu (out_t.init (List.replicate 16 0)) 16 .PREFIX_ANNEXB
      (List.replicate 12 0x61) 12).1 = false :=
  ⟨by decide, by decide,
   (composers_respect_limit (fun _ => 0) 16).2.2.2.2
     (frame_add_all (frame_create 100 .CODEC_H264 0) [s1_packet])
     (media_new .PREFIX_ANNEXB 16) true {} rfl (Or.inl (by decide)) (by decide),
   (composers_respect_limit (fun _ => 0) 16).2.2.1 (out_t.init (List.replicate 16 0))
     .PREFIX_ANNEXB (List.replicate 12 0x61) 12 (by decide)⟩

/-- Claim C21 at two inputs.  An Opus frame that holds two packets of ten payload bytes
reassembles successfully into a buffer of 16 bytes with output length 20, not below the
capacity 16: `opus_reassemble_frame` checks `*index + size < limit` and copies every payload,
but never advances `*index`, it only adds to `*length`.  And an SPS unit `67 42` reassembled
with limit 7 into a buffer that holds `00 1E F8` at positions 6 to 8 succeeds and changes the
byte at position 8, beyond the limit, to `FC`: `h264_set_bit` in `h264_decode_sps` writes at
an offset read from the bitstream, with no check against the limit. -/
theorem reassembly_passes_limit :
    (frame_add_all (frame_create 100 .CODEC_OPUS 0)
      [rtp_packet 1 1 100 [0x08, 1, 2, 3, 4, 5, 6, 7, 8, 9],
       rtp_packet 1 2 100 [0x08, 11, 12, 13, 14, 15, 16, 17, 18, 19]]).packets.length = 2 ∧
    (frame_reassemble (fun _ => 0)
      (frame_add_all (frame_create 100 .CODEC_OPUS 0)
        [rtp_packet 1 1 100 [0x08, 1, 2, 3, 4, 5, 6, 7, 8, 9],
         rtp_packet 1 2 100 [0x08, 11, 12, 13, 14, 15, 16, 17, 18, 19]])
      (media_new .PREFIX_NONE 16) true {}).1 = true ∧
    (frame_reassemble (fun _ => 0)
      (frame_add_all (frame_create 100 .CODEC_OPUS 0)
        [rtp_packet 1 1 100 [0x08, 1, 2, 3, 4, 5, 6, 7, 8, 9],
         rtp_packet 1 2 100 [0x08, 11, 12, 13, 14, 15, 16, 17, 18, 19]])
      (media_new .PREFIX_NONE 16) true {}).2.2.1.length = 20 ∧
    (frame_reassemble (fun _ => 0)
      (frame_add_all (frame_create 100 .CODEC_H264 0) [rtp_packet 1 10 100 [0x67, 0x42]])
      { media_new .PREFIX_ANNEXB 16 with
        buffer := [0, 0, 0, 0, 0, 0, 0x00, 0x1E, 0xF8, 0, 0, 0, 0, 0, 0, 0], length := 7 }
      true {}).1 = true ∧
    (frame_reassemble (fun _ => 0)
      (frame_add_all (frame_create 100 .CODEC_H264 0) [rtp_packet 1 10 100 [0x67, 0x42]])
      { media_new .PREFIX_ANNEXB 16 with
        buffer := [0, 0, 0, 0, 0, 0, 0x00, 0x1E, 0xF8, 0, 0, 0, 0, 0, 0, 0], length := 7 }
      true {}).2.2.1.buffer
      = [0, 0, 0, 1, 0x67, 0x42, 0x00, 0x1E, 0xFC, 0, 0, 0, 0, 0, 0, 0] := by
  decide

/-! ## C22 -/

/-- Claim C22.  A payload whose first byte has a NAL unit type outside 1, 5, 6, 7, 8, 24 to
27, 28 and 29 is rejected by `h264_reassemble_frame`: the result is false, and the cursor
(buffer, index, length) and the context are returned as they were, so nothing is written. -/
theorem h264_reassemble_frame_unsupported (real_time : Nat → Nat) (o : out_t) (limit : Nat)
    (pfx : prefix_t) (payload : List Nat) (size : Nat) (completed : Bool)
    (context : h264_context_t)
    (ht : nal_unit_type (byteAt payload 0) ∉ [1, 5, 6, 7, 8, 24, 25, 26, 27, 28, 29]) :
    h264_reassemble_frame real_time o limit pfx payload size completed context
      = (false, o, context) := by
  simp only [List.mem_cons, List.mem_singleton, List.not_mem_nil, or_false, not_or] at ht
  obtain ⟨h1, h5, h6, h7, h8, h24, h25, h26, h27, h28, h29⟩ := ht
  unfold h264_reassemble_frame
  by_cases hs : 1 < size
  · simp [hs, h264_compose_payload, h1, h5, h6, h7, h8, h24, h25, h26, h27, h28, h29]
  · simp [hs]

/-- Claim C22 at the payload `09 10` (type 9, access unit delimiter). -/
theorem h264_reassemble_frame_unsupported_witness :
    nal_unit_type (byteAt [0x09, 0x10] 0) = 9 ∧
    h264_reassemble_frame (fun _ => 0) (out_t.init (List.replicate 16 0)) 16 .PREFIX_ANNEXB
      [0x09, 0x10] 2 true {} = (false, out_t.init (List.replicate 16 0), {}) :=
  ⟨by decide,
   h264_reassemble_frame_unsupported (fun _ => 0) (out_t.init (List.replicate 16 0)) 16
     .PREFIX_ANNEXB [0x09, 0x10] 2 true {} (by decide)⟩

/-! ## C23 -/

/-- Claim C23.  `opus_reassemble_frame` reports failure for a payload whose TOC byte has
frame count code 3, and for the count codes 0, 1 and 2 it succeeds when the payload has at
least one byte and fits below the limit: the payload is copied at the cursor and the length
grows by the payload size. -/
theorem opus_reassemble_frame_count (real_time : Nat → Nat) (o : out_t) (limit : Nat)
    (pfx : prefix_t) (payload : List Nat) (size : Nat) (completed : Bool)
    (context : h264_context_t) :
    (opus_count (byteAt payload 0) = 3 →
      (opus_reassemble_frame real_time o limit pfx payload size completed context).1 = false) ∧
    ((opus_count (byteAt payload 0) = 0 ∨ opus_count (byteAt payload 0) = 1 ∨
        opus_count (byteAt payload 0) = 2) → 1 ≤ size → o.index + size < limit →
      opus_reassemble_frame real_time o limit pfx payload size completed context
        = (true, { o with buffer := memWrite o.buffer o.index (memRead payload size),
                          length := o.length + size }, context)) := by
  refine ⟨fun h3 => ?_, fun h012 hs hfit => ?_⟩
  · unfold opus_reassemble_frame
    split
    · rfl
    · split
      · rfl
      · simp [h3]
  · have hc3 : opus_count (byteAt payload 0) ≠ 3 := by omega
    simp [opus_reassemble_frame, hs, hc3, hfit]

/-- Claim C23 at the TOC bytes `0B` (count code 3) and `0A` (count code 2). -/
theorem opus_reassemble_frame_count_witness :
    opus_count (byteAt [0x0B, 0xAA] 0) = 3 ∧
    (opus_reassemble_frame (fun _ => 0) (out_t.init (List.replicate 16 0)) 16 .PREFIX_NONE
      [0x0B, 0xAA] 2 true {}).1 = false ∧
    opus_count (byteAt [0x0A, 0xAA] 0) = 2 ∧
    opus_reassemble_frame (fun _ => 0) (out_t.init (List.replicate 16 0)) 16 .PREFIX_NONE
      [0x0A, 0xAA] 2 true {}
      = (true, { out_t.init (List.replicate 16 0) with
                 buffer := memWrite (out_t.init (List.replicate 16 0)).buffer
                   (out_t.init (List.replicate 16 0)).index (memRead [0x0A, 0xAA] 2),
                 length := (out_t.init (List.replicate 16 0)).length + 2 }, {}) :=
  ⟨by decide,
   (opus_reassemble_frame_count (fun _ => 0) (out_t.init (List.replicate 16 0)) 16 .PREFIX_NONE
     [0x0B, 0xAA] 2 true {}).1 (by decide),
   by decide,
   (opus_reassemble_frame_count (fun _ => 0) (out_t.init (List.replicate 16 0)) 16 .PREFIX_NONE
     [0x0A, 0xAA] 2 true {}).2 (Or.inr (Or.inr (by decide))) (by decide) (by decide)⟩

/-! ## C24 -/

/-- Claim C24 at two aggregation packets.  The payload `18 00 06 61 42` of a padded datagram
announces a unit of six bytes where two are left: reassembly succeeds and emits the unit with
the four padding bytes `AA BB CC 04` that follow the payload.  The payload
`18 00 02 61 42 00` ends with one byte of a unit length: reassembly succeeds and emits the
first unit. -/
theorem aggregation_length_not_checked :
    stap_overlong_packet.size = 5 ∧
    stap_overlong_packet.body = [0x18, 0x00, 0x06, 0x61, 0x42] ∧
    (frame_reassemble (fun _ => 0)
      (frame_add_all (frame_create 300 .CODEC_H264 0) [stap_overlong_packet])
      (media_new .PREFIX_ANNEXB 32) false {}).1 = true ∧
    (frame_reassemble (fun _ => 0)
      (frame_add_all (frame_create 300 .CODEC_H264 0) [stap_overlong_packet])
      (media_new .PREFIX_ANNEXB 32) false {}).2.2.1.length = 10 ∧
    (frame_reassemble (fun _ => 0)
      (frame_add_all (frame_create 300 .CODEC_H264 0) [stap_overlong_packet])
      (media_new .PREFIX_ANNEXB 32) false {}).2.2.1.buffer.take 10
      = [0x00, 0x00, 0x00, 0x01, 0x61, 0x42, 0xAA, 0xBB, 0xCC, 0x04] ∧
    stap_cut_packet.body = [0x18, 0x00, 0x02, 0x61, 0x42, 0x00] ∧
    (frame_reassemble (fun _ => 0)
      (frame_add_all (frame_create 300 .CODEC_H264 0) [stap_cut_packet])
      (media_new .PREFIX_ANNEXB 32) false {}).1 = true ∧
    (frame_reassemble (fun _ => 0)
      (frame_add_all (frame_create 300 .CODEC_H264 0) [stap_cut_packet])
      (media_new .PREFIX_ANNEXB 32) false {}).2.2.1.buffer.take 6
      = [0x00, 0x00, 0x00, 0x01, 0x61, 0x42] := by
  decide

/-! ## C25 -/

/-- Claim C25, amended.  A fragmentation unit with start = 0 is not rejected: it is appended
as a continuation, whatever came before it.  For every H.264 frame whose packets are all
FU-A fragments with start = 0 and whose fragment bodies fit the buffer, `frame_reassemble`
succeeds in every prefix mode, and the output is the fragment bodies one after another, with
no prefix and no NAL header in front. -/
theorem fu_without_start_appended (real_time : Nat → Nat) (frame : frame_t) (media : media_t)
    (completed : Bool) (context : h264_context_t)
    (hcodec : frame.codec = .CODEC_H264)
    (hfu : ∀ p ∈ frame.packets, p.is_fu ∧ fu_start p.fu_header = 0)
    (hfit : (frame.packets.flatMap packet_t.fu_body).length < media.length)
    (hcap : media.length ≤ media.buffer.length) :
    (frame_reassemble real_time frame media completed context).1 = true ∧
    (frame_reassemble real_time frame media completed context).2.2.1.length
      = (frame.packets.flatMap packet_t.fu_body).length ∧
    (frame_reassemble real_time frame media completed context).2.2.1.buffer.take
        (frame.packets.flatMap packet_t.fu_body).length
      = frame.packets.flatMap packet_t.fu_body := by
  have hml : 0 < media.length := by omega
  have hf : format_get_reassembly_context frame.codec = some h264_format := by
    rw [hcodec]; rfl
  obtain ⟨u, h, t, e⟩ := frame_reassemble_loop_fu_only real_time media.length media.pfx
    completed frame.packets (out_t.init media.buffer) frame.unitcount media.head_seq
    media.tail_seq context hfu (by show 0 + _ < _; omega) hcap
  obtain ⟨e1, e2, e3⟩ := frame_reassemble_output real_time frame media completed context
    h264_format hml hf
  rw [e1, e2, e3, e]
  refine ⟨rfl, ?_, ?_⟩
  · show 0 + _ = _
    omega
  · exact put_init_take _ _

/-- The amended claim C25 at the middle and the end fragment of S2, the start fragment
missing: the output is `22 33`. -/
theorem fu_without_start_appended_witness :
    (∀ p ∈ (⟨[s2_middle, s2_last], .CODEC_H264, 0, 200, true, false, 0⟩ : frame_t).packets,
      p.is_fu ∧ fu_start p.fu_header = 0) ∧
    ((⟨[s2_middle, s2_last], .CODEC_H264, 0, 200, true, false, 0⟩ : frame_t).packets.flatMap
      packet_t.fu_body) = [0x22, 0x33] ∧
    ((frame_reassemble (fun _ => 0) ⟨[s2_middle, s2_last], .CODEC_H264, 0, 200, true, false, 0⟩
      (media_new .PREFIX_ANNEXB 16) false {}).1 = true ∧
    (frame_reassemble (fun _ => 0) ⟨[s2_middle, s2_last], .CODEC_H264, 0, 200, true, false, 0⟩
      (media_new .PREFIX_ANNEXB 16) false {}).2.2.1.length
      = ((⟨[s2_middle, s2_last], .CODEC_H264, 0, 200, true, false, 0⟩ :
          frame_t).packets.flatMap packet_t.fu_body).length ∧
    (frame_reassemble (fun _ => 0) ⟨[s2_middle, s2_last], .CODEC_H264, 0, 200, true, false, 0⟩
      (media_new .PREFIX_ANNEXB 16) false {}).2.2.1.buffer.take
        ((⟨[s2_middle, s2_last], .CODEC_H264, 0, 200, true, false, 0⟩ :
          frame_t).packets.flatMap packet_t.fu_body).length
      = (⟨[s2_middle, s2_last], .CODEC_H264, 0, 200, true, false, 0⟩ :
          frame_t).packets.flatMap packet_t.fu_body) :=
  ⟨by decide, by decide,
   fu_without_start_appended (fun _ => 0)
     ⟨[s2_middle, s2_last], .CODEC_H264, 0, 200, true, false, 0⟩
     (media_new .PREFIX_ANNEXB 16) false {} rfl (by decide) (by decide) (by decide)⟩

/-- Claim C25 fails at S2 without its start fragment: the middle and the end fragment are
added to a fresh frame, which stays incomplete; its first drained packet is the middle
fragment (start = 0), and reassembly succeeds with the two bytes `22 33`. -/
theorem fu_without_start_not_rejected :
    (frame_add_all (frame_create 200 .CODEC_H264 0) [s2_middle, s2_last]).packets
      = [s2_middle, s2_last] ∧
    fu_start s2_middle.fu_header = 0 ∧
    (frame_add_all (frame_create 200 .CODEC_H264 0) [s2_middle, s2_last]).completed = false ∧
    (frame_reassemble (fun _ => 0)
      (frame_add_all (frame_create 200 .CODEC_H264 0) [s2_middle, s2_last])
      (media_new .PREFIX_ANNEXB 16) false {}).1 = true ∧
    (frame_reassemble (fun _ => 0)
      (frame_add_all (frame_create 200 .CODEC_H264 0) [s2_middle, s2_last])
      (media_new .PREFIX_ANNEXB 16) false {}).2.2.1.length = 2 ∧
    (frame_reassemble (fun _ => 0)
      (frame_add_all (frame_create 200 .CODEC_H264 0) [s2_middle, s2_last])
      (media_new .PREFIX_ANNEXB 16) false {}).2.2.1.buffer.take 2 = [0x22, 0x33] := by
  decide

/-! ## C26 -/

/-- Claim C26.  `frame_add_packet` with a packet whose RTP timestamp differs from the
frame's timestamp fails and leaves the frame (its packets, marker and completed flag) and the
caller's `completed` cell as they were. -/
theorem frame_add_packet_timestamp_mismatch (frame : frame_t) (p : packet_t) (c : Bool)
    (h : p.timestamp ≠ frame.timestamp) :
    frame_add_packet frame p c = (false, frame, c) := by
  simp [frame_add_packet, h]

/-- Claim C26 at S1 (timestamp 100) offered to the frame with timestamp 200 that holds the
first fragment of S2. -/
theorem frame_add_packet_timestamp_mismatch_witness :
    s1_packet.timestamp = 100 ∧
    frame_add_packet (frame_add_all (frame_create 200 .CODEC_H264 0) [s2_first]) s1_packet true
      = (false, frame_add_all (frame_create 200 .CODEC_H264 0) [s2_first], true) ∧
    (frame_add_all (frame_create 200 .CODEC_H264 0) [s2_first]).packets = [s2_first] :=
  ⟨by decide,
   frame_add_packet_timestamp_mismatch
     (frame_add_all (frame_create 200 .CODEC_H264 0) [s2_first]) s1_packet true (by decide),
   by decide⟩

/-! ## C27 -/

/-- Claim C27.  With an empty completion queue `get_frame` returns false and changes neither
the media nor the depacketizer.  With a non-empty queue and a usable media
(`0 < media.length`) it removes exactly the head of the queue, whatever the result of the
reassembly is, and leaves the frame map as it was. -/
theorem rtp_depacketizer_get_frame_queue (real_time : Nat → Nat)
    (depacketizer : rtp_depacketizer_t) (media : media_t) :
    (depacketizer.completed = [] →
      rtp_depacketizer_get_frame real_time depacketizer media = (false, media, depacketizer)) ∧
    (∀ frame rest, depacketizer.completed = frame :: rest → 0 < media.length →
      (rtp_depacketizer_get_frame real_time depacketizer media).2.2.completed = rest ∧
      (rtp_depacketizer_get_frame real_time depacketizer media).2.2.frames
        = depacketizer.frames) := by
  refine ⟨fun h => ?_, fun frame rest h hml => ?_⟩
  · unfold rtp_depacketizer_get_frame
    rw [h]
    split <;> rfl
  · unfold rtp_depacketizer_get_frame
    rw [h]
    simp only [hml, not_true_eq_false, if_false]
    rcases frame_reassemble real_time frame media frame.completed depacketizer.context
      with ⟨r, f, m, c⟩
    cases r <;> exact ⟨rfl, rfl⟩

/-- Claim C27 at a fresh depacketizer and at the queue that holds S1 and a second frame. -/
theorem rtp_depacketizer_get_frame_queue_witness :
    rtp_depacketizer_get_frame (fun _ => 0) (rtp_depacketizer_create .CODEC_H264 1000000 1000000 0)
        (media_new .PREFIX_ANNEXB 16)
      = (false, media_new .PREFIX_ANNEXB 16,
          rtp_depacketizer_create .CODEC_H264 1000000 1000000 0) ∧
    (rtp_depacketizer_get_frame (fun _ => 0) two_frames_depacketizer
        (media_new .PREFIX_ANNEXB 16)).2.2.completed
      = [⟨[rtp_packet 1 11 200 [0x61, 0x01, 0x02, 0x03]], .CODEC_H264, 0, 200, true, true, 0⟩] ∧
    (rtp_depacketizer_get_frame (fun _ => 0) two_frames_depacketizer
        (media_new .PREFIX_ANNEXB 16)).2.2.frames = two_frames_depacketizer.frames :=
  ⟨(rtp_depacketizer_get_frame_queue (fun _ => 0)
      (rtp_depacketizer_create .CODEC_H264 1000000 1000000 0) (media_new .PREFIX_ANNEXB 16)).1 rfl,
   (rtp_depacketizer_get_frame_queue (fun _ => 0) two_frames_depacketizer
      (media_new .PREFIX_ANNEXB 16)).2 ⟨[s1_packet], .CODEC_H264, 0, 100, true, true, 0⟩
      [⟨[rtp_packet 1 11 200 [0x61, 0x01, 0x02, 0x03]], .CODEC_H264, 0, 200, true, true, 0⟩]
      (by decide) (by decide)⟩

/-! ## C28 -/

/-- Claim C29.  When `get_frame` is called with a usable media and fails while reassembling
the head frame of the completion queue, the frame map is unchanged and the completion queue
is the rest of the queue in the same order.  A later `get_frame` on that depacketizer, with
any media and any wall clock, reports the same result, output bytes and output length and
leaves the same queue and map as it does on the depacketizer from which the head frame was
taken away without any reassembly: the failed frame leaves no trace that a later delivery
depends on. -/
theorem failed_head_frame_only_removed (real_time real_time2 : Nat → Nat)
    (d : rtp_depacketizer_t) (media media2 : media_t) (frame : frame_t) (rest : List frame_t)
    (hq : d.completed = frame :: rest) (hml : 0 < media.length)
    (_hfail : (rtp_depacketizer_get_frame real_time d media).1 = false) :
    (rtp_depacketizer_get_frame real_time d media).2.2.frames = d.frames ∧
    (rtp_depacketizer_get_frame real_time d media).2.2.completed = rest ∧
    (rtp_depacketizer_get_frame real_time2
        (rtp_depacketizer_get_frame real_time d media).2.2 media2).1
      = (rtp_depacketizer_get_frame real_time2 { d with completed := rest } media2).1 ∧
    (rtp_depacketizer_get_frame real_time2
        (rtp_depacketizer_get_frame real_time d media).2.2 media2).2.1.buffer
      = (rtp_depacketizer_get_frame real_time2 { d with completed := rest } media2).2.1.buffer ∧
    (rtp_depacketizer_get_frame real_time2
        (rtp_depacketizer_get_frame real_time d media).2.2 media2).2.1.length
      = (rtp_depacketizer_get_frame real_time2 { d with completed := rest } media2).2.1.length ∧
    (rtp_depacketizer_get_frame real_time2
        (rtp_depacketizer_get_frame real_time d media).2.2 media2).2.2.completed
      = (rtp_depacketizer_get_frame real_time2 { d with completed := rest }
          media2).2.2.completed ∧
    (rtp_depacketizer_get_frame real_time2
        (rtp_depacketizer_get_frame real_time d media).2.2 media2).2.2.frames
      = (rtp_depacketizer_get_frame real_time2 { d with completed := rest }
          media2).2.2.frames := by
  obtain ⟨_, _, _, a4, a5⟩ := rtp_depacketizer_get_frame_head real_time d media frame rest
    hq hml
  exact ⟨a5, a4, rtp_depacketizer_get_frame_context_free real_time2
    (rtp_depacketizer_get_frame real_time d media).2.2 { d with completed := rest } media2
    a4 a5⟩

/-- Claim C29 at a queue whose head frame holds a packet of the unsupported NAL type 9 and
whose second frame is S1: the first `get_frame` fails, the queue is left with the S1 frame,
and the next `get_frame` delivers `00 00 00 01 61 AA BB`. -/
theorem failed_head_frame_only_removed_witness :
    bad_head_depacketizer.completed
      = [⟨[rtp_packet 1 9 50 [0x09, 0x10]], .CODEC_H264, 0, 50, true, true, 0⟩,
         ⟨[s1_packet], .CODEC_H264, 0, 100, true, true, 0⟩] ∧
    (rtp_depacketizer_get_frame (fun _ => 0) bad_head_depacketizer
      (media_new .PREFIX_ANNEXB 16)).1 = false ∧
    (rtp_depacketizer_get_frame (fun _ => 0)
      (rtp_depacketizer_get_frame (fun _ => 0) bad_head_depacketizer
        (media_new .PREFIX_ANNEXB 16)).2.2 (media_new .PREFIX_ANNEXB 16)).1 = true ∧
    (rtp_depacketizer_get_frame (fun _ => 0)
      (rtp_depacketizer_get_frame (fun _ => 0) bad_head_depacketizer
        (media_new .PREFIX_ANNEXB 16)).2.2 (media_new .PREFIX_ANNEXB 16)).2.1.buffer.take 7
      = [0, 0, 0, 1, 0x61, 0xAA, 0xBB] ∧
    ((rtp_depacketizer_get_frame (fun _ => 0) bad_head_depacketizer
        (media_new .PREFIX_ANNEXB 16)).2.2.frames = bad_head_depacketizer.frames ∧
    (rtp_depacketizer_get_frame (fun _ => 0) bad_head_depacketizer
        (media_new .PREFIX_ANNEXB 16)).2.2.completed
      = [⟨[s1_packet], .CODEC_H264, 0, 100, true, true, 0⟩] ∧
    (rtp_depacketizer_get_frame (fun _ => 0)
        (rtp_depacketizer_get_frame (fun _ => 0) bad_head_depacketizer
          (media_new .PREFIX_ANNEXB 16)).2.2 (media_new .PREFIX_ANNEXB 16)).1
      = (rtp_depacketizer_get_frame (fun _ => 0)
          { bad_head_depacketizer with
            completed := [⟨[s1_packet], .CODEC_H264, 0, 100, true, true, 0⟩] }
          (media_new .PREFIX_ANNEXB 16)).1 ∧
    (rtp_depacketizer_get_frame (fun _ => 0)
        (rtp_depacketizer_get_frame (fun _ => 0) bad_head_depacketizer
          (media_new .PREFIX_ANNEXB 16)).2.2 (media_new .PREFIX_ANNEXB 16)).2.1.buffer
      = (rtp_depacketizer_get_frame (fun _ => 0)
          { bad_head_depacketizer with
            completed := [⟨[s1_packet], .CODEC_H264, 0, 100, true, true, 0⟩] }
          (media_new .PREFIX_ANNEXB 16)).2.1.buffer ∧
    (rtp_depacketizer_get_frame (fun _ => 0)
        (rtp_depacketizer_get_frame (fun _ => 0) bad_head_depacketizer
          (media_new .PREFIX_ANNEXB 16)).2.2 (media_new .PREFIX_ANNEXB 16)).2.1.length
      = (rtp_depacketizer_get_frame (fun _ => 0)
          { bad_head_depacketizer with
            completed := [⟨[s1_packet], .CODEC_H264, 0, 100, true, true, 0⟩] }
          (media_new .PREFIX_ANNEXB 16)).2.1.length ∧
    (rtp_depacketizer_get_frame (fun _ => 0)
        (rtp_depacketizer_get_frame (fun _ => 0) bad_head_depacketizer
          (media_new .PREFIX_ANNEXB 16)).2.2 (media_new .PREFIX_ANNEXB 16)).2.2.completed
      = (rtp_depacketizer_get_frame (fun _ => 0)
          { bad_head_depacketizer with
            completed := [⟨[s1_packet], .CODEC_H264, 0, 100, true, true, 0⟩] }
          (media_new .PREFIX_ANNEXB 16)).2.2.completed ∧
    (rtp_depacketizer_get_frame (fun _ => 0)
        (rtp_depacketizer_get_frame (fun _ => 0) bad_head_depacketizer
          (media_new .PREFIX_ANNEXB 16)).2.2 (media_new .PREFIX_ANNEXB 16)).2.2.frames
      = (rtp_depacketizer_get_frame (fun _ => 0)
          { bad_head_depacketizer with
            completed := [⟨[s1_packet], .CODEC_H264, 0, 100, true, true, 0⟩] }
          (media_new .PREFIX_ANNEXB 16)).2.2.frames) :=
  ⟨by decide, by decide, by decide, by decide,
   failed_head_frame_only_removed (fun _ => 0) (fun _ => 0) bad_head_depacketizer
     (media_new .PREFIX_ANNEXB 16) (media_new .PREFIX_ANNEXB 16)
     ⟨[rtp_packet 1 9 50 [0x09, 0x10]], .CODEC_H264, 0, 50, true, true, 0⟩
     [⟨[s1_packet], .CODEC_H264, 0, 100, true, true, 0⟩] (by decide) (by decide) (by decide)⟩

/-! ## C30 -/

/-- Claim C30.  `h264_reassemble_frame` with a payload size of exactly 1 fails at its entry
guard `1 < size`, whatever the byte is: the result is false and the cursor and the context
are returned as they were. -/
theorem h264_reassemble_frame_one_byte (real_time : Nat → Nat) (o : out_t) (limit : Nat)
    (pfx : prefix_t) (payload : List Nat) (completed : Bool) (context : h264_context_t) :
    h264_reassemble_frame real_time o limit pfx payload 1 completed context
      = (false, o, context) := by
  simp [h264_reassemble_frame]

/-! ## C31 -/

/-- Claim C31.  For a fragmentation unit of at least two bytes whose FU header has start = 1
and that fits the buffer, `h264_compose_fragmentation_unit` writes the prefix, then one
header byte, then the fragment body; the header byte is
`(forbidden << 7) | (idc << 5) | type` with `type` the 5-bit type of the FU header,
`forbidden` 0 when `completed` is true and 1 when it is false, and `idc` 3 for the types 5,
7, 8, 2 for the types 1, 2, 1 for the types 3, 4 and 0 for every other type.  The FU
indicator byte does not influence the output.  For start = 0 only the fragment body is
written, without prefix and header byte. -/
theorem fu_header_reconstructed (o : out_t) (limit : Nat) (pfx : prefix_t)
    (naluptr : List Nat) (n : Nat) (completed : Bool) (h1 : 1 < n)
    (hcap : limit ≤ o.buffer.length) :
    (fu_start (byteAt naluptr 1) = 1 →
      o.index + (prefix_bytes pfx n).length + 1 + (n - 2) < limit →
      h264_compose_fragmentation_unit o limit pfx naluptr n completed
        = (true, o.put (prefix_bytes pfx n
            ++ [((if completed then 0 else 1) <<< 7)
                ||| ( h264_get_nal_ref_idc (fu_type (byteAt naluptr 1)) <<< 5)
                ||| fu_type (byteAt naluptr 1)]
            ++ memRead (naluptr.drop 2) (n - 2)))) ∧
    (∀ t, (t = 5 ∨ t = 7 ∨ t = 8 → h264_get_nal_ref_idc t = 3) ∧
      (t = 1 ∨ t = 2 → h264_get_nal_ref_idc t = 2) ∧
      (t = 3 ∨ t = 4 → h264_get_nal_ref_idc t = 1) ∧
      (t ∉ [1, 2, 3, 4, 5, 7, 8] → h264_get_nal_ref_idc t = 0)) ∧
    fu_type (byteAt naluptr 1) = byteAt naluptr 1 % 32 ∧
    (∀ b1 b2 rest, h264_compose_fragmentation_unit o limit pfx (b1 :: rest) n completed
        = h264_compose_fragmentation_unit o limit pfx (b2 :: rest) n completed) ∧
    (fu_start (byteAt naluptr 1) = 0 → o.index + (n - 2) < limit →
      h264_compose_fragmentation_unit o limit pfx naluptr n completed
        = (true, o.put (memRead (naluptr.drop 2) (n - 2)))) := by
  refine ⟨fun hs hfit => ?_, fun t => ⟨?_, ?_, ?_, ?_⟩, rfl,
    fun b1 b2 rest => h264_compose_fragmentation_unit_indicator o limit pfx b1 b2 rest n
      completed,
    fun hs hfit => h264_compose_fragmentation_unit_cont o limit pfx naluptr n completed hs hfit⟩
  · rw [h264_compose_fragmentation_unit_start o limit pfx naluptr n completed
      (by rw [hs]; decide) h1 hfit hcap,
      nal_header_bits _ _ _ (by split <;> omega) (h264_get_nal_ref_idc_lt _) (fu_type_lt _)]
  · intro h; rcases h with h | h | h <;> subst h <;> rfl
  · intro h; rcases h with h | h <;> subst h <;> rfl
  · intro h; rcases h with h | h <;> subst h <;> rfl
  · intro h
    simp only [List.mem_cons, List.mem_singleton, List.not_mem_nil, or_false, not_or] at h
    unfold h264_get_nal_ref_idc
    simp [h]

/-- Claim C31 at the start fragment of S2 (FU header `85`: start = 1, type 5), reassembled
as part of an incomplete frame: the header byte is `E5`; and at the middle fragment
(start = 0). -/
theorem fu_header_reconstructed_witness :
    fu_start (byteAt [0x7C, 0x85, 0x11] 1) = 1 ∧ fu_type (byteAt [0x7C, 0x85, 0x11] 1) = 5 ∧
    h264_compose_fragmentation_unit (out_t.init (List.replicate 16 0)) 16 .PREFIX_ANNEXB
        [0x7C, 0x85, 0x11] 3 false
      = (true, (out_t.init (List.replicate 16 0)).put [0, 0, 0, 1, 0xE5, 0x11]) ∧
    h264_compose_fragmentation_unit (out_t.init (List.replicate 16 0)) 16 .PREFIX_ANNEXB
        [0x7C, 0x05, 0x22] 3 false
      = (true, (out_t.init (List.replicate 16 0)).put [0x22]) :=
  ⟨by decide, by decide,
   (fu_header_reconstructed (out_t.init (List.replicate 16 0)) 16 .PREFIX_ANNEXB
     [0x7C, 0x85, 0x11] 3 false (by decide) (by decide)).1 (by decide) (by decide),
   (fu_header_reconstructed (out_t.init (List.replicate 16 0)) 16 .PREFIX_ANNEXB
     [0x7C, 0x05, 0x22] 3 false (by decide) (by decide)).2.2.2.2 (by decide) (by decide)⟩

/-! ## C32 -/

/-- Claim C32, amended.  When `h264_compose_timestamp_sei_nalu` succeeds on a buffer that
holds `limit` bytes, it appends the configured prefix (for AVCC the big-endian length 28)
followed by exactly 28 bytes: `06`, `05`, `18` (payload size 24), the 16 UUID bytes
`76 27 DF E0 49 24 40 84 B9 8D F2 C9 44 4B 8E 98`, the wall-clock reading as 8 big-endian
bytes, and the trailer `FF`; it takes one wall-clock reading, and index and length grow by 28
plus the prefix size. -/
theorem sei_timestamp_unit_bytes (real_time : Nat → Nat) (o : out_t) (limit : Nat)
    (pfx : prefix_t) (hcap : limit ≤ o.buffer.length)
    (hres : (h264_compose_timestamp_sei_nalu real_time o limit pfx).1 = true) :
    h264_compose_timestamp_sei_nalu real_time o limit pfx
      = (true, o.emit (prefix_bytes pfx 28
          ++ ([0x06, 0x05, 0x18]
            ++ [0x76, 0x27, 0xDF, 0xE0, 0x49, 0x24, 0x40, 0x84,
                0xB9, 0x8D, 0xF2, 0xC9, 0x44, 0x4B, 0x8E, 0x98]
            ++ be64 (real_time o.ticks % 2 ^ 64) ++ [0xFF])) 1) ∧
    prefix_bytes .PREFIX_AVCC 28 = [0, 0, 0, 28] ∧
    ([0x06, 0x05, 0x18]
      ++ [0x76, 0x27, 0xDF, 0xE0, 0x49, 0x24, 0x40, 0x84,
          0xB9, 0x8D, 0xF2, 0xC9, 0x44, 0x4B, 0x8E, 0x98]
      ++ be64 (real_time o.ticks % 2 ^ 64) ++ [0xFF]).length = 28 ∧
    (h264_compose_timestamp_sei_nalu real_time o limit pfx).2.length
      = o.length + ((prefix_bytes pfx 28).length + 28) ∧
    (h264_compose_timestamp_sei_nalu real_time o limit pfx).2.index
      = o.index + ((prefix_bytes pfx 28).length + 28) := by
  have hfit := h264_compose_timestamp_sei_nalu_fits real_time o limit pfx hres
  have hok := h264_compose_timestamp_sei_nalu_ok real_time o limit pfx hfit hcap
  have hs : sei_nalu (real_time o.ticks)
      = [0x06, 0x05, 0x18]
        ++ [0x76, 0x27, 0xDF, 0xE0, 0x49, 0x24, 0x40, 0x84,
            0xB9, 0x8D, 0xF2, 0xC9, 0x44, 0x4B, 0x8E, 0x98]
        ++ be64 (real_time o.ticks % 2 ^ 64) ++ [0xFF] := rfl
  rw [hs] at hok
  rw [hok]
  refine ⟨rfl, rfl, rfl, ?_, ?_⟩
  · show o.length + _ = _
    rw [List.length_append]; rfl
  · show o.index + _ = _
    rw [List.length_append]; rfl

/-- The amended claim C32 with prefix AVCC, the wall-clock reading `0x0102030405060708` and
a buffer of 64 bytes. -/
theorem sei_timestamp_unit_bytes_witness :
    (h264_compose_timestamp_sei_nalu (fun _ => 0x0102030405060708)
        (out_t.init (List.replicate 64 0)) 64 .PREFIX_AVCC).2.buffer.take 32
      = [0, 0, 0, 28, 0x06, 0x05, 0x18,
         0x76, 0x27, 0xDF, 0xE0, 0x49, 0x24, 0x40, 0x84,
         0xB9, 0x8D, 0xF2, 0xC9, 0x44, 0x4B, 0x8E, 0x98,
         0x01, 0x02, 0x03, 0x04, 0x05, 0x06, 0x07, 0x08, 0xFF] ∧
    (h264_compose_timestamp_sei_nalu (fun _ => 0x0102030405060708)
        (out_t.init (List.replicate 64 0)) 64 .PREFIX_AVCC).2.length
      = (out_t.init (List.replicate 64 0)).length
        + ((prefix_bytes .PREFIX_AVCC 28).length + 28) :=
  ⟨by decide,
   (sei_timestamp_unit_bytes (fun _ => 0x0102030405060708) (out_t.init (List.replicate 64 0))
     64 .PREFIX_AVCC (by decide) (by decide)).2.2.2.1⟩

/-- Claim C32 fails on the count: with prefix AVCC the composer writes the length 28
(`1C`), the unit has 28 bytes (three header bytes, 16, 8 and the trailer), and the output
length grows by 32, not by 31. -/
theorem sei_timestamp_unit_is_28_bytes :
    (h264_compose_timestamp_sei_nalu (fun _ => 0x0102030405060708)
        (out_t.init (List.replicate 64 0)) 64 .PREFIX_AVCC).1 = true ∧
    (h264_compose_timestamp_sei_nalu (fun _ => 0x0102030405060708)
        (out_t.init (List.replicate 64 0)) 64 .PREFIX_AVCC).2.buffer.take 4
      = [0x00, 0x00, 0x00, 0x1C] ∧
    (h264_compose_timestamp_sei_nalu (fun _ => 0x0102030405060708)
        (out_t.init (List.replicate 64 0)) 64 .PREFIX_AVCC).2.length = 32 ∧
    (h264_compose_timestamp_sei_nalu (fun _ => 0x0102030405060708)
        (out_t.init (List.replicate 64 0)) 64 .PREFIX_AVCC).2.index = 32 ∧
    byteAt (h264_compose_timestamp_sei_nalu (fun _ => 0x0102030405060708)
        (out_t.init (List.replicate 64 0)) 64 .PREFIX_AVCC).2.buffer 31 = 0xFF ∧
    (h264_compose_timestamp_sei_nalu (fun _ => 0x0102030405060708)
        (out_t.init (List.replicate 64 0)) 35 .PREFIX_ANNEXB).1 = true ∧
    (h264_compose_timestamp_sei_nalu (fun _ => 0x0102030405060708)
        (out_t.init (List.replicate 64 0)) 32 .PREFIX_ANNEXB).1 = false := by
  decide

/-! ## C33 -/

/-- Claim C33.  The Opus predicates do not look at the bytes: `fragmented` is false and
`frame_type` is 0 for every packet, `first_frame` and `last_frame` are true for every
length of at least one byte (`packet_create` refuses an empty datagram).  So
`frame_add_packet` on a newly created Opus frame with the packet's timestamp succeeds and
reports `completed = true` whatever the marker bit is, and the frame then holds exactly that
packet. -/
theorem opus_packet_is_standalone_frame (p : packet_t) (created_us : Int) (c : Bool)
    (hlen : 1 ≤ p.length) :
    opus_format.fragmented p.payload p.length = false ∧
    opus_format.frame_type p.payload p.length = 0 ∧
    opus_format.first_unit p.payload p.length = true ∧
    opus_format.last_unit p.payload p.length = true ∧
    frame_add_packet (frame_create p.timestamp .CODEC_OPUS created_us) p c
      = (true, ⟨[p], .CODEC_OPUS, created_us, p.timestamp, true, true, 0⟩, true) := by
  refine ⟨rfl, rfl, ?_, ?_, ?_⟩
  · simp [opus_format, opus_is_first_frame, hlen]
  · simp [opus_format, opus_is_last_frame, hlen]
  · simp [frame_add_packet, frame_create, format_get_reassembly_context, opus_format,
      opus_is_last_frame, opus_is_first_frame, opus_is_fragmented, frame_check_completeness,
      hlen]

/-- Claim C33 at two Opus packets with timestamp 100, one without and one with the marker
bit. -/
theorem opus_packet_is_standalone_frame_witness :
    (rtp_packet 0 1 100 [0x08, 0x01]).marker = 0 ∧
    (frame_add_packet (frame_create 100 .CODEC_OPUS 0) (rtp_packet 0 1 100 [0x08, 0x01])
      false).2.2 = true ∧
    (frame_add_packet (frame_create 100 .CODEC_OPUS 0) (rtp_packet 0 1 100 [0x08, 0x01])
      false).2.1.packets = [rtp_packet 0 1 100 [0x08, 0x01]] ∧
    (rtp_packet 1 1 100 [0x08, 0x01]).marker = 1 ∧
    (frame_add_packet (frame_create 100 .CODEC_OPUS 0) (rtp_packet 1 1 100 [0x08, 0x01])
      false).2.2 = true :=
  ⟨by decide,
   congrArg (fun x => x.2.2) (opus_packet_is_standalone_frame (rtp_packet 0 1 100 [0x08, 0x01])
     0 false (by decide)).2.2.2.2,
   congrArg (fun x => x.2.1.packets) (opus_packet_is_standalone_frame
     (rtp_packet 0 1 100 [0x08, 0x01]) 0 false (by decide)).2.2.2.2,
   by decide,
   congrArg (fun x => x.2.2) (opus_packet_is_standalone_frame (rtp_packet 1 1 100 [0x08, 0x01])
     0 false (by decide)).2.2.2.2⟩

/-! ## C34 -/

/-- Claim C34, amended.  `h264_decode_slice_header` on a unit with `length > 0` succeeds and
stores in the context, each in a field of 8 bits and so modulo 256, `first_mb_in_slice`,
`slice_type` and `pic_parameter_set_id` as the three successive ue(v) values starting at
bit 8, and `frame_num` as the value of the next `log2_max_frame_num_minus4 + 4` bits, read
into 32 bits, where `log2_max_frame_num_minus4` is the value the context holds on entry; that
field is not changed.  `get_frame` passes the context of the depacketizer to the reassembly
of the head frame and keeps the context the reassembly returns, so the value is the one left
by the SPS decoded last on that depacketizer. -/
theorem h264_decode_slice_header_stores (nalu : List Nat) (length : Nat)
    (context : h264_context_t) (hlen : 0 < length) :
    (h264_decode_slice_header nalu length context).1 = true ∧
    (h264_decode_slice_header nalu length context).2.first_mb_in_slice
      = (h264_decode_uexpgolomb nalu 8).1 % 256 ∧
    (h264_decode_slice_header nalu length context).2.slice_type
      = (h264_decode_uexpgolomb nalu (h264_decode_uexpgolomb nalu 8).2).1 % 256 ∧
    (h264_decode_slice_header nalu length context).2.pic_parameter_set_id
      = (h264_decode_uexpgolomb nalu
          (h264_decode_uexpgolomb nalu (h264_decode_uexpgolomb nalu 8).2).2).1 % 256 ∧
    (h264_decode_slice_header nalu length context).2.frame_num
      = (h264_get_bits nalu
          (h264_decode_uexpgolomb nalu
            (h264_decode_uexpgolomb nalu (h264_decode_uexpgolomb nalu 8).2).2).2
          (context.log2_max_frame_num_minus4 + 4)).1 % 256 ∧
    (h264_decode_slice_header nalu length context).2.log2_max_frame_num_minus4
      = context.log2_max_frame_num_minus4 ∧
    (∀ (real_time : Nat → Nat) (d : rtp_depacketizer_t) (media : media_t) (frame : frame_t)
        (rest : List frame_t), d.completed = frame :: rest → 0 < media.length →
      (rtp_depacketizer_get_frame real_time d media).2.2.context
        = (frame_reassemble real_time frame media frame.completed d.context).2.2.2) := by
  have hd : h264_decode_slice_header nalu length context
      = (true, (h264_decode_slice_header_fields nalu context).1) := by
    simp [h264_decode_slice_header, hlen]
  rw [hd]
  have h8 : ((((context, 0)
      |> h264_read_bits nalu 1 (fun c v => { c with forbidden_zero_bit := toU8 v }))
      |> h264_read_bits nalu 2 (fun c v => { c with nal_ref_idc := toU8 v }))
      |> h264_read_bits nalu 5 (fun c v => { c with nal_unit_type := toU8 v })).2 = 8 := by
    simp only [h264_read_bits_snd]
  refine ⟨rfl, ?_, ?_, ?_, ?_, ?_,
    fun real_time d media frame rest hq hml =>
      rtp_depacketizer_get_frame_context real_time d media frame rest hq hml⟩ <;>
    (unfold h264_decode_slice_header_fields
     simp only [h264_read_ue, h264_read_bits_snd] at h8 ⊢
     simp only [h264_read_bits, h8, toU8])

/-- The amended claim C34 at the slice `65 88 D2 80`: with `log2_max_frame_num_minus4 = 4`
in the context `frame_num` is read from eight bits (`A5`), with the value 0 from four bits.
In a depacketizer that delivers first the SPS with `log2_max_frame_num_minus4 = 4` and then
the slice, the context holds `frame_num = A5` after the second `get_frame`. -/
theorem h264_decode_slice_header_stores_witness :
    (h264_decode_uexpgolomb slice_a5 8) = (0, 9) ∧
    (h264_decode_uexpgolomb slice_a5 9) = (7, 16) ∧
    (h264_decode_uexpgolomb slice_a5 16) = (0, 17) ∧
    (h264_decode_slice_header slice_a5 4 { log2_max_frame_num_minus4 := 4 }).2.frame_num
      = 0xA5 ∧
    (h264_decode_slice_header slice_a5 4 {}).2.frame_num = 0x0A ∧
    (h264_decode_slice_header slice_a5 4 { log2_max_frame_num_minus4 := 4 }).2.slice_type
      = (h264_decode_uexpgolomb slice_a5 (h264_decode_uexpgolomb slice_a5 8).2).1 % 256 ∧
    (rtp_depacketizer_get_frame (fun _ => 0) sps_then_slice_depacketizer
      (media_new .PREFIX_ANNEXB 64)).2.2.context.log2_max_frame_num_minus4 = 4 ∧
    (rtp_depacketizer_get_frame (fun _ => 0)
      (rtp_depacketizer_get_frame (fun _ => 0) sps_then_slice_depacketizer
        (media_new .PREFIX_ANNEXB 64)).2.2 (media_new .PREFIX_ANNEXB 64)).1 = true ∧
    (rtp_depacketizer_get_frame (fun _ => 0)
      (rtp_depacketizer_get_frame (fun _ => 0) sps_then_slice_depacketizer
        (media_new .PREFIX_ANNEXB 64)).2.2 (media_new .PREFIX_ANNEXB 64)).2.2.context.frame_num
      = 0xA5 :=
  ⟨by decide, by decide, by decide, by decide, by decide,
   (h264_decode_slice_header_stores slice_a5 4 { log2_max_frame_num_minus4 := 4 }
     (by decide)).2.2.1,
   by decide, by decide, by decide⟩

/-- Claim C34 fails for values that need more than 8 bits.  In `65 00 80 F0` the first
ue(v) value is 256 and the context holds `first_mb_in_slice = 0`.  In `65 F5 78` with
`log2_max_frame_num_minus4 = 8` the twelve bits of `frame_num` are `ABC` and the context
holds `BC`. -/
theorem slice_header_fields_truncated :
    (h264_decode_uexpgolomb [0x65, 0x00, 0x80, 0xF0] 8).1 = 256 ∧
    (h264_decode_slice_header [0x65, 0x00, 0x80, 0xF0] 4 {}).1 = true ∧
    (h264_decode_slice_header [0x65, 0x00, 0x80, 0xF0] 4 {}).2.first_mb_in_slice = 0 ∧
    (h264_decode_uexpgolomb [0x65, 0xF5, 0x78] 8) = (0, 9) ∧
    (h264_decode_uexpgolomb [0x65, 0xF5, 0x78] 9) = (0, 10) ∧
    (h264_decode_uexpgolomb [0x65, 0xF5, 0x78] 10) = (0, 11) ∧
    (h264_get_bits [0x65, 0xF5, 0x78] 11 12).1 = 0xABC ∧
    (h264_decode_slice_header [0x65, 0xF5, 0x78] 3
      { log2_max_frame_num_minus4 := 8 }).2.frame_num = 0xBC := by
  decide

/-! ## C35 -/

/-- Claim C35.  At a bit offset `o` where `k` zero bits (`k ≤ 31`) are followed by a 1 bit
and then by `k` bits whose unsigned value, most significant bit first, is `code`,
`h264_decode_uexpgolomb` returns `(1 << k) - 1 + code`, a value below `2 ^ 32`, and advances
the offset by `2 k + 1`. -/
theorem h264_decode_uexpgolomb_value (bs : List Nat) (o k code : Nat) (hk : k ≤ 31)
    (hz : ∀ i < k, h264_get_bit bs (o + i) = 0) (h1 : h264_get_bit bs (o + k) = 1)
    (hcode : bits_value bs (o + k + 1) k = code) :
    h264_decode_uexpgolomb bs o = ((1 <<< k) - 1 + code, o + (2 * k + 1)) ∧
    (1 <<< k) - 1 + code < 2 ^ 32 := by
  rw [h264_decode_uexpgolomb_eq bs o k hk hz h1, hcode, Nat.shiftLeft_eq, Nat.one_mul]
  refine ⟨rfl, ?_⟩
  have hc := bits_value_lt bs (o + k + 1) k
  rw [hcode] at hc
  have hp : 2 ^ k ≤ 2 ^ 31 := Nat.pow_le_pow_right (by decide) hk
  norm_num at hp ⊢
  omega

/-- Claim C35 at the bits `00101` behind the first byte of `65 28`: `k = 2`, `code = 1`, the
value is 4 and the offset moves from 8 to 13. -/
theorem h264_decode_uexpgolomb_value_witness :
    (∀ i < 2, h264_get_bit [0x65, 0x28] (8 + i) = 0) ∧ h264_get_bit [0x65, 0x28] (8 + 2) = 1 ∧
    bits_value [0x65, 0x28] (8 + 2 + 1) 2 = 1 ∧
    h264_decode_uexpgolomb [0x65, 0x28] 8 = (4, 13) :=
  ⟨by decide, by decide, by decide,
   (h264_decode_uexpgolomb_value [0x65, 0x28] 8 2 1 (by decide) (by decide) (by decide)
     (by decide)).1⟩

/-! ## C36 -/

/-- Claim C36.  `h264_decode_sps` on a unit with `length > 0` stores `profile_idc` from
bits 8 to 15 (byte 1) and `level_idc` from bits 24 to 31 (byte 3).  When `profile_idc` is
not one of 100, 110, 122, 244, 44, 83, 86, 118, 128, 138, 144, it stores
`seq_parameter_set_id`, `log2_max_frame_num_minus4` and `pic_order_cnt_type` as the three
successive ue(v) values starting at bit 32, each value being below 256.  When `profile_idc`
is one of them, `seq_parameter_set_id` is not read (the context keeps its value) and
`log2_max_frame_num_minus4` and `pic_order_cnt_type` are the first and the second ue(v)
value starting at bit 32. -/
theorem h264_decode_sps_stores (nalu : List Nat) (length : Nat) (context : h264_context_t)
    (hlen : 0 < length) :
    (h264_decode_sps nalu length context).1 = true ∧
    (h264_decode_sps nalu length context).2.2.profile_idc = byteAt nalu 1 ∧
    (h264_decode_sps nalu length context).2.2.level_idc = byteAt nalu 3 ∧
    (byteAt nalu 1 ∉ [100, 110, 122, 244, 44, 83, 86, 118, 128, 138, 144] →
      (h264_decode_uexpgolomb nalu 32).1 < 256 →
      (h264_decode_uexpgolomb nalu (h264_decode_uexpgolomb nalu 32).2).1 < 256 →
      (h264_decode_uexpgolomb nalu
        (h264_decode_uexpgolomb nalu (h264_decode_uexpgolomb nalu 32).2).2).1 < 256 →
      (h264_decode_sps nalu length context).2.2.seq_parameter_set_id
        = (h264_decode_uexpgolomb nalu 32).1 ∧
      (h264_decode_sps nalu length context).2.2.log2_max_frame_num_minus4
        = (h264_decode_uexpgolomb nalu (h264_decode_uexpgolomb nalu 32).2).1 ∧
      (h264_decode_sps nalu length context).2.2.pic_order_cnt_type
        = (h264_decode_uexpgolomb nalu
            (h264_decode_uexpgolomb nalu (h264_decode_uexpgolomb nalu 32).2).2).1) ∧
    (byteAt nalu 1 ∈ [100, 110, 122, 244, 44, 83, 86, 118, 128, 138, 144] →
      (h264_decode_uexpgolomb nalu 32).1 < 256 →
      (h264_decode_uexpgolomb nalu (h264_decode_uexpgolomb nalu 32).2).1 < 256 →
      (h264_decode_sps nalu length context).2.2.seq_parameter_set_id
        = context.seq_parameter_set_id ∧
      (h264_decode_sps nalu length context).2.2.log2_max_frame_num_minus4
        = (h264_decode_uexpgolomb nalu 32).1 ∧
      (h264_decode_sps nalu length context).2.2.pic_order_cnt_type
        = (h264_decode_uexpgolomb nalu (h264_decode_uexpgolomb nalu 32).2).1) := by
  have hd : h264_decode_sps nalu length context
      = (true, h264_set_bit nalu (h264_decode_sps_head nalu context).2,
          (h264_decode_sps_tail (h264_set_bit nalu (h264_decode_sps_head nalu context).2)
            (h264_decode_sps_head nalu context)).1) := by
    simp [h264_decode_sps, hlen]
  rw [hd]
  dsimp only
  obtain ⟨k1, k2, k3, k4, k5⟩ := h264_decode_sps_tail_keeps
    (h264_set_bit nalu (h264_decode_sps_head nalu context).2) (h264_decode_sps_head nalu context)
  rw [k1, k2, k3, k4, k5]
  obtain ⟨s10, h32, hprof, hlev, hid, hhead⟩ := h264_decode_sps_head_eq nalu context
  rw [hhead]
  -- the steps behind the identifier
  have hP : ∀ s : h264_context_t × Nat,
      (h264_read_ue nalu (fun c v => { c with num_ref_frames := toU8 v })
        (h264_decode_sps_poc nalu
          (h264_read_ue nalu (fun c v => { c with pic_order_cnt_type := toU8 v })
            (h264_read_ue nalu (fun c v => { c with log2_max_frame_num_minus4 := toU8 v })
              s)))).1.profile_idc = s.1.profile_idc ∧
      (h264_read_ue nalu (fun c v => { c with num_ref_frames := toU8 v })
        (h264_decode_sps_poc nalu
          (h264_read_ue nalu (fun c v => { c with pic_order_cnt_type := toU8 v })
            (h264_read_ue nalu (fun c v => { c with log2_max_frame_num_minus4 := toU8 v })
              s)))).1.level_idc = s.1.level_idc ∧
      (h264_read_ue nalu (fun c v => { c with num_ref_frames := toU8 v })
        (h264_decode_sps_poc nalu
          (h264_read_ue nalu (fun c v => { c with pic_order_cnt_type := toU8 v })
            (h264_read_ue nalu (fun c v => { c with log2_max_frame_num_minus4 := toU8 v })
              s)))).1.seq_parameter_set_id = s.1.seq_parameter_set_id ∧
      (h264_read_ue nalu (fun c v => { c with num_ref_frames := toU8 v })
        (h264_decode_sps_poc nalu
          (h264_read_ue nalu (fun c v => { c with pic_order_cnt_type := toU8 v })
            (h264_read_ue nalu (fun c v => { c with log2_max_frame_num_minus4 := toU8 v })
              s)))).1.log2_max_frame_num_minus4 = (h264_decode_uexpgolomb nalu s.2).1 % 256 ∧
      (h264_read_ue nalu (fun c v => { c with num_ref_frames := toU8 v })
        (h264_decode_sps_poc nalu
          (h264_read_ue nalu (fun c v => { c with pic_order_cnt_type := toU8 v })
            (h264_read_ue nalu (fun c v => { c with log2_max_frame_num_minus4 := toU8 v })
              s)))).1.pic_order_cnt_type
        = (h264_decode_uexpgolomb nalu (h264_decode_uexpgolomb nalu s.2).2).1 % 256 := by
    intro s
    generalize hs2 : h264_read_ue nalu (fun c v => { c with pic_order_cnt_type := toU8 v })
      (h264_read_ue nalu (fun c v => { c with log2_max_frame_num_minus4 := toU8 v }) s) = s2
    obtain ⟨p1, p2, p3, p4, p5⟩ := h264_decode_sps_poc_keeps nalu s2
    have q1 : ∀ t : h264_context_t × Nat,
        (h264_read_ue nalu (fun c v => { c with num_ref_frames := toU8 v }) t).1.profile_idc
          = t.1.profile_idc ∧
        (h264_read_ue nalu (fun c v => { c with num_ref_frames := toU8 v }) t).1.level_idc
          = t.1.level_idc ∧
        (h264_read_ue nalu (fun c v => { c with num_ref_frames := toU8 v })
          t).1.seq_parameter_set_id = t.1.seq_parameter_set_id ∧
        (h264_read_ue nalu (fun c v => { c with num_ref_frames := toU8 v })
          t).1.log2_max_frame_num_minus4 = t.1.log2_max_frame_num_minus4 ∧
        (h264_read_ue nalu (fun c v => { c with num_ref_frames := toU8 v })
          t).1.pic_order_cnt_type = t.1.pic_order_cnt_type :=
      fun _ => ⟨rfl, rfl, rfl, rfl, rfl⟩
    obtain ⟨r1, r2, r3, r4, r5⟩ := q1 (h264_decode_sps_poc nalu s2)
    rw [r1, r2, r3, r4, r5, p1, p2, p3, p4, p5, ← hs2]
    exact ⟨rfl, rfl, rfl, rfl, rfl⟩
  by_cases hskip : h264_sps_skips_id s10.1.profile_idc = true
  · have hset := (h264_sps_skips_id_iff _).1 hskip
    rw [hprof] at hset
    have hid11 : h264_decode_sps_id nalu s10 = s10 := by
      unfold h264_decode_sps_id; rw [if_pos hskip]
    rw [hid11]
    obtain ⟨a1, a2, a3, a4, a5⟩ := hP s10
    rw [a1, a2, a3, a4, a5, h32, hprof, hlev, hid]
    refine ⟨rfl, rfl, rfl, fun hn => absurd hset hn, fun _ hv1 hv2 => ?_⟩
    rw [Nat.mod_eq_of_lt hv1, Nat.mod_eq_of_lt hv2]
    exact ⟨rfl, rfl, rfl⟩
  · have hset : byteAt nalu 1 ∉ [100, 110, 122, 244, 44, 83, 86, 118, 128, 138, 144] := by
      rw [← hprof]; exact fun h => hskip ((h264_sps_skips_id_iff _).2 h)
    have hid11 : h264_decode_sps_id nalu s10
        = h264_read_ue nalu (fun c v => { c with seq_parameter_set_id := toU8 v }) s10 := by
      unfold h264_decode_sps_id; rw [if_neg hskip]
    rw [hid11]
    obtain ⟨a1, a2, a3, a4, a5⟩ := hP
      (h264_read_ue nalu (fun c v => { c with seq_parameter_set_id := toU8 v }) s10)
    rw [a1, a2, a3, a4, a5]
    have b1 : (h264_read_ue nalu (fun c v => { c with seq_parameter_set_id := toU8 v })
        s10).1.profile_idc = s10.1.profile_idc := rfl
    have b2 : (h264_read_ue nalu (fun c v => { c with seq_parameter_set_id := toU8 v })
        s10).1.level_idc = s10.1.level_idc := rfl
    have b3 : (h264_read_ue nalu (fun c v => { c with seq_parameter_set_id := toU8 v })
        s10).1.seq_parameter_set_id = (h264_decode_uexpgolomb nalu s10.2).1 % 256 := rfl
    have b4 : (h264_read_ue nalu (fun c v => { c with seq_parameter_set_id := toU8 v })
        s10).2 = (h264_decode_uexpgolomb nalu s10.2).2 := rfl
    rw [b1, b2, b3, b4, h32, hprof, hlev]
    refine ⟨rfl, rfl, rfl, fun _ hv1 hv2 hv3 => ?_, fun hn => absurd hn hset⟩
    rw [Nat.mod_eq_of_lt hv1, Nat.mod_eq_of_lt hv2, Nat.mod_eq_of_lt hv3]
    exact ⟨rfl, rfl, rfl⟩

/-- Claim C36 at the SPS `67 42 00 1E 97 BC 80` (profile 66: the identifier is read, the
values are 0, 4, 0) and at `67 64 00 1E 2F 80` (profile 100: the first value, 4, is
`log2_max_frame_num_minus4`). -/
theorem h264_decode_sps_stores_witness :
    byteAt sps_log2_4 1 = 66 ∧ byteAt sps_log2_4 3 = 30 ∧
    h264_decode_uexpgolomb sps_log2_4 32 = (0, 33) ∧
    h264_decode_uexpgolomb sps_log2_4 33 = (4, 38) ∧
    h264_decode_uexpgolomb sps_log2_4 38 = (0, 39) ∧
    ((h264_decode_sps sps_log2_4 7 {}).2.2.seq_parameter_set_id
        = (h264_decode_uexpgolomb sps_log2_4 32).1 ∧
      (h264_decode_sps sps_log2_4 7 {}).2.2.log2_max_frame_num_minus4
        = (h264_decode_uexpgolomb sps_log2_4 (h264_decode_uexpgolomb sps_log2_4 32).2).1 ∧
      (h264_decode_sps sps_log2_4 7 {}).2.2.pic_order_cnt_type
        = (h264_decode_uexpgolomb sps_log2_4
            (h264_decode_uexpgolomb sps_log2_4
              (h264_decode_uexpgolomb sps_log2_4 32).2).2).1) ∧
    byteAt [0x67, 0x64, 0x00, 0x1E, 0x2F, 0x80] 1 = 100 ∧
    h264_decode_uexpgolomb [0x67, 0x64, 0x00, 0x1E, 0x2F, 0x80] 32 = (4, 37) ∧
    ((h264_decode_sps [0x67, 0x64, 0x00, 0x1E, 0x2F, 0x80] 6
        { seq_parameter_set_id := 9 }).2.2.seq_parameter_set_id
        = ({ seq_parameter_set_id := 9 } : h264_context_t).seq_parameter_set_id ∧
      (h264_decode_sps [0x67, 0x64, 0x00, 0x1E, 0x2F, 0x80] 6
        { seq_parameter_set_id := 9 }).2.2.log2_max_frame_num_minus4
        = (h264_decode_uexpgolomb [0x67, 0x64, 0x00, 0x1E, 0x2F, 0x80] 32).1 ∧
      (h264_decode_sps [0x67, 0x64, 0x00, 0x1E, 0x2F, 0x80] 6
        { seq_parameter_set_id := 9 }).2.2.pic_order_cnt_type
        = (h264_decode_uexpgolomb [0x67, 0x64, 0x00, 0x1E, 0x2F, 0x80]
            (h264_decode_uexpgolomb [0x67, 0x64, 0x00, 0x1E, 0x2F, 0x80] 32).2).1) :=
  ⟨by decide, by decide, by decide, by decide, by decide,
   (h264_decode_sps_stores sps_log2_4 7 {} (by decide)).2.2.2.1 (by decide) (by decide)
     (by decide) (by decide),
   by decide, by decide,
   (h264_decode_sps_stores [0x67, 0x64, 0x00, 0x1E, 0x2F, 0x80] 6 { seq_parameter_set_id := 9 }
     (by decide)).2.2.2.2 (by decide) (by decide) (by decide)⟩

/-! ## C37 -/

/-- Claim C37.  For the key 0 `rtp_depacketizer_reap_frame` returns TRUE at its guard and
leaves the completion queue as it is.  So when a packet with RTP timestamp 0 is added
successfully, the frame map holds no entry with key 0 after the add, and the completion
queue is what the sweep makes of the other entries of the map: the frame that received the
packet is in neither container, and nothing of it is left for `get_frame`. -/
theorem timestamp_zero_frame_dropped (d : rtp_depacketizer_t) (p : packet_t)
    (frame_ready : Bool) (enqueue_us created_us : Int)
    (hts : p.timestamp = 0)
    (hres : (rtp_depacketizer_add_packet d p frame_ready enqueue_us created_us).1 = true) :
    (∀ (frame : frame_t) (reap_us : Int) (q : List frame_t),
      rtp_depacketizer_reap_frame 0 frame enqueue_us reap_us q = (true, q)) ∧
    (∀ e ∈ (rtp_depacketizer_add_packet d p frame_ready enqueue_us created_us).2.2.frames,
      e.1 ≠ 0) ∧
    (rtp_depacketizer_add_packet d p frame_ready enqueue_us created_us).2.2.completed
      = (rtp_depacketizer_reap_sweep enqueue_us d.reap_us
          (d.frames.filter (fun e => decide (e.1 ≠ 0))) d.completed).2 := by
  refine ⟨fun frame reap_us q => rtp_depacketizer_reap_frame_zero frame enqueue_us reap_us q,
    ?_⟩
  unfold rtp_depacketizer_add_packet at hres ⊢
  have hkeys : ∀ e ∈ (rtp_depacketizer_reap_sweep enqueue_us d.reap_us
      (d.frames.filter (fun e => decide (e.1 ≠ 0))) d.completed).1, e.1 ≠ 0 := by
    intro e he
    have := rtp_depacketizer_reap_sweep_keys _ _ _ _ e he
    simpa using (List.mem_filter.1 this).2
  cases hl : d.frames.lookup p.timestamp with
  | none =>
    rcases hf : frame_add_packet (frame_create p.timestamp d.codec created_us) p false
      with ⟨r, frame, cc⟩
    cases r with
    | false =>
      rw [rtp_depacketizer_enqueue_packet_fail d p frame_ready enqueue_us created_us
        (by rw [hl]; dsimp only; rw [hf])] at hres
      exact absurd hres Bool.false_ne_true
    | true =>
      obtain ⟨_, a2, a3⟩ := rtp_depacketizer_enqueue_packet_new_ok d p frame_ready enqueue_us
        created_us frame cc hl hf
      have hz : rtp_depacketizer_reap_sweep enqueue_us d.reap_us
          (d.frames ++ [(p.timestamp, frame)]) d.completed
          = rtp_depacketizer_reap_sweep enqueue_us d.reap_us
              (d.frames.filter (fun e => decide (e.1 ≠ 0))) d.completed := by
        rw [rtp_depacketizer_reap_sweep_zero, hts, List.filter_append,
          List.filter_cons_of_neg (by simp), List.filter_nil, List.append_nil]
      rw [hz] at a2 a3
      exact ⟨fun e he => hkeys e (a3 e he), a2⟩
  | some frame0 =>
    rcases hf : frame_add_packet frame0 p false with ⟨r, frame, cc⟩
    cases r with
    | false =>
      rw [rtp_depacketizer_enqueue_packet_fail d p frame_ready enqueue_us created_us
        (by rw [hl]; dsimp only; rw [hf])] at hres
      exact absurd hres Bool.false_ne_true
    | true =>
      obtain ⟨_, a2, a3⟩ := rtp_depacketizer_enqueue_packet_old_ok d p frame_ready enqueue_us
        created_us frame0 frame cc hl hf
      have hz : rtp_depacketizer_reap_sweep enqueue_us d.reap_us
          (d.frames.map (fun (e : Nat × frame_t) =>
            if e.1 = p.timestamp then (p.timestamp, frame) else e)) d.completed
          = rtp_depacketizer_reap_sweep enqueue_us d.reap_us
              (d.frames.filter (fun e => decide (e.1 ≠ 0))) d.completed := by
        rw [rtp_depacketizer_reap_sweep_zero, hts, filter_zero_map_replace]
      rw [hz] at a2 a3
      exact ⟨fun e he => hkeys e (a3 e he), a2⟩

/-- Claim C37 at S1 sent with timestamp 0 to a depacketizer that holds the first fragment of
S5 in its map: the add succeeds, the packet's frame would be complete, and afterwards the
map holds only the S5 frame and the completion queue is empty. -/
theorem timestamp_zero_frame_dropped_witness :
    (rtp_packet 1 10 0 [0x61, 0xAA, 0xBB]).timestamp = 0 ∧
    (frame_add_packet (frame_create 0 .CODEC_H264 0) (rtp_packet 1 10 0 [0x61, 0xAA, 0xBB])
      false).2.2 = true ∧
    (rtp_depacketizer_add_packet
      (rtp_depacketizer_add_all (rtp_depacketizer_create .CODEC_H264 1000000 1000000 0)
        [(s5_first, 0, 0)])
      (rtp_packet 1 10 0 [0x61, 0xAA, 0xBB]) false 0 0).2.2.frames.map Prod.fst = [500] ∧
    (rtp_depacketizer_add_packet
      (rtp_depacketizer_add_all (rtp_depacketizer_create .CODEC_H264 1000000 1000000 0)
        [(s5_first, 0, 0)])
      (rtp_packet 1 10 0 [0x61, 0xAA, 0xBB]) false 0 0).2.2.completed = [] ∧
    (∀ e ∈ (rtp_depacketizer_add_packet
        (rtp_depacketizer_add_all (rtp_depacketizer_create .CODEC_H264 1000000 1000000 0)
          [(s5_first, 0, 0)])
        (rtp_packet 1 10 0 [0x61, 0xAA, 0xBB]) false 0 0).2.2.frames, e.1 ≠ 0) :=
  ⟨by decide, by decide, by decide, by decide,
   (timestamp_zero_frame_dropped
     (rtp_depacketizer_add_all (rtp_depacketizer_create .CODEC_H264 1000000 1000000 0)
       [(s5_first, 0, 0)])
     (rtp_packet 1 10 0 [0x61, 0xAA, 0xBB]) false 0 0 (by decide) (by decide)).2.1⟩

/-! ## C38 -/

/-- Claim C38.  A packet whose datagram is longer than 1 byte and whose byte at datagram
offset 12 has a NAL unit type among 1, 5, 6, 7, 8, 9 is a last unit, and adding it to a newly
created H.264 frame with its timestamp completes the frame at once, with or without the
marker bit.  In an H.264 depacketizer whose map has no frame for that timestamp the add
succeeds and the map has no frame for that timestamp afterwards either, so a later packet
with the same timestamp starts a new frame; when the timestamp is not 0 the completed frame
is in the completion queue. -/
theorem h264_single_unit_completes_at_once (p : packet_t) (created_us : Int) (c : Bool)
    (hlen : 1 < p.length)
    (ht : nal_unit_type (byteAt p.rtp 12) ∈ [1, 5, 6, 7, 8, 9]) :
    h264_format.last_unit p.payload p.length = true ∧
    frame_add_packet (frame_create p.timestamp .CODEC_H264 created_us) p c
      = (true, ⟨[p], .CODEC_H264, created_us, p.timestamp, true, true, 0⟩, true) ∧
    (∀ (d : rtp_depacketizer_t) (frame_ready : Bool) (enqueue_us : Int),
      d.codec = .CODEC_H264 → d.frames.lookup p.timestamp = none →
      (rtp_depacketizer_add_packet d p frame_ready enqueue_us created_us).1 = true ∧
      (rtp_depacketizer_add_packet d p frame_ready enqueue_us
        created_us).2.2.frames.lookup p.timestamp = none ∧
      (p.timestamp ≠ 0 →
        (⟨[p], .CODEC_H264, created_us, p.timestamp, true, true, 0⟩ : frame_t)
          ∈ (rtp_depacketizer_add_packet d p frame_ready enqueue_us
              created_us).2.2.completed)) := by
  obtain ⟨h1, h2⟩ := h264_single_unit_add p created_us c hlen ht
  refine ⟨h1, h2, fun d frame_ready enqueue_us hcodec hlook => ?_⟩
  have hadd := (h264_single_unit_add p created_us false hlen ht).2
  rw [← hcodec] at hadd
  obtain ⟨a1, a2, a3⟩ := rtp_depacketizer_enqueue_packet_new_ok d p frame_ready enqueue_us
    created_us _ _ hlook hadd
  unfold rtp_depacketizer_add_packet
  rw [rtp_depacketizer_reap_sweep_append] at a2 a3
  dsimp only at a2 a3
  have hsteal : rtp_depacketizer_reap_frame p.timestamp
      ⟨[p], d.codec, created_us, p.timestamp, true, true, 0⟩ enqueue_us d.reap_us
      (rtp_depacketizer_reap_sweep enqueue_us d.reap_us d.frames d.completed).2
      = (true, if p.timestamp = 0 then
            (rtp_depacketizer_reap_sweep enqueue_us d.reap_us d.frames d.completed).2
          else g_queue_insert_sorted
            (rtp_depacketizer_reap_sweep enqueue_us d.reap_us d.frames d.completed).2
            ⟨[p], d.codec, created_us, p.timestamp, true, true, 0⟩
            rtp_depacketizer_compare_timestamps) := by
    unfold rtp_depacketizer_reap_frame
    by_cases h0 : p.timestamp = 0
    · rw [if_pos h0, if_pos h0]
    · rw [if_neg h0, if_neg h0]
      simp
  rw [rtp_depacketizer_reap_sweep_cons, hsteal] at a2 a3
  dsimp only at a2 a3
  rw [if_pos rfl] at a3
  refine ⟨a1, ?_, fun h0 => ?_⟩
  · rw [List.lookup_eq_none_iff] at hlook ⊢
    intro e he
    have h1 := a3 e he
    rw [show rtp_depacketizer_reap_sweep enqueue_us d.reap_us [] _ = ([], _) from rfl,
      List.append_nil] at h1
    exact hlook e (rtp_depacketizer_reap_sweep_keys _ _ _ _ e h1)
  · rw [a2, if_neg h0, show ∀ q, rtp_depacketizer_reap_sweep enqueue_us d.reap_us [] q
      = ([], q) from fun _ => rfl]
    dsimp only
    rw [hcodec]
    exact (g_queue_insert_sorted_mem _ _ _ _).2 (Or.inl rfl)

/-- Claim C38 at a packet of type 1 without the marker bit, timestamp 100: the frame is
completed by the add, the depacketizer queues it and has no frame for the timestamp 100
afterwards. -/
theorem h264_single_unit_completes_at_once_witness :
    (rtp_packet 0 10 100 [0x61, 0xAA, 0xBB]).marker = 0 ∧
    (frame_add_packet (frame_create 100 .CODEC_H264 0) (rtp_packet 0 10 100 [0x61, 0xAA, 0xBB])
      false).2.2 = true ∧
    (rtp_depacketizer_add_packet (rtp_depacketizer_create .CODEC_H264 1000000 1000000 0)
      (rtp_packet 0 10 100 [0x61, 0xAA, 0xBB]) false 0 0).2.2.frames = [] ∧
    ((rtp_depacketizer_add_packet (rtp_depacketizer_create .CODEC_H264 1000000 1000000 0)
      (rtp_packet 0 10 100 [0x61, 0xAA, 0xBB]) false 0 0).1 = true ∧
    (rtp_depacketizer_add_packet (rtp_depacketizer_create .CODEC_H264 1000000 1000000 0)
      (rtp_packet 0 10 100 [0x61, 0xAA, 0xBB]) false 0
        0).2.2.frames.lookup (rtp_packet 0 10 100 [0x61, 0xAA, 0xBB]).timestamp = none ∧
    ((rtp_packet 0 10 100 [0x61, 0xAA, 0xBB]).timestamp ≠ 0 →
      (⟨[rtp_packet 0 10 100 [0x61, 0xAA, 0xBB]], .CODEC_H264, 0,
          (rtp_packet 0 10 100 [0x61, 0xAA, 0xBB]).timestamp, true, true, 0⟩ : frame_t)
        ∈ (rtp_depacketizer_add_packet (rtp_depacketizer_create .CODEC_H264 1000000 1000000 0)
            (rtp_packet 0 10 100 [0x61, 0xAA, 0xBB]) false 0 0).2.2.completed)) :=
  ⟨by decide,
   congrArg (fun x => x.2.2) (h264_single_unit_completes_at_once
     (rtp_packet 0 10 100 [0x61, 0xAA, 0xBB]) 0 false (by decide) (by decide)).2.1,
   by decide,
   (h264_single_unit_completes_at_once (rtp_packet 0 10 100 [0x61, 0xAA, 0xBB]) 0 false
     (by decide) (by decide)).2.2 (rtp_depacketizer_create .CODEC_H264 1000000 1000000 0)
     false 0 rfl (by decide)⟩

/-! ## C39 -/

/-- Claim C39, amended.  `frame_add_packet` on an H.264 frame that was not completed before
the add, leaving a queue whose tail packet has a NAL unit type 24 to 27 at datagram offset
12, does not mark the frame completed: the frame's flag and the reported `completed` are
false, because `last_unit` is false for these types.  The reap callback queues such a frame
only when it is older than `reap_us` (and its key is not 0). -/
theorem aggregation_tail_not_completed (frame : frame_t) (p : packet_t) (c : Bool)
    (hcodec : frame.codec = .CODEC_H264) (hnot : frame.completed = false)
    (hres : (frame_add_packet frame p c).1 = true)
    (htail : ∃ t, (frame_add_packet frame p c).2.1.packets.getLast? = some t ∧
      nal_unit_type (byteAt t.rtp 12) ∈ [24, 25, 26, 27]) :
    (∀ t : packet_t, nal_unit_type (byteAt t.rtp 12) ∈ [24, 25, 26, 27] →
      h264_format.last_unit t.payload t.length = false) ∧
    (frame_add_packet frame p c).2.1.completed = false ∧
    (frame_add_packet frame p c).2.2 = false ∧
    (∀ (key : Nat) (enqueue_us reap_us : Int) (q : List frame_t),
      ¬ (enqueue_us - (frame_add_packet frame p c).2.1.created_us > reap_us) →
      (rtp_depacketizer_reap_frame key (frame_add_packet frame p c).2.1 enqueue_us reap_us q).2
        = q) := by
  obtain ⟨t, htl, ht⟩ := htail
  obtain ⟨a1, a2, a3⟩ := frame_add_packet_completed frame p c hres
  have hcheck := frame_check_completeness_aggregation_tail (frame_add_packet frame p c).2.1 t
    (by rw [a2]; exact hcodec) htl ht
  have hc : (frame_add_packet frame p c).2.1.completed = false := by
    rcases a3 with h | h
    · rw [h]; exact hnot
    · rw [h]; exact hcheck
  refine ⟨fun t ht => ?_, hc, by rw [a1]; exact hc, fun key enqueue_us reap_us q hage => ?_⟩
  · have hb : byteAt t.payload 0 = byteAt t.rtp 12 := by
      unfold packet_t.payload; rw [byteAt_drop]
    exact h264_is_last_nalu_aggregation _ _ (by rw [hb]; exact ht)
  · unfold rtp_depacketizer_reap_frame
    split
    · rfl
    · dsimp only
      rw [if_neg (by rw [hc]; simp; omega)]

/-- The amended claim C39 at a new frame and one STAP-A packet with the marker bit set, the
payload of S3. -/
theorem aggregation_tail_not_completed_witness :
    (rtp_packet 1 30 300 s3_payload).marker = 1 ∧
    (frame_add_packet (frame_create 300 .CODEC_H264 0) (rtp_packet 1 30 300 s3_payload)
      false).2.1.packets = [rtp_packet 1 30 300 s3_payload] ∧
    (frame_add_packet (frame_create 300 .CODEC_H264 0) (rtp_packet 1 30 300 s3_payload)
      false).2.1.marker = true ∧
    (frame_add_packet (frame_create 300 .CODEC_H264 0) (rtp_packet 1 30 300 s3_payload)
      false).2.1.completed = false ∧
    (frame_add_packet (frame_create 300 .CODEC_H264 0) (rtp_packet 1 30 300 s3_payload)
      false).2.2 = false :=
  ⟨by decide, by decide, by decide,
   (aggregation_tail_not_completed (frame_create 300 .CODEC_H264 0)
     (rtp_packet 1 30 300 s3_payload) false rfl rfl (by decide)
     ⟨rtp_packet 1 30 300 s3_payload, by decide, by decide⟩).2.1,
   (aggregation_tail_not_completed (frame_create 300 .CODEC_H264 0)
     (rtp_packet 1 30 300 s3_payload) false rfl rfl (by decide)
     ⟨rtp_packet 1 30 300 s3_payload, by decide, by decide⟩).2.2.1⟩

/-- Claim C39 fails for a frame that was completed before: S1's packet completes a new
frame, and a STAP-A packet without the marker bit, added next with the following sequence
number, becomes the tail; `frame_add_packet` runs no check, the frame keeps
`completed = true` and the add reports `completed = true`. -/
theorem aggregation_tail_stale_completed :
    (frame_add_packet (frame_create 100 .CODEC_H264 0) s1_packet false).2.1.completed = true ∧
    (frame_add_packet (frame_add_all (frame_create 100 .CODEC_H264 0) [s1_packet])
      (rtp_packet 0 11 100 s3_payload) false).1 = true ∧
    (frame_add_packet (frame_add_all (frame_create 100 .CODEC_H264 0) [s1_packet])
      (rtp_packet 0 11 100 s3_payload) false).2.1.packets.getLast?
      = some (rtp_packet 0 11 100 s3_payload) ∧
    nal_unit_type (byteAt (rtp_packet 0 11 100 s3_payload).rtp 12) = 24 ∧
    (frame_add_packet (frame_add_all (frame_create 100 .CODEC_H264 0) [s1_packet])
      (rtp_packet 0 11 100 s3_payload) false).2.1.completed = true ∧
    (frame_add_packet (frame_add_all (frame_create 100 .CODEC_H264 0) [s1_packet])
      (rtp_packet 0 11 100 s3_payload) false).2.2 = true := by
  decide

/-! ## C40 -/

/-- Claim C40.  The codec predicates that `frame_add_packet` and the completeness check
evaluate read the bytes at the datagram offsets 12 and 13 and the datagram length: for two
packets that agree in these two bytes and in their length the predicates `first_unit`,
`last_unit` and `fragmented` agree, and when they also agree in timestamp and marker bit,
adding either packet to a new frame succeeds or fails alike and reports the same
`completed`.  For a packet without CSRC entries and without
extension the payload of `packet_get_payload`, which reassembly uses, starts at offset 12,
so its first byte is the classified byte; for a packet with CSRC entries or an extension it
starts at offset 16 or later, so the classified bytes are not part of it. -/
theorem predicates_classify_datagram_offset_12 (codec : codec_t) (format : format_t)
    (p q : packet_t) (created_us : Int) (c : Bool)
    (hf : format_get_reassembly_context codec = some format)
    (h12 : byteAt p.rtp 12 = byteAt q.rtp 12) (h13 : byteAt p.rtp 13 = byteAt q.rtp 13)
    (hlen : p.length = q.length) (hts : q.timestamp = p.timestamp)
    (hmk : p.marker = q.marker) :
    format.first_unit p.payload p.length = format.first_unit q.payload q.length ∧
    format.last_unit p.payload p.length = format.last_unit q.payload q.length ∧
    format.fragmented p.payload p.length = format.fragmented q.payload q.length ∧
    (frame_add_packet (frame_create p.timestamp codec created_us) p c).1
      = (frame_add_packet (frame_create p.timestamp codec created_us) q c).1 ∧
    (frame_add_packet (frame_create p.timestamp codec created_us) p c).2.2
      = (frame_add_packet (frame_create p.timestamp codec created_us) q c).2.2 ∧
    p.payload = p.rtp.drop 12 ∧
    (p.plain → (packet_get_payload p).2.1 = p.rtp.drop 12) ∧
    (¬ p.plain → 16 ≤ packet_payload_offset p ∧
      (packet_get_payload p).2.1 = p.rtp.drop (packet_payload_offset p)) := by
  obtain ⟨e1, e2, e3⟩ := format_predicates_read codec format hf p q h12 h13 hlen
  obtain ⟨a1, _, a3⟩ := frame_add_packet_fresh_completed codec format hf p p.timestamp
    created_us c rfl
  obtain ⟨b1, _, b3⟩ := frame_add_packet_fresh_completed codec format hf q p.timestamp
    created_us c hts
  refine ⟨e1, e2, e3, by rw [a1, b1], by rw [a3, b3, e1, e2, e3, hmk], rfl,
    fun hp => packet_get_payload_plain hp, fun hnp => ⟨?_, rfl⟩⟩
  unfold packet_t.plain at hnp
  unfold packet_payload_offset
  have h1 : p.csrc_cnt ≠ 0 ∨ p.extension ≠ 0 := by
    by_contra hc
    push_neg at hc
    exact hnp hc
  have h2 : p.extension < 2 := by unfold packet_t.extension; omega
  rcases h1 with h | h
  · have : 4 ≤ p.csrc_cnt * 4 := by omega
    omega
  · have : p.extension = 1 := by omega
    rw [this]
    omega

/-- Claim C40 at a datagram with one CSRC entry whose first byte is `61` and whose payload
is the start fragment `7C 85 11`, beside a plain datagram of the same length whose payload
starts with `61 00`: the two agree in the bytes at the offsets 12 and 13, in timestamp and in
marker bit, so the CSRC packet is classified like a single unit of type 1 and completes a new
frame, although its payload is a start fragment; reassembly uses the payload from offset 16
and emits `00 00 00 01 65 11`. -/
theorem predicates_classify_datagram_offset_12_witness :
    csrc_packet.csrc_cnt = 1 ∧ byteAt csrc_packet.rtp 12 = 0x61 ∧
    packet_payload_offset csrc_packet = 16 ∧
    csrc_packet.body = [0x7C, 0x85, 0x11] ∧
    (frame_add_packet (frame_create csrc_packet.timestamp .CODEC_H264 0) csrc_packet false).2.2
      = true ∧
    (frame_reassemble (fun _ => 0)
      (frame_add_packet (frame_create csrc_packet.timestamp .CODEC_H264 0) csrc_packet
        false).2.1 (media_new .PREFIX_ANNEXB 16) true {}).2.2.1.buffer.take 6
      = [0, 0, 0, 1, 0x65, 0x11] ∧
    (frame_add_packet (frame_create csrc_packet.timestamp .CODEC_H264 0) csrc_packet false).2.2
      = (frame_add_packet (frame_create csrc_packet.timestamp .CODEC_H264 0)
          (rtp_packet 0 40 400 [0x61, 0x00, 0xAA, 0xBB, 0xCC, 0xDD, 0xEE]) false).2.2 ∧
    (¬ csrc_packet.plain → 16 ≤ packet_payload_offset csrc_packet ∧
      (packet_get_payload csrc_packet).2.1
        = csrc_packet.rtp.drop (packet_payload_offset csrc_packet)) :=
  ⟨by decide, by decide, by decide, by decide, by decide, by decide,
   (predicates_classify_datagram_offset_12 .CODEC_H264 h264_format csrc_packet
     (rtp_packet 0 40 400 [0x61, 0x00, 0xAA, 0xBB, 0xCC, 0xDD, 0xEE]) 0 false rfl
     (by decide) (by decide) (by decide) (by decide) (by decide)).2.2.2.2.1,
   (predicates_classify_datagram_offset_12 .CODEC_H264 h264_format csrc_packet
     (rtp_packet 0 40 400 [0x61, 0x00, 0xAA, 0xBB, 0xCC, 0xDD, 0xEE]) 0 false rfl
     (by decide) (by decide) (by decide) (by decide) (by decide)).2.2.2.2.2.2.2⟩

end RtpDepacketizer
